import Mathlib

/-!
The UserConfig reconciliation engine of zoperator.

A shallow embedding of the Go sources of the operator
(`internal/usecase/*.go`, `internal/controller/userconfig_controller.go`)
together with theorems about the permission translator, the RBAC
synthesizers, the deletion protocol, the reconcile loop, the network rule
composer, the quota and limit-range synthesizers, the namespace, sealed-secret
and credential synthesizers, the requests every synthesizer sends, and the
condition list of an entity over several passes.

Conventions of the embedding:
* a Go `string` is a Lean `String`; a Go string holding invalid UTF-8 is
  represented by the string in which every invalid byte is U+FFFD, which is
  what `strings.Split(s, "")` turns such a byte into;
* a Go `map[string]bool` used as a set is a duplicate-free `List String`,
  iterated in insertion order (`mapCRUDToVerbs_iteration_order` shows that the
  order does not matter where the code iterates over one);
* a Go `error` result is an `Option Error` (`none` is `nil`), and a function
  that may panic returns `Except Panic`; `Reconcile`, which does not recover
  a panic of a step, records it in its outcome;
* a `resource.Quantity` is represented by the text it was parsed from, and
  `resource.ParseQuantity` is embedded as far as it decides whether a text is
  parsed and with which error it is refused;
* the API server is an explicit `Cluster` value threaded through every call;
* what the credential issuer reaches outside that client (the kubeconfig file,
  the environment, the token endpoint, the serializer) is an explicit `Host`;
* `Reconcile` also returns the list of the calls it made, in program order, so
  that statements about what was invoked, and when, can be made.
-/

set_option autoImplicit false

namespace Zoperator

/-! ## Permission translator (`internal/usecase/rbac.go`) -/

/-- The Go call `strings.Split(s, "")`: one string per character of `s`,
and the empty slice for the empty string. -/
def explode (s : String) : List String :=
  s.toList.map Char.toString

/-- The Go statement `m[k] = true` on a `map[string]bool` used as a set. -/
def setInsert (m : List String) (k : String) : List String :=
  if k ∈ m then m else m ++ [k]

/-- The bytes of a Go string (its UTF-8 encoding), which Go's `<` on strings
compares lexicographically. -/
def goBytes (s : String) : List Nat :=
  s.toList.flatMap (fun c => (String.utf8EncodeChar c).map UInt8.toNat)

/-- Go's `a < b` on strings. -/
def goLess (a b : String) : Prop :=
  goBytes a < goBytes b

/-- The Go call `sort.Strings(l)`. -/
def sortStrings (l : List String) : List String :=
  l.insertionSort (fun a b => goBytes a ≤ goBytes b)

/-- One iteration of the `switch op` loop of `mapCRUDToVerbs`: the verbs that
the operation character `op` adds to `verbMap`. -/
def addVerbs (verbMap : List String) (op : String) : List String :=
  if op = "C" then setInsert verbMap "create"
  else if op = "R" then setInsert (setInsert (setInsert verbMap "get") "list") "watch"
  else if op = "U" then setInsert (setInsert verbMap "update") "patch"
  else if op = "D" then setInsert verbMap "delete"
  else verbMap

/-- The function `mapCRUDToVerbs` of `rbac.go`. -/
def mapCRUDToVerbs (operation : String) : List String :=
  let ops := explode operation
  let uniqueOps := ops.foldl setInsert []
  let verbMap := uniqueOps.foldl addVerbs []
  let verbs := sortStrings verbMap
  if verbs.length = 0 then ["get", "list", "watch"] else verbs

/-- The function `getAPIGroup` of `rbac.go` (the log line of the default
branch is not modelled). -/
def getAPIGroup (resource : String) : List String :=
  if resource ∈ ["deployments", "deployment", "replicasets", "replicaset", "statefulsets",
      "statefulset", "daemonsets", "daemonset", "scaledeployment", "scalereplicaset"] then
    ["apps"]
  else if resource ∈ ["pods", "pod", "services", "service", "resourcequotas", "resourcequota",
      "limitranges", "limitrange", "secret", "secrets", "namespaces", "namespace",
      "serviceaccounts", "serviceaccount", "logs", "configmaps", "configmap",
      "persistentvolumeclaims", "persistentvolumeclaim", "persistentvolumes",
      "persistentvolume"] then
    [""]
  else if resource ∈ ["rolebindings", "rolebinding", "roles", "role"] then
    ["rbac.authorization.k8s.io"]
  else if resource ∈ ["networkpolicies", "networkpolicy"] then
    ["networking.k8s.io"]
  else if resource ∈ ["sealedsecrets", "sealedsecret"] then
    ["bitnami.com"]
  else if resource ∈ ["ingresses", "ingress"] then
    ["networking.k8s.io"]
  else
    ["apps"]

/-- The function `mapActualResource` of `rbac.go`. -/
def mapActualResource (resource : String) : String :=
  if resource ∈ ["deployment", "deployments"] then "deployments"
  else if resource ∈ ["replicaset", "replicasets"] then "replicasets"
  else if resource ∈ ["statefulset", "statefulsets"] then "statefulsets"
  else if resource ∈ ["daemonset", "daemonsets"] then "daemonsets"
  else if resource ∈ ["pod", "pods"] then "pods"
  else if resource ∈ ["service", "services"] then "services"
  else if resource ∈ ["resourcequota", "resourcequotas"] then "resourcequotas"
  else if resource ∈ ["limitrange", "limitranges"] then "limitranges"
  else if resource ∈ ["secret", "secrets"] then "secrets"
  else if resource ∈ ["namespace", "namespaces"] then "namespaces"
  else if resource ∈ ["serviceaccount", "serviceaccounts"] then "serviceaccounts"
  else if resource ∈ ["role", "roles"] then "roles"
  else if resource ∈ ["rolebinding", "rolebindings"] then "rolebindings"
  else if resource ∈ ["networkpolicy", "networkpolicies"] then "networkpolicies"
  else if resource ∈ ["sealedsecret", "sealedsecrets"] then "sealedsecrets"
  else if resource ∈ ["logs"] then "pods/log"
  else if resource ∈ ["scaledeployment"] then "deployments/scale"
  else if resource ∈ ["scalereplicaset"] then "replicasets/scale"
  else if resource ∈ ["ingress", "ingresses"] then "ingresses"
  else resource

/-- The seven verbs the translator can emit. -/
def allVerbs : List String :=
  ["create", "get", "list", "watch", "update", "patch", "delete"]

/-- The verb set the specification gives to one character of an operation
string: C is create, R is get/list/watch, U is update/patch, D is delete, and
every other character contributes nothing. -/
def specVerbSet (c : Char) : List String :=
  if c = 'C' then ["create"]
  else if c = 'R' then ["get", "list", "watch"]
  else if c = 'U' then ["update", "patch"]
  else if c = 'D' then ["delete"]
  else []

/-- The verbs one operation character adds in the `switch` of
`mapCRUDToVerbs`, as a list. -/
def addedVerbs (op : String) : List String :=
  if op = "C" then ["create"]
  else if op = "R" then ["get", "list", "watch"]
  else if op = "U" then ["update", "patch"]
  else if op = "D" then ["delete"]
  else []

/-! ## Errors -/

/-- The reason `apierrors.ReasonForError` finds in an error chain; an error
that carries no API status has reason `Unknown`. -/
inductive StatusReason
  | Unknown
  | NotFound
  | AlreadyExists
  | Conflict
deriving DecidableEq, Repr

/-- A Go `error`: the text of `Error()` and the API status reason reachable
through `errors.As`. -/
structure Error where
  reason : StatusReason := StatusReason.Unknown
  msg : String
deriving DecidableEq, Repr

/-- The call `apierrors.IsNotFound(err)` on a non-nil error. -/
def IsNotFound (err : Error) : Bool :=
  decide (err.reason = StatusReason.NotFound)

/-- The call `apierrors.IsAlreadyExists(err)` on a non-nil error. -/
def IsAlreadyExists (err : Error) : Bool :=
  decide (err.reason = StatusReason.AlreadyExists)

/-- The call `fmt.Errorf(text + ": %w", err)`: the chain, and so the reason,
is kept. -/
def wrapError (text : String) (err : Error) : Error :=
  { reason := err.reason, msg := text ++ ": " ++ err.msg }

/-- The call `fmt.Errorf(text + ": %v", err)`: only the text of `err` is kept. -/
def errorfV (text : String) (err : Error) : Error :=
  { reason := StatusReason.Unknown, msg := text ++ ": " ++ err.msg }

/-- The call `client.IgnoreNotFound(err)` on a non-nil error. -/
def IgnoreNotFound (err : Error) : Option Error :=
  if IsNotFound err then none else some err

/-! ## Data model (`api/v1alpha1/userconfig_types.go` and the Kubernetes
object types the engine writes) -/

/-- The type `metav1.OwnerReference`. -/
structure OwnerReference where
  APIVersion : String := ""
  Kind : String := ""
  Name : String := ""
  UID : String := ""
  Controller : Option Bool := none
  BlockOwnerDeletion : Option Bool := none
deriving DecidableEq, Repr

/-- The type `metav1.ObjectMeta`, with the fields the engine reads or writes.
A `map[string]string` is an association list. -/
structure ObjectMeta where
  Name : String := ""
  Namespace : String := ""
  UID : String := ""
  Labels : List (String × String) := []
  Annotations : List (String × String) := []
  OwnerReferences : List OwnerReference := []
  Finalizers : List String := []
  DeletionTimestamp : Option Nat := none
deriving DecidableEq, Repr

/-- The type `rbacv1.PolicyRule`. -/
structure PolicyRule where
  APIGroups : List String := []
  Resources : List String := []
  Verbs : List String := []
deriving DecidableEq, Repr

/-- The type `rbacv1.Subject`. -/
structure Subject where
  Kind : String := ""
  APIGroup : String := ""
  Name : String := ""
  Namespace : String := ""
deriving DecidableEq, Repr

/-- The type `rbacv1.RoleRef`. -/
structure RoleRef where
  APIGroup : String := ""
  Kind : String := ""
  Name : String := ""
deriving DecidableEq, Repr

/-- The kinds of derived object the engine writes. -/
inductive Kind
  | Namespace
  | ResourceQuota
  | LimitRange
  | ServiceAccount
  | Role
  | RoleBinding
  | NetworkPolicy
  | SealedSecret
  | Secret
deriving DecidableEq, Repr

/-- The type `resource.Quantity`: a quantity is represented by the text it
was parsed from. -/
structure Quantity where
  text : String
deriving DecidableEq, Repr

/-- The type `corev1.ResourceList`, a map from resource name to quantity, as
an association list in insertion order. -/
abbrev ResourceList := List (String × Quantity)

/-- The type `corev1.LimitRangeItem`; `Typ` is its field `Type`, and a nil map
is the empty list. -/
structure LimitRangeItem where
  Typ : String := ""
  Max : ResourceList := []
  Min : ResourceList := []
  Default : ResourceList := []
  DefaultRequest : ResourceList := []
deriving DecidableEq, Repr

/-- The type `metav1.LabelSelector`, with the field the engine sets. -/
structure LabelSelector where
  MatchLabels : List (String × String) := []
deriving DecidableEq, Repr

namespace networkingv1

/-- The type `networkingv1.NetworkPolicyPeer`: a nil selector is `none`. -/
structure NetworkPolicyPeer where
  PodSelector : Option LabelSelector := none
  NamespaceSelector : Option LabelSelector := none
deriving DecidableEq, Repr

/-- The type `networkingv1.NetworkPolicyPort`; the port is the `IntVal` of an
`intstr.IntOrString` of type Int. -/
structure NetworkPolicyPort where
  Protocol : Option String := none
  Port : Option Int := none
deriving DecidableEq, Repr

/-- The type `networkingv1.NetworkPolicyIngressRule`. -/
structure NetworkPolicyIngressRule where
  Ports : List NetworkPolicyPort := []
  From : List NetworkPolicyPeer := []
deriving DecidableEq, Repr

/-- The type `networkingv1.NetworkPolicyEgressRule`. -/
structure NetworkPolicyEgressRule where
  Ports : List NetworkPolicyPort := []
  To : List NetworkPolicyPeer := []
deriving DecidableEq, Repr

/-- The type `networkingv1.NetworkPolicySpec`. -/
structure NetworkPolicySpec where
  PodSelector : LabelSelector := {}
  Ingress : List NetworkPolicyIngressRule := []
  Egress : List NetworkPolicyEgressRule := []
  PolicyTypes : List String := []
deriving DecidableEq, Repr

end networkingv1

namespace sealedsecretsv1alpha1

/-- The type `sealedsecretsv1alpha1.SecretTemplateSpec`, with the fields the
engine sets: the name and namespace of its metadata and `Typ`, its field
`Type`. -/
structure SecretTemplateSpec where
  Name : String := ""
  Namespace : String := ""
  Typ : String := ""
deriving DecidableEq, Repr

/-- The type `sealedsecretsv1alpha1.SealedSecretSpec`. -/
structure SealedSecretSpec where
  Template : SecretTemplateSpec := {}
  EncryptedData : List (String × String) := []
deriving DecidableEq, Repr

end sealedsecretsv1alpha1

/-- The part of a derived object below its metadata. The data of a
`corev1.Secret` maps a key to bytes, which are represented by a string. -/
inductive Body
  | empty
  | role (Rules : List PolicyRule)
  | roleBinding (Subjects : List Subject) (RoleRef : RoleRef)
  | resourceQuota (Hard : ResourceList)
  | limitRange (Limits : List LimitRangeItem)
  | networkPolicy (Spec : networkingv1.NetworkPolicySpec)
  | sealedSecret (Spec : sealedsecretsv1alpha1.SealedSecretSpec)
  | secret (Typ : String) (Data : List (String × String))
deriving DecidableEq, Repr

/-- A derived object as the API server stores it: kind, metadata, body. -/
structure Object extends ObjectMeta where
  kind : Kind
  body : Body := Body.empty
deriving DecidableEq, Repr

/-- The type `Identity`. -/
structure Identity where
  Username : String := ""
  Groups : List String := []
  Contact : String := ""
  Labels : List String := []
deriving DecidableEq, Repr

/-- The type `ResourcePermission`: a resource alias and an operation string. -/
structure ResourcePermission where
  Resource : String := ""
  Operation : String := ""
deriving DecidableEq, Repr

/-- The type `Permissions`. -/
structure Permissions where
  Resources : List ResourcePermission := []
deriving DecidableEq, Repr

/-- The type `SealedSecret` of the entity's spec. -/
structure SealedSecretSpec where
  EncryptedData : List (String × String) := []
deriving DecidableEq, Repr

/-- The type `Secret` of the entity's spec; `Typ` is its field `Type` (the
external-secret part is not implemented by the engine and is left out). -/
structure SecretSpec where
  Name : String := ""
  Typ : String := ""
  SealedSecret : Option SealedSecretSpec := none
deriving DecidableEq, Repr

/-- The type `ServiceAccount` of the entity's spec. -/
structure ServiceAccountSpec where
  Name : String := ""
  ImagePullSecrets : List String := []
deriving DecidableEq, Repr

/-- The type `Resources`: a cpu and a memory quantity, as written. -/
structure Resources where
  CPU : String := ""
  Memory : String := ""
deriving DecidableEq, Repr

/-- The type `ResourceQuota` of the entity's spec: every field is a quantity
as written, the empty string when absent. -/
structure ResourceQuotaSpec where
  CPU : String := ""
  Memory : String := ""
  EphemeralStorage : String := ""
  RequestsCPU : String := ""
  RequestsMemory : String := ""
  RequestsStorage : String := ""
  RequestsEphemeralStorage : String := ""
  LimitsCPU : String := ""
  LimitsMemory : String := ""
  LimitsEphemeralStorage : String := ""
  Pods : String := ""
  Services : String := ""
  ReplicationControllers : String := ""
  Secrets : String := ""
  ConfigMaps : String := ""
  PersistentVolumeClaims : String := ""
  ServicesNodePorts : String := ""
  ServicesLoadBalancers : String := ""
deriving DecidableEq, Repr

/-- The type `LimitRangeLimit`; `Typ` is its field `Type`. -/
structure LimitRangeLimit where
  Typ : String := ""
  Max : Option Resources := none
  Min : Option Resources := none
  Default : Option Resources := none
  DefaultRequest : Option Resources := none
deriving DecidableEq, Repr

/-- The type `LimitRange` of the entity's spec. -/
structure LimitRangeSpec where
  Limits : List LimitRangeLimit := []
deriving DecidableEq, Repr

/-- The type `NetworkPolicyPort` of the entity's spec. -/
structure NetworkPolicyPort where
  Port : Int := 0
  Protocol : String := ""
deriving DecidableEq, Repr

/-- The type `NetworkPolicyPeer` of the entity's spec. -/
structure NetworkPolicyPeer where
  Pods : List (List (String × String)) := []
  Namespaces : List (List (String × String)) := []
  Ports : List NetworkPolicyPort := []
deriving DecidableEq, Repr

/-- The type `NetworkPolicy` of the entity's spec: one network rule. -/
structure NetworkPolicy where
  AllowTrafficFrom : Option NetworkPolicyPeer := none
  AllowTrafficTo : Option NetworkPolicyPeer := none
deriving DecidableEq, Repr

/-- The type `UserConfigSpec`. -/
structure UserConfigSpec where
  Identity : Identity := {}
  Permissions : Permissions := {}
  Secrets : List SecretSpec := []
  ServiceAccounts : List ServiceAccountSpec := []
  ResourceQuotas : Option ResourceQuotaSpec := none
  LimitRange : Option LimitRangeSpec := none
  NetworkPolicy : List NetworkPolicy := []
deriving DecidableEq, Repr

/-- The type `metav1.Condition`; `Typ` is its field `Type`, and a time is a
number of clock ticks. -/
structure Condition where
  Typ : String := ""
  Status : String := ""
  Reason : String := ""
  Message : String := ""
  LastTransitionTime : Nat := 0
deriving DecidableEq, Repr

/-- The type `UserConfigStatus`. -/
structure UserConfigStatus where
  State : String := ""
  LastUpdated : String := ""
  Conditions : List Condition := []
deriving DecidableEq, Repr

/-- The type `UserConfig`: the entity, a cluster-scoped object with a status
subresource. -/
structure UserConfig extends ObjectMeta where
  Spec : UserConfigSpec := {}
  Status : UserConfigStatus := {}
deriving DecidableEq, Repr

/-- The constant `ReadyCondition`. -/
def ReadyCondition : String := "Ready"

/-- The constant `metav1.ConditionTrue`. -/
def ConditionTrue : String := "True"

/-- The constant `metav1.ConditionFalse`. -/
def ConditionFalse : String := "False"

/-- The constant `userConfigFinalizer` of the controller, which `delete.go`
repeats as a literal. -/
def userConfigFinalizer : String := "myoperator.01cloud.io/finalizer"

/-! ## The API server seen through `client.Client`

The cluster is a store of derived objects and of entities, a log of the
requests received so far, and an oracle which may reject the n-th request with
any error (transport failure, admission, conflict) before the store is
touched. A request that is not rejected by the oracle has the store semantics
of the API server: create fails on an existing key, get, update and delete
fail on a missing one, deleting a namespace removes what lives in it. -/

/-- A request received by the API server. -/
inductive Call
  | get (kind : Kind) (Namespace Name : String)
  | create (obj : Object)
  | update (obj : Object)
  | delete (kind : Kind) (Namespace Name : String)
  | getUserConfig (Name : String)
  | updateUserConfig (uc : UserConfig)
  | updateUserConfigStatus (uc : UserConfig)
deriving DecidableEq, Repr

/-- The state of the API server. -/
structure Cluster where
  objects : List Object := []
  userConfigs : List UserConfig := []
  calls : List Call := []
  fault : Nat → Option Error := fun _ => none
  now : Nat := 0

/-- Whether a stored object is the one named by a key. -/
def Object.hasKey (o : Object) (kind : Kind) (ns name : String) : Bool :=
  decide (o.kind = kind ∧ o.Namespace = ns ∧ o.Name = name)

/-- The stored object with the given key, if any. -/
def Cluster.lookup (c : Cluster) (kind : Kind) (ns name : String) : Option Object :=
  c.objects.find? (fun o => o.hasKey kind ns name)

/-- The stored entity with the given name, if any (entities are
cluster-scoped, so the namespace of a request key is not used). -/
def Cluster.lookupUserConfig (c : Cluster) (name : String) : Option UserConfig :=
  c.userConfigs.find? (fun u => decide (u.Name = name))

/-- Append a request to the log. -/
def Cluster.record (c : Cluster) (call : Call) : Cluster :=
  { c with calls := c.calls ++ [call] }

/-- The error of a request for a missing key. -/
def notFoundError : Error :=
  { reason := StatusReason.NotFound, msg := "not found" }

/-- The error of a create request for an existing key. -/
def alreadyExistsError : Error :=
  { reason := StatusReason.AlreadyExists, msg := "already exists" }

/-- The call `Get(ctx, key, obj)` for a derived object of the given kind. -/
def clientGet (c : Cluster) (kind : Kind) (ns name : String) : Except Error Object × Cluster :=
  let c1 := c.record (Call.get kind ns name)
  match c.fault c.calls.length with
  | some err => (Except.error err, c1)
  | none =>
    match c.lookup kind ns name with
    | none => (Except.error notFoundError, c1)
    | some o => (Except.ok o, c1)

/-- The call `Create(ctx, obj)`. -/
def clientCreate (c : Cluster) (obj : Object) : Option Error × Cluster :=
  let c1 := c.record (Call.create obj)
  match c.fault c.calls.length with
  | some err => (some err, c1)
  | none =>
    match c.lookup obj.kind obj.Namespace obj.Name with
    | some _ => (some alreadyExistsError, c1)
    | none => (none, { c1 with objects := c1.objects ++ [obj] })

/-- The call `Update(ctx, obj)` for a derived object. -/
def clientUpdate (c : Cluster) (obj : Object) : Option Error × Cluster :=
  let c1 := c.record (Call.update obj)
  match c.fault c.calls.length with
  | some err => (some err, c1)
  | none =>
    match c.lookup obj.kind obj.Namespace obj.Name with
    | none => (some notFoundError, c1)
    | some _ =>
      let objects := c1.objects.map
        (fun o => if o.hasKey obj.kind obj.Namespace obj.Name then obj else o)
      (none, { c1 with objects := objects })

/-- The call `Delete(ctx, obj)` for a derived object; deleting a namespace
cascades to every object placed in it. -/
def clientDelete (c : Cluster) (obj : Object) : Option Error × Cluster :=
  let c1 := c.record (Call.delete obj.kind obj.Namespace obj.Name)
  match c.fault c.calls.length with
  | some err => (some err, c1)
  | none =>
    match c.lookup obj.kind obj.Namespace obj.Name with
    | none => (some notFoundError, c1)
    | some _ =>
      let objects := c1.objects.filter
        (fun o => !(o.hasKey obj.kind obj.Namespace obj.Name
          || decide (obj.kind = Kind.Namespace ∧ o.Namespace = obj.Name)))
      (none, { c1 with objects := objects })

/-- The type `ctrl.Request`: the key of the entity to reconcile. -/
structure Request where
  Namespace : String := ""
  Name : String := ""
deriving DecidableEq, Repr

/-- The method `metav1.Time.IsZero` on a `*metav1.Time`: nil or the zero
time. -/
def TimeIsZero (t : Option Nat) : Bool :=
  match t with
  | none => true
  | some n => decide (n = 0)

/-- The call `Get(ctx, req.NamespacedName, userConfig)`. -/
def clientGetUserConfig (c : Cluster) (req : Request) : Except Error UserConfig × Cluster :=
  let c1 := c.record (Call.getUserConfig req.Name)
  match c.fault c.calls.length with
  | some err => (Except.error err, c1)
  | none =>
    match c.lookupUserConfig req.Name with
    | none => (Except.error notFoundError, c1)
    | some uc => (Except.ok uc, c1)

/-- The call `Update(ctx, userConfig)` on the entity. The status and the
deletion timestamp of an entity are not writable through this request; an
entity marked for deletion whose last finalizer is removed leaves the store.
The second component is the in-memory entity after the call: the server's
response on success, the argument on failure. -/
def clientUpdateUserConfig (c : Cluster) (uc : UserConfig) :
    Option Error × UserConfig × Cluster :=
  let c1 := c.record (Call.updateUserConfig uc)
  match c.fault c.calls.length with
  | some err => (some err, uc, c1)
  | none =>
    match c.lookupUserConfig uc.Name with
    | none => (some notFoundError, uc, c1)
    | some old =>
      let stored : UserConfig :=
        { uc with Status := old.Status, DeletionTimestamp := old.DeletionTimestamp }
      if !TimeIsZero stored.DeletionTimestamp && stored.Finalizers.isEmpty then
        let userConfigs := c1.userConfigs.filter (fun u => !decide (u.Name = uc.Name))
        (none, stored, { c1 with userConfigs := userConfigs })
      else
        let userConfigs := c1.userConfigs.map (fun u => if u.Name = uc.Name then stored else u)
        (none, stored, { c1 with userConfigs := userConfigs })

/-- The call `Status().Update(ctx, userConfig)`: only the status is written.
The second component is the in-memory entity after the call. -/
def clientStatusUpdate (c : Cluster) (uc : UserConfig) :
    Option Error × UserConfig × Cluster :=
  let c1 := c.record (Call.updateUserConfigStatus uc)
  match c.fault c.calls.length with
  | some err => (some err, uc, c1)
  | none =>
    match c.lookupUserConfig uc.Name with
    | none => (some notFoundError, uc, c1)
    | some old =>
      let stored : UserConfig := { old with Status := uc.Status }
      let userConfigs := c1.userConfigs.map (fun u => if u.Name = uc.Name then stored else u)
      (none, stored, { c1 with userConfigs := userConfigs })

/-! ## Library functions of controller-runtime used by the engine -/

/-- The function `controllerutil.ContainsFinalizer`. -/
def ContainsFinalizer (uc : UserConfig) (finalizer : String) : Bool :=
  uc.Finalizers.any (fun e => decide (e = finalizer))

/-- The function `controllerutil.AddFinalizer`: appends the finalizer unless it
is already there. -/
def AddFinalizer (uc : UserConfig) (finalizer : String) : UserConfig :=
  if uc.Finalizers.any (fun e => decide (e = finalizer)) then uc
  else { uc with Finalizers := uc.Finalizers ++ [finalizer] }

/-- The function `controllerutil.RemoveFinalizer`: drops every occurrence. -/
def RemoveFinalizer (uc : UserConfig) (finalizer : String) : UserConfig :=
  { uc with Finalizers := uc.Finalizers.filter (fun e => !decide (e = finalizer)) }

/-- The type `schema.GroupVersionKind`. -/
structure GroupVersionKind where
  Group : String := ""
  Version : String := ""
  Kind : String := ""
deriving DecidableEq, Repr

/-- The part of a `runtime.Scheme` the engine relies on: the group, version
and kind registered for the entity type, if it is registered. -/
structure Scheme where
  userConfigGVK : Option GroupVersionKind :=
    some { Group := "myoperator.01cloud.io", Version := "v1alpha1", Kind := "UserConfig" }
deriving DecidableEq, Repr

/-- The method `GroupVersion().String()` of a group-version-kind. -/
def GroupVersionKind.apiVersion (gvk : GroupVersionKind) : String :=
  if gvk.Group = "" then gvk.Version else gvk.Group ++ "/" ++ gvk.Version

/-- The group of an `apiVersion` string as `schema.ParseGroupVersion` reads it;
`none` when the string does not parse. -/
def parseGroup (apiVersion : String) : Option String :=
  match apiVersion.splitOn "/" with
  | [_] => some ""
  | [g, _] => some g
  | _ => none

/-- The function `referSameObject` of controllerutil: same group, kind and
name. -/
def referSameObject (a b : OwnerReference) : Bool :=
  match parseGroup a.APIVersion, parseGroup b.APIVersion with
  | some ga, some gb => decide (ga = gb ∧ a.Kind = b.Kind ∧ a.Name = b.Name)
  | _, _ => false

/-- The function `metav1.GetControllerOf`: the owner reference marked as
controller, if any. -/
def GetControllerOf (obj : Object) : Option OwnerReference :=
  obj.OwnerReferences.find? (fun ref => ref.Controller == some true)

/-- The function `upsertOwnerRef` of controllerutil: replace the reference to
the same owner, or append. -/
def upsertOwnerRef (ref : OwnerReference) (obj : Object) : Object :=
  if obj.OwnerReferences.any (fun r => referSameObject r ref) then
    let idx := obj.OwnerReferences.findIdx (fun r => referSameObject r ref)
    { obj with OwnerReferences := obj.OwnerReferences.set idx ref }
  else
    { obj with OwnerReferences := obj.OwnerReferences ++ [ref] }

/-- The function `validateOwner` of controllerutil. -/
def validateOwner (owner : UserConfig) (obj : Object) : Option Error :=
  if owner.Namespace ≠ "" then
    if obj.Namespace = "" then
      some { msg := "cluster-scoped resource must not have a namespace-scoped owner, owner's namespace "
        ++ owner.Namespace }
    else if owner.Namespace ≠ obj.Namespace then
      some { msg := "cross-namespace owner references are disallowed, owner's namespace "
        ++ owner.Namespace ++ ", obj's namespace " ++ obj.Namespace }
    else none
  else none

/-- The function `controllerutil.SetControllerReference(owner, obj, scheme)`:
the object with a controller owner reference to the entity, or an error. -/
def SetControllerReference (owner : UserConfig) (obj : Object) (scheme : Scheme) :
    Except Error Object :=
  match validateOwner owner obj with
  | some err => Except.error err
  | none =>
    match scheme.userConfigGVK with
    | none => Except.error { msg := "no kind is registered for the type v1alpha1.UserConfig" }
    | some gvk =>
      let ref : OwnerReference :=
        { APIVersion := gvk.apiVersion, Kind := gvk.Kind, Name := owner.Name, UID := owner.UID,
          BlockOwnerDeletion := some true, Controller := some true }
      match GetControllerOf obj with
      | some existing =>
        if !referSameObject existing ref then
          Except.error { msg := "Object " ++ obj.Namespace ++ "/" ++ obj.Name
            ++ " is already owned by another " ++ existing.Kind ++ " controller " ++ existing.Name }
        else Except.ok (upsertOwnerRef ref obj)
      | none => Except.ok (upsertOwnerRef ref obj)

/-! ## RBAC synthesizers (`internal/usecase/rbac.go`) -/

/-- The type `UserConfigUseCase`: its embedded client is the `Cluster` passed
to every method. -/
structure UserConfigUseCase where
  Scheme : Scheme := {}
deriving DecidableEq, Repr

/-- The label map every synthesizer writes. -/
def managedByLabels (uc : UserConfig) : List (String × String) :=
  [("app.kubernetes.io/managed-by", "userconfig-operator"),
   ("userconfig.myoperator.01cloud.io/name", uc.Name)]

/-- The method `ReconcileRole`. -/
def ReconcileRole (u : UserConfigUseCase) (uc : UserConfig) (c : Cluster) :
    Option Error × Cluster :=
  let role : Object :=
    { kind := Kind.Role, Name := uc.Name, Namespace := uc.Name, body := Body.role [] }
  let rules : List PolicyRule := uc.Spec.Permissions.Resources.foldl
    (fun rules perm => rules ++ [{
      APIGroups := getAPIGroup perm.Resource,
      Resources := [mapActualResource perm.Resource],
      Verbs := mapCRUDToVerbs perm.Operation }]) []
  let role : Object := { role with body := Body.role rules }
  match SetControllerReference uc role u.Scheme with
  | Except.error err => (some (wrapError "failed to set role owner reference" err), c)
  | Except.ok role =>
    match clientCreate c role with
    | (none, c) => (none, c)
    | (some err, c) =>
      if !IsAlreadyExists err then
        (some (wrapError "failed to create role" err), c)
      else
        match clientGet c Kind.Role uc.Name uc.Name with
        | (Except.error err, c) => (some (wrapError "failed to get existing role" err), c)
        | (Except.ok existing, c) =>
          let existing : Object := { existing with body := Body.role rules }
          match clientUpdate c existing with
          | (some err, c) => (some (wrapError "failed to update role" err), c)
          | (none, c) => (none, c)

/-- The method `ReconcileServiceAccount`. -/
def ReconcileServiceAccount (u : UserConfigUseCase) (uc : UserConfig) (c : Cluster) :
    Option Error × Cluster :=
  let sa : Object :=
    { kind := Kind.ServiceAccount, Name := uc.Name, Namespace := uc.Name,
      Labels := managedByLabels uc }
  match SetControllerReference uc sa u.Scheme with
  | Except.error err => (some (wrapError "failed to set serviceaccount owner reference" err), c)
  | Except.ok sa =>
    match clientCreate c sa with
    | (none, c) => (none, c)
    | (some err, c) =>
      if !IsAlreadyExists err then
        (some (wrapError "failed to create serviceaccount" err), c)
      else
        match clientGet c Kind.ServiceAccount uc.Name uc.Name with
        | (Except.error err, c) =>
          (some (wrapError "failed to get existing serviceaccount" err), c)
        | (Except.ok existing, c) =>
          let existing : Object := { existing with Labels := sa.Labels }
          match clientUpdate c existing with
          | (some err, c) => (some (wrapError "failed to update serviceaccount" err), c)
          | (none, c) => (none, c)

/-- The method `ReconcileRoleBinding`. -/
def ReconcileRoleBinding (u : UserConfigUseCase) (uc : UserConfig) (c : Cluster) :
    Option Error × Cluster :=
  let subjects : List Subject :=
    [{ Kind := "User", Name := uc.Name },
     { Kind := "ServiceAccount", Name := uc.Name, Namespace := uc.Name }]
  let roleRef : RoleRef :=
    { Kind := "Role", Name := uc.Name, APIGroup := "rbac.authorization.k8s.io" }
  let roleBinding : Object :=
    { kind := Kind.RoleBinding, Name := uc.Name, Namespace := uc.Name,
      Labels := managedByLabels uc, body := Body.roleBinding subjects roleRef }
  match SetControllerReference uc roleBinding u.Scheme with
  | Except.error err => (some (wrapError "failed to set rolebinding owner reference" err), c)
  | Except.ok roleBinding =>
    match clientCreate c roleBinding with
    | (none, c) => (none, c)
    | (some err, c) =>
      if !IsAlreadyExists err then
        (some (wrapError "failed to create rolebinding" err), c)
      else
        match clientGet c Kind.RoleBinding uc.Name uc.Name with
        | (Except.error err, c) =>
          (some (wrapError "failed to get existing rolebinding" err), c)
        | (Except.ok existing, c) =>
          let existing : Object :=
            { existing with body := Body.roleBinding subjects roleRef,
                            Labels := roleBinding.Labels }
          match clientUpdate c existing with
          | (some err, c) => (some (wrapError "failed to update rolebinding" err), c)
          | (none, c) => (none, c)

/-- The method `ReconcileRBAC`. -/
def ReconcileRBAC (u : UserConfigUseCase) (uc : UserConfig) (c : Cluster) :
    Option Error × Cluster :=
  if uc.Spec.Permissions.Resources.length = 0 then (none, c)
  else
    match ReconcileRole u uc c with
    | (some err, c) => (some (wrapError "failed to reconcile role" err), c)
    | (none, c) =>
      match ReconcileServiceAccount u uc c with
      | (some err, c) => (some (wrapError "failed to reconcile service account" err), c)
      | (none, c) =>
        match ReconcileRoleBinding u uc c with
        | (some err, c) => (some (wrapError "failed to reconcile role binding" err), c)
        | (none, c) => (none, c)

/-- The translation of one grant as the specification states it: the API
group of the alias, the canonical resource name, the verbs of the operation
string. -/
def translate (perm : ResourcePermission) : PolicyRule :=
  { APIGroups := getAPIGroup perm.Resource,
    Resources := [mapActualResource perm.Resource],
    Verbs := mapCRUDToVerbs perm.Operation }

/-- The entity of the examples: alice, with one grant on pods. -/
def podsEntity (operation : String) : UserConfig :=
  { Name := "alice",
    Spec := { Permissions := { Resources := [{ Resource := "pods", Operation := operation }] } } }

/-! ## Network rule composer (`internal/usecase/network_policies.go`) -/

/-- The Go loop `for _, x := range xs { acc = append(acc, f(x)) }`. -/
def appendEach {α β : Type} (acc : List β) (xs : List α) (f : α → β) : List β :=
  xs.foldl (fun acc x => acc ++ [f x]) acc

/-- The conversion `int32(val)` of a Go `int`, as `intstr.FromInt` does it. -/
def toInt32 (val : Int) : Int :=
  Int.bmod val 4294967296

/-- The constant `corev1.ProtocolTCP`. -/
def ProtocolTCP : String := "TCP"

/-- The peers of one clause: the blocks `// Configure pod selector` and
`// Configure namespace selector`, which are the same for `AllowTrafficFrom`
and `AllowTrafficTo`. -/
def selectorPeers (peer : NetworkPolicyPeer) : List networkingv1.NetworkPolicyPeer :=
  let peers : List networkingv1.NetworkPolicyPeer := []
  let peers :=
    if peer.Pods.length > 0 then
      appendEach peers peer.Pods
        (fun podSelector => { PodSelector := some { MatchLabels := podSelector } })
    else peers
  let peers :=
    if peer.Namespaces.length > 0 then
      appendEach peers peer.Namespaces
        (fun nsSelector => { NamespaceSelector := some { MatchLabels := nsSelector } })
    else peers
  peers

/-- The ports of one clause: the block `// Configure ports if specified`,
which is the same for `AllowTrafficFrom` and `AllowTrafficTo`. -/
def policyPorts (peer : NetworkPolicyPeer) : List networkingv1.NetworkPolicyPort :=
  let ports : List networkingv1.NetworkPolicyPort := []
  if peer.Ports.length > 0 then
    appendEach ports peer.Ports (fun port =>
      let portNumber := toInt32 port.Port
      let protocol := port.Protocol
      let protocol := if protocol = "" then ProtocolTCP else protocol
      { Port := some portNumber, Protocol := some protocol })
  else ports

/-- The ingress clause built for an entry whose `AllowTrafficFrom` is set. -/
def ingressRuleOf (peer : NetworkPolicyPeer) : networkingv1.NetworkPolicyIngressRule :=
  { From := selectorPeers peer, Ports := policyPorts peer }

/-- The egress clause built for an entry whose `AllowTrafficTo` is set. -/
def egressRuleOf (peer : NetworkPolicyPeer) : networkingv1.NetworkPolicyEgressRule :=
  { To := selectorPeers peer, Ports := policyPorts peer }

/-- The loop `for _, policy := range uc.Spec.NetworkPolicy` of
`ReconcileNetworkPolicies`: the ingress and the egress clauses collected. -/
def composeRules (rules : List NetworkPolicy) :
    List networkingv1.NetworkPolicyIngressRule × List networkingv1.NetworkPolicyEgressRule :=
  rules.foldl (fun acc policy =>
    let ingressRules :=
      match policy.AllowTrafficFrom with
      | some peer => acc.1 ++ [ingressRuleOf peer]
      | none => acc.1
    let egressRules :=
      match policy.AllowTrafficTo with
      | some peer => acc.2 ++ [egressRuleOf peer]
      | none => acc.2
    (ingressRules, egressRules)) ([], [])

/-- The spec of the NetworkPolicy that `ReconcileNetworkPolicies` builds from
the rule list of the entity (its lines up to `// Set controller reference`). -/
def networkPolicySpec (rules : List NetworkPolicy) : networkingv1.NetworkPolicySpec :=
  let spec : networkingv1.NetworkPolicySpec :=
    { PodSelector := {}, PolicyTypes := ["Ingress", "Egress"] }
  if rules.length = 0 then
    { spec with Ingress := [], Egress := [] }
  else
    let ingressRules := (composeRules rules).1
    let egressRules := (composeRules rules).2
    let spec : networkingv1.NetworkPolicySpec :=
      if ingressRules.length > 0 then { spec with Ingress := ingressRules }
      else { spec with Ingress := [] }
    let spec : networkingv1.NetworkPolicySpec :=
      if egressRules.length > 0 then { spec with Egress := egressRules }
      else { spec with Egress := [] }
    spec

/-- The method `ReconcileNetworkPolicies`. -/
def ReconcileNetworkPolicies (u : UserConfigUseCase) (uc : UserConfig) (c : Cluster) :
    Option Error × Cluster :=
  let netpol : Object :=
    { kind := Kind.NetworkPolicy, Name := uc.Name, Namespace := uc.Name,
      Labels := managedByLabels uc,
      body := Body.networkPolicy (networkPolicySpec uc.Spec.NetworkPolicy) }
  match SetControllerReference uc netpol u.Scheme with
  | Except.error err =>
    (some (wrapError "failed to set controller reference for NetworkPolicy" err), c)
  | Except.ok netpol =>
    match clientGet c Kind.NetworkPolicy uc.Name netpol.Name with
    | (Except.error err, c) =>
      if IsNotFound err then
        match clientCreate c netpol with
        | (some err, c) => (some (wrapError "failed to create NetworkPolicy" err), c)
        | (none, c) => (none, c)
      else
        (some (wrapError "failed to get existing NetworkPolicy" err), c)
    | (Except.ok existing, c) =>
      let existing : Object := { existing with body := netpol.body }
      match clientUpdate c existing with
      | (some err, c) => (some (wrapError "failed to update NetworkPolicy" err), c)
      | (none, c) => (none, c)

/-! ## Quantities (`k8s.io/apimachinery/pkg/api/resource`) -/

/-- A Go panic, with the text of the value it carries. A function that may
panic returns `Except Panic`. -/
structure Panic where
  msg : String
deriving DecidableEq, Repr

/-- Equality of the results of functions that may panic is decidable. -/
instance instDecidableEqExcept {ε α : Type} [DecidableEq ε] [DecidableEq α] :
    DecidableEq (Except ε α)
  | Except.ok a, Except.ok b =>
    if h : a = b then isTrue (by rw [h]) else isFalse (fun h2 => h (Except.ok.inj h2))
  | Except.error a, Except.error b =>
    if h : a = b then isTrue (by rw [h]) else isFalse (fun h2 => h (Except.error.inj h2))
  | Except.ok _, Except.error _ => isFalse (fun h => Except.noConfusion h)
  | Except.error _, Except.ok _ => isFalse (fun h => Except.noConfusion h)

/-- The error `resource.ErrFormatWrong`. -/
def ErrFormatWrong : Error :=
  { msg := "quantities must match the regular expression '^([+-]?[0-9.]+)([eEinumkKMGTP]*[-+]?[0-9]*)$'" }

/-- The error `resource.ErrNumeric`. -/
def ErrNumeric : Error :=
  { msg := "unable to parse numeric part of quantity" }

/-- The error `resource.ErrSuffix`. -/
def ErrSuffix : Error :=
  { msg := "unable to parse quantity's suffix" }

/-- The type `resource.Format`. -/
inductive Format
  | DecimalExponent
  | BinarySI
  | DecimalSI
deriving DecidableEq, Repr

/-- What `parseQuantityString` returns for a text it can scan. -/
structure QuantityString where
  positive : Bool
  value : String
  num : String
  denom : String
  suffix : String
deriving DecidableEq, Repr

/-- The text after a leading sign, if there is one. -/
def dropSign (cs : List Char) : List Char :=
  match cs with
  | '-' :: t => t
  | '+' :: t => t
  | _ => cs

/-- The function `parseQuantityString`, the scanner of `ParseQuantity`: a
sign, leading zeros, the digits of the numerator, a decimal point with the
digits of the denominator, and a suffix made of letters of `eEinumkKMGTP`, a
sign and digits. Each of the parts may be empty; a text with anything after
them is refused. -/
def parseQuantityString (str : String) : Except Error QuantityString :=
  let cs := str.toList
  let positive := !(cs.head? == some '-')
  let afterZeros := (dropSign cs).dropWhile (fun ch => ch == '0')
  if afterZeros.isEmpty then
    Except.ok { positive := positive, value := "0", num := "0", denom := "", suffix := "" }
  else
    let num := afterZeros.takeWhile Char.isDigit
    let afterNum := afterZeros.dropWhile Char.isDigit
    if afterNum.isEmpty then
      Except.ok { positive := positive, value := str, num := String.mk num, denom := "",
                  suffix := "" }
    else
      let num := if num.isEmpty then ['0'] else num
      let denom :=
        match afterNum with
        | '.' :: t => t.takeWhile Char.isDigit
        | _ => []
      let afterDenom :=
        match afterNum with
        | '.' :: t => t.dropWhile Char.isDigit
        | _ => afterNum
      if afterDenom.isEmpty then
        Except.ok { positive := positive, value := str, num := String.mk num,
                    denom := String.mk denom, suffix := "" }
      else
        let value := cs.take (cs.length - afterDenom.length)
        let afterLetters := afterDenom.dropWhile (fun ch => "eEinumkKMGTP".toList.contains ch)
        if afterLetters.isEmpty then
          Except.ok { positive := positive, value := String.mk value, num := String.mk num,
                      denom := String.mk denom, suffix := String.mk afterDenom }
        else if ((dropSign afterLetters).dropWhile Char.isDigit).isEmpty then
          Except.ok { positive := positive, value := String.mk value, num := String.mk num,
                      denom := String.mk denom, suffix := String.mk afterDenom }
        else Except.error ErrFormatWrong

/-- The call `strconv.ParseInt(s, 10, 64)`: the integer written by an optional
sign and a non-empty run of decimal digits, when it is in the range of an
`int64`. -/
def ParseInt (s : String) : Option Int :=
  let digits := dropSign s.toList
  if digits.isEmpty || !digits.all Char.isDigit then none
  else
    let un : Nat := digits.foldl (fun n d => 10 * n + (d.toNat - '0'.toNat)) 0
    if s.toList.head? == some '-' then
      if un > 2 ^ 63 then none else some (-(un : Int))
    else
      if un ≥ 2 ^ 63 then none else some (un : Int)

/-- The suffixes of `quantitySuffixer.decSuffixes` with their exponent of 10. -/
def decSuffixes : List (String × Int) :=
  [("n", -9), ("u", -6), ("m", -3), ("", 0), ("k", 3), ("M", 6), ("G", 9), ("T", 12),
   ("P", 15), ("E", 18)]

/-- The suffixes of `quantitySuffixer.binSuffixes` with their exponent of 2. -/
def binSuffixes : List (String × Int) :=
  [("Ki", 10), ("Mi", 20), ("Gi", 30), ("Ti", 40), ("Pi", 50), ("Ei", 60)]

/-- The method `quantitySuffixer.interpret`: base, exponent and format of a
suffix, or none when it is not one. -/
def interpret (suffix : String) : Option (Int × Int × Format) :=
  match decSuffixes.find? (fun p => p.1 == suffix) with
  | some p => some (10, p.2, Format.DecimalSI)
  | none =>
    match binSuffixes.find? (fun p => p.1 == suffix) with
    | some p => some (2, p.2, Format.BinarySI)
    | none =>
      match suffix.toList with
      | first :: rest =>
        if rest.length > 0 && (first == 'E' || first == 'e') then
          match ParseInt (String.mk rest) with
          | none => none
          | some parsed => some (10, toInt32 parsed, Format.DecimalExponent)
        else none
      | [] => none

/-- The function `int64Multiply`: the product, or none when it is not in the
range of an `int64`. -/
def int64Multiply (a b : Int) : Option Int :=
  if -(2 ^ 63) ≤ a * b ∧ a * b < 2 ^ 63 then some (a * b) else none

/-- Whether `(*inf.Dec).SetString` accepts a text: an optional sign, then
digits with at most one decimal point among them, and at least one digit. -/
def decSetString (value : String) : Bool :=
  let body := dropSign value.toList
  let whole := body.takeWhile Char.isDigit
  let afterWhole := body.dropWhile Char.isDigit
  let fraction :=
    match afterWhole with
    | '.' :: t => t.takeWhile Char.isDigit
    | _ => []
  let rest :=
    match afterWhole with
    | '.' :: t => t.dropWhile Char.isDigit
    | _ => afterWhole
  rest.isEmpty && !(whole.isEmpty && fraction.isEmpty)

/-- The function `resource.ParseQuantity`, as far as the result is a quantity
or an error: every check that makes it return an error is made, in its order;
the amount is not computed, the quantity being represented by its text. -/
def ParseQuantity (str : String) : Except Error Quantity :=
  if str.length = 0 then Except.error ErrFormatWrong
  else if str = "0" then Except.ok { text := str }
  else
    match parseQuantityString str with
    | Except.error err => Except.error err
    | Except.ok parsed =>
      match interpret parsed.suffix with
      | none => Except.error ErrSuffix
      | some (_, exponent, format) =>
        let binaryFast := decide (exponent ≥ 0) && decide (parsed.denom.length = 0)
        let scale : Int :=
          match format with
          | Format.BinarySI => 0
          | _ => exponent
        let mantissa : Int :=
          match format with
          | Format.BinarySI => if binaryFast then 2 ^ exponent.toNat else 1
          | _ => 1
        let precision : Int :=
          match format with
          | Format.BinarySI =>
            if binaryFast then
              toInt32 (15 - toInt32 parsed.num.length - exponent * 3 / 10 - 1)
            else -1
          | _ => toInt32 (18 - toInt32 (parsed.num.length + parsed.denom.length))
        let scale := toInt32 (scale - toInt32 parsed.denom.length)
        let viaDec : Except Error Quantity :=
          if decSetString parsed.value then Except.ok { text := str }
          else Except.error ErrNumeric
        if precision ≥ 0 ∧ scale ≥ -9 then
          match ParseInt (parsed.num ++ parsed.denom) with
          | none => Except.error ErrNumeric
          | some value =>
            match int64Multiply value mantissa with
            | some _ => Except.ok { text := str }
            | none => viaDec
        else viaDec

/-- Whether `resource.ParseQuantity` returns a quantity for a text. -/
def validQuantity (str : String) : Bool :=
  match ParseQuantity str with
  | Except.ok _ => true
  | Except.error _ => false

/-- The function `resource.MustParse`: the quantity `ParseQuantity` returns,
and a panic with its error when it returns one. -/
def MustParse (str : String) : Except Panic Quantity :=
  match ParseQuantity str with
  | Except.ok q => Except.ok q
  | Except.error err => Except.error { msg := "cannot parse '" ++ str ++ "': " ++ err.msg }

/-- The Go statement `m[k] = v` on a `corev1.ResourceList`. -/
def mapSet (m : ResourceList) (k : String) (v : Quantity) : ResourceList :=
  if m.any (fun p => decide (p.1 = k)) then m.map (fun p => if p.1 = k then (k, v) else p)
  else m ++ [(k, v)]

/-- The value a `corev1.ResourceList` holds for a resource name, if any. -/
def mapGet (m : ResourceList) (k : String) : Option Quantity :=
  (m.find? (fun p => decide (p.1 = k))).map Prod.snd

/-- The call `reflect.DeepEqual` on two `corev1.ResourceList` values: the same
keys with the same quantities, in any order. Quantities are compared by their
text and the store is taken to return them as they were written, which is the
case of quantities written in canonical form (5, 1, 4Gi); a nil map and an
empty map are not told apart here. -/
def deepEqualResourceList (a b : ResourceList) : Bool :=
  (a.map Prod.fst).all (fun k => mapGet a k == mapGet b k) &&
    (b.map Prod.fst).all (fun k => mapGet a k == mapGet b k)

/-! ## Quota synthesizer (`internal/usecase/resource_quota.go`) -/

/-- The eighteen fields of a quota override with the resource name each is
stored under, in the order of the `if rq.X != ""` blocks of
`ReconcileResourceQuota`. -/
def quotaFields (rq : ResourceQuotaSpec) : List (String × String) :=
  [("cpu", rq.CPU),
   ("memory", rq.Memory),
   ("ephemeral-storage", rq.EphemeralStorage),
   ("requests.cpu", rq.RequestsCPU),
   ("requests.memory", rq.RequestsMemory),
   ("requests.storage", rq.RequestsStorage),
   ("requests.ephemeral-storage", rq.RequestsEphemeralStorage),
   ("limits.cpu", rq.LimitsCPU),
   ("limits.memory", rq.LimitsMemory),
   ("limits.ephemeral-storage", rq.LimitsEphemeralStorage),
   ("pods", rq.Pods),
   ("services", rq.Services),
   ("replicationcontrollers", rq.ReplicationControllers),
   ("secrets", rq.Secrets),
   ("configmaps", rq.ConfigMaps),
   ("persistentvolumeclaims", rq.PersistentVolumeClaims),
   ("services.nodeports", rq.ServicesNodePorts),
   ("services.loadbalancers", rq.ServicesLoadBalancers)]

/-- One block `if rq.X != "" { hardLimits[name] = resource.MustParse(rq.X) }`. -/
def setQuotaField (hardLimits : ResourceList) (field : String × String) :
    Except Panic ResourceList :=
  if field.2 ≠ "" then do
    let q ← MustParse field.2
    pure (mapSet hardLimits field.1 q)
  else pure hardLimits

/-- The hard limits `ReconcileResourceQuota` computes (its lines up to
`existingQuota := ...`): the fields of the override when there is one, the
built-in default otherwise. -/
def resourceQuotaHard (quotas : Option ResourceQuotaSpec) : Except Panic ResourceList :=
  match quotas with
  | some rq => (quotaFields rq).foldlM setQuotaField []
  | none => do
    let pods ← MustParse "10"
    let cpu ← MustParse "2"
    let memory ← MustParse "4Gi"
    pure [("pods", pods), ("cpu", cpu), ("memory", memory)]

/-- The hard limits of a stored ResourceQuota (`existingQuota.Spec.Hard`), the
only field of a quota spec the engine sets and so the only one modelled. -/
def Object.hard (o : Object) : ResourceList :=
  match o.body with
  | Body.resourceQuota hard => hard
  | _ => []

/-- The method `ReconcileResourceQuota`; it panics when a quantity of the
override cannot be parsed. -/
def ReconcileResourceQuota (_u : UserConfigUseCase) (userConfig : UserConfig) (c : Cluster) :
    Except Panic (Option Error × Cluster) := do
  let hard ← resourceQuotaHard userConfig.Spec.ResourceQuotas
  let resourceQuota : Object :=
    { kind := Kind.ResourceQuota, Name := userConfig.Name, Namespace := userConfig.Name,
      body := Body.resourceQuota hard }
  match clientGet c Kind.ResourceQuota userConfig.Name userConfig.Name with
  | (Except.error err, c) =>
    if IsNotFound err then
      match clientCreate c resourceQuota with
      | (some err, c) =>
        pure (some (wrapError
          ("failed to create ResourceQuota in namespace " ++ userConfig.Name) err), c)
      | (none, c) => pure (none, c)
    else
      pure (some (wrapError
        ("failed to get ResourceQuota in namespace " ++ userConfig.Name) err), c)
  | (Except.ok existingQuota, c) =>
    if !deepEqualResourceList existingQuota.hard hard then
      let existingQuota : Object := { existingQuota with body := resourceQuota.body }
      match clientUpdate c existingQuota with
      | (some err, c) =>
        pure (some (wrapError
          ("failed to update ResourceQuota in namespace " ++ userConfig.Name) err), c)
      | (none, c) => pure (none, c)
    else pure (none, c)

/-! ## Limit-range synthesizer (`internal/usecase/limitrange.go`) -/

/-- The constant `corev1.LimitTypeContainer`. -/
def LimitTypeContainer : String := "Container"

/-- The constant `corev1.LimitTypePod`. -/
def LimitTypePod : String := "Pod"

/-- The function `parseResourceList`. -/
def parseResourceList (input : Option Resources) (fallback : ResourceList) :
    Except Panic ResourceList :=
  match input with
  | none => pure fallback
  | some input => do
    let cpu ← MustParse input.CPU
    let memory ← MustParse input.Memory
    pure [("cpu", cpu), ("memory", memory)]

/-- The value `defaultLimits` of `ReconcileLimitRange`. -/
def defaultLimits : Except Panic LimitRangeItem := do
  let defaultCPU ← MustParse "500m"
  let defaultMemory ← MustParse "1Gi"
  let requestCPU ← MustParse "250m"
  let requestMemory ← MustParse "512Mi"
  let minCPU ← MustParse "50m"
  let minMemory ← MustParse "64Mi"
  let maxCPU ← MustParse "2"
  let maxMemory ← MustParse "4Gi"
  pure {
    Typ := LimitTypeContainer,
    Default := [("cpu", defaultCPU), ("memory", defaultMemory)],
    DefaultRequest := [("cpu", requestCPU), ("memory", requestMemory)],
    Min := [("cpu", minCPU), ("memory", minMemory)],
    Max := [("cpu", maxCPU), ("memory", maxMemory)] }

/-- One iteration of the loop `for _, userLimits := range ...Limits`: the item
built for one supplied entry. -/
def limitRangeItem (defaultLimits : LimitRangeItem) (userLimits : LimitRangeLimit) :
    Except Panic LimitRangeItem := do
  let max ← parseResourceList userLimits.Max defaultLimits.Max
  let min ← parseResourceList userLimits.Min defaultLimits.Min
  let item : LimitRangeItem := { Typ := userLimits.Typ, Max := max, Min := min }
  if userLimits.Typ ≠ LimitTypePod then do
    let default ← parseResourceList userLimits.Default defaultLimits.Default
    let defaultRequest ←
      parseResourceList userLimits.DefaultRequest defaultLimits.DefaultRequest
    pure { item with Default := default, DefaultRequest := defaultRequest }
  else pure item

/-- The limits `ReconcileLimitRange` computes (its lines up to
`// Set controller reference`). -/
def limitRangeItems (limitRange : Option LimitRangeSpec) :
    Except Panic (List LimitRangeItem) := do
  let defaultLimits ← defaultLimits
  match limitRange with
  | none => pure [defaultLimits]
  | some limitRange =>
    if limitRange.Limits.length = 0 then pure [defaultLimits]
    else
      limitRange.Limits.foldlM (fun limits userLimits => do
        let item ← limitRangeItem defaultLimits userLimits
        pure (limits ++ [item])) []

/-- The method `ReconcileLimitRange`; it panics when a quantity of a supplied
tier cannot be parsed. -/
def ReconcileLimitRange (u : UserConfigUseCase) (userConfig : UserConfig) (c : Cluster) :
    Except Panic (Option Error × Cluster) := do
  let limits ← limitRangeItems userConfig.Spec.LimitRange
  let limitRange : Object :=
    { kind := Kind.LimitRange, Name := userConfig.Name, Namespace := userConfig.Name,
      body := Body.limitRange limits }
  match SetControllerReference userConfig limitRange u.Scheme with
  | Except.error err =>
    pure (some (wrapError "failed to set controller reference for LimitRange" err), c)
  | Except.ok limitRange =>
    match clientGet c Kind.LimitRange userConfig.Name limitRange.Name with
    | (Except.error err, c) =>
      if IsNotFound err then
        match clientCreate c limitRange with
        | (some err, c) => pure (some (wrapError "failed to create LimitRange" err), c)
        | (none, c) => pure (none, c)
      else
        pure (some (wrapError "failed to get LimitRange" err), c)
    | (Except.ok existing, c) =>
      let existing : Object := { existing with body := limitRange.body }
      match clientUpdate c existing with
      | (some err, c) => pure (some (wrapError "failed to update LimitRange" err), c)
      | (none, c) => pure (none, c)

/-! ## Namespace synthesizer (`internal/usecase/namespace.go`) -/

/-- The method `ReconcileNamespace`; it panics when `ReconcileResourceQuota`
does. An already existing namespace is not an error. -/
def ReconcileNamespace (u : UserConfigUseCase) (uc : UserConfig) (c : Cluster) :
    Except Panic (Option Error × Cluster) :=
  let ns : Object :=
    { kind := Kind.Namespace, Name := uc.Name, Labels := managedByLabels uc }
  match SetControllerReference uc ns u.Scheme with
  | Except.error err => pure (some (wrapError "failed to set controller reference" err), c)
  | Except.ok ns =>
    match clientCreate c ns with
    | (cerr, c) =>
      match cerr.filter (fun err => !IsAlreadyExists err) with
      | some err => pure (some (wrapError "failed to create namespace" err), c)
      | none => do
        let out ← ReconcileResourceQuota u uc c
        match out with
        | (some err, c) =>
          pure (some (wrapError
            ("failed to reconcile ResourceQuota for namespace " ++ uc.Name) err), c)
        | (none, c) => pure (none, c)

/-! ## Sealed-secret synthesizer (`internal/usecase/sealed_secrets.go`) -/

/-- The constant `corev1.SecretTypeOpaque`. -/
def SecretTypeOpaque : String := "Opaque"

/-- The SealedSecret built for one declared secret that is sealed and carries
its encrypted data. -/
def sealedSecretOf (uc : UserConfig) (secret : SecretSpec) (sealed : SealedSecretSpec) :
    Object :=
  { kind := Kind.SealedSecret, Name := secret.Name, Namespace := uc.Name,
    body := Body.sealedSecret {
      EncryptedData := sealed.EncryptedData,
      Template := { Name := secret.Name, Namespace := uc.Name, Typ := SecretTypeOpaque } } }

/-- The loop `for _, secret := range uc.Spec.Secrets` of
`ReconcileSealedSecrets`: a secret that is not of type sealed, or has no
sealed part, is skipped; the first failure ends the loop. -/
def reconcileSecrets (u : UserConfigUseCase) (uc : UserConfig) :
    List SecretSpec → Cluster → Option Error × Cluster
  | [], c => (none, c)
  | secret :: rest, c =>
    match secret.SealedSecret with
    | none => reconcileSecrets u uc rest c
    | some sealed =>
      if secret.Typ ≠ "sealed" then reconcileSecrets u uc rest c
      else
        match SetControllerReference uc (sealedSecretOf uc secret sealed) u.Scheme with
        | Except.error err =>
          (some (wrapError
            ("failed to set controller reference for SealedSecret " ++ secret.Name) err), c)
        | Except.ok sealedSecret =>
          match clientGet c Kind.SealedSecret uc.Name secret.Name with
          | (Except.error err, c) =>
            if IsNotFound err then
              match clientCreate c sealedSecret with
              | (some err, c) =>
                (some (wrapError ("failed to create SealedSecret " ++ secret.Name) err), c)
              | (none, c) => reconcileSecrets u uc rest c
            else
              (some (wrapError ("failed to get existing SealedSecret " ++ secret.Name) err), c)
          | (Except.ok existing, c) =>
            let existing : Object := { existing with body := sealedSecret.body }
            match clientUpdate c existing with
            | (some err, c) =>
              (some (wrapError ("failed to update SealedSecret " ++ secret.Name) err), c)
            | (none, c) => reconcileSecrets u uc rest c

/-- The method `ReconcileSealedSecrets`. -/
def ReconcileSealedSecrets (u : UserConfigUseCase) (uc : UserConfig) (c : Cluster) :
    Option Error × Cluster :=
  match clientGet c Kind.Namespace "" uc.Name with
  | (Except.error err, c) =>
    (some (wrapError ("namespace " ++ uc.Name ++ " not found") err), c)
  | (Except.ok _, c) => reconcileSecrets u uc uc.Spec.Secrets c

/-! ## Credential issuer (`internal/usecase/kubeconfig_generator.go`) -/

namespace clientcmdapi

/-- The type `clientcmdapi.Cluster`, with the fields the engine reads or
sets; the CA bytes are represented by a string. -/
structure Cluster where
  Server : String := ""
  InsecureSkipTLSVerify : Bool := false
  CertificateAuthorityData : String := ""
deriving DecidableEq, Repr

/-- The type `clientcmdapi.AuthInfo`, with the field the engine sets. -/
structure AuthInfo where
  Token : String := ""
deriving DecidableEq, Repr

/-- The type `clientcmdapi.Context`. -/
structure Context where
  Cluster : String := ""
  AuthInfo : String := ""
  Namespace : String := ""
deriving DecidableEq, Repr

/-- The type `clientcmdapi.Config`: the access-configuration bundle. Its maps
are association lists. -/
structure Config where
  Kind : String := ""
  APIVersion : String := ""
  Clusters : List (String × Cluster) := []
  AuthInfos : List (String × AuthInfo) := []
  Contexts : List (String × Context) := []
  CurrentContext : String := ""
deriving DecidableEq, Repr

end clientcmdapi

/-- The type `rest.Config`, with the field the engine reads. -/
structure RestConfig where
  Insecure : Bool := false
deriving DecidableEq, Repr

/-- The type `authenticationv1.TokenRequestSpec`. -/
structure TokenRequestSpec where
  Audiences : List String := []
  ExpirationSeconds : Option Int := none
deriving DecidableEq, Repr

/-- The type `authenticationv1.TokenRequestStatus`, with the field the engine
reads. -/
structure TokenRequestStatus where
  Token : String := ""
deriving DecidableEq, Repr

/-- The type `authenticationv1.TokenRequest`. -/
structure TokenRequest where
  Spec : TokenRequestSpec := {}
  Status : TokenRequestStatus := {}
deriving DecidableEq, Repr

/-- What `GenerateAndSaveKubeconfig` reaches outside the controller's client:
the files `clientcmd.LoadFromFile` reads, the environment, the client
configuration, the token endpoint of the clientset it builds, and the
serializer `clientcmd.Write`, whose output bytes are a string. -/
structure Host where
  LoadFromFile : String → Except Error clientcmdapi.Config
  Getenv : String → String
  InClusterConfig : Except Error RestConfig
  GetConfig : Except Error RestConfig
  NewForConfig : RestConfig → Option Error
  CreateToken : String → String → TokenRequest → Except Error TokenRequest
  Write : clientcmdapi.Config → Except Error String

/-- The function `strings.Contains`. -/
def stringsContains (s substr : String) : Bool :=
  s.toList.tails.any (fun t => substr.toList.isPrefixOf t)

/-- The function `getKindServerAddress`: the cluster the current context of
the kubeconfig file points to, and its server address, which the caller uses
as the cluster name. -/
def getKindServerAddress (h : Host) : Except Error (clientcmdapi.Cluster × String) := do
  let kubeconfigPath := "/config"
  let config ←
    match h.LoadFromFile kubeconfigPath with
    | Except.error err =>
      if stringsContains err.msg "no such file or directory" then
        let kubeconfigPath := h.Getenv "KUBECONFIG"
        if kubeconfigPath = "" then
          Except.error { msg := "KUBECONFIG environment variable is not set" }
        else
          match h.LoadFromFile kubeconfigPath with
          | Except.error err =>
            Except.error (wrapError "failed to load kubeconfig from KUBECONFIG" err)
          | Except.ok config => Except.ok config
      else Except.error (wrapError "failed to load kubeconfig" err)
    | Except.ok config => Except.ok config
  let currentContext := config.CurrentContext
  if currentContext = "" then
    Except.error { msg := "no current context found in kubeconfig" }
  else
    match config.Contexts.lookup currentContext with
    | none => Except.error { msg := "context " ++ currentContext ++ " not found" }
    | some context =>
      match config.Clusters.lookup context.Cluster with
      | none => Except.error { msg := "cluster " ++ context.Cluster ++ " not found" }
      | some cluster => Except.ok (cluster, cluster.Server)

/-- The function `getKindCA`: the CA data of the cluster the current context
of the kubeconfig file points to. -/
def getKindCA (h : Host) : Except Error String := do
  let kubeconfigPath := "/config"
  let config ←
    match h.LoadFromFile kubeconfigPath with
    | Except.error err =>
      if stringsContains err.msg "no such file or directory" then
        let kubeconfigPath := h.Getenv "KUBECONFIG"
        if kubeconfigPath = "" then
          Except.error { msg := "KUBECONFIG environment variable is not set" }
        else
          match h.LoadFromFile kubeconfigPath with
          | Except.error err =>
            Except.error (wrapError "failed to load kubeconfig from KUBECONFIG" err)
          | Except.ok config => Except.ok config
      else Except.error (wrapError "failed to load kubeconfig" err)
    | Except.ok config => Except.ok config
  let currentContext := config.CurrentContext
  if currentContext = "" then
    Except.error { msg := "no current context found in kubeconfig" }
  else
    match config.Contexts.lookup currentContext with
    | none => Except.error { msg := "context " ++ currentContext ++ " not found" }
    | some context =>
      match config.Clusters.lookup context.Cluster with
      | none => Except.error { msg := "cluster " ++ context.Cluster ++ " not found" }
      | some cluster => Except.ok cluster.CertificateAuthorityData

/-- The value `tokenRequest` of `GenerateAndSaveKubeconfig`: no audiences and
an expiration of `int64(86400 * 365)` seconds. -/
def tokenRequest : TokenRequest :=
  let pointedValue : Int := 86400 * 365
  { Spec := { Audiences := [], ExpirationSeconds := some pointedValue } }

/-- The value `kubeconfig` of `GenerateAndSaveKubeconfig`: the bundle built
for an entity from the cluster and the cluster name `getKindServerAddress`
returned, the CA data, the client configuration and the token issued. -/
def kubeconfigOf (uc : UserConfig) (cluster : clientcmdapi.Cluster) (clusterName : String)
    (serverCA : String) (config : RestConfig) (token : String) : clientcmdapi.Config :=
  let contextName := uc.Name ++ "-context"
  { APIVersion := "v1",
    Kind := "Config",
    Clusters := [(clusterName, {
      Server := cluster.Server,
      CertificateAuthorityData := serverCA,
      InsecureSkipTLSVerify := config.Insecure })],
    Contexts := [(contextName, {
      Cluster := clusterName,
      AuthInfo := uc.Name,
      Namespace := uc.Name })],
    CurrentContext := contextName,
    AuthInfos := [(uc.Name, { Token := token })] }

/-- The value `kubeconfigSecret` of `GenerateAndSaveKubeconfig`, before the
owner reference is set. -/
def kubeconfigSecretOf (uc : UserConfig) (kubeconfigBytes : String) : Object :=
  { kind := Kind.Secret, Name := uc.Name ++ "-kubeconfig", Namespace := uc.Name,
    Labels := managedByLabels uc,
    body := Body.secret SecretTypeOpaque [("kubeconfig", kubeconfigBytes)] }

/-- The type of a stored Secret (`existing.Type`). -/
def Object.secretType (o : Object) : String :=
  match o.body with
  | Body.secret typ _ => typ
  | _ => ""

/-- The data of a stored Secret (`existing.Data`). -/
def Object.secretData (o : Object) : List (String × String) :=
  match o.body with
  | Body.secret _ data => data
  | _ => []

/-- The method `GenerateAndSaveKubeconfig`. -/
def GenerateAndSaveKubeconfig (u : UserConfigUseCase) (h : Host) (uc : UserConfig)
    (c : Cluster) : Option Error × Cluster :=
  match clientGet c Kind.ServiceAccount uc.Name uc.Name with
  | (Except.error err, c) => (some (wrapError "failed to get ServiceAccount" err), c)
  | (Except.ok _, c) =>
    match getKindServerAddress h with
    | Except.error err => (some (wrapError "failed to get Kind server address" err), c)
    | Except.ok (cluster, clusterName) =>
      match getKindCA h with
      | Except.error err => (some (wrapError "failed to get Kind CA" err), c)
      | Except.ok serverCA =>
        let config : Except Error RestConfig :=
          match h.InClusterConfig with
          | Except.error _ => h.GetConfig
          | Except.ok config => Except.ok config
        match config with
        | Except.error err =>
          (some (wrapError "failed to get any valid kubernetes config" err), c)
        | Except.ok config =>
          match h.NewForConfig config with
          | some err => (some (wrapError "failed to create clientset" err), c)
          | none =>
            match h.CreateToken uc.Name uc.Name tokenRequest with
            | Except.error err => (some (wrapError "failed to create token" err), c)
            | Except.ok tokenResponse =>
              if tokenResponse.Status.Token = "" then
                (some { msg := "received empty token from API" }, c)
              else
                let kubeconfig := kubeconfigOf uc cluster clusterName serverCA config
                  tokenResponse.Status.Token
                match h.Write kubeconfig with
                | Except.error err =>
                  (some (wrapError "failed to serialize kubeconfig" err), c)
                | Except.ok kubeconfigBytes =>
                  match SetControllerReference uc (kubeconfigSecretOf uc kubeconfigBytes)
                      u.Scheme with
                  | Except.error err =>
                    (some (wrapError "failed to set owner reference" err), c)
                  | Except.ok kubeconfigSecret =>
                    match clientCreate c kubeconfigSecret with
                    | (none, c) => (none, c)
                    | (some err, c) =>
                      if !IsAlreadyExists err then
                        (some (wrapError "failed to create kubeconfig secret" err), c)
                      else
                        match clientGet c Kind.Secret uc.Name kubeconfigSecret.Name with
                        | (Except.error err, c) =>
                          (some (wrapError "failed to get existing secret" err), c)
                        | (Except.ok existing, c) =>
                          let existing : Object :=
                            { existing with
                              body := Body.secret existing.secretType
                                kubeconfigSecret.secretData,
                              Labels := kubeconfigSecret.Labels }
                          match clientUpdate c existing with
                          | (some err, c) =>
                            (some (wrapError "failed to update kubeconfig secret" err), c)
                          | (none, c) => (none, c)

/-! ## Deletion (`internal/usecase/delete.go`) -/

/-- The method `HandleDeletion`. The second component is the entity the
caller holds after the call. -/
def HandleDeletion (_u : UserConfigUseCase) (uc : UserConfig) (c : Cluster) :
    Option Error × UserConfig × Cluster :=
  if !ContainsFinalizer uc "myoperator.01cloud.io/finalizer" then (none, uc, c)
  else
    let ns : Object := { kind := Kind.Namespace, Name := uc.Name }
    match clientDelete c ns with
    | (derr, c) =>
      if (match derr with
          | some err => !IsNotFound err
          | none => false) then (derr, uc, c)
      else
        let uc := RemoveFinalizer uc "myoperator.01cloud.io/finalizer"
        match clientUpdateUserConfig c uc with
        | (some err, uc, c) => (some err, uc, c)
        | (none, uc, c) => (none, uc, c)

/-! ## The reconcile loop (`internal/controller/userconfig_controller.go`) -/

/-- The methods of the interface `usecase.UseCase` that the controller calls.
A synthesis step receives the entity and the cluster, and either returns its
error and the cluster it leaves, or panics, as `ReconcileNamespace` and
`ReconcileLimitRange` of `UserConfigUseCase` do on a quantity that does not
parse; none of them writes to the entity it is given. `HandleDeletion`
returns: the one of `delete.go` makes no call that panics. -/
structure UseCase where
  ReconcileNamespace : UserConfig → Cluster → Except Panic (Option Error × Cluster)
  ReconcileSealedSecrets : UserConfig → Cluster → Except Panic (Option Error × Cluster)
  ReconcileRBAC : UserConfig → Cluster → Except Panic (Option Error × Cluster)
  ReconcileLimitRange : UserConfig → Cluster → Except Panic (Option Error × Cluster)
  GenerateAndSaveKubeconfig : UserConfig → Cluster → Except Panic (Option Error × Cluster)
  ReconcileNetworkPolicies : UserConfig → Cluster → Except Panic (Option Error × Cluster)
  HandleDeletion : UserConfig → Cluster → Option Error × UserConfig × Cluster

/-- The function `NewUserConfigUseCase`: the methods of `UserConfigUseCase`
behind the interface. The two that parse quantities may panic; the others
return. -/
def NewUserConfigUseCase (u : UserConfigUseCase) (host : Host) : UseCase :=
  { ReconcileNamespace := Zoperator.ReconcileNamespace u,
    ReconcileSealedSecrets := fun uc c => Except.ok (Zoperator.ReconcileSealedSecrets u uc c),
    ReconcileRBAC := fun uc c => Except.ok (Zoperator.ReconcileRBAC u uc c),
    ReconcileLimitRange := Zoperator.ReconcileLimitRange u,
    GenerateAndSaveKubeconfig := fun uc c =>
      Except.ok (Zoperator.GenerateAndSaveKubeconfig u host uc c),
    ReconcileNetworkPolicies := fun uc c =>
      Except.ok (Zoperator.ReconcileNetworkPolicies u uc c),
    HandleDeletion := Zoperator.HandleDeletion u }

/-- The type `UserConfigReconciler`: its embedded client is the `Cluster`. -/
structure UserConfigReconciler where
  UC : UseCase

/-- The six synthesis steps, named after the methods. -/
inductive Step
  | ReconcileNamespace
  | ReconcileSealedSecrets
  | ReconcileRBAC
  | ReconcileLimitRange
  | GenerateAndSaveKubeconfig
  | ReconcileNetworkPolicies
deriving DecidableEq, Repr

/-- What one pass of `Reconcile` did after reading the entity, in program
order: each entry is one call made by the controller, with the entity it sent
where there is one and the error the call returned; the call of a step that
panicked is entered with the panic. -/
inductive Action
  | updateFinalizer (uc : UserConfig) (err : Option Error)
  | invoke (step : Step) (err : Option Error)
  | handleDeletion (err : Option Error)
  | statusUpdate (uc : UserConfig) (err : Option Error)
  | panicked (step : Step) (p : Panic)
deriving DecidableEq, Repr

/-- The outcome of one pass: the returned error, the entity held in memory at
the return (none when it could not be read), the calls made, and the cluster
left behind. `Reconcile` has no `recover`: a panic raised by a step leaves it
at once, so nothing is returned and nothing more is called. `panicked` is that
panic; `err` is then nil, the entity and the calls are those at the call of
the step that panicked, and the cluster is the one the calls that returned
have left (what the step did before it panicked is not in it). -/
structure ReconcileResult where
  err : Option Error
  userConfig : Option UserConfig
  trace : List Action
  cluster : Cluster
  panicked : Option Panic := none

/-- The method `updateErrorStatus`; the trace is extended by the status
request it sends. -/
def updateErrorStatus (userConfig : UserConfig) (err : Error) (c : Cluster)
    (trace : List Action) : UserConfig × Cluster × List Action :=
  let userConfig : UserConfig :=
    { userConfig with Status := { userConfig.Status with
        State := "Error",
        Conditions := userConfig.Status.Conditions ++ [{
          Typ := ReadyCondition,
          Status := ConditionFalse,
          Reason := "Error",
          Message := err.msg,
          LastTransitionTime := c.now }] } }
  let out := clientStatusUpdate c userConfig
  (out.2.1, out.2.2, trace ++ [Action.statusUpdate userConfig out.1])

/-- The second half of `Reconcile` (from `// Create/Update namespace` to the
end): the six steps in order, then the success status, whose request gives
the returned error, nil or not. A step that panics ends the pass. -/
def reconcileSteps (r : UserConfigReconciler) (userConfig : UserConfig) (c : Cluster)
    (trace : List Action) : ReconcileResult :=
  match r.UC.ReconcileNamespace userConfig c with
  | Except.error p =>
    { err := none, userConfig := some userConfig,
      trace := trace ++ [Action.panicked Step.ReconcileNamespace p],
      cluster := c, panicked := some p }
  | Except.ok (some err, c) =>
    let out := updateErrorStatus userConfig (errorfV "Failed to reconcile namespace" err) c
      (trace ++ [Action.invoke Step.ReconcileNamespace (some err)])
    { err := some err, userConfig := some out.1, trace := out.2.2, cluster := out.2.1 }
  | Except.ok (none, c) =>
  let trace := trace ++ [Action.invoke Step.ReconcileNamespace none]
  match r.UC.ReconcileSealedSecrets userConfig c with
  | Except.error p =>
    { err := none, userConfig := some userConfig,
      trace := trace ++ [Action.panicked Step.ReconcileSealedSecrets p],
      cluster := c, panicked := some p }
  | Except.ok (some err, c) =>
    let out := updateErrorStatus userConfig (errorfV "Failed to reconcile sealed secrets" err) c
      (trace ++ [Action.invoke Step.ReconcileSealedSecrets (some err)])
    { err := some err, userConfig := some out.1, trace := out.2.2, cluster := out.2.1 }
  | Except.ok (none, c) =>
  let trace := trace ++ [Action.invoke Step.ReconcileSealedSecrets none]
  match r.UC.ReconcileRBAC userConfig c with
  | Except.error p =>
    { err := none, userConfig := some userConfig,
      trace := trace ++ [Action.panicked Step.ReconcileRBAC p],
      cluster := c, panicked := some p }
  | Except.ok (some err, c) =>
    let out := updateErrorStatus userConfig (errorfV "Failed to reconcile RBAC" err) c
      (trace ++ [Action.invoke Step.ReconcileRBAC (some err)])
    { err := some err, userConfig := some out.1, trace := out.2.2, cluster := out.2.1 }
  | Except.ok (none, c) =>
  let trace := trace ++ [Action.invoke Step.ReconcileRBAC none]
  match r.UC.ReconcileLimitRange userConfig c with
  | Except.error p =>
    { err := none, userConfig := some userConfig,
      trace := trace ++ [Action.panicked Step.ReconcileLimitRange p],
      cluster := c, panicked := some p }
  | Except.ok (some err, c) =>
    let out := updateErrorStatus userConfig (errorfV "Failed to reconcile LimitRange" err) c
      (trace ++ [Action.invoke Step.ReconcileLimitRange (some err)])
    { err := some err, userConfig := some out.1, trace := out.2.2, cluster := out.2.1 }
  | Except.ok (none, c) =>
  let trace := trace ++ [Action.invoke Step.ReconcileLimitRange none]
  match r.UC.GenerateAndSaveKubeconfig userConfig c with
  | Except.error p =>
    { err := none, userConfig := some userConfig,
      trace := trace ++ [Action.panicked Step.GenerateAndSaveKubeconfig p],
      cluster := c, panicked := some p }
  | Except.ok (some err, c) =>
    let out := updateErrorStatus userConfig (errorfV "Failed to generate and save kubeconfig" err) c
      (trace ++ [Action.invoke Step.GenerateAndSaveKubeconfig (some err)])
    { err := some err, userConfig := some out.1, trace := out.2.2, cluster := out.2.1 }
  | Except.ok (none, c) =>
  let trace := trace ++ [Action.invoke Step.GenerateAndSaveKubeconfig none]
  match r.UC.ReconcileNetworkPolicies userConfig c with
  | Except.error p =>
    { err := none, userConfig := some userConfig,
      trace := trace ++ [Action.panicked Step.ReconcileNetworkPolicies p],
      cluster := c, panicked := some p }
  | Except.ok (some err, c) =>
    let out := updateErrorStatus userConfig (errorfV "Failed to reconcile network policies" err) c
      (trace ++ [Action.invoke Step.ReconcileNetworkPolicies (some err)])
    { err := some err, userConfig := some out.1, trace := out.2.2, cluster := out.2.1 }
  | Except.ok (none, c) =>
  let trace := trace ++ [Action.invoke Step.ReconcileNetworkPolicies none]
  let userConfig : UserConfig :=
    { userConfig with Status := { userConfig.Status with
        State := "Active",
        Conditions := userConfig.Status.Conditions ++ [{
          Typ := ReadyCondition,
          Status := ConditionTrue,
          Reason := "Reconciled",
          Message := "UserConfig reconciled successfully",
          LastTransitionTime := c.now }] } }
  let out := clientStatusUpdate c userConfig
  { err := out.1, userConfig := some out.2.1,
    trace := trace ++ [Action.statusUpdate userConfig out.1], cluster := out.2.2 }

/-- The method `Reconcile`: read the entity, handle a deletion, persist the
finalizer, then run `reconcileSteps`. -/
def Reconcile (r : UserConfigReconciler) (req : Request) (c : Cluster) : ReconcileResult :=
  match clientGetUserConfig c req with
  | (Except.error err, c) =>
    { err := IgnoreNotFound err, userConfig := none, trace := [], cluster := c }
  | (Except.ok userConfig, c) =>
    if !TimeIsZero userConfig.DeletionTimestamp then
      if !ContainsFinalizer userConfig userConfigFinalizer then
        { err := none, userConfig := some userConfig, trace := [], cluster := c }
      else
        match r.UC.HandleDeletion userConfig c with
        | (some err, userConfig, c) =>
          { err := some err, userConfig := some userConfig,
            trace := [Action.handleDeletion (some err)], cluster := c }
        | (none, userConfig, c) =>
          { err := none, userConfig := some userConfig,
            trace := [Action.handleDeletion none], cluster := c }
    else if !ContainsFinalizer userConfig userConfigFinalizer then
      let userConfig := AddFinalizer userConfig userConfigFinalizer
      match clientUpdateUserConfig c userConfig with
      | (some err, uc1, c) =>
        let out := updateErrorStatus uc1 (errorfV "Failed to update finalizer" err) c
          [Action.updateFinalizer userConfig (some err)]
        { err := some err, userConfig := some out.1, trace := out.2.2, cluster := out.2.1 }
      | (none, uc1, c) =>
        reconcileSteps r uc1 c [Action.updateFinalizer userConfig none]
    else
      reconcileSteps r userConfig c []

/-- The use case the operator runs in production, as far as the controller's
deletion path goes: any six steps, with `HandleDeletion` of `delete.go`. -/
def withHandleDeletion (steps : UseCase) (u : UserConfigUseCase) : UseCase :=
  { steps with HandleDeletion := Zoperator.HandleDeletion u }

/-- The order in which the specification lists the six steps. -/
def stepOrder : List Step :=
  [Step.ReconcileNamespace, Step.ReconcileSealedSecrets, Step.ReconcileRBAC,
   Step.ReconcileLimitRange, Step.GenerateAndSaveKubeconfig, Step.ReconcileNetworkPolicies]

/-- The steps invoked in a trace that returned, with the error each returned,
in order. -/
def invokedSteps : List Action → List (Step × Option Error)
  | [] => []
  | Action.invoke step err :: rest => (step, err) :: invokedSteps rest
  | _ :: rest => invokedSteps rest

/-- The steps called in a trace, in order: those that returned and the one
that panicked. -/
def calledSteps : List Action → List Step
  | [] => []
  | Action.invoke step _ :: rest => step :: calledSteps rest
  | Action.panicked step _ :: rest => step :: calledSteps rest
  | _ :: rest => calledSteps rest

/-- The errors returned by the finalizer update and by the steps of a trace,
in order. -/
def failures : List Action → List Error
  | [] => []
  | Action.updateFinalizer _ (some err) :: rest => err :: failures rest
  | Action.invoke _ (some err) :: rest => err :: failures rest
  | _ :: rest => failures rest

/-- The status requests sent in a trace, in order. -/
def statusUpdates : List Action → List UserConfig
  | [] => []
  | Action.statusUpdate uc _ :: rest => uc :: statusUpdates rest
  | _ :: rest => statusUpdates rest

/-- The results of the status requests sent in a trace, in order. -/
def statusResults : List Action → List (Option Error)
  | [] => []
  | Action.statusUpdate _ err :: rest => err :: statusResults rest
  | _ :: rest => statusResults rest

/-- The cluster after the given number of passes of `Reconcile` for one
request, each starting from the cluster the previous one left. -/
def passes (r : UserConfigReconciler) (req : Request) : Nat → Cluster → Cluster
  | 0, c => c
  | n + 1, c => passes r req n (Reconcile r req c).cluster

/-- Whether the pass that starts from a cluster reads an entity that is not
marked for deletion and has its one status request accepted. -/
def acceptedLivePass (r : UserConfigReconciler) (req : Request) (c : Cluster) : Bool :=
  match (clientGetUserConfig c req).1 with
  | Except.ok uc =>
    TimeIsZero uc.DeletionTimestamp &&
      decide (statusResults (Reconcile r req c).trace = [none])
  | Except.error _ => false

/-- The condition list stored for the entity of a name, if the entity is
stored. -/
def storedConditions (c : Cluster) (name : String) : Option (List Condition) :=
  (c.lookupUserConfig name).map (fun uc => uc.Status.Conditions)

/-! ## The requests of a run of the synthesizers -/

/-- The six synthesis steps of `UserConfigUseCase` in the order in which
`Reconcile` invokes them, each on the cluster the previous one left, up to the
first that fails; the status bookkeeping of the controller is left out. -/
def synthesize (u : UserConfigUseCase) (host : Host) (uc : UserConfig) (c : Cluster) :
    Except Panic (Option Error × Cluster) := do
  let out ← ReconcileNamespace u uc c
  match out with
  | (some err, c) => pure (some err, c)
  | (none, c) =>
  match ReconcileSealedSecrets u uc c with
  | (some err, c) => pure (some err, c)
  | (none, c) =>
  match ReconcileRBAC u uc c with
  | (some err, c) => pure (some err, c)
  | (none, c) => do
  let out ← ReconcileLimitRange u uc c
  match out with
  | (some err, c) => pure (some err, c)
  | (none, c) =>
  match GenerateAndSaveKubeconfig u host uc c with
  | (some err, c) => pure (some err, c)
  | (none, c) =>
  match ReconcileNetworkPolicies u uc c with
  | (some err, c) => pure (some err, c)
  | (none, c) => pure (none, c)

/-- The requests of a log that create or update a derived object. -/
def writes (calls : List Call) : List Call :=
  calls.filter (fun call =>
    match call with
    | Call.create _ => true
    | Call.update _ => true
    | _ => false)

/-- The keys of the objects a cluster stores, in order. -/
def storedKeys (c : Cluster) : List (Kind × String × String) :=
  c.objects.map (fun o => (o.kind, o.Namespace, o.Name))

/-- The requests a cluster received since an earlier state. -/
def newCalls (c c' : Cluster) : List Call :=
  c'.calls.drop c.calls.length

/-- The objects sent in the update requests of a log. -/
def updatedObjects (calls : List Call) : List Object :=
  calls.filterMap (fun call =>
    match call with
    | Call.update obj => some obj
    | _ => none)

/-- The objects sent in the create requests of a log. -/
def createdObjects (calls : List Call) : List Object :=
  calls.filterMap (fun call =>
    match call with
    | Call.create obj => some obj
    | _ => none)

/-- The key the specification gives to a derived object of an entity: a
Namespace has no namespace, every other kind lives in the namespace named
after the entity; the kubeconfig Secret is named after the entity with the
suffix -kubeconfig, a SealedSecret after one of the declared secrets, and
every other object after the entity. -/
def derivedKey (entity : String) (secrets : List String) (kind : Kind) (ns name : String) :
    Prop :=
  ns = (if kind = Kind.Namespace then "" else entity) ∧
  match kind with
  | Kind.Secret => name = entity ++ "-kubeconfig"
  | Kind.SealedSecret => name ∈ secrets
  | _ => name = entity

/-- Whether a request reads or writes a derived object under the key the
specification gives it. -/
def addressesDerived (uc : UserConfig) : Call → Prop
  | Call.get kind ns name =>
    derivedKey uc.Name (uc.Spec.Secrets.map (fun s => s.Name)) kind ns name
  | Call.create obj =>
    derivedKey uc.Name (uc.Spec.Secrets.map (fun s => s.Name)) obj.kind obj.Namespace obj.Name
  | Call.update obj =>
    derivedKey uc.Name (uc.Spec.Secrets.map (fun s => s.Name)) obj.kind obj.Namespace obj.Name
  | _ => False

/-- Whether an object carries a controller owner reference to the entity. -/
def ownedBy (uc : UserConfig) (obj : Object) : Bool :=
  obj.OwnerReferences.any (fun ref =>
    decide (ref.Name = uc.Name ∧ ref.UID = uc.UID ∧ ref.Controller = some true))

/-- What holds of the owner references of an object submitted for creation:
a ResourceQuota has none, an object of any other kind has one to the
entity. -/
def createdOwned (uc : UserConfig) : Call → Prop
  | Call.create obj =>
    if obj.kind = Kind.ResourceQuota then obj.OwnerReferences = [] else ownedBy uc obj = true
  | _ => True

/-- The requests a cluster received since an earlier state are requests for
derived objects of the entity under their keys, and each creation among them
satisfies `createdOwned`. -/
def requestsSince (uc : UserConfig) (c0 c : Cluster) : Prop :=
  ∃ rest, c.calls = c0.calls ++ rest ∧
    ∀ call ∈ rest, addressesDerived uc call ∧ createdOwned uc call

/-- The requests a cluster received since an earlier state all satisfy a
property. -/
def callsSince (q : Call → Prop) (c0 c : Cluster) : Prop :=
  ∃ rest, c.calls = c0.calls ++ rest ∧ ∀ call ∈ rest, q call

/-- What the specification says of the kubeconfig Secret of an entity: it is
the Secret named after the entity with the suffix -kubeconfig in the namespace
of the entity, and its data is, under the key kubeconfig, the serialized
bundle built from the cluster and CA data of the kubeconfig file and from the
non-empty token the token endpoint returned for `tokenRequest`. -/
def holdsBundle (host : Host) (uc : UserConfig) (obj : Object) : Prop :=
  ∃ (cluster : clientcmdapi.Cluster) (clusterName serverCA : String) (config : RestConfig)
    (tokenResponse : TokenRequest) (kubeconfigBytes : String),
    getKindServerAddress host = Except.ok (cluster, clusterName) ∧
    getKindCA host = Except.ok serverCA ∧
    host.CreateToken uc.Name uc.Name tokenRequest = Except.ok tokenResponse ∧
    tokenResponse.Status.Token ≠ "" ∧
    host.Write (kubeconfigOf uc cluster clusterName serverCA config
      tokenResponse.Status.Token) = Except.ok kubeconfigBytes ∧
    obj.kind = Kind.Secret ∧ obj.Namespace = uc.Name ∧ obj.Name = uc.Name ++ "-kubeconfig" ∧
    obj.secretData = [("kubeconfig", kubeconfigBytes)]

/-- What holds of a request of `GenerateAndSaveKubeconfig`: an object it
creates or updates is the kubeconfig Secret holding the bundle. -/
def writesBundle (host : Host) (uc : UserConfig) : Call → Prop
  | Call.create obj => holdsBundle host uc obj
  | Call.update obj => holdsBundle host uc obj
  | _ => True

/-! ## The tables and built-in values the specification refers to -/

/-- The aliases `getAPIGroup` has a case for. -/
def apiGroupAliases : List String :=
  ["deployments", "deployment", "replicasets", "replicaset", "statefulsets", "statefulset",
   "daemonsets", "daemonset", "scaledeployment", "scalereplicaset",
   "pods", "pod", "services", "service", "resourcequotas", "resourcequota", "limitranges",
   "limitrange", "secret", "secrets", "namespaces", "namespace", "serviceaccounts",
   "serviceaccount", "logs", "configmaps", "configmap", "persistentvolumeclaims",
   "persistentvolumeclaim", "persistentvolumes", "persistentvolume",
   "rolebindings", "rolebinding", "roles", "role",
   "networkpolicies", "networkpolicy", "sealedsecrets", "sealedsecret",
   "ingresses", "ingress"]

/-- The aliases `mapActualResource` has a case for. -/
def resourceAliases : List String :=
  ["deployment", "deployments", "replicaset", "replicasets", "statefulset", "statefulsets",
   "daemonset", "daemonsets", "pod", "pods", "service", "services", "resourcequota",
   "resourcequotas", "limitrange", "limitranges", "secret", "secrets", "namespace",
   "namespaces", "serviceaccount", "serviceaccounts", "role", "roles", "rolebinding",
   "rolebindings", "networkpolicy", "networkpolicies", "sealedsecret", "sealedsecrets",
   "logs", "scaledeployment", "scalereplicaset", "ingress", "ingresses"]

/-- The peer the specification gives to one pod selector: a pod selector with
those match labels and nothing else. -/
def podPeer (labels : List (String × String)) : networkingv1.NetworkPolicyPeer :=
  { PodSelector := some { MatchLabels := labels }, NamespaceSelector := none }

/-- The peer the specification gives to one namespace selector. -/
def namespacePeer (labels : List (String × String)) : networkingv1.NetworkPolicyPeer :=
  { PodSelector := none, NamespaceSelector := some { MatchLabels := labels } }

/-- The built-in quota: pods 10, cpu 2, memory 4Gi. -/
def builtinQuota : ResourceList :=
  [("pods", { text := "10" }), ("cpu", { text := "2" }), ("memory", { text := "4Gi" })]

/-- The built-in limit envelope: default 500m/1Gi, defaultRequest 250m/512Mi,
min 50m/64Mi, max 2/4Gi, for containers. -/
def builtinLimits : LimitRangeItem :=
  { Typ := "Container",
    Default := [("cpu", { text := "500m" }), ("memory", { text := "1Gi" })],
    DefaultRequest := [("cpu", { text := "250m" }), ("memory", { text := "512Mi" })],
    Min := [("cpu", { text := "50m" }), ("memory", { text := "64Mi" })],
    Max := [("cpu", { text := "2" }), ("memory", { text := "4Gi" })] }

/-- The tier the specification describes: the cpu and memory the entry gives,
or the built-in tier when the entry leaves the tier out. -/
def tierOf (tier : Option Resources) (builtin : ResourceList) : ResourceList :=
  match tier with
  | none => builtin
  | some r => [("cpu", { text := r.CPU }), ("memory", { text := r.Memory })]

/-- Whether the quantities of a supplied tier parse. -/
def tierValid (tier : Option Resources) : Bool :=
  match tier with
  | none => true
  | some r => validQuantity r.CPU && validQuantity r.Memory

/-- Whether every quantity `ReconcileLimitRange` parses for an entry is a
quantity: max and min, and for an entry that is not of type Pod also default
and defaultRequest. -/
def limitValid (l : LimitRangeLimit) : Bool :=
  tierValid l.Max && tierValid l.Min &&
    (decide (l.Typ = LimitTypePod) || (tierValid l.Default && tierValid l.DefaultRequest))

/-- The supplied limit entries of an entity. -/
def suppliedLimits (limitRange : Option LimitRangeSpec) : List LimitRangeLimit :=
  match limitRange with
  | none => []
  | some lr => lr.Limits

/-- What the specification says of the item synthesized for one supplied
limit entry: the same type; for max and min the tier of the entry or the
built-in one; for default and defaultRequest the same unless the entry is of
type Pod, in which case both are absent. -/
def itemMatches (l : LimitRangeLimit) (item : LimitRangeItem) : Prop :=
  item.Typ = l.Typ ∧
  item.Max = tierOf l.Max builtinLimits.Max ∧
  item.Min = tierOf l.Min builtinLimits.Min ∧
  (l.Typ ≠ LimitTypePod →
    item.Default = tierOf l.Default builtinLimits.Default ∧
    item.DefaultRequest = tierOf l.DefaultRequest builtinLimits.DefaultRequest) ∧
  (l.Typ = LimitTypePod → item.Default = [] ∧ item.DefaultRequest = [])

/-! ## Concrete instances used to exercise the theorems -/

/-- The error an example step fails with. -/
def exampleError : Error :=
  { msg := "quota exceeded" }

/-- A use case whose six steps leave the cluster alone and succeed, except the
given one, which fails; its `HandleDeletion` is the one of `delete.go`. -/
def failingUseCase (failing : Option Step) : UseCase :=
  { ReconcileNamespace := fun _ c =>
      Except.ok (if failing = some Step.ReconcileNamespace then some exampleError else none, c),
    ReconcileSealedSecrets := fun _ c =>
      Except.ok (if failing = some Step.ReconcileSealedSecrets then some exampleError else none, c),
    ReconcileRBAC := fun _ c =>
      Except.ok (if failing = some Step.ReconcileRBAC then some exampleError else none, c),
    ReconcileLimitRange := fun _ c =>
      Except.ok (if failing = some Step.ReconcileLimitRange then some exampleError else none, c),
    GenerateAndSaveKubeconfig := fun _ c =>
      Except.ok (if failing = some Step.GenerateAndSaveKubeconfig then some exampleError else none, c),
    ReconcileNetworkPolicies := fun _ c =>
      Except.ok (if failing = some Step.ReconcileNetworkPolicies then some exampleError else none, c),
    HandleDeletion := Zoperator.HandleDeletion {} }

/-- The request for the entity alice. -/
def aliceRequest : Request :=
  { Name := "alice" }

/-- A cluster that stores the given entity and its namespace, and rejects no
request. -/
def clusterWith (uc : UserConfig) : Cluster :=
  { userConfigs := [uc], objects := [{ kind := Kind.Namespace, Name := uc.Name }] }

/-- The entity alice, marked for deletion and carrying the finalizer. -/
def deletedEntity : UserConfig :=
  { podsEntity "CRUD" with DeletionTimestamp := some 1, Finalizers := [userConfigFinalizer] }

/-- A rule allowing traffic from the pods labelled app=frontend on port 8080. -/
def frontendRule : NetworkPolicy :=
  { AllowTrafficFrom := some { Pods := [[("app", "frontend")]], Ports := [{ Port := 8080 }] } }

/-- A rule allowing traffic to the namespace named database. -/
def databaseRule : NetworkPolicy :=
  { AllowTrafficTo := some { Namespaces := [[("kubernetes.io/metadata.name", "database")]] } }

/-- A rule whose allow-from peer lists a port and no selector. -/
def portsOnlyRule : NetworkPolicy :=
  { AllowTrafficFrom := some { Ports := [{ Port := 80 }] } }

/-- The quota override of the end-to-end test: pods 5, cpu 1. -/
def e2eQuota : ResourceQuotaSpec :=
  { Pods := "5", CPU := "1" }

/-- The limit range of the end-to-end test: one Container entry with max 1/1Gi
and min 100m/128Mi. -/
def e2eLimitRange : LimitRangeSpec :=
  { Limits := [{
      Typ := "Container",
      Max := some { CPU := "1", Memory := "1Gi" },
      Min := some { CPU := "100m", Memory := "128Mi" } }] }

/-- The entity of the end-to-end test, named alice here. -/
def e2eEntity : UserConfig :=
  { podsEntity "CRUD" with
    Spec := { (podsEntity "CRUD").Spec with
      ResourceQuotas := some e2eQuota, LimitRange := some e2eLimitRange } }

/-- A limit range with one Pod entry that supplies a max and, though they are
not valid at pod scope, a default and a defaultRequest that do not parse. -/
def podLimitRange : LimitRangeSpec :=
  { Limits := [{
      Typ := "Pod",
      Max := some { CPU := "2", Memory := "2Gi" },
      Default := some { CPU := "lots", Memory := "" },
      DefaultRequest := some { CPU := "", Memory := "some" } }] }

/-- A limit range with one Pod entry whose max gives a cpu and no memory. -/
def podCpuOnlyLimitRange : LimitRangeSpec :=
  { Limits := [{ Typ := "Pod", Max := some { CPU := "1" } }] }

/-- The entity alice with the limit range whose Pod entry gives only a cpu. -/
def podCpuOnlyEntity : UserConfig :=
  { podsEntity "CRUD" with
    Spec := { (podsEntity "CRUD").Spec with LimitRange := some podCpuOnlyLimitRange } }

/-- The entity alice with a quota override whose cpu has a suffix that is not
one of the quantity grammar, though the pattern of the field admits it. -/
def badQuotaEntity : UserConfig :=
  { podsEntity "CRUD" with
    Spec := { (podsEntity "CRUD").Spec with ResourceQuotas := some { CPU := "1KK" } } }

/-- The entity alice with a Container limit entry whose max memory is not a
quantity. -/
def badLimitEntity : UserConfig :=
  { podsEntity "CRUD" with
    Spec := { (podsEntity "CRUD").Spec with
      LimitRange := some { Limits := [{
        Typ := "Container", Max := some { CPU := "1", Memory := "lots" } }] } } }

/-- A stored object of the entity alice that carries a label and an
annotation the engine does not set. -/
def labelledObject (kind : Kind) : Object :=
  { kind := kind, Name := "alice", Namespace := "alice",
    Labels := [("team", "blue")], Annotations := [("note", "kept")] }

/-- A cluster that stores a Role, a ServiceAccount and a RoleBinding of the
entity alice, each with a label and an annotation of someone else. -/
def labelledCluster : Cluster :=
  { objects := [labelledObject Kind.Role, labelledObject Kind.ServiceAccount,
      labelledObject Kind.RoleBinding] }

/-- The kubeconfig file of a kind cluster. -/
def kindConfig : clientcmdapi.Config :=
  { Clusters := [("kind-kind", {
      Server := "https://127.0.0.1:6443", CertificateAuthorityData := "kind-ca" })],
    Contexts := [("kind-kind", { Cluster := "kind-kind", AuthInfo := "kind-kind" })],
    CurrentContext := "kind-kind",
    AuthInfos := [("kind-kind", {})] }

/-- A host whose file /config is the kubeconfig of a kind cluster, which runs
in the cluster, and whose token endpoint issues the given token; a bundle is
serialized, for the example, to its current context, server and token. -/
def kindHost (token : String) : Host :=
  { LoadFromFile := fun path =>
      if path = "/config" then Except.ok kindConfig
      else Except.error { msg := "open " ++ path ++ ": no such file or directory" },
    Getenv := fun _ => "",
    InClusterConfig := Except.ok {},
    GetConfig := Except.ok {},
    NewForConfig := fun _ => none,
    CreateToken := fun _ _ request => Except.ok { request with Status := { Token := token } },
    Write := fun config =>
      Except.ok (String.intercalate " "
        (config.CurrentContext :: config.Clusters.map (fun p => p.2.Server) ++
          config.AuthInfos.map (fun p => p.2.Token))) }

/-- The entity of the end-to-end test under its own name, test-user. -/
def testUser : UserConfig :=
  { e2eEntity with Name := "test-user" }

/-- The entity alice of the end-to-end test with one sealed secret. -/
def sealedEntity : UserConfig :=
  { e2eEntity with
    Spec := { e2eEntity.Spec with
      Secrets := [{
        Name := "db-password",
        Typ := "sealed",
        SealedSecret := some { EncryptedData := [("password", "AgCCCQB6")] } }] } }

/-- The cluster a first run of the six steps leaves for the entity with the
sealed secret, starting from an empty one. -/
def convergedCluster : Cluster :=
  match synthesize {} (kindHost "token-1") sealedEntity {} with
  | Except.ok (_, c) => c
  | Except.error _ => {}

/-- The reconciler of the operator: the methods of `UserConfigUseCase` behind
the interface, on the host of a kind cluster. -/
def kindReconciler : UserConfigReconciler :=
  { UC := NewUserConfigUseCase {} (kindHost "token-1") }

/-! ## Lemmas on the permission translator -/

theorem mem_setInsert (m : List String) (k v : String) :
    v ∈ setInsert m k ↔ v ∈ m ∨ v = k := by
  unfold setInsert
  split
  · constructor
    · intro h; exact Or.inl h
    · rintro (h | rfl)
      · exact h
      · assumption
  · simp

theorem nodup_setInsert (m : List String) (k : String) (h : m.Nodup) :
    (setInsert m k).Nodup := by
  unfold setInsert
  split
  · exact h
  · rename_i hk
    exact List.Nodup.append h (List.nodup_singleton k) (by simpa using hk)

theorem mem_foldl_setInsert (l : List String) (acc : List String) (v : String) :
    v ∈ l.foldl setInsert acc ↔ v ∈ acc ∨ v ∈ l := by
  induction l generalizing acc with
  | nil => simp
  | cons a t ih =>
    simp only [List.foldl_cons, ih, mem_setInsert, List.mem_cons]
    tauto

theorem mem_addVerbs (m : List String) (op v : String) :
    v ∈ addVerbs m op ↔ v ∈ m ∨ v ∈ addedVerbs op := by
  unfold addVerbs addedVerbs
  split_ifs <;> simp [mem_setInsert] <;> tauto

theorem nodup_addVerbs (m : List String) (op : String) (h : m.Nodup) :
    (addVerbs m op).Nodup := by
  unfold addVerbs
  split_ifs
  · exact nodup_setInsert _ _ h
  · exact nodup_setInsert _ _ (nodup_setInsert _ _ (nodup_setInsert _ _ h))
  · exact nodup_setInsert _ _ (nodup_setInsert _ _ h)
  · exact nodup_setInsert _ _ h
  · exact h

theorem mem_foldl_addVerbs (l : List String) (acc : List String) (v : String) :
    v ∈ l.foldl addVerbs acc ↔ v ∈ acc ∨ ∃ op ∈ l, v ∈ addedVerbs op := by
  induction l generalizing acc with
  | nil => simp
  | cons a t ih =>
    simp only [List.foldl_cons, ih, mem_addVerbs, List.mem_cons, exists_eq_or_imp]
    tauto

theorem nodup_foldl_addVerbs (l : List String) (acc : List String) (h : acc.Nodup) :
    (l.foldl addVerbs acc).Nodup := by
  induction l generalizing acc with
  | nil => simpa using h
  | cons a t ih => exact ih _ (nodup_addVerbs acc a h)

theorem toString_eq_singleton (c d : Char) : c.toString = d.toString ↔ c = d := by
  constructor
  · intro h
    have := congrArg String.data h
    simpa [Char.toString, String.singleton] using this
  · rintro rfl; rfl

theorem addedVerbs_toString (c : Char) : addedVerbs c.toString = specVerbSet c := by
  unfold addedVerbs specVerbSet
  have hC : ("C" : String) = Char.toString 'C' := rfl
  have hR : ("R" : String) = Char.toString 'R' := rfl
  have hU : ("U" : String) = Char.toString 'U' := rfl
  have hD : ("D" : String) = Char.toString 'D' := rfl
  simp only [hC, hR, hU, hD, toString_eq_singleton]

/-- Membership in the verb map built by `mapCRUDToVerbs` before sorting. -/
theorem mem_verbMap (op v : String) :
    v ∈ ((explode op).foldl setInsert []).foldl addVerbs [] ↔
      ∃ c ∈ op.toList, v ∈ specVerbSet c := by
  rw [mem_foldl_addVerbs]
  simp only [List.not_mem_nil, false_or, mem_foldl_setInsert, explode, List.mem_map]
  constructor
  · rintro ⟨_, ⟨c, hc, rfl⟩, hv⟩
    exact ⟨c, hc, by rwa [addedVerbs_toString] at hv⟩
  · rintro ⟨c, hc, hv⟩
    exact ⟨c.toString, ⟨c, hc, rfl⟩, by rwa [addedVerbs_toString]⟩

theorem specVerbSet_subset (c : Char) : specVerbSet c ⊆ allVerbs := by
  unfold specVerbSet allVerbs
  split_ifs <;> simp

theorem specVerbSet_ne_nil_iff (c : Char) :
    specVerbSet c ≠ [] ↔ c ∈ ['C', 'R', 'U', 'D'] := by
  unfold specVerbSet
  split_ifs <;> simp_all

theorem goBytes_injOn_allVerbs :
    ∀ a ∈ allVerbs, ∀ b ∈ allVerbs, goBytes a = goBytes b → a = b := by
  decide

theorem sortStrings_perm (l : List String) : (sortStrings l).Perm l :=
  List.perm_insertionSort _ l

theorem sortStrings_sorted (l : List String) :
    List.Sorted (fun a b => goBytes a ≤ goBytes b) (sortStrings l) := by
  haveI : IsTotal String (fun a b => goBytes a ≤ goBytes b) := ⟨fun a b => le_total _ _⟩
  haveI : IsTrans String (fun a b => goBytes a ≤ goBytes b) :=
    ⟨fun a b c hab hbc => le_trans hab hbc⟩
  exact List.sorted_insertionSort _ l

/-- Sorting a duplicate-free list of verbs gives a strictly ascending list. -/
theorem sortStrings_strict (l : List String) (hn : l.Nodup) (hs : l ⊆ allVerbs) :
    List.Sorted goLess (sortStrings l) := by
  have hp := sortStrings_perm l
  have hn2 : (sortStrings l).Nodup := hp.nodup_iff.mpr hn
  have hsorted := sortStrings_sorted l
  have := List.Pairwise.and hsorted hn2
  refine List.Pairwise.imp_of_mem ?_ this
  intro a b ha hb hab
  have ha2 : a ∈ allVerbs := hs (hp.mem_iff.mp ha)
  have hb2 : b ∈ allVerbs := hs (hp.mem_iff.mp hb)
  unfold goLess
  rcases lt_or_eq_of_le hab.1 with h | h
  · exact h
  · exact absurd (goBytes_injOn_allVerbs a ha2 b hb2 h) hab.2

/-- Go leaves the iteration order of a map unspecified; `mapCRUDToVerbs` fixes
one. Whatever order the two `range` loops take, over the same set of unique
operations and the same set of verbs, the sorted result is the one computed
here. -/
theorem mapCRUDToVerbs_iteration_order (op : String) (ops verbs : List String)
    (hops : ∀ o, o ∈ ops ↔ o ∈ (explode op).foldl setInsert [])
    (hverbs : ∀ v, v ∈ verbs ↔ v ∈ ops.foldl addVerbs []) (hnd : verbs.Nodup) :
    (if (sortStrings verbs).length = 0 then ["get", "list", "watch"] else sortStrings verbs) =
      mapCRUDToVerbs op := by
  have hmem : ∀ v, v ∈ verbs ↔
      v ∈ ((explode op).foldl setInsert []).foldl addVerbs [] := by
    intro v
    rw [hverbs, mem_foldl_addVerbs, mem_foldl_addVerbs]
    simp only [hops]
  have hnd2 : (((explode op).foldl setInsert []).foldl addVerbs []).Nodup :=
    nodup_foldl_addVerbs _ _ List.nodup_nil
  have hsub2 : ((explode op).foldl setInsert []).foldl addVerbs [] ⊆ allVerbs := by
    intro v hv
    obtain ⟨c, _, hc⟩ := (mem_verbMap op v).mp hv
    exact specVerbSet_subset c hc
  have hsub : verbs ⊆ allVerbs := fun v hv => hsub2 ((hmem v).mp hv)
  have hperm : (sortStrings verbs).Perm
      (sortStrings (((explode op).foldl setInsert []).foldl addVerbs [])) :=
    ((sortStrings_perm verbs).trans ((List.perm_ext_iff_of_nodup hnd hnd2).mpr hmem)).trans
      (sortStrings_perm _).symm
  haveI : IsAntisymm String goLess :=
    ⟨fun a b hab hba => absurd hab (not_lt_of_gt hba)⟩
  have heq : sortStrings verbs =
      sortStrings (((explode op).foldl setInsert []).foldl addVerbs []) :=
    List.eq_of_perm_of_sorted hperm (sortStrings_strict verbs hnd hsub)
      (sortStrings_strict _ hnd2 hsub2)
  rw [heq]
  rfl

/-- Claim C1. For every operation string, `mapCRUDToVerbs` returns a strictly
ascending (so sorted and duplicate-free) list; when the string contains one of
C, R, U, D the list holds exactly the verbs of the union of the verb sets of
its characters, and otherwise it is exactly get, list, watch. The result is
never empty and holds only verbs among the seven. -/
theorem mapCRUDToVerbs_contract (op : String) :
    List.Sorted goLess (mapCRUDToVerbs op) ∧ (mapCRUDToVerbs op).Nodup ∧
    (if ∃ c ∈ op.toList, c ∈ ['C', 'R', 'U', 'D'] then
        ∀ v, v ∈ mapCRUDToVerbs op ↔ ∃ c ∈ op.toList, v ∈ specVerbSet c
      else mapCRUDToVerbs op = ["get", "list", "watch"]) ∧
    mapCRUDToVerbs op ≠ [] ∧ mapCRUDToVerbs op ⊆ allVerbs := by
  set vm := ((explode op).foldl setInsert []).foldl addVerbs [] with hvm
  have hmem : ∀ v, v ∈ vm ↔ ∃ c ∈ op.toList, v ∈ specVerbSet c := mem_verbMap op
  have hnd : vm.Nodup := nodup_foldl_addVerbs _ _ List.nodup_nil
  have hsub : vm ⊆ allVerbs := by
    intro v hv
    obtain ⟨c, _, hc⟩ := (hmem v).mp hv
    exact specVerbSet_subset c hc
  have hperm := sortStrings_perm vm
  have hdef : mapCRUDToVerbs op =
      if (sortStrings vm).length = 0 then ["get", "list", "watch"] else sortStrings vm := rfl
  by_cases hrec : ∃ c ∈ op.toList, c ∈ ['C', 'R', 'U', 'D']
  · obtain ⟨c, hc, hcr⟩ := hrec
    have hne : specVerbSet c ≠ [] := (specVerbSet_ne_nil_iff c).mpr hcr
    obtain ⟨v, hv⟩ := List.exists_mem_of_ne_nil _ hne
    have hvvm : v ∈ vm := (hmem v).mpr ⟨c, hc, hv⟩
    have hlen : (sortStrings vm).length ≠ 0 := by
      rw [hperm.length_eq]
      exact List.length_pos_of_mem hvvm |>.ne'
    have heq : mapCRUDToVerbs op = sortStrings vm := by rw [hdef, if_neg hlen]
    rw [heq]
    refine ⟨sortStrings_strict vm hnd hsub, hperm.nodup_iff.mpr hnd, ?_, ?_, ?_⟩
    · rw [if_pos ⟨c, hc, hcr⟩]
      intro w
      rw [hperm.mem_iff]
      exact hmem w
    · intro h
      rw [h] at hlen
      exact hlen rfl
    · intro w hw
      exact hsub (hperm.mem_iff.mp hw)
  · have hnil : vm = [] := by
      apply List.eq_nil_iff_forall_not_mem.mpr
      intro v hv
      obtain ⟨c, hc, hcv⟩ := (hmem v).mp hv
      exact hrec ⟨c, hc, (specVerbSet_ne_nil_iff c).mp (List.ne_nil_of_mem hcv)⟩
    have heq : mapCRUDToVerbs op = ["get", "list", "watch"] := by
      rw [hdef, hnil]; rfl
    rw [heq, if_neg hrec]
    refine ⟨?_, by decide, rfl, by simp, ?_⟩
    · have hfix : sortStrings ["get", "list", "watch"] = ["get", "list", "watch"] := by decide
      have hstrict := sortStrings_strict ["get", "list", "watch"] (by decide) (by decide)
      rwa [hfix] at hstrict
    · unfold allVerbs; intro w hw; simp at hw ⊢; tauto

/-- Claim C9. On the wildcard operation string the code takes the fallback of
an unrecognised string: `mapCRUDToVerbs "*"` is get, list, watch, not the
seven verbs of full access that the field's documentation promises. -/
theorem mapCRUDToVerbs_wildcard :
    mapCRUDToVerbs "*" = ["get", "list", "watch"] ∧
    mapCRUDToVerbs "*" ≠ ["create", "delete", "get", "list", "patch", "update", "watch"] := by
  decide

/-- Claim C10. Three aliases that `getAPIGroup` recognises as core resources are
missing from the table of `mapActualResource`: the singular configmap,
persistentvolumeclaim and persistentvolume pass through unchanged, so the
singular and the plural form translate to different resource names. -/
theorem mapActualResource_singular_passthrough :
    getAPIGroup "configmap" = [""] ∧ getAPIGroup "configmaps" = [""] ∧
    mapActualResource "configmap" = "configmap" ∧
    mapActualResource "configmaps" = "configmaps" ∧
    getAPIGroup "persistentvolumeclaim" = [""] ∧
    mapActualResource "persistentvolumeclaim" = "persistentvolumeclaim" ∧
    mapActualResource "persistentvolumeclaims" = "persistentvolumeclaims" ∧
    getAPIGroup "persistentvolume" = [""] ∧
    mapActualResource "persistentvolume" = "persistentvolume" ∧
    mapActualResource "persistentvolumes" = "persistentvolumes" := by
  decide

/-! ## Lemmas on the cluster model -/

theorem hasKey_iff (o : Object) (kind : Kind) (ns name : String) :
    o.hasKey kind ns name = true ↔ o.kind = kind ∧ o.Namespace = ns ∧ o.Name = name := by
  simp [Object.hasKey]

theorem lookup_hasKey (c : Cluster) (kind : Kind) (ns name : String) (o : Object)
    (h : c.lookup kind ns name = some o) : o.hasKey kind ns name = true := by
  unfold Cluster.lookup at h
  exact List.find?_some (p := fun (x : Object) => x.hasKey kind ns name) h

theorem find?_map_replace (p : Object → Bool) (obj : Object) (hp : p obj = true)
    (l : List Object) (h : (l.find? p).isSome) :
    (l.map (fun o => if p o then obj else o)).find? p = some obj := by
  induction l with
  | nil => simp at h
  | cons a t ih =>
    by_cases ha : p a = true
    · simp [List.find?, ha, hp]
    · have hat : (t.find? p).isSome := by simpa [List.find?, ha] using h
      simp [List.find?, ha, ih hat]

theorem find?_map_replace_other (p q : Object → Bool) (obj : Object)
    (hq : q obj = false) (hpq : ∀ o, p o = true → q o = false)
    (l : List Object) :
    (l.map (fun o => if p o then obj else o)).find? q = l.find? q := by
  induction l with
  | nil => rfl
  | cons a t ih =>
    by_cases ha : p a = true
    · simp [List.find?, ha, hq, hpq a ha, ih]
    · simp [List.find?, ha, ih]

theorem clientGet_objects (c : Cluster) (kind : Kind) (ns name : String) :
    (clientGet c kind ns name).2.objects = c.objects := by
  rcases hf : c.fault c.calls.length with _ | e
  · rcases hl : c.lookup kind ns name with _ | o <;> simp [clientGet, hf, hl, Cluster.record]
  · simp [clientGet, hf, Cluster.record]

theorem clientGet_ok (c : Cluster) (kind : Kind) (ns name : String) (o : Object)
    (h : (clientGet c kind ns name).1 = Except.ok o) : o.hasKey kind ns name = true := by
  rcases hf : c.fault c.calls.length with _ | e
  · rcases hl : c.lookup kind ns name with _ | o'
    · simp [clientGet, hf, hl] at h
    · simp [clientGet, hf, hl] at h
      subst h
      exact lookup_hasKey c kind ns name _ hl
  · simp [clientGet, hf] at h

theorem clientCreate_ok (c : Cluster) (obj : Object) (h : (clientCreate c obj).1 = none) :
    (clientCreate c obj).2.lookup obj.kind obj.Namespace obj.Name = some obj := by
  rcases hf : c.fault c.calls.length with _ | e
  · rcases hl : c.lookup obj.kind obj.Namespace obj.Name with _ | o'
    · simp only [clientCreate, hf, hl]
      unfold Cluster.lookup at hl
      simp [Cluster.lookup, Cluster.record, List.find?_append, hl, hasKey_iff]
    · simp [clientCreate, hf, hl] at h
  · simp [clientCreate, hf] at h

theorem clientCreate_err_objects (c : Cluster) (obj : Object) (e : Error)
    (h : (clientCreate c obj).1 = some e) : (clientCreate c obj).2.objects = c.objects := by
  rcases hf : c.fault c.calls.length with _ | e
  · rcases hl : c.lookup obj.kind obj.Namespace obj.Name with _ | o'
    · simp [clientCreate, hf, hl] at h
    · simp [clientCreate, hf, hl, Cluster.record]
  · simp [clientCreate, hf, Cluster.record]

theorem clientUpdate_ok (c : Cluster) (obj : Object) (h : (clientUpdate c obj).1 = none) :
    (clientUpdate c obj).2.lookup obj.kind obj.Namespace obj.Name = some obj := by
  rcases hf : c.fault c.calls.length with _ | e
  · rcases hl : c.lookup obj.kind obj.Namespace obj.Name with _ | o'
    · simp [clientUpdate, hf, hl] at h
    · simp only [clientUpdate, hf, hl]
      unfold Cluster.lookup at hl
      simp only [Cluster.lookup, Cluster.record]
      apply find?_map_replace
      · simp [hasKey_iff]
      · simp [hl]
  · simp [clientUpdate, hf] at h

theorem lookup_congr (c c' : Cluster) (h : c'.objects = c.objects) (kind : Kind)
    (ns name : String) : c'.lookup kind ns name = c.lookup kind ns name := by
  unfold Cluster.lookup
  rw [h]

theorem clientCreate_lookup_other (c : Cluster) (obj : Object) (kind : Kind) (ns name : String)
    (hne : obj.kind ≠ kind) :
    (clientCreate c obj).2.lookup kind ns name = c.lookup kind ns name := by
  have hk : Object.hasKey obj kind ns name = false := by simp [Object.hasKey, hne]
  rcases hf : c.fault c.calls.length with _ | e
  · rcases hl : c.lookup obj.kind obj.Namespace obj.Name with _ | o'
    · simp only [clientCreate, hf, hl]
      simp [Cluster.lookup, Cluster.record, List.find?_append, List.find?, hk]
    · simp only [clientCreate, hf, hl]
      simp [Cluster.lookup, Cluster.record]
  · simp [clientCreate, hf, Cluster.lookup, Cluster.record]

theorem clientUpdate_lookup_other (c : Cluster) (obj : Object) (kind : Kind) (ns name : String)
    (hne : obj.kind ≠ kind) :
    (clientUpdate c obj).2.lookup kind ns name = c.lookup kind ns name := by
  rcases hf : c.fault c.calls.length with _ | e
  · rcases hl : c.lookup obj.kind obj.Namespace obj.Name with _ | o'
    · simp only [clientUpdate, hf, hl]
      simp [Cluster.lookup, Cluster.record]
    · simp only [clientUpdate, hf, hl]
      simp only [Cluster.lookup, Cluster.record]
      apply find?_map_replace_other
      · simp [Object.hasKey, hne]
      · intro o ho
        rw [hasKey_iff] at ho
        simp [Object.hasKey, ho.1, hne]
  · simp [clientUpdate, hf, Cluster.lookup, Cluster.record]

theorem SetControllerReference_ok (owner : UserConfig) (obj o : Object) (s : Scheme)
    (h : SetControllerReference owner obj s = Except.ok o) :
    o.kind = obj.kind ∧ o.Name = obj.Name ∧ o.Namespace = obj.Namespace ∧ o.body = obj.body ∧
      o.Labels = obj.Labels := by
  have hup : ∀ ref, (upsertOwnerRef ref obj).kind = obj.kind ∧
      (upsertOwnerRef ref obj).Name = obj.Name ∧
      (upsertOwnerRef ref obj).Namespace = obj.Namespace ∧
      (upsertOwnerRef ref obj).body = obj.body ∧ (upsertOwnerRef ref obj).Labels = obj.Labels := by
    intro ref
    unfold upsertOwnerRef
    split <;> simp
  unfold SetControllerReference at h
  split at h
  · simp at h
  · split at h
    · simp at h
    · simp only [] at h
      split at h
      · split at h
        · simp at h
        · simp only [Except.ok.injEq] at h
          subst h
          exact hup _
      · simp only [Except.ok.injEq] at h
        subst h
        exact hup _

/-- The rule loop of `ReconcileRole` yields one rule per grant, in order. -/
theorem foldl_rules (f : ResourcePermission → PolicyRule) (l : List ResourcePermission)
    (acc : List PolicyRule) :
    l.foldl (fun rules perm => rules ++ [f perm]) acc = acc ++ l.map f := by
  induction l generalizing acc with
  | nil => simp
  | cons a t ih => simp [ih]
theorem map_translate (l : List ResourcePermission) :
    l.map (fun perm => ({
      APIGroups := getAPIGroup perm.Resource,
      Resources := [mapActualResource perm.Resource],
      Verbs := mapCRUDToVerbs perm.Operation } : PolicyRule)) = l.map translate := rfl

theorem ReconcileRole_stored (u : UserConfigUseCase) (uc : UserConfig) (c : Cluster)
    (h : (ReconcileRole u uc c).1 = none) :
    ∃ o, (ReconcileRole u uc c).2.lookup Kind.Role uc.Name uc.Name = some o ∧
      o.body = Body.role (uc.Spec.Permissions.Resources.map translate) := by
  unfold ReconcileRole at h ⊢
  simp only [foldl_rules, List.nil_append, map_translate] at h ⊢
  split at h
  · simp at h
  · rename_i role hs
    obtain ⟨hk, hn, hns, hb, -⟩ := SetControllerReference_ok _ _ _ _ hs
    rcases hc : clientCreate c role with ⟨_ | e, c1⟩
    · refine ⟨role, ?_, hb⟩
      have := clientCreate_ok c role (by rw [hc])
      rw [hc] at this
      simpa [hk, hn, hns] using this
    · simp only [hc] at h ⊢
      by_cases hae : IsAlreadyExists e = true
      · simp only [hae, Bool.not_true, Bool.false_eq_true, if_false] at h ⊢
        rcases hg : clientGet c1 Kind.Role uc.Name uc.Name with ⟨e2 | existing, c2⟩
        · simp [hg] at h
        · simp only [hg] at h ⊢
          have hkey := clientGet_ok c1 Kind.Role uc.Name uc.Name existing (by rw [hg])
          rw [hasKey_iff] at hkey
          generalize hex : ({
            toObjectMeta := existing.toObjectMeta, kind := existing.kind,
            body := Body.role (uc.Spec.Permissions.Resources.map translate) } : Object) = ex at h ⊢
          have hexk : ex.kind = Kind.Role ∧ ex.Namespace = uc.Name ∧ ex.Name = uc.Name ∧
              ex.body = Body.role (uc.Spec.Permissions.Resources.map translate) := by
            subst hex; exact ⟨hkey.1, hkey.2.1, hkey.2.2, rfl⟩
          rcases hu : clientUpdate c2 ex with ⟨_ | e3, c3⟩
          · refine ⟨ex, ?_, hexk.2.2.2⟩
            have := clientUpdate_ok c2 ex (by rw [hu])
            rw [hu] at this
            simpa [hexk.1, hexk.2.1, hexk.2.2.1] using this
          · simp [hu] at h
      · simp [hae] at h
theorem ReconcileServiceAccount_stored (u : UserConfigUseCase) (uc : UserConfig) (c : Cluster)
    (h : (ReconcileServiceAccount u uc c).1 = none) :
    ∃ o, (ReconcileServiceAccount u uc c).2.lookup Kind.ServiceAccount uc.Name uc.Name =
      some o := by
  unfold ReconcileServiceAccount at h ⊢
  simp only [] at h ⊢
  split at h
  · simp at h
  · rename_i sa hs
    obtain ⟨hk, hn, hns, -, -⟩ := SetControllerReference_ok _ _ _ _ hs
    rcases hc : clientCreate c sa with ⟨_ | e, c1⟩
    · refine ⟨sa, ?_⟩
      have := clientCreate_ok c sa (by rw [hc])
      rw [hc] at this
      simpa [hk, hn, hns] using this
    · simp only [hc] at h ⊢
      by_cases hae : IsAlreadyExists e = true
      · simp only [hae, Bool.not_true, Bool.false_eq_true, if_false] at h ⊢
        rcases hg : clientGet c1 Kind.ServiceAccount uc.Name uc.Name with ⟨e2 | existing, c2⟩
        · simp [hg] at h
        · simp only [hg] at h ⊢
          have hkey := clientGet_ok c1 Kind.ServiceAccount uc.Name uc.Name existing (by rw [hg])
          rw [hasKey_iff] at hkey
          generalize hex : ({ existing with Labels := sa.Labels } : Object) = ex at h ⊢
          have hexk : ex.kind = Kind.ServiceAccount ∧ ex.Namespace = uc.Name ∧
              ex.Name = uc.Name := by
            subst hex; exact ⟨hkey.1, hkey.2.1, hkey.2.2⟩
          rcases hu : clientUpdate c2 ex with ⟨_ | e3, c3⟩
          · refine ⟨ex, ?_⟩
            have := clientUpdate_ok c2 ex (by rw [hu])
            rw [hu] at this
            simpa [hexk.1, hexk.2.1, hexk.2.2] using this
          · simp [hu] at h
      · simp [hae] at h

theorem ReconcileRoleBinding_stored (u : UserConfigUseCase) (uc : UserConfig) (c : Cluster)
    (h : (ReconcileRoleBinding u uc c).1 = none) :
    ∃ o, (ReconcileRoleBinding u uc c).2.lookup Kind.RoleBinding uc.Name uc.Name = some o ∧
      o.body = Body.roleBinding
        [{ Kind := "User", Name := uc.Name },
         { Kind := "ServiceAccount", Name := uc.Name, Namespace := uc.Name }]
        { Kind := "Role", Name := uc.Name, APIGroup := "rbac.authorization.k8s.io" } := by
  unfold ReconcileRoleBinding at h ⊢
  simp only [] at h ⊢
  split at h
  · simp at h
  · rename_i rb hs
    obtain ⟨hk, hn, hns, hb, -⟩ := SetControllerReference_ok _ _ _ _ hs
    rcases hc : clientCreate c rb with ⟨_ | e, c1⟩
    · refine ⟨rb, ?_, hb⟩
      have := clientCreate_ok c rb (by rw [hc])
      rw [hc] at this
      simpa [hk, hn, hns] using this
    · simp only [hc] at h ⊢
      by_cases hae : IsAlreadyExists e = true
      · simp only [hae, Bool.not_true, Bool.false_eq_true, if_false] at h ⊢
        rcases hg : clientGet c1 Kind.RoleBinding uc.Name uc.Name with ⟨e2 | existing, c2⟩
        · simp [hg] at h
        · simp only [hg] at h ⊢
          have hkey := clientGet_ok c1 Kind.RoleBinding uc.Name uc.Name existing (by rw [hg])
          rw [hasKey_iff] at hkey
          generalize hex : ({ existing with
            body := Body.roleBinding
              [{ Kind := "User", Name := uc.Name },
               { Kind := "ServiceAccount", Name := uc.Name, Namespace := uc.Name }]
              { Kind := "Role", Name := uc.Name, APIGroup := "rbac.authorization.k8s.io" },
            Labels := rb.Labels } : Object) = ex at h ⊢
          have hexk : ex.kind = Kind.RoleBinding ∧ ex.Namespace = uc.Name ∧
              ex.Name = uc.Name ∧ ex.body = Body.roleBinding
                [{ Kind := "User", Name := uc.Name },
                 { Kind := "ServiceAccount", Name := uc.Name, Namespace := uc.Name }]
                { Kind := "Role", Name := uc.Name, APIGroup := "rbac.authorization.k8s.io" } := by
            subst hex; exact ⟨hkey.1, hkey.2.1, hkey.2.2, rfl⟩
          rcases hu : clientUpdate c2 ex with ⟨_ | e3, c3⟩
          · refine ⟨ex, ?_, hexk.2.2.2⟩
            have := clientUpdate_ok c2 ex (by rw [hu])
            rw [hu] at this
            simpa [hexk.1, hexk.2.1, hexk.2.2.1] using this
          · simp [hu] at h
      · simp [hae] at h

/-- A create-or-update of one kind leaves the stored objects of every other
kind as they were: `ReconcileServiceAccount`. -/
theorem ReconcileServiceAccount_lookup_other (u : UserConfigUseCase) (uc : UserConfig)
    (c : Cluster) (kind : Kind) (ns name : String) (hne : Kind.ServiceAccount ≠ kind) :
    (ReconcileServiceAccount u uc c).2.lookup kind ns name = c.lookup kind ns name := by
  unfold ReconcileServiceAccount
  simp only []
  split
  · rfl
  · rename_i sa hs
    obtain ⟨hk, -, -, -, -⟩ := SetControllerReference_ok _ _ _ _ hs
    have h1 := clientCreate_lookup_other c sa kind ns name (by rw [hk]; exact hne)
    rcases hc : clientCreate c sa with ⟨_ | e, c1⟩
    · rw [hc] at h1; exact h1
    · rw [hc] at h1
      simp only []
      split
      · exact h1
      · have h2 := clientGet_objects c1 Kind.ServiceAccount uc.Name uc.Name
        rcases hg : clientGet c1 Kind.ServiceAccount uc.Name uc.Name with ⟨e2 | existing, c2⟩
        · rw [hg] at h2
          simp only []
          rw [lookup_congr c1 c2 h2, h1]
        · rw [hg] at h2
          have hkey := clientGet_ok c1 Kind.ServiceAccount uc.Name uc.Name existing (by rw [hg])
          rw [hasKey_iff] at hkey
          simp only []
          generalize hex : ({ existing with Labels := sa.Labels } : Object) = ex
          have hexk : ex.kind = Kind.ServiceAccount := by subst hex; exact hkey.1
          have h3 := clientUpdate_lookup_other c2 ex kind ns name (by rw [hexk]; exact hne)
          rcases hu : clientUpdate c2 ex with ⟨_ | e3, c3⟩ <;>
            (rw [hu] at h3; simp only []; rw [h3, lookup_congr c1 c2 h2, h1])

theorem ReconcileRoleBinding_lookup_other (u : UserConfigUseCase) (uc : UserConfig)
    (c : Cluster) (kind : Kind) (ns name : String) (hne : Kind.RoleBinding ≠ kind) :
    (ReconcileRoleBinding u uc c).2.lookup kind ns name = c.lookup kind ns name := by
  unfold ReconcileRoleBinding
  simp only []
  split
  · rfl
  · rename_i rb hs
    obtain ⟨hk, -, -, -, -⟩ := SetControllerReference_ok _ _ _ _ hs
    have h1 := clientCreate_lookup_other c rb kind ns name (by rw [hk]; exact hne)
    rcases hc : clientCreate c rb with ⟨_ | e, c1⟩
    · rw [hc] at h1; exact h1
    · rw [hc] at h1
      simp only []
      split
      · exact h1
      · have h2 := clientGet_objects c1 Kind.RoleBinding uc.Name uc.Name
        rcases hg : clientGet c1 Kind.RoleBinding uc.Name uc.Name with ⟨e2 | existing, c2⟩
        · rw [hg] at h2
          simp only []
          rw [lookup_congr c1 c2 h2, h1]
        · rw [hg] at h2
          have hkey := clientGet_ok c1 Kind.RoleBinding uc.Name uc.Name existing (by rw [hg])
          rw [hasKey_iff] at hkey
          simp only []
          generalize hex : ({ existing with
            body := Body.roleBinding
              [{ Kind := "User", Name := uc.Name },
               { Kind := "ServiceAccount", Name := uc.Name, Namespace := uc.Name }]
              { Kind := "Role", Name := uc.Name, APIGroup := "rbac.authorization.k8s.io" },
            Labels := rb.Labels } : Object) = ex
          have hexk : ex.kind = Kind.RoleBinding := by subst hex; exact hkey.1
          have h3 := clientUpdate_lookup_other c2 ex kind ns name (by rw [hexk]; exact hne)
          rcases hu : clientUpdate c2 ex with ⟨_ | e3, c3⟩ <;>
            (rw [hu] at h3; simp only []; rw [h3, lookup_congr c1 c2 h2, h1])
/-- Claim C7. Whenever `ReconcileRole` succeeds, whether it created the Role or
found one and updated it, the stored Role has exactly one rule per grant, in
grant order, each being the translation of its grant: the previous rules are
replaced. On a fresh cluster the grant pods/CRUD gives resource pods with all
seven verbs, and changing it to pods/RUD leaves exactly delete, get, list,
patch, update, watch. -/
theorem ReconcileRole_rules (u : UserConfigUseCase) (uc : UserConfig) (c : Cluster)
    (h : (ReconcileRole u uc c).1 = none) :
    (∃ o, (ReconcileRole u uc c).2.lookup Kind.Role uc.Name uc.Name = some o ∧
      o.body = Body.role (uc.Spec.Permissions.Resources.map translate)) ∧
    ((ReconcileRole {} (podsEntity "CRUD") {}).2.lookup Kind.Role "alice" "alice").map
        (fun o => o.body) =
      some (Body.role [{
        APIGroups := [""], Resources := ["pods"],
        Verbs := ["create", "delete", "get", "list", "patch", "update", "watch"] }]) ∧
    ((ReconcileRole {} (podsEntity "RUD")
        (ReconcileRole {} (podsEntity "CRUD") {}).2).2.lookup Kind.Role "alice" "alice").map
        (fun o => o.body) =
      some (Body.role [{
        APIGroups := [""], Resources := ["pods"],
        Verbs := ["delete", "get", "list", "patch", "update", "watch"] }]) :=
  ⟨ReconcileRole_stored u uc c h, by decide, by decide⟩

/-- Witness of C7: the entity alice with the grant pods/RUD, reconciled on the
cluster that already stores the Role made for pods/CRUD. -/
theorem ReconcileRole_rules_witness :
    (ReconcileRole {} (podsEntity "RUD") (ReconcileRole {} (podsEntity "CRUD") {}).2).1 = none ∧
    ∃ o, (ReconcileRole {} (podsEntity "RUD")
        (ReconcileRole {} (podsEntity "CRUD") {}).2).2.lookup Kind.Role "alice" "alice" = some o ∧
      o.body = Body.role [{
        APIGroups := [""], Resources := ["pods"],
        Verbs := ["delete", "get", "list", "patch", "update", "watch"] }] :=
  ⟨by decide,
   (ReconcileRole_rules {} (podsEntity "RUD") (ReconcileRole {} (podsEntity "CRUD") {}).2
      (by decide)).1⟩

/-- Claim C8. After a successful `ReconcileRBAC` of an entity with grants, the
cluster stores the Role, the ServiceAccount and the RoleBinding of the entity;
the RoleBinding refers to a Role of API group rbac.authorization.k8s.io with
the name of the stored Role, its subjects are exactly the User named after
the entity and the ServiceAccount with the name and namespace of the stored
ServiceAccount, and all three live in one namespace. -/
theorem ReconcileRBAC_binding (u : UserConfigUseCase) (uc : UserConfig) (c : Cluster)
    (hperm : uc.Spec.Permissions.Resources ≠ [])
    (h : (ReconcileRBAC u uc c).1 = none) :
    ∃ role sa rb,
      (ReconcileRBAC u uc c).2.lookup Kind.Role uc.Name uc.Name = some role ∧
      (ReconcileRBAC u uc c).2.lookup Kind.ServiceAccount uc.Name uc.Name = some sa ∧
      (ReconcileRBAC u uc c).2.lookup Kind.RoleBinding uc.Name uc.Name = some rb ∧
      rb.body = Body.roleBinding
        [{ Kind := "User", Name := uc.Name },
         { Kind := "ServiceAccount", Name := sa.Name, Namespace := sa.Namespace }]
        { Kind := "Role", Name := role.Name, APIGroup := "rbac.authorization.k8s.io" } ∧
      rb.Namespace = role.Namespace ∧ rb.Namespace = sa.Namespace := by
  have hlen : ¬ uc.Spec.Permissions.Resources.length = 0 := by
    simpa [List.length_eq_zero] using hperm
  unfold ReconcileRBAC at h ⊢
  simp only [hlen, if_false] at h ⊢
  rcases h1 : ReconcileRole u uc c with ⟨_ | e1, c1⟩
  · simp only [h1] at h ⊢
    rcases h2 : ReconcileServiceAccount u uc c1 with ⟨_ | e2, c2⟩
    · simp only [h2] at h ⊢
      rcases h3 : ReconcileRoleBinding u uc c2 with ⟨_ | e3, c3⟩
      · simp only [h3]
        obtain ⟨role, hrole, -⟩ := ReconcileRole_stored u uc c (by rw [h1])
        obtain ⟨sa, hsa⟩ := ReconcileServiceAccount_stored u uc c1 (by rw [h2])
        obtain ⟨rb, hrb, hbody⟩ := ReconcileRoleBinding_stored u uc c2 (by rw [h3])
        rw [h1] at hrole
        rw [h2] at hsa
        rw [h3] at hrb
        have f1 := ReconcileServiceAccount_lookup_other u uc c1 Kind.Role uc.Name uc.Name
          (by decide)
        have f2 := ReconcileRoleBinding_lookup_other u uc c2 Kind.Role uc.Name uc.Name
          (by decide)
        have f3 := ReconcileRoleBinding_lookup_other u uc c2 Kind.ServiceAccount uc.Name uc.Name
          (by decide)
        rw [h2] at f1
        rw [h3] at f2 f3
        have kr := (hasKey_iff _ _ _ _).mp (lookup_hasKey _ _ _ _ _ hrole)
        have ks := (hasKey_iff _ _ _ _).mp (lookup_hasKey _ _ _ _ _ hsa)
        have kb := (hasKey_iff _ _ _ _).mp (lookup_hasKey _ _ _ _ _ hrb)
        refine ⟨role, sa, rb, ?_, ?_, hrb, ?_, ?_, ?_⟩
        · rw [f2, f1, hrole]
        · rw [f3, hsa]
        · rw [hbody, kr.2.2, ks.2.2, ks.2.1]
        · rw [kb.2.1, kr.2.1]
        · rw [kb.2.1, ks.2.1]
      · simp [h3] at h
    · simp [h2] at h
  · simp [h1] at h

/-- Witness of C8: the entity alice with the grant pods/CRUD on a fresh
cluster. -/
theorem ReconcileRBAC_binding_witness :
    (podsEntity "CRUD").Spec.Permissions.Resources ≠ [] ∧
    (ReconcileRBAC {} (podsEntity "CRUD") {}).1 = none ∧
    ∃ role sa rb,
      (ReconcileRBAC {} (podsEntity "CRUD") {}).2.lookup Kind.Role "alice" "alice" = some role ∧
      (ReconcileRBAC {} (podsEntity "CRUD") {}).2.lookup Kind.ServiceAccount "alice" "alice" =
        some sa ∧
      (ReconcileRBAC {} (podsEntity "CRUD") {}).2.lookup Kind.RoleBinding "alice" "alice" =
        some rb ∧
      rb.body = Body.roleBinding
        [{ Kind := "User", Name := "alice" },
         { Kind := "ServiceAccount", Name := sa.Name, Namespace := sa.Namespace }]
        { Kind := "Role", Name := role.Name, APIGroup := "rbac.authorization.k8s.io" } ∧
      rb.Namespace = role.Namespace ∧ rb.Namespace = sa.Namespace :=
  ⟨by decide, by decide,
   ReconcileRBAC_binding {} (podsEntity "CRUD") {} (by decide) (by decide)⟩

/-! ## Lemmas on the reconcile loop -/

theorem invokedSteps_append (a b : List Action) :
    invokedSteps (a ++ b) = invokedSteps a ++ invokedSteps b := by
  induction a with
  | nil => rfl
  | cons x t ih => cases x <;> simp [invokedSteps, ih]

theorem calledSteps_append (a b : List Action) :
    calledSteps (a ++ b) = calledSteps a ++ calledSteps b := by
  induction a with
  | nil => rfl
  | cons x t ih => cases x <;> simp [calledSteps, ih]

theorem failures_append (a b : List Action) :
    failures (a ++ b) = failures a ++ failures b := by
  induction a with
  | nil => rfl
  | cons x t ih =>
    cases x with
    | updateFinalizer uc err => cases err <;> simp [failures, ih]
    | invoke step err => cases err <;> simp [failures, ih]
    | handleDeletion err => simp [failures, ih]
    | statusUpdate uc err => simp [failures, ih]
    | panicked step p => simp [failures, ih]

theorem statusUpdates_append (a b : List Action) :
    statusUpdates (a ++ b) = statusUpdates a ++ statusUpdates b := by
  induction a with
  | nil => rfl
  | cons x t ih => cases x <;> simp [statusUpdates, ih]

theorem clientStatusUpdate_status (c : Cluster) (uc : UserConfig) :
    (clientStatusUpdate c uc).2.1.Status = uc.Status := by
  rcases hf : c.fault c.calls.length with _ | e
  · rcases hl : c.lookupUserConfig uc.Name with _ | old
    · simp [clientStatusUpdate, hf, hl]
    · simp [clientStatusUpdate, hf, hl]
  · simp [clientStatusUpdate, hf]

/-- The condition `updateErrorStatus` appends for an error. -/
theorem updateErrorStatus_spec (uc : UserConfig) (err : Error) (c : Cluster)
    (t : List Action) :
    ∃ sent serr, (updateErrorStatus uc err c t).2.2 = t ++ [Action.statusUpdate sent serr] ∧
      (updateErrorStatus uc err c t).1.Status = sent.Status ∧
      sent.Status.State = "Error" ∧
      sent.Status.Conditions = uc.Status.Conditions ++
        [{ Typ := ReadyCondition, Status := ConditionFalse, Reason := "Error",
           Message := err.msg, LastTransitionTime := c.now }] := by
  refine ⟨_, _, rfl, ?_, rfl, rfl⟩
  simp only [updateErrorStatus]
  exact clientStatusUpdate_status _ _

/-- The shape of every run of the six steps: the steps that returned form a
prefix of the fixed order in which only the last may have failed; then either
one status request follows, or the next step panicked and nothing follows. -/
theorem reconcileSteps_cases (r : UserConfigReconciler) (uc : UserConfig) (c : Cluster)
    (t : List Action) :
    (∃ (inv : List (Step × Option Error)) (sent : UserConfig) (serr : Option Error)
      (held : UserConfig) (cond : Condition),
      (reconcileSteps r uc c t).panicked = none ∧
      (reconcileSteps r uc c t).trace =
        t ++ inv.map (fun p => Action.invoke p.1 p.2) ++ [Action.statusUpdate sent serr] ∧
      (reconcileSteps r uc c t).userConfig = some held ∧ held.Status = sent.Status ∧
      sent.Status.Conditions = uc.Status.Conditions ++ [cond] ∧
      cond.Typ = ReadyCondition ∧
      inv.map Prod.fst <+: stepOrder ∧ (∀ p ∈ inv.dropLast, p.2 = none) ∧
      ((∃ s e text, inv.getLast? = some (s, some e) ∧ (reconcileSteps r uc c t).err = some e ∧
          sent.Status.State = "Error" ∧ cond.Status = ConditionFalse ∧ cond.Reason = "Error" ∧
          cond.Message = text ++ ": " ++ e.msg) ∨
       (inv.map Prod.fst = stepOrder ∧ (∀ p ∈ inv, p.2 = none) ∧
          (reconcileSteps r uc c t).err = serr ∧
          sent.Status.State = "Active" ∧ cond.Status = ConditionTrue ∧
          cond.Reason = "Reconciled"))) ∨
    (∃ (inv : List (Step × Option Error)) (s : Step) (p : Panic),
      (reconcileSteps r uc c t).panicked = some p ∧
      (reconcileSteps r uc c t).err = none ∧
      (reconcileSteps r uc c t).userConfig = some uc ∧
      (reconcileSteps r uc c t).trace =
        t ++ inv.map (fun p => Action.invoke p.1 p.2) ++ [Action.panicked s p] ∧
      inv.map Prod.fst ++ [s] <+: stepOrder ∧ inv.length < 6 ∧ (∀ x ∈ inv, x.2 = none)) := by
  unfold reconcileSteps
  rcases h1 : r.UC.ReconcileNamespace uc c with p1 | ⟨_ | e1, c1⟩
  · dsimp only
    refine Or.inr ⟨[], Step.ReconcileNamespace, p1, ?_⟩; simp [stepOrder]
  · dsimp only
    rcases h2 : r.UC.ReconcileSealedSecrets uc c1 with p2 | ⟨_ | e2, c2⟩
    · dsimp only
      refine Or.inr ⟨[(Step.ReconcileNamespace, none)], Step.ReconcileSealedSecrets, p2, ?_⟩; simp [stepOrder]
    · dsimp only
      rcases h3 : r.UC.ReconcileRBAC uc c2 with p3 | ⟨_ | e3, c3⟩
      · dsimp only
        refine Or.inr ⟨[(Step.ReconcileNamespace, none), (Step.ReconcileSealedSecrets, none)], Step.ReconcileRBAC, p3, ?_⟩; simp [stepOrder]
      · dsimp only
        rcases h4 : r.UC.ReconcileLimitRange uc c3 with p4 | ⟨_ | e4, c4⟩
        · dsimp only
          refine Or.inr ⟨[(Step.ReconcileNamespace, none), (Step.ReconcileSealedSecrets, none), (Step.ReconcileRBAC, none)], Step.ReconcileLimitRange, p4, ?_⟩; simp [stepOrder]
        · dsimp only
          rcases h5 : r.UC.GenerateAndSaveKubeconfig uc c4 with p5 | ⟨_ | e5, c5⟩
          · dsimp only
            refine Or.inr ⟨[(Step.ReconcileNamespace, none), (Step.ReconcileSealedSecrets, none), (Step.ReconcileRBAC, none), (Step.ReconcileLimitRange, none)], Step.GenerateAndSaveKubeconfig, p5, ?_⟩; simp [stepOrder]
          · dsimp only
            rcases h6 : r.UC.ReconcileNetworkPolicies uc c5 with p6 | ⟨_ | e6, c6⟩
            · dsimp only
              refine Or.inr ⟨[(Step.ReconcileNamespace, none), (Step.ReconcileSealedSecrets, none), (Step.ReconcileRBAC, none), (Step.ReconcileLimitRange, none), (Step.GenerateAndSaveKubeconfig, none)], Step.ReconcileNetworkPolicies, p6, ?_⟩; simp [stepOrder]
            · dsimp only
              refine Or.inl ⟨[(Step.ReconcileNamespace, none), (Step.ReconcileSealedSecrets, none), (Step.ReconcileRBAC, none), (Step.ReconcileLimitRange, none), (Step.GenerateAndSaveKubeconfig, none), (Step.ReconcileNetworkPolicies, none)],
                { uc with Status := { uc.Status with
                    State := "Active",
                    Conditions := uc.Status.Conditions ++ [{
                      Typ := ReadyCondition,
                      Status := ConditionTrue,
                      Reason := "Reconciled",
                      Message := "UserConfig reconciled successfully",
                      LastTransitionTime := c6.now }] } },
                _, _, _, rfl, ?_, rfl, clientStatusUpdate_status _ _, rfl, rfl,
                by simp [stepOrder], by simp, Or.inr ⟨rfl, by simp, rfl, rfl, rfl, rfl⟩⟩
              simp
            · dsimp only
              obtain ⟨sent, serr, htr, hheld, hst, hcond⟩ := updateErrorStatus_spec uc
                (errorfV "Failed to reconcile network policies" e6) c6
                (t ++ [Action.invoke Step.ReconcileNamespace none] ++ [Action.invoke Step.ReconcileSealedSecrets none] ++ [Action.invoke Step.ReconcileRBAC none] ++ [Action.invoke Step.ReconcileLimitRange none] ++ [Action.invoke Step.GenerateAndSaveKubeconfig none] ++ [Action.invoke Step.ReconcileNetworkPolicies (some e6)])
              refine Or.inl ⟨[(Step.ReconcileNamespace, none), (Step.ReconcileSealedSecrets, none), (Step.ReconcileRBAC, none), (Step.ReconcileLimitRange, none), (Step.GenerateAndSaveKubeconfig, none), (Step.ReconcileNetworkPolicies, some e6)],
                sent, serr, _, _, rfl, ?_, rfl, hheld, hcond, rfl, by simp [stepOrder], by simp,
                Or.inl ⟨_, e6, "Failed to reconcile network policies", rfl, rfl, hst, rfl, rfl, rfl⟩⟩
              rw [htr]; simp
          · dsimp only
            obtain ⟨sent, serr, htr, hheld, hst, hcond⟩ := updateErrorStatus_spec uc
              (errorfV "Failed to generate and save kubeconfig" e5) c5
              (t ++ [Action.invoke Step.ReconcileNamespace none] ++ [Action.invoke Step.ReconcileSealedSecrets none] ++ [Action.invoke Step.ReconcileRBAC none] ++ [Action.invoke Step.ReconcileLimitRange none] ++ [Action.invoke Step.GenerateAndSaveKubeconfig (some e5)])
            refine Or.inl ⟨[(Step.ReconcileNamespace, none), (Step.ReconcileSealedSecrets, none), (Step.ReconcileRBAC, none), (Step.ReconcileLimitRange, none), (Step.GenerateAndSaveKubeconfig, some e5)],
              sent, serr, _, _, rfl, ?_, rfl, hheld, hcond, rfl, by simp [stepOrder], by simp,
              Or.inl ⟨_, e5, "Failed to generate and save kubeconfig", rfl, rfl, hst, rfl, rfl, rfl⟩⟩
            rw [htr]; simp
        · dsimp only
          obtain ⟨sent, serr, htr, hheld, hst, hcond⟩ := updateErrorStatus_spec uc
            (errorfV "Failed to reconcile LimitRange" e4) c4
            (t ++ [Action.invoke Step.ReconcileNamespace none] ++ [Action.invoke Step.ReconcileSealedSecrets none] ++ [Action.invoke Step.ReconcileRBAC none] ++ [Action.invoke Step.ReconcileLimitRange (some e4)])
          refine Or.inl ⟨[(Step.ReconcileNamespace, none), (Step.ReconcileSealedSecrets, none), (Step.ReconcileRBAC, none), (Step.ReconcileLimitRange, some e4)],
            sent, serr, _, _, rfl, ?_, rfl, hheld, hcond, rfl, by simp [stepOrder], by simp,
            Or.inl ⟨_, e4, "Failed to reconcile LimitRange", rfl, rfl, hst, rfl, rfl, rfl⟩⟩
          rw [htr]; simp
      · dsimp only
        obtain ⟨sent, serr, htr, hheld, hst, hcond⟩ := updateErrorStatus_spec uc
          (errorfV "Failed to reconcile RBAC" e3) c3
          (t ++ [Action.invoke Step.ReconcileNamespace none] ++ [Action.invoke Step.ReconcileSealedSecrets none] ++ [Action.invoke Step.ReconcileRBAC (some e3)])
        refine Or.inl ⟨[(Step.ReconcileNamespace, none), (Step.ReconcileSealedSecrets, none), (Step.ReconcileRBAC, some e3)],
          sent, serr, _, _, rfl, ?_, rfl, hheld, hcond, rfl, by simp [stepOrder], by simp,
          Or.inl ⟨_, e3, "Failed to reconcile RBAC", rfl, rfl, hst, rfl, rfl, rfl⟩⟩
        rw [htr]; simp
    · dsimp only
      obtain ⟨sent, serr, htr, hheld, hst, hcond⟩ := updateErrorStatus_spec uc
        (errorfV "Failed to reconcile sealed secrets" e2) c2
        (t ++ [Action.invoke Step.ReconcileNamespace none] ++ [Action.invoke Step.ReconcileSealedSecrets (some e2)])
      refine Or.inl ⟨[(Step.ReconcileNamespace, none), (Step.ReconcileSealedSecrets, some e2)],
        sent, serr, _, _, rfl, ?_, rfl, hheld, hcond, rfl, by simp [stepOrder], by simp,
        Or.inl ⟨_, e2, "Failed to reconcile sealed secrets", rfl, rfl, hst, rfl, rfl, rfl⟩⟩
      rw [htr]; simp
  · dsimp only
    obtain ⟨sent, serr, htr, hheld, hst, hcond⟩ := updateErrorStatus_spec uc
      (errorfV "Failed to reconcile namespace" e1) c1
      (t ++ [Action.invoke Step.ReconcileNamespace (some e1)])
    refine Or.inl ⟨[(Step.ReconcileNamespace, some e1)],
      sent, serr, _, _, rfl, ?_, rfl, hheld, hcond, rfl, by simp [stepOrder], by simp,
      Or.inl ⟨_, e1, "Failed to reconcile namespace", rfl, rfl, hst, rfl, rfl, rfl⟩⟩
    rw [htr]; simp

theorem invokedSteps_map_invoke (inv : List (Step × Option Error)) :
    invokedSteps (inv.map (fun p => Action.invoke p.1 p.2)) = inv := by
  induction inv with
  | nil => rfl
  | cons x t ih => simp [invokedSteps, ih]

theorem failures_map_invoke (inv : List (Step × Option Error)) :
    failures (inv.map (fun p => Action.invoke p.1 p.2)) = inv.filterMap Prod.snd := by
  induction inv with
  | nil => rfl
  | cons x t ih =>
    rcases x with ⟨s, _ | e⟩ <;> simp [failures, ih]

theorem statusUpdates_map_invoke (inv : List (Step × Option Error)) :
    statusUpdates (inv.map (fun p => Action.invoke p.1 p.2)) = [] := by
  induction inv with
  | nil => rfl
  | cons x t ih => simp [statusUpdates, ih]

theorem filterMap_snd_eq_nil (inv : List (Step × Option Error))
    (h : ∀ p ∈ inv, p.2 = none) : inv.filterMap Prod.snd = [] := by
  induction inv with
  | nil => rfl
  | cons x t ih =>
    have hx : x.2 = none := h x (List.mem_cons_self _ _)
    have ht := ih (fun p hp => h p (List.mem_cons_of_mem _ hp))
    simp [List.filterMap_cons, hx, ht]

/-- When only the last of the invoked steps failed, it is the one failure. -/
theorem filterMap_snd_last (inv : List (Step × Option Error)) (s : Step) (e : Error)
    (hd : ∀ p ∈ inv.dropLast, p.2 = none) (hl : inv.getLast? = some (s, some e)) :
    inv.filterMap Prod.snd = [e] := by
  have hne : inv ≠ [] := by
    intro h; rw [h] at hl; simp at hl
  have hsplit := List.dropLast_append_getLast hne
  have hlast : inv.getLast hne = (s, some e) := by
    rw [List.getLast?_eq_getLast _ hne] at hl
    exact Option.some.inj hl
  rw [← hsplit, List.filterMap_append, filterMap_snd_eq_nil _ hd, hlast]
  simp

theorem clientGetUserConfig_snd (c : Cluster) (req : Request) :
    (clientGetUserConfig c req).2 = c.record (Call.getUserConfig req.Name) := by
  rcases hf : c.fault c.calls.length with _ | e
  · rcases hl : c.lookupUserConfig req.Name with _ | o <;> simp [clientGetUserConfig, hf, hl]
  · simp [clientGetUserConfig, hf]

theorem clientGetUserConfig_ok (c : Cluster) (req : Request) (uc : UserConfig)
    (h : (clientGetUserConfig c req).1 = Except.ok uc) :
    clientGetUserConfig c req = (Except.ok uc, c.record (Call.getUserConfig req.Name)) ∧
      c.lookupUserConfig uc.Name = some uc := by
  refine ⟨Prod.ext h (clientGetUserConfig_snd c req), ?_⟩
  rcases hf : c.fault c.calls.length with _ | e
  · rcases hl : c.lookupUserConfig req.Name with _ | o
    · simp [clientGetUserConfig, hf, hl] at h
    · simp [clientGetUserConfig, hf, hl] at h
      subst h
      have hn : o.Name = req.Name := by
        unfold Cluster.lookupUserConfig at hl
        have := List.find?_some (p := fun (x : UserConfig) => decide (x.Name = req.Name)) hl
        simpa using this
      rw [hn]; exact hl
  · simp [clientGetUserConfig, hf] at h

theorem lookupUserConfig_record (c : Cluster) (call : Call) (name : String) :
    (c.record call).lookupUserConfig name = c.lookupUserConfig name := rfl

theorem clientUpdateUserConfig_status (c : Cluster) (uc : UserConfig)
    (h : ∀ old, c.lookupUserConfig uc.Name = some old → old.Status = uc.Status) :
    (clientUpdateUserConfig c uc).2.1.Status = uc.Status := by
  rcases hf : c.fault c.calls.length with _ | e
  · rcases hl : c.lookupUserConfig uc.Name with _ | old
    · simp [clientUpdateUserConfig, hf, hl]
    · have := h old hl
      simp only [clientUpdateUserConfig, hf, hl]
      split <;> simpa using this
  · simp [clientUpdateUserConfig, hf]

theorem AddFinalizer_status (uc : UserConfig) (f : String) :
    (AddFinalizer uc f).Status = uc.Status ∧ (AddFinalizer uc f).Name = uc.Name := by
  unfold AddFinalizer
  split <;> simp

theorem ContainsFinalizer_RemoveFinalizer (uc : UserConfig) (f : String) :
    ContainsFinalizer (RemoveFinalizer uc f) f = false := by
  simp [ContainsFinalizer, RemoveFinalizer]

/-- An entity that is not marked for deletion: `Reconcile` persists the
finalizer when it is absent and then runs the six steps. -/
theorem Reconcile_live (r : UserConfigReconciler) (req : Request) (c : Cluster)
    (uc : UserConfig) (hget : (clientGetUserConfig c req).1 = Except.ok uc)
    (hnd : TimeIsZero uc.DeletionTimestamp = true) :
    Reconcile r req c =
      if ContainsFinalizer uc userConfigFinalizer = true then
        reconcileSteps r uc (c.record (Call.getUserConfig req.Name)) []
      else
        match clientUpdateUserConfig (c.record (Call.getUserConfig req.Name))
            (AddFinalizer uc userConfigFinalizer) with
        | (some err, uc1, c1) =>
          let out := updateErrorStatus uc1 (errorfV "Failed to update finalizer" err) c1
            [Action.updateFinalizer (AddFinalizer uc userConfigFinalizer) (some err)]
          { err := some err, userConfig := some out.1, trace := out.2.2, cluster := out.2.1 }
        | (none, uc1, c1) =>
          reconcileSteps r uc1 c1 [Action.updateFinalizer (AddFinalizer uc userConfigFinalizer) none] := by
  obtain ⟨heq, -⟩ := clientGetUserConfig_ok c req uc hget
  unfold Reconcile
  simp only [heq, hnd]
  by_cases hf : ContainsFinalizer uc userConfigFinalizer = true
  · simp [hf]
  · simp [hf]
theorem calledSteps_map_invoke (inv : List (Step × Option Error)) :
    calledSteps (inv.map (fun p => Action.invoke p.1 p.2)) = inv.map Prod.fst := by
  induction inv with
  | nil => rfl
  | cons x t ih => simp [calledSteps, ih]

/-- The shape of every pass over an entity that is not marked for deletion:
at most one finalizer update, then a prefix of the six steps in which only
the last may have failed; then either one status request, or the panic of the
next step, after which nothing is called and nothing is returned. -/
theorem Reconcile_cases (r : UserConfigReconciler) (req : Request) (c : Cluster)
    (uc : UserConfig) (hget : (clientGetUserConfig c req).1 = Except.ok uc)
    (hnd : TimeIsZero uc.DeletionTimestamp = true) :
    (∃ (pre : List Action) (inv : List (Step × Option Error)) (sent : UserConfig)
      (serr : Option Error) (held : UserConfig) (cond : Condition),
      (Reconcile r req c).panicked = none ∧
      (Reconcile r req c).trace =
        pre ++ inv.map (fun p => Action.invoke p.1 p.2) ++ [Action.statusUpdate sent serr] ∧
      ((pre = [] ∧ ContainsFinalizer uc userConfigFinalizer = true) ∨
       (pre = [Action.updateFinalizer (AddFinalizer uc userConfigFinalizer)
            (clientUpdateUserConfig (clientGetUserConfig c req).2
              (AddFinalizer uc userConfigFinalizer)).1] ∧
          ContainsFinalizer uc userConfigFinalizer = false)) ∧
      (Reconcile r req c).userConfig = some held ∧ held.Status = sent.Status ∧
      sent.Status.Conditions = uc.Status.Conditions ++ [cond] ∧
      cond.Typ = ReadyCondition ∧
      inv.map Prod.fst <+: stepOrder ∧ (∀ p ∈ inv.dropLast, p.2 = none) ∧
      ((∃ e text, failures pre ++ inv.filterMap Prod.snd = [e] ∧
          (failures pre = [] ∨ inv = []) ∧
          (Reconcile r req c).err = some e ∧
          sent.Status.State = "Error" ∧ cond.Status = ConditionFalse ∧ cond.Reason = "Error" ∧
          cond.Message = text ++ ": " ++ e.msg) ∨
       (failures pre = [] ∧ inv.map Prod.fst = stepOrder ∧ (∀ p ∈ inv, p.2 = none) ∧
          (Reconcile r req c).err = serr ∧
          sent.Status.State = "Active" ∧ cond.Status = ConditionTrue ∧
          cond.Reason = "Reconciled"))) ∨
    (∃ (pre : List Action) (inv : List (Step × Option Error)) (s : Step) (p : Panic)
      (held : UserConfig),
      (Reconcile r req c).panicked = some p ∧
      (Reconcile r req c).trace =
        pre ++ inv.map (fun p => Action.invoke p.1 p.2) ++ [Action.panicked s p] ∧
      ((pre = [] ∧ ContainsFinalizer uc userConfigFinalizer = true) ∨
       (pre = [Action.updateFinalizer (AddFinalizer uc userConfigFinalizer)
            (clientUpdateUserConfig (clientGetUserConfig c req).2
              (AddFinalizer uc userConfigFinalizer)).1] ∧
          ContainsFinalizer uc userConfigFinalizer = false)) ∧
      failures pre = [] ∧
      (Reconcile r req c).err = none ∧
      (Reconcile r req c).userConfig = some held ∧ held.Status = uc.Status ∧
      inv.map Prod.fst ++ [s] <+: stepOrder ∧ inv.length < 6 ∧ (∀ x ∈ inv, x.2 = none)) := by
  obtain ⟨-, hlook⟩ := clientGetUserConfig_ok c req uc hget
  rw [Reconcile_live r req c uc hget hnd, clientGetUserConfig_snd]
  by_cases hf : ContainsFinalizer uc userConfigFinalizer = true
  · rw [if_pos hf]
    rcases reconcileSteps_cases r uc (c.record (Call.getUserConfig req.Name)) [] with
      ⟨inv, sent, serr, held, cond, hpan, htr, hheld, hst, hcond, htyp, hpre, hdl, hcase⟩ |
      ⟨inv, s, p, hpan, herr, hheld, htr, hpre, hlen, hall⟩
    · refine Or.inl ⟨[], inv, sent, serr, held, cond, hpan, htr, Or.inl ⟨rfl, hf⟩, hheld, hst,
        hcond, htyp, hpre, hdl, ?_⟩
      rcases hcase with ⟨s, e, text, hlast, herr, h1, h2, h3, h4⟩ | ⟨h1, h2, h3, h4, h5, h6⟩
      · exact Or.inl ⟨e, text, by simpa [failures] using filterMap_snd_last inv s e hdl hlast,
          Or.inl rfl, herr, h1, h2, h3, h4⟩
      · exact Or.inr ⟨rfl, h1, h2, h3, h4, h5, h6⟩
    · exact Or.inr ⟨[], inv, s, p, uc, hpan, htr, Or.inl ⟨rfl, hf⟩, rfl, herr, hheld, rfl,
        hpre, hlen, hall⟩
  · have hf' : ContainsFinalizer uc userConfigFinalizer = false := by simpa using hf
    rw [if_neg hf]
    have hstat := clientUpdateUserConfig_status (c.record (Call.getUserConfig req.Name))
      (AddFinalizer uc userConfigFinalizer) (by
        intro old hold
        rw [lookupUserConfig_record, (AddFinalizer_status uc _).2, hlook] at hold
        rw [(AddFinalizer_status uc _).1]
        exact (Option.some.inj hold) ▸ rfl)
    rw [(AddFinalizer_status uc _).1] at hstat
    rcases hu : clientUpdateUserConfig (c.record (Call.getUserConfig req.Name))
      (AddFinalizer uc userConfigFinalizer) with ⟨_ | e, uc1, c1⟩
    · rw [hu] at hstat
      dsimp only at hstat ⊢
      rcases reconcileSteps_cases r uc1 c1
          [Action.updateFinalizer (AddFinalizer uc userConfigFinalizer) none] with
        ⟨inv, sent, serr, held, cond, hpan, htr, hheld, hst, hcond, htyp, hpre, hdl, hcase⟩ |
        ⟨inv, s, p, hpan, herr, hheld, htr, hpre, hlen, hall⟩
      · rw [hstat] at hcond
        refine Or.inl ⟨_, inv, sent, serr, held, cond, hpan, htr, Or.inr ⟨rfl, hf'⟩, hheld, hst,
          hcond, htyp, hpre, hdl, ?_⟩
        rcases hcase with ⟨s, e, text, hlast, herr, h1, h2, h3, h4⟩ | ⟨h1, h2, h3, h4, h5, h6⟩
        · exact Or.inl ⟨e, text, by simpa [failures] using filterMap_snd_last inv s e hdl hlast,
            Or.inl rfl, herr, h1, h2, h3, h4⟩
        · exact Or.inr ⟨rfl, h1, h2, h3, h4, h5, h6⟩
      · exact Or.inr ⟨_, inv, s, p, uc1, hpan, htr, Or.inr ⟨rfl, hf'⟩, rfl, herr, hheld, hstat,
          hpre, hlen, hall⟩
    · rw [hu] at hstat
      dsimp only at hstat ⊢
      obtain ⟨sent, serr, htr, hheld, hst, hcond⟩ := updateErrorStatus_spec uc1
        (errorfV "Failed to update finalizer" e) c1
        [Action.updateFinalizer (AddFinalizer uc userConfigFinalizer) (some e)]
      rw [hstat] at hcond
      refine Or.inl ⟨_, [], sent, serr, _, _, rfl, ?_, Or.inr ⟨rfl, hf'⟩, rfl, hheld, hcond, rfl,
        by simp, by simp,
        Or.inl ⟨e, "Failed to update finalizer", by simp [failures], Or.inr rfl, rfl, hst, rfl,
          rfl, rfl⟩⟩
      rw [htr]; simp

/-- The readings of the normal form of a trace. -/
theorem trace_readings (pre : List Action) (inv : List (Step × Option Error))
    (sent : UserConfig) (serr : Option Error) (hpre : invokedSteps pre = [])
    (hst : statusUpdates pre = []) :
    invokedSteps (pre ++ inv.map (fun p => Action.invoke p.1 p.2) ++
        [Action.statusUpdate sent serr]) = inv ∧
    failures (pre ++ inv.map (fun p => Action.invoke p.1 p.2) ++
        [Action.statusUpdate sent serr]) = failures pre ++ inv.filterMap Prod.snd ∧
    statusUpdates (pre ++ inv.map (fun p => Action.invoke p.1 p.2) ++
        [Action.statusUpdate sent serr]) = [sent] := by
  simp [invokedSteps_append, failures_append, statusUpdates_append, invokedSteps_map_invoke,
    failures_map_invoke, statusUpdates_map_invoke, hpre, hst, invokedSteps, failures,
    statusUpdates]

/-- The steps called in the normal form of the trace of a pass that
returned. -/
theorem trace_called (pre : List Action) (inv : List (Step × Option Error))
    (sent : UserConfig) (serr : Option Error) (hpre : calledSteps pre = []) :
    calledSteps (pre ++ inv.map (fun p => Action.invoke p.1 p.2) ++
        [Action.statusUpdate sent serr]) = inv.map Prod.fst := by
  simp [calledSteps_append, calledSteps_map_invoke, hpre, calledSteps]

/-- The readings of the normal form of the trace of a pass that a step ended
in a panic. -/
theorem trace_readings_panicked (pre : List Action) (inv : List (Step × Option Error))
    (s : Step) (p : Panic) (hpre : invokedSteps pre = []) (hst : statusUpdates pre = [])
    (hcs : calledSteps pre = []) :
    invokedSteps (pre ++ inv.map (fun p => Action.invoke p.1 p.2) ++
        [Action.panicked s p]) = inv ∧
    failures (pre ++ inv.map (fun p => Action.invoke p.1 p.2) ++
        [Action.panicked s p]) = failures pre ++ inv.filterMap Prod.snd ∧
    statusUpdates (pre ++ inv.map (fun p => Action.invoke p.1 p.2) ++
        [Action.panicked s p]) = [] ∧
    calledSteps (pre ++ inv.map (fun p => Action.invoke p.1 p.2) ++
        [Action.panicked s p]) = inv.map Prod.fst ++ [s] := by
  simp [invokedSteps_append, failures_append, statusUpdates_append, calledSteps_append,
    invokedSteps_map_invoke, failures_map_invoke, statusUpdates_map_invoke,
    calledSteps_map_invoke, hpre, hst, hcs, invokedSteps, failures, statusUpdates, calledSteps]

/-- Claim C2. In every pass over an entity that is not marked for deletion the
steps called are a prefix of the fixed order ReconcileNamespace,
ReconcileSealedSecrets, ReconcileRBAC, ReconcileLimitRange,
GenerateAndSaveKubeconfig, ReconcileNetworkPolicies; every step that returned
but the last returned no error, so nothing runs after a failed step; and when
the last step that returned failed, `Reconcile` returns its error. When no step
panics, every step called returned, and all six were invoked when neither the
finalizer update nor a step failed. A step that panics ends the pass: the
steps before it returned no error, nothing is called after it, and `Reconcile`
returns nothing, so fewer than six steps have run although none failed. With
the methods of `UserConfigUseCase` behind the interface this is what happens
for the entity whose limit range has the Pod entry with max cpu 1 and no
memory (`ReconcileLimitRange` panics, the fourth step) and for the entity
whose quota override has the cpu 1KK (`ReconcileNamespace` panics, the first
step). -/
theorem Reconcile_step_order (r : UserConfigReconciler) (req : Request) (c : Cluster)
    (uc : UserConfig) (hget : (clientGetUserConfig c req).1 = Except.ok uc)
    (hnd : TimeIsZero uc.DeletionTimestamp = true) :
    calledSteps (Reconcile r req c).trace <+: stepOrder ∧
    (∀ p ∈ (invokedSteps (Reconcile r req c).trace).dropLast, p.2 = none) ∧
    (∀ s e, (invokedSteps (Reconcile r req c).trace).getLast? = some (s, some e) →
      (Reconcile r req c).err = some e ∧ (Reconcile r req c).panicked = none) ∧
    ((Reconcile r req c).panicked = none →
      calledSteps (Reconcile r req c).trace =
        (invokedSteps (Reconcile r req c).trace).map Prod.fst ∧
      (failures (Reconcile r req c).trace = [] →
        (invokedSteps (Reconcile r req c).trace).map Prod.fst = stepOrder)) ∧
    (∀ p, (Reconcile r req c).panicked = some p →
      (∃ s, calledSteps (Reconcile r req c).trace =
        (invokedSteps (Reconcile r req c).trace).map Prod.fst ++ [s]) ∧
      (∀ x ∈ invokedSteps (Reconcile r req c).trace, x.2 = none) ∧
      failures (Reconcile r req c).trace = [] ∧
      (invokedSteps (Reconcile r req c).trace).map Prod.fst ≠ stepOrder ∧
      (Reconcile r req c).err = none) ∧
    (calledSteps (Reconcile kindReconciler aliceRequest (clusterWith podCpuOnlyEntity)).trace =
        [Step.ReconcileNamespace, Step.ReconcileSealedSecrets, Step.ReconcileRBAC,
         Step.ReconcileLimitRange] ∧
      failures (Reconcile kindReconciler aliceRequest (clusterWith podCpuOnlyEntity)).trace =
        [] ∧
      (Reconcile kindReconciler aliceRequest (clusterWith podCpuOnlyEntity)).err = none ∧
      (Reconcile kindReconciler aliceRequest (clusterWith podCpuOnlyEntity)).panicked =
        some { msg := "cannot parse '': quantities must match the regular expression '^([+-]?[0-9.]+)([eEinumkKMGTP]*[-+]?[0-9]*)$'" }) ∧
    (calledSteps (Reconcile kindReconciler aliceRequest (clusterWith badQuotaEntity)).trace =
        [Step.ReconcileNamespace] ∧
      failures (Reconcile kindReconciler aliceRequest (clusterWith badQuotaEntity)).trace = [] ∧
      (Reconcile kindReconciler aliceRequest (clusterWith badQuotaEntity)).err = none ∧
      (Reconcile kindReconciler aliceRequest (clusterWith badQuotaEntity)).panicked =
        some { msg := "cannot parse '1KK': unable to parse quantity's suffix" }) := by
  refine ⟨?_, ?_, ?_, ?_, ?_, by decide, by decide⟩
  all_goals
    rcases Reconcile_cases r req c uc hget hnd with
      ⟨pre, inv, sent, serr, held, cond, hpan, htr, hpre, -, -, -, -, hpfx, hdl, hcase⟩ |
      ⟨pre, inv, s0, p0, held, hpan, htr, hpre, hfp, herr, -, -, hpfx, hlen, hall⟩
  -- the steps called are a prefix
  · have hp : calledSteps pre = [] := by
      rcases hpre with ⟨h, -⟩ | ⟨h, -⟩ <;> (subst h; rfl)
    rw [htr, trace_called pre inv sent serr hp]
    exact hpfx
  · have hp : invokedSteps pre = [] ∧ statusUpdates pre = [] ∧ calledSteps pre = [] := by
      rcases hpre with ⟨h, -⟩ | ⟨h, -⟩ <;> (subst h; exact ⟨rfl, rfl, rfl⟩)
    rw [htr, (trace_readings_panicked pre inv s0 p0 hp.1 hp.2.1 hp.2.2).2.2.2]
    exact hpfx
  -- only the last returned step may have failed
  · have hp : invokedSteps pre = [] ∧ statusUpdates pre = [] := by
      rcases hpre with ⟨h, -⟩ | ⟨h, -⟩ <;> (subst h; exact ⟨rfl, rfl⟩)
    rw [htr, (trace_readings pre inv sent serr hp.1 hp.2).1]
    exact hdl
  · have hp : invokedSteps pre = [] ∧ statusUpdates pre = [] ∧ calledSteps pre = [] := by
      rcases hpre with ⟨h, -⟩ | ⟨h, -⟩ <;> (subst h; exact ⟨rfl, rfl, rfl⟩)
    rw [htr, (trace_readings_panicked pre inv s0 p0 hp.1 hp.2.1 hp.2.2).1]
    intro x hx
    exact hall x (List.mem_of_mem_dropLast hx)
  -- the error of a failed step is returned
  · have hp : invokedSteps pre = [] ∧ statusUpdates pre = [] := by
      rcases hpre with ⟨h, -⟩ | ⟨h, -⟩ <;> (subst h; exact ⟨rfl, rfl⟩)
    rw [htr, (trace_readings pre inv sent serr hp.1 hp.2).1]
    intro s e hlast
    refine ⟨?_, hpan⟩
    have hmem : (s, some e) ∈ inv := List.mem_of_getLast?_eq_some hlast
    rcases hcase with ⟨e', text, hone, hor, herr, -⟩ | ⟨-, -, hall, -⟩
    · have hfm := filterMap_snd_last inv s e hdl hlast
      rcases hor with h0 | h0
      · rw [h0, hfm] at hone
        simp at hone
        rw [herr, hone]
      · rw [h0] at hmem; simp at hmem
    · have := hall _ hmem
      simp at this
  · have hp : invokedSteps pre = [] ∧ statusUpdates pre = [] ∧ calledSteps pre = [] := by
      rcases hpre with ⟨h, -⟩ | ⟨h, -⟩ <;> (subst h; exact ⟨rfl, rfl, rfl⟩)
    rw [htr, (trace_readings_panicked pre inv s0 p0 hp.1 hp.2.1 hp.2.2).1]
    intro s e hlast
    have := hall _ (List.mem_of_getLast?_eq_some hlast)
    simp at this
  -- a pass without a panic
  · have hp : invokedSteps pre = [] ∧ statusUpdates pre = [] ∧ calledSteps pre = [] := by
      rcases hpre with ⟨h, -⟩ | ⟨h, -⟩ <;> (subst h; exact ⟨rfl, rfl, rfl⟩)
    obtain ⟨hinv, hfail, -⟩ := trace_readings pre inv sent serr hp.1 hp.2.1
    intro _
    rw [htr, trace_called pre inv sent serr hp.2.2, hinv, hfail]
    refine ⟨rfl, fun hnil => ?_⟩
    rcases hcase with ⟨e', text, hone, -⟩ | ⟨-, hall, -⟩
    · rw [hnil] at hone; simp at hone
    · exact hall
  · intro h
    rw [hpan] at h
    exact absurd h (by simp)
  -- a pass that a step ended in a panic
  · intro p hp
    rw [hpan] at hp
    exact absurd hp (by simp)
  · have hp : invokedSteps pre = [] ∧ statusUpdates pre = [] ∧ calledSteps pre = [] := by
      rcases hpre with ⟨h, -⟩ | ⟨h, -⟩ <;> (subst h; exact ⟨rfl, rfl, rfl⟩)
    obtain ⟨hinv, hfail, -, hcalled⟩ :=
      trace_readings_panicked pre inv s0 p0 hp.1 hp.2.1 hp.2.2
    intro p _
    rw [htr, hinv, hfail, hcalled, hfp, filterMap_snd_eq_nil inv hall]
    refine ⟨⟨s0, rfl⟩, hall, rfl, ?_, herr⟩
    intro h
    have hl := congrArg List.length h
    simp [stepOrder] at hl
    omega

/-- Claim C3. A pass over an entity that is not marked for deletion in which
no step panics sends exactly one status request, which appends one condition
of type Ready to the conditions read. The state is Active, with the condition
True/Reconciled, exactly when the finalizer update and all six steps
succeeded; otherwise the state is Error and the condition is False/Error with
a message that ends with the text of the one error that occurred, which is
also returned. A pass that a step ends in a panic sends no status request:
the state is set neither to Active nor to Error and no condition is appended,
although not all six steps succeeded. With the methods of `UserConfigUseCase`
behind the interface this is what happens for the entity whose limit range
has the Pod entry with max cpu 1 and no memory, and for the entity whose
quota override has the cpu 1KK. -/
theorem Reconcile_status (r : UserConfigReconciler) (req : Request) (c : Cluster)
    (uc : UserConfig) (hget : (clientGetUserConfig c req).1 = Except.ok uc)
    (hnd : TimeIsZero uc.DeletionTimestamp = true) :
    ((Reconcile r req c).panicked = none →
      ∃ sent cond held,
        statusUpdates (Reconcile r req c).trace = [sent] ∧
        (Reconcile r req c).userConfig = some held ∧ held.Status = sent.Status ∧
        sent.Status.Conditions = uc.Status.Conditions ++ [cond] ∧
        cond.Typ = ReadyCondition ∧
        (failures (Reconcile r req c).trace = [] ↔
          ((invokedSteps (Reconcile r req c).trace).map Prod.fst = stepOrder ∧
            ∀ p ∈ invokedSteps (Reconcile r req c).trace, p.2 = none)) ∧
        (sent.Status.State = "Active" ↔ failures (Reconcile r req c).trace = []) ∧
        (if failures (Reconcile r req c).trace = [] then
          sent.Status.State = "Active" ∧ cond.Status = ConditionTrue ∧
            cond.Reason = "Reconciled"
        else
          sent.Status.State = "Error" ∧ cond.Status = ConditionFalse ∧
            cond.Reason = "Error" ∧
          ∃ e text, failures (Reconcile r req c).trace = [e] ∧
            (Reconcile r req c).err = some e ∧ cond.Message = text ++ ": " ++ e.msg)) ∧
    (∀ p, (Reconcile r req c).panicked = some p →
      statusUpdates (Reconcile r req c).trace = [] ∧
      (invokedSteps (Reconcile r req c).trace).map Prod.fst ≠ stepOrder ∧
      (Reconcile r req c).err = none ∧
      ∃ held, (Reconcile r req c).userConfig = some held ∧ held.Status = uc.Status) ∧
    ((Reconcile kindReconciler aliceRequest (clusterWith podCpuOnlyEntity)).panicked =
        some { msg := "cannot parse '': quantities must match the regular expression '^([+-]?[0-9.]+)([eEinumkKMGTP]*[-+]?[0-9]*)$'" } ∧
      statusUpdates (Reconcile kindReconciler aliceRequest
        (clusterWith podCpuOnlyEntity)).trace = [] ∧
      (Reconcile kindReconciler aliceRequest (clusterWith podCpuOnlyEntity)).userConfig.map
        (fun held => held.Status) = some { State := "", Conditions := [] }) ∧
    ((Reconcile kindReconciler aliceRequest (clusterWith badQuotaEntity)).panicked =
        some { msg := "cannot parse '1KK': unable to parse quantity's suffix" } ∧
      statusUpdates (Reconcile kindReconciler aliceRequest
        (clusterWith badQuotaEntity)).trace = [] ∧
      (Reconcile kindReconciler aliceRequest (clusterWith badQuotaEntity)).userConfig.map
        (fun held => held.Status) = some { State := "", Conditions := [] }) := by
  refine ⟨?_, ?_, by decide, by decide⟩
  all_goals
    rcases Reconcile_cases r req c uc hget hnd with
      ⟨pre, inv, sent, serr, held, cond, hpan, htr, hpre, hheld, hst, hcond, htyp, hpfx, hdl,
        hcase⟩ |
      ⟨pre, inv, s0, p0, held, hpan, htr, hpre, hfp, herr, hheld, hst, hpfx, hlen, hall⟩
  · intro _
    have hp : invokedSteps pre = [] ∧ statusUpdates pre = [] := by
      rcases hpre with ⟨h, -⟩ | ⟨h, -⟩ <;> (subst h; exact ⟨rfl, rfl⟩)
    obtain ⟨hinv, hfail, hsu⟩ := trace_readings pre inv sent serr hp.1 hp.2
    refine ⟨sent, cond, held, ?_, hheld, hst, hcond, htyp, ?_⟩
    · rw [htr, hsu]
    rw [htr, hinv, hfail]
    rcases hcase with ⟨e, text, hone, hor, herr, h1, h2, h3, h4⟩ | ⟨h0, h1, h2, h3, h4, h5, h6⟩
    · have hne : ¬ (failures pre ++ List.filterMap Prod.snd inv = []) := by
        rw [hone]; simp
      refine ⟨?_, ?_, ?_⟩
      · constructor
        · intro h; exact absurd h hne
        · rintro ⟨hall, hnone⟩
          exfalso
          rcases hor with h0 | h0
          · rw [h0, filterMap_snd_eq_nil inv hnone] at hone
            simp at hone
          · rw [h0] at hall
            simp [stepOrder] at hall
      · rw [h1]
        constructor
        · intro h; exact absurd h (by decide)
        · intro h; exact absurd h hne
      · rw [if_neg hne]
        exact ⟨h1, h2, h3, e, text, hone, herr, h4⟩
    · have hnil : failures pre ++ List.filterMap Prod.snd inv = [] := by
        rw [h0, filterMap_snd_eq_nil inv h2]; rfl
      refine ⟨?_, ?_, ?_⟩
      · exact ⟨fun _ => ⟨h1, h2⟩, fun _ => hnil⟩
      · exact ⟨fun _ => hnil, fun _ => h4⟩
      · rw [if_pos hnil]
        exact ⟨h4, h5, h6⟩
  · intro h
    rw [hpan] at h
    exact absurd h (by simp)
  · intro p hp
    rw [hpan] at hp
    exact absurd hp (by simp)
  · have hp : invokedSteps pre = [] ∧ statusUpdates pre = [] ∧ calledSteps pre = [] := by
      rcases hpre with ⟨h, -⟩ | ⟨h, -⟩ <;> (subst h; exact ⟨rfl, rfl, rfl⟩)
    obtain ⟨hinv, -, hsu, -⟩ := trace_readings_panicked pre inv s0 p0 hp.1 hp.2.1 hp.2.2
    intro p _
    rw [htr, hinv, hsu]
    refine ⟨rfl, ?_, herr, held, hheld, hst⟩
    intro h
    have hl := congrArg List.length h
    simp [stepOrder] at hl
    omega

theorem clientDelete_log (c : Cluster) (obj : Object) :
    (clientDelete c obj).2.calls = c.calls ++ [Call.delete obj.kind obj.Namespace obj.Name] ∧
      (clientDelete c obj).2.userConfigs = c.userConfigs := by
  rcases hf : c.fault c.calls.length with _ | e
  · rcases hl : c.lookup obj.kind obj.Namespace obj.Name with _ | o <;>
      simp [clientDelete, hf, hl, Cluster.record]
  · simp [clientDelete, hf, Cluster.record]

theorem clientDelete_err_objects (c : Cluster) (obj : Object) (e : Error)
    (h : (clientDelete c obj).1 = some e) : (clientDelete c obj).2.objects = c.objects := by
  rcases hf : c.fault c.calls.length with _ | e
  · rcases hl : c.lookup obj.kind obj.Namespace obj.Name with _ | o
    · simp [clientDelete, hf, hl, Cluster.record]
    · simp [clientDelete, hf, hl] at h
  · simp [clientDelete, hf, Cluster.record]

theorem clientDelete_ok (c : Cluster) (obj : Object) (h : (clientDelete c obj).1 = none) :
    (clientDelete c obj).2.lookup obj.kind obj.Namespace obj.Name = none := by
  rcases hf : c.fault c.calls.length with _ | e
  · rcases hl : c.lookup obj.kind obj.Namespace obj.Name with _ | o
    · simp [clientDelete, hf, hl] at h
    · simp only [clientDelete, hf, hl]
      simp only [Cluster.lookup, Cluster.record]
      rw [List.find?_eq_none]
      intro x hx
      rw [List.mem_filter] at hx
      have := hx.2
      simp only [Bool.not_eq_true', Bool.or_eq_false_iff] at this
      simp [this.1]
  · simp [clientDelete, hf] at h

theorem clientUpdateUserConfig_log (c : Cluster) (uc : UserConfig) :
    (clientUpdateUserConfig c uc).2.2.calls = c.calls ++ [Call.updateUserConfig uc] ∧
      (clientUpdateUserConfig c uc).2.2.objects = c.objects := by
  rcases hf : c.fault c.calls.length with _ | e
  · rcases hl : c.lookupUserConfig uc.Name with _ | o
    · simp [clientUpdateUserConfig, hf, hl, Cluster.record]
    · simp only [clientUpdateUserConfig, hf, hl]
      split <;> simp [Cluster.record]
  · simp [clientUpdateUserConfig, hf, Cluster.record]

/-- The two outcomes of `HandleDeletion` on an entity that carries the
finalizer. -/
theorem HandleDeletion_eq (u : UserConfigUseCase) (uc : UserConfig) (c : Cluster)
    (hfin : ContainsFinalizer uc userConfigFinalizer = true) :
    HandleDeletion u uc c =
      if (match (clientDelete c { kind := Kind.Namespace, Name := uc.Name }).1 with
          | some err => !IsNotFound err
          | none => false) = true then
        ((clientDelete c { kind := Kind.Namespace, Name := uc.Name }).1, uc,
          (clientDelete c { kind := Kind.Namespace, Name := uc.Name }).2)
      else
        clientUpdateUserConfig (clientDelete c { kind := Kind.Namespace, Name := uc.Name }).2
          (RemoveFinalizer uc userConfigFinalizer) := by
  have hfin' : ContainsFinalizer uc "myoperator.01cloud.io/finalizer" = true := hfin
  unfold HandleDeletion
  simp only [hfin', Bool.not_true, Bool.false_eq_true, if_false]
  split
  · rfl
  · rcases hu : clientUpdateUserConfig
      (clientDelete c { kind := Kind.Namespace, Name := uc.Name }).2
      (RemoveFinalizer uc "myoperator.01cloud.io/finalizer") with ⟨_ | e, uc2, c2⟩
    · simp only [userConfigFinalizer, hu]
    · simp only [userConfigFinalizer, hu]

/-- What `HandleDeletion` does on an entity that carries the finalizer, by the
outcome of the namespace delete. -/
theorem HandleDeletion_outcomes (u : UserConfigUseCase) (uc : UserConfig) (c : Cluster)
    (hfin : ContainsFinalizer uc userConfigFinalizer = true) :
    (∀ err, (clientDelete c { kind := Kind.Namespace, Name := uc.Name }).1 = some err →
      IsNotFound err = false →
        (HandleDeletion u uc c).1 = some err ∧ (HandleDeletion u uc c).2.1 = uc ∧
        ContainsFinalizer (HandleDeletion u uc c).2.1 userConfigFinalizer = true ∧
        (HandleDeletion u uc c).2.2.calls =
          c.calls ++ [Call.delete Kind.Namespace "" uc.Name] ∧
        (HandleDeletion u uc c).2.2.userConfigs = c.userConfigs) ∧
    (((clientDelete c { kind := Kind.Namespace, Name := uc.Name }).1 = none ∨
      ∃ err, (clientDelete c { kind := Kind.Namespace, Name := uc.Name }).1 = some err ∧
        IsNotFound err = true) →
        (HandleDeletion u uc c).2.2.calls =
          c.calls ++ [Call.delete Kind.Namespace "" uc.Name,
            Call.updateUserConfig (RemoveFinalizer uc userConfigFinalizer)] ∧
        ContainsFinalizer (RemoveFinalizer uc userConfigFinalizer) userConfigFinalizer = false ∧
        (HandleDeletion u uc c).1 =
          (clientUpdateUserConfig (clientDelete c { kind := Kind.Namespace, Name := uc.Name }).2
            (RemoveFinalizer uc userConfigFinalizer)).1) ∧
    ((∃ sent, Call.updateUserConfig sent ∈ (HandleDeletion u uc c).2.2.calls.drop c.calls.length) ↔
      ((clientDelete c { kind := Kind.Namespace, Name := uc.Name }).1 = none ∨
        ∃ err, (clientDelete c { kind := Kind.Namespace, Name := uc.Name }).1 = some err ∧
          IsNotFound err = true)) := by
  have heq := HandleDeletion_eq u uc c hfin
  have hlog := clientDelete_log c { kind := Kind.Namespace, Name := uc.Name }
  have hulog := clientUpdateUserConfig_log
    (clientDelete c { kind := Kind.Namespace, Name := uc.Name }).2
    (RemoveFinalizer uc userConfigFinalizer)
  simp only [] at hlog
  rcases hd : (clientDelete c { kind := Kind.Namespace, Name := uc.Name }).1 with _ | err
  · rw [hd] at heq
    simp only [Bool.false_eq_true, if_false] at heq
    refine ⟨by intro err h; simp at h, ?_, ?_⟩
    · intro _
      rw [heq, hulog.1, hlog.1]
      exact ⟨by simp, ContainsFinalizer_RemoveFinalizer uc _, rfl⟩
    · rw [heq, hulog.1, hlog.1]
      simp
  · rw [hd] at heq
    by_cases hnf : IsNotFound err = true
    · simp only [hnf, Bool.not_true, Bool.false_eq_true, if_false] at heq
      refine ⟨by intro e h h2; simp at h; subst h; rw [hnf] at h2; simp at h2, ?_, ?_⟩
      · intro _
        rw [heq, hulog.1, hlog.1]
        exact ⟨by simp, ContainsFinalizer_RemoveFinalizer uc _, rfl⟩
      · rw [heq, hulog.1, hlog.1]
        simp [hnf]
    · have hnf' : IsNotFound err = false := by simpa using hnf
      simp only [hnf', Bool.not_false, if_true] at heq
      refine ⟨?_, ?_, ?_⟩
      · intro e h _
        simp at h; subst h
        rw [heq]
        exact ⟨rfl, rfl, hfin, hlog.1, hlog.2⟩
      · rintro (h | ⟨e, h, h2⟩)
        · simp at h
        · simp at h; subst h; rw [hnf'] at h2; simp at h2
      · rw [heq]
        simp only [hlog.1]
        simp [hnf']

/-- Claim C6. On an entity that carries the finalizer, `HandleDeletion` first
requests the deletion of the namespace named after the entity. When that
request fails with an error other than not-found, the error is returned, the
entity held by the caller is unchanged and still carries the finalizer, and no
update of the entity is sent. Otherwise, and only then, the entity without the
finalizer is sent in an update, right after the delete request. -/
theorem HandleDeletion_protocol (u : UserConfigUseCase) (uc : UserConfig) (c : Cluster)
    (hfin : ContainsFinalizer uc userConfigFinalizer = true) :
    (∀ err, (clientDelete c { kind := Kind.Namespace, Name := uc.Name }).1 = some err →
      IsNotFound err = false →
        (HandleDeletion u uc c).1 = some err ∧ (HandleDeletion u uc c).2.1 = uc ∧
        ContainsFinalizer (HandleDeletion u uc c).2.1 userConfigFinalizer = true ∧
        (HandleDeletion u uc c).2.2.calls =
          c.calls ++ [Call.delete Kind.Namespace "" uc.Name] ∧
        (HandleDeletion u uc c).2.2.userConfigs = c.userConfigs) ∧
    (((clientDelete c { kind := Kind.Namespace, Name := uc.Name }).1 = none ∨
      ∃ err, (clientDelete c { kind := Kind.Namespace, Name := uc.Name }).1 = some err ∧
        IsNotFound err = true) →
        (HandleDeletion u uc c).2.2.calls =
          c.calls ++ [Call.delete Kind.Namespace "" uc.Name,
            Call.updateUserConfig (RemoveFinalizer uc userConfigFinalizer)] ∧
        ContainsFinalizer (RemoveFinalizer uc userConfigFinalizer) userConfigFinalizer = false ∧
        (HandleDeletion u uc c).1 =
          (clientUpdateUserConfig (clientDelete c { kind := Kind.Namespace, Name := uc.Name }).2
            (RemoveFinalizer uc userConfigFinalizer)).1) ∧
    ((∃ sent, Call.updateUserConfig sent ∈ (HandleDeletion u uc c).2.2.calls.drop c.calls.length) ↔
      ((clientDelete c { kind := Kind.Namespace, Name := uc.Name }).1 = none ∨
        ∃ err, (clientDelete c { kind := Kind.Namespace, Name := uc.Name }).1 = some err ∧
          IsNotFound err = true)) :=
  HandleDeletion_outcomes u uc c hfin
theorem clientDelete_fault (c : Cluster) (obj : Object) :
    (clientDelete c obj).2.fault = c.fault := by
  rcases hf : c.fault c.calls.length with _ | e
  · rcases hl : c.lookup obj.kind obj.Namespace obj.Name with _ | o <;>
      simp [clientDelete, hf, hl, Cluster.record]
  · simp [clientDelete, hf, Cluster.record]

/-- A delete that the API server does not reject for a reason of its own
either succeeds or reports not-found, and then nothing was stored. -/
theorem clientDelete_nofault (c : Cluster) (obj : Object)
    (hf : c.fault c.calls.length = none) :
    (clientDelete c obj).1 = none ∨
      ((clientDelete c obj).1 = some notFoundError ∧
        (clientDelete c obj).2.lookup obj.kind obj.Namespace obj.Name = none) := by
  rcases hl : c.lookup obj.kind obj.Namespace obj.Name with _ | o
  · right
    simp only [clientDelete, hf, hl]
    exact ⟨trivial, hl⟩
  · left
    simp [clientDelete, hf, hl]

/-- An entity update that the API server does not reject stores the
finalizers it was sent, or removes the entity. -/
theorem clientUpdateUserConfig_nofault (c : Cluster) (uc old : UserConfig)
    (hf : c.fault c.calls.length = none) (hl : c.lookupUserConfig uc.Name = some old) :
    (clientUpdateUserConfig c uc).1 = none ∧
      ∀ s, (clientUpdateUserConfig c uc).2.2.lookupUserConfig uc.Name = some s →
        s.Finalizers = uc.Finalizers := by
  simp only [clientUpdateUserConfig, hf, hl]
  split
  · refine ⟨rfl, ?_⟩
    intro s hs
    simp only [Cluster.lookupUserConfig, Cluster.record] at hs
    have hmem := List.mem_of_find?_eq_some hs
    have hp := List.find?_some (p := fun (x : UserConfig) => decide (x.Name = uc.Name)) hs
    rw [List.mem_filter] at hmem
    simp at hp
    simp [hp] at hmem
  · refine ⟨rfl, ?_⟩
    intro s hs
    simp only [Cluster.lookupUserConfig, Cluster.record] at hs
    have hmem := List.mem_of_find?_eq_some hs
    have hp := List.find?_some (p := fun (x : UserConfig) => decide (x.Name = uc.Name)) hs
    simp at hp
    rw [List.mem_map] at hmem
    obtain ⟨x, -, hx⟩ := hmem
    by_cases hxn : x.Name = uc.Name
    · rw [if_pos hxn] at hx
      rw [← hx]
    · rw [if_neg hxn] at hx
      rw [hx] at hxn
      exact absurd hp hxn

/-- An entity marked for deletion that carries the finalizer: `Reconcile`
hands it to `HandleDeletion` and does nothing else. -/
theorem Reconcile_deleting (r : UserConfigReconciler) (req : Request) (c : Cluster)
    (uc : UserConfig) (hget : (clientGetUserConfig c req).1 = Except.ok uc)
    (hdel : TimeIsZero uc.DeletionTimestamp = false)
    (hfin : ContainsFinalizer uc userConfigFinalizer = true) :
    (Reconcile r req c).err =
        (r.UC.HandleDeletion uc (c.record (Call.getUserConfig req.Name))).1 ∧
      (Reconcile r req c).trace =
        [Action.handleDeletion
          (r.UC.HandleDeletion uc (c.record (Call.getUserConfig req.Name))).1] ∧
      (Reconcile r req c).cluster =
        (r.UC.HandleDeletion uc (c.record (Call.getUserConfig req.Name))).2.2 ∧
      (Reconcile r req c).panicked = none := by
  obtain ⟨heq, -⟩ := clientGetUserConfig_ok c req uc hget
  unfold Reconcile
  simp only [heq, hdel, hfin, Bool.not_false, Bool.not_true, if_true, Bool.false_eq_true,
    if_false]
  rcases hh : r.UC.HandleDeletion uc (c.record (Call.getUserConfig req.Name)) with
    ⟨_ | e, uc2, c2⟩ <;> simp

/-- Claim C5. For an entity marked for deletion, `Reconcile` invokes none of
the six steps, so none is called that could panic, and sends no status
request. Without the finalizer it returns no
error and the only request it makes is the read of the entity, so the store is
unchanged. With the finalizer the next request is the deletion of the
namespace named after the entity; unless that fails with an error other than
not-found, it is followed by the update of the entity with the finalizer
removed; and when the delete succeeds the namespace is gone from the store.
On a cluster that rejects no request the pass returns no error, its requests
are exactly the read, the namespace delete and the entity update, the
namespace is gone, and the entity, if still stored, no longer carries the
finalizer. -/
theorem Reconcile_deletion (steps : UseCase) (u : UserConfigUseCase) (req : Request)
    (c : Cluster) (uc : UserConfig) (hget : (clientGetUserConfig c req).1 = Except.ok uc)
    (hdel : TimeIsZero uc.DeletionTimestamp = false) :
    invokedSteps (Reconcile { UC := withHandleDeletion steps u } req c).trace = [] ∧
    statusUpdates (Reconcile { UC := withHandleDeletion steps u } req c).trace = [] ∧
    (ContainsFinalizer uc userConfigFinalizer = false →
      (Reconcile { UC := withHandleDeletion steps u } req c).err = none ∧
      (Reconcile { UC := withHandleDeletion steps u } req c).trace = [] ∧
      (Reconcile { UC := withHandleDeletion steps u } req c).cluster.calls =
        c.calls ++ [Call.getUserConfig req.Name] ∧
      (Reconcile { UC := withHandleDeletion steps u } req c).cluster.objects = c.objects ∧
      (Reconcile { UC := withHandleDeletion steps u } req c).cluster.userConfigs =
        c.userConfigs) ∧
    (ContainsFinalizer uc userConfigFinalizer = true →
      ∃ rest,
        (Reconcile { UC := withHandleDeletion steps u } req c).cluster.calls =
          c.calls ++ [Call.getUserConfig req.Name, Call.delete Kind.Namespace "" uc.Name]
            ++ rest ∧
        (((clientDelete (c.record (Call.getUserConfig req.Name))
              { kind := Kind.Namespace, Name := uc.Name }).1 = none ∨
          ∃ err, (clientDelete (c.record (Call.getUserConfig req.Name))
              { kind := Kind.Namespace, Name := uc.Name }).1 = some err ∧
            IsNotFound err = true) →
          rest = [Call.updateUserConfig (RemoveFinalizer uc userConfigFinalizer)] ∧
          ContainsFinalizer (RemoveFinalizer uc userConfigFinalizer) userConfigFinalizer =
            false) ∧
        (∀ err, (clientDelete (c.record (Call.getUserConfig req.Name))
              { kind := Kind.Namespace, Name := uc.Name }).1 = some err →
            IsNotFound err = false →
          rest = [] ∧
          (Reconcile { UC := withHandleDeletion steps u } req c).err = some err) ∧
        ((clientDelete (c.record (Call.getUserConfig req.Name))
              { kind := Kind.Namespace, Name := uc.Name }).1 = none →
          (Reconcile { UC := withHandleDeletion steps u } req c).cluster.lookup
            Kind.Namespace "" uc.Name = none)) ∧
    ((∀ n, c.fault n = none) → ContainsFinalizer uc userConfigFinalizer = true →
      (Reconcile { UC := withHandleDeletion steps u } req c).err = none ∧
      (Reconcile { UC := withHandleDeletion steps u } req c).cluster.calls =
        c.calls ++ [Call.getUserConfig req.Name, Call.delete Kind.Namespace "" uc.Name,
          Call.updateUserConfig (RemoveFinalizer uc userConfigFinalizer)] ∧
      (Reconcile { UC := withHandleDeletion steps u } req c).cluster.lookup
        Kind.Namespace "" uc.Name = none ∧
      ∀ s, (Reconcile { UC := withHandleDeletion steps u } req c).cluster.lookupUserConfig
          uc.Name = some s → ContainsFinalizer s userConfigFinalizer = false) ∧
    calledSteps (Reconcile { UC := withHandleDeletion steps u } req c).trace = [] ∧
    (Reconcile { UC := withHandleDeletion steps u } req c).panicked = none := by
  obtain ⟨heq, hlook⟩ := clientGetUserConfig_ok c req uc hget
  by_cases hfin : ContainsFinalizer uc userConfigFinalizer = true
  · obtain ⟨herr, htr, hcl, hpan⟩ :=
      Reconcile_deleting { UC := withHandleDeletion steps u } req c uc hget hdel hfin
    have hHD : (withHandleDeletion steps u).HandleDeletion = HandleDeletion u := rfl
    simp only [hHD] at herr htr hcl
    obtain ⟨hA, hB, -⟩ :=
      HandleDeletion_outcomes u uc (c.record (Call.getUserConfig req.Name)) hfin
    have heqHD := HandleDeletion_eq u uc (c.record (Call.getUserConfig req.Name)) hfin
    rw [htr, herr, hcl, hpan]
    refine ⟨rfl, rfl, ?_, ?_, ?_, rfl, rfl⟩
    · intro h; rw [hfin] at h; exact absurd h (by decide)
    · intro _
      refine ⟨((HandleDeletion u uc (c.record (Call.getUserConfig req.Name))).2.2.calls.drop
        (c.calls.length + 2)), ?_, ?_, ?_, ?_⟩
      · rcases hd : (clientDelete (c.record (Call.getUserConfig req.Name))
          { kind := Kind.Namespace, Name := uc.Name }).1 with _ | err
        · rw [(hB (Or.inl hd)).1]
          simp [Cluster.record]
        · by_cases hnf : IsNotFound err = true
          · rw [(hB (Or.inr ⟨err, hd, hnf⟩)).1]
            simp [Cluster.record]
          · have hnf' : IsNotFound err = false := by simpa using hnf
            rw [(hA err hd hnf').2.2.2.1]
            simp [Cluster.record]
      · intro h
        rw [(hB h).1]
        exact ⟨by simp [Cluster.record], (hB h).2.1⟩
      · intro err hd hnf
        rw [(hA err hd hnf).2.2.2.1]
        exact ⟨by simp [Cluster.record], (hA err hd hnf).1⟩
      · intro hd
        rw [heqHD, hd]
        simp only [Bool.false_eq_true, if_false]
        have hobj := (clientUpdateUserConfig_log
          (clientDelete (c.record (Call.getUserConfig req.Name))
            { kind := Kind.Namespace, Name := uc.Name }).2
          (RemoveFinalizer uc userConfigFinalizer)).2
        rw [lookup_congr _ _ hobj]
        exact clientDelete_ok (c.record (Call.getUserConfig req.Name))
          { kind := Kind.Namespace, Name := uc.Name } hd
    · intro hnofault _
      have hdel0 := clientDelete_nofault (c.record (Call.getUserConfig req.Name))
        { kind := Kind.Namespace, Name := uc.Name } (hnofault _)
      have hdlog := clientDelete_log (c.record (Call.getUserConfig req.Name))
        { kind := Kind.Namespace, Name := uc.Name }
      have hdfault := clientDelete_fault (c.record (Call.getUserConfig req.Name))
        { kind := Kind.Namespace, Name := uc.Name }
      have hcond : (match (clientDelete (c.record (Call.getUserConfig req.Name))
            { kind := Kind.Namespace, Name := uc.Name }).1 with
          | some err => !IsNotFound err
          | none => false) = false := by
        rcases hdel0 with h | ⟨h, -⟩
        · rw [h]
        · rw [h]; rfl
      have hgone : (clientDelete (c.record (Call.getUserConfig req.Name))
          { kind := Kind.Namespace, Name := uc.Name }).2.lookup Kind.Namespace "" uc.Name =
          none := by
        rcases hdel0 with h | ⟨-, h⟩
        · exact clientDelete_ok _ _ h
        · exact h
      have hstored : (clientDelete (c.record (Call.getUserConfig req.Name))
          { kind := Kind.Namespace, Name := uc.Name }).2.lookupUserConfig
          (RemoveFinalizer uc userConfigFinalizer).Name = some uc := by
        unfold Cluster.lookupUserConfig
        rw [hdlog.2]
        exact hlook
      obtain ⟨hok, hfinal⟩ := clientUpdateUserConfig_nofault _
        (RemoveFinalizer uc userConfigFinalizer) uc (by rw [hdfault]; exact hnofault _) hstored
      have hobj := (clientUpdateUserConfig_log
        (clientDelete (c.record (Call.getUserConfig req.Name))
          { kind := Kind.Namespace, Name := uc.Name }).2
        (RemoveFinalizer uc userConfigFinalizer)).2
      have hB' := hB (by
        rcases hdel0 with h | ⟨h, -⟩
        · exact Or.inl h
        · exact Or.inr ⟨_, h, rfl⟩)
      rw [heqHD, hcond] at *
      simp only [Bool.false_eq_true, if_false] at *
      refine ⟨hok, ?_, ?_, ?_⟩
      · rw [hB'.1]; simp [Cluster.record]
      · rw [lookup_congr _ _ hobj]; exact hgone
      · intro s hs
        have := hfinal s hs
        have hrm := ContainsFinalizer_RemoveFinalizer uc userConfigFinalizer
        unfold ContainsFinalizer at hrm ⊢
        rw [this]; exact hrm
  · have hfin' : ContainsFinalizer uc userConfigFinalizer = false := by simpa using hfin
    have hres : Reconcile { UC := withHandleDeletion steps u } req c =
        { err := none, userConfig := some uc, trace := [],
          cluster := c.record (Call.getUserConfig req.Name) } := by
      unfold Reconcile
      simp only [heq, hdel, hfin', Bool.not_false, if_true]
    rw [hres]
    refine ⟨rfl, rfl, fun _ => ⟨rfl, rfl, rfl, rfl, rfl⟩, ?_, ?_, rfl, rfl⟩
    · intro h; rw [hfin'] at h; exact absurd h (by decide)
    · intro _ h; rw [hfin'] at h; exact absurd h (by decide)
/-- Witness of C2: alice on a cluster where the RBAC step fails; the three
steps up to it are called, and its error is returned. -/
theorem Reconcile_step_order_witness :
    (clientGetUserConfig (clusterWith (podsEntity "CRUD")) aliceRequest).1 =
      Except.ok (podsEntity "CRUD") ∧
    TimeIsZero (podsEntity "CRUD").DeletionTimestamp = true ∧
    calledSteps (Reconcile { UC := failingUseCase (some Step.ReconcileRBAC) } aliceRequest
        (clusterWith (podsEntity "CRUD"))).trace <+: stepOrder ∧
    (∀ s e, (invokedSteps (Reconcile { UC := failingUseCase (some Step.ReconcileRBAC) }
        aliceRequest (clusterWith (podsEntity "CRUD"))).trace).getLast? = some (s, some e) →
      (Reconcile { UC := failingUseCase (some Step.ReconcileRBAC) } aliceRequest
        (clusterWith (podsEntity "CRUD"))).err = some e ∧
      (Reconcile { UC := failingUseCase (some Step.ReconcileRBAC) } aliceRequest
        (clusterWith (podsEntity "CRUD"))).panicked = none) ∧
    invokedSteps (Reconcile { UC := failingUseCase (some Step.ReconcileRBAC) } aliceRequest
        (clusterWith (podsEntity "CRUD"))).trace =
      [(Step.ReconcileNamespace, none), (Step.ReconcileSealedSecrets, none),
       (Step.ReconcileRBAC, some exampleError)] :=
  ⟨rfl, by decide,
   (Reconcile_step_order { UC := failingUseCase (some Step.ReconcileRBAC) } aliceRequest
     (clusterWith (podsEntity "CRUD")) (podsEntity "CRUD") rfl (by decide)).1,
   (Reconcile_step_order { UC := failingUseCase (some Step.ReconcileRBAC) } aliceRequest
     (clusterWith (podsEntity "CRUD")) (podsEntity "CRUD") rfl (by decide)).2.2.1,
   by decide⟩

/-- Witness of C3: alice on a cluster where every step succeeds; the one
status request sets the state Active. -/
theorem Reconcile_status_witness :
    (clientGetUserConfig (clusterWith (podsEntity "CRUD")) aliceRequest).1 =
      Except.ok (podsEntity "CRUD") ∧
    TimeIsZero (podsEntity "CRUD").DeletionTimestamp = true ∧
    (Reconcile { UC := failingUseCase none } aliceRequest
      (clusterWith (podsEntity "CRUD"))).panicked = none ∧
    ∃ sent cond held,
      statusUpdates (Reconcile { UC := failingUseCase none } aliceRequest
        (clusterWith (podsEntity "CRUD"))).trace = [sent] ∧
      (Reconcile { UC := failingUseCase none } aliceRequest
        (clusterWith (podsEntity "CRUD"))).userConfig = some held ∧
      held.Status = sent.Status ∧
      sent.Status.Conditions = (podsEntity "CRUD").Status.Conditions ++ [cond] ∧
      cond.Typ = ReadyCondition ∧
      (failures (Reconcile { UC := failingUseCase none } aliceRequest
          (clusterWith (podsEntity "CRUD"))).trace = [] ↔
        ((invokedSteps (Reconcile { UC := failingUseCase none } aliceRequest
            (clusterWith (podsEntity "CRUD"))).trace).map Prod.fst = stepOrder ∧
          ∀ p ∈ invokedSteps (Reconcile { UC := failingUseCase none } aliceRequest
            (clusterWith (podsEntity "CRUD"))).trace, p.2 = none)) ∧
      (sent.Status.State = "Active" ↔
        failures (Reconcile { UC := failingUseCase none } aliceRequest
          (clusterWith (podsEntity "CRUD"))).trace = []) ∧
      (if failures (Reconcile { UC := failingUseCase none } aliceRequest
          (clusterWith (podsEntity "CRUD"))).trace = [] then
        sent.Status.State = "Active" ∧ cond.Status = ConditionTrue ∧ cond.Reason = "Reconciled"
      else
        sent.Status.State = "Error" ∧ cond.Status = ConditionFalse ∧ cond.Reason = "Error" ∧
        ∃ e text, failures (Reconcile { UC := failingUseCase none } aliceRequest
            (clusterWith (podsEntity "CRUD"))).trace = [e] ∧
          (Reconcile { UC := failingUseCase none } aliceRequest
            (clusterWith (podsEntity "CRUD"))).err = some e ∧
          cond.Message = text ++ ": " ++ e.msg) :=
  ⟨rfl, by decide, by decide,
   (Reconcile_status { UC := failingUseCase none } aliceRequest
     (clusterWith (podsEntity "CRUD")) (podsEntity "CRUD") rfl (by decide)).1 (by decide)⟩

/-- Witness of C5: alice marked for deletion and carrying the finalizer; the
pass deletes her namespace and sends her without the finalizer. -/
theorem Reconcile_deletion_witness :
    (clientGetUserConfig (clusterWith deletedEntity) aliceRequest).1 =
      Except.ok deletedEntity ∧
    TimeIsZero deletedEntity.DeletionTimestamp = false ∧
    invokedSteps (Reconcile { UC := withHandleDeletion (failingUseCase none) {} } aliceRequest
      (clusterWith deletedEntity)).trace = [] ∧
    (Reconcile { UC := withHandleDeletion (failingUseCase none) {} } aliceRequest
      (clusterWith deletedEntity)).cluster.calls =
      [Call.getUserConfig "alice", Call.delete Kind.Namespace "" "alice",
       Call.updateUserConfig (RemoveFinalizer deletedEntity userConfigFinalizer)] ∧
    (Reconcile { UC := withHandleDeletion (failingUseCase none) {} } aliceRequest
      (clusterWith deletedEntity)).cluster.lookup Kind.Namespace "" "alice" = none :=
  ⟨rfl, by decide,
   (Reconcile_deletion (failingUseCase none) {} aliceRequest (clusterWith deletedEntity)
     deletedEntity rfl (by decide)).1,
   by decide, by decide⟩

/-- Witness of C6: alice carrying the finalizer, on a cluster that stores her
namespace. -/
theorem HandleDeletion_protocol_witness :
    ContainsFinalizer deletedEntity userConfigFinalizer = true ∧
    (HandleDeletion {} deletedEntity (clusterWith deletedEntity)).2.2.calls =
      [Call.delete Kind.Namespace "" "alice",
       Call.updateUserConfig (RemoveFinalizer deletedEntity userConfigFinalizer)] ∧
    ContainsFinalizer (RemoveFinalizer deletedEntity userConfigFinalizer) userConfigFinalizer =
      false :=
  ⟨by decide,
   ((HandleDeletion_protocol {} deletedEntity (clusterWith deletedEntity) (by decide)).2.1
     (Or.inl (by decide))).1,
   by decide⟩

/-! ## The alias tables -/

/-- Claim C11. For every resource alias `getAPIGroup` returns a list of exactly
one API group, which is never the wildcard; an alias it has no case for gets
the fixed group apps, and an alias `mapActualResource` has no case for is
returned unchanged. -/
theorem getAPIGroup_conservative (resource : String) :
    (getAPIGroup resource).length = 1 ∧ "*" ∉ getAPIGroup resource ∧
    (resource ∉ apiGroupAliases → getAPIGroup resource = ["apps"]) ∧
    (resource ∉ resourceAliases → mapActualResource resource = resource) ∧
    (resource ∉ apiGroupAliases → resource ∉ resourceAliases →
      getAPIGroup resource = ["apps"] ∧ mapActualResource resource = resource) := by
  have h3 : resource ∉ apiGroupAliases → getAPIGroup resource = ["apps"] := by
    intro h
    simp only [apiGroupAliases, List.mem_cons, List.mem_singleton, not_or, List.not_mem_nil,
      or_false] at h
    unfold getAPIGroup
    simp [h]
  have h4 : resource ∉ resourceAliases → mapActualResource resource = resource := by
    intro h
    simp only [resourceAliases, List.mem_cons, List.mem_singleton, not_or, List.not_mem_nil,
      or_false] at h
    unfold mapActualResource
    simp [h]
  refine ⟨?_, ?_, h3, h4, fun a b => ⟨h3 a, h4 b⟩⟩
  · unfold getAPIGroup
    split_ifs <;> rfl
  · unfold getAPIGroup
    split_ifs <;> decide
/-! ## The network rule composer -/

theorem appendEach_eq {α β : Type} (acc : List β) (xs : List α) (f : α → β) :
    appendEach acc xs f = acc ++ xs.map f := by
  unfold appendEach
  induction xs generalizing acc with
  | nil => simp
  | cons a t ih => simp [ih]

/-- The peers of a clause are the pod selectors followed by the namespace
selectors of its entry, one peer each. -/
theorem selectorPeers_eq (peer : NetworkPolicyPeer) :
    selectorPeers peer = peer.Pods.map podPeer ++ peer.Namespaces.map namespacePeer := by
  have hp : (fun podSelector : List (String × String) =>
      ({ PodSelector := some { MatchLabels := podSelector } } :
        networkingv1.NetworkPolicyPeer)) = podPeer := rfl
  have hn : (fun nsSelector : List (String × String) =>
      ({ NamespaceSelector := some { MatchLabels := nsSelector } } :
        networkingv1.NetworkPolicyPeer)) = namespacePeer := rfl
  unfold selectorPeers
  simp only [appendEach_eq, hp, hn]
  rcases hP : peer.Pods with _ | ⟨a, t⟩ <;> rcases hN : peer.Namespaces with _ | ⟨b, s⟩ <;> simp

theorem composeRules_foldl (rules : List NetworkPolicy)
    (acc : List networkingv1.NetworkPolicyIngressRule ×
      List networkingv1.NetworkPolicyEgressRule) :
    rules.foldl (fun acc policy =>
      ((match policy.AllowTrafficFrom with
        | some peer => acc.1 ++ [ingressRuleOf peer]
        | none => acc.1),
       (match policy.AllowTrafficTo with
        | some peer => acc.2 ++ [egressRuleOf peer]
        | none => acc.2))) acc =
      (acc.1 ++ rules.filterMap (fun p => p.AllowTrafficFrom.map ingressRuleOf),
       acc.2 ++ rules.filterMap (fun p => p.AllowTrafficTo.map egressRuleOf)) := by
  induction rules generalizing acc with
  | nil => simp
  | cons a t ih =>
    rw [List.foldl_cons, ih]
    rcases hF : a.AllowTrafficFrom with _ | pf <;> rcases hT : a.AllowTrafficTo with _ | pt <;>
      simp [List.filterMap_cons, hF, hT]

theorem composeRules_eq (rules : List NetworkPolicy) :
    composeRules rules =
      (rules.filterMap (fun p => p.AllowTrafficFrom.map ingressRuleOf),
       rules.filterMap (fun p => p.AllowTrafficTo.map egressRuleOf)) := by
  unfold composeRules
  have := composeRules_foldl rules ([], [])
  simpa using this

/-- The policy built from a rule list, in closed form. -/
theorem networkPolicySpec_eq (rules : List NetworkPolicy) :
    networkPolicySpec rules =
      { PodSelector := { MatchLabels := [] },
        Ingress := rules.filterMap (fun p => p.AllowTrafficFrom.map ingressRuleOf),
        Egress := rules.filterMap (fun p => p.AllowTrafficTo.map egressRuleOf),
        PolicyTypes := ["Ingress", "Egress"] } := by
  unfold networkPolicySpec
  simp only [composeRules_eq]
  rcases rules with _ | ⟨a, t⟩
  · simp
  · simp only [List.length_cons, Nat.add_one_ne_zero, if_false]
    split_ifs with h1 h2 h2
    · rfl
    · have hi : List.filterMap (fun p => Option.map ingressRuleOf p.AllowTrafficFrom) (a :: t) =
          [] := List.length_eq_zero.mp (Nat.eq_zero_of_not_pos h2)
      rw [hi]
    · have he : List.filterMap (fun p => Option.map egressRuleOf p.AllowTrafficTo) (a :: t) =
          [] := List.length_eq_zero.mp (Nat.eq_zero_of_not_pos h1)
      rw [he]
    · have hi : List.filterMap (fun p => Option.map ingressRuleOf p.AllowTrafficFrom) (a :: t) =
          [] := List.length_eq_zero.mp (Nat.eq_zero_of_not_pos h2)
      have he : List.filterMap (fun p => Option.map egressRuleOf p.AllowTrafficTo) (a :: t) =
          [] := List.length_eq_zero.mp (Nat.eq_zero_of_not_pos h1)
      rw [hi, he]
/-- Whenever `ReconcileNetworkPolicies` succeeds, the cluster stores, under the
name of the entity and in its namespace, a NetworkPolicy with the spec built
from the entity's rule list. -/
theorem ReconcileNetworkPolicies_stored (u : UserConfigUseCase) (uc : UserConfig) (c : Cluster)
    (h : (ReconcileNetworkPolicies u uc c).1 = none) :
    ∃ o, (ReconcileNetworkPolicies u uc c).2.lookup Kind.NetworkPolicy uc.Name uc.Name =
        some o ∧
      o.body = Body.networkPolicy (networkPolicySpec uc.Spec.NetworkPolicy) := by
  unfold ReconcileNetworkPolicies at h ⊢
  simp only [] at h ⊢
  split at h
  · simp at h
  · rename_i netpol hs
    obtain ⟨hk, hn, hns, hb, -⟩ := SetControllerReference_ok _ _ _ _ hs
    simp only [hn] at h ⊢
    rcases hg : clientGet c Kind.NetworkPolicy uc.Name uc.Name with ⟨e | existing, c1⟩
    · simp only [hg] at h ⊢
      by_cases hnf : IsNotFound e = true
      · simp only [hnf, if_true] at h ⊢
        rcases hc : clientCreate c1 netpol with ⟨_ | e2, c2⟩
        · refine ⟨netpol, ?_, hb⟩
          have := clientCreate_ok c1 netpol (by rw [hc])
          rw [hc] at this
          simpa [hk, hn, hns] using this
        · simp [hc] at h
      · simp [hnf] at h
    · simp only [hg] at h ⊢
      have hkey := clientGet_ok c Kind.NetworkPolicy uc.Name uc.Name existing (by rw [hg])
      rw [hasKey_iff] at hkey
      generalize hex : ({ existing with body := netpol.body } : Object) = ex at h ⊢
      have hexk : ex.kind = Kind.NetworkPolicy ∧ ex.Namespace = uc.Name ∧ ex.Name = uc.Name ∧
          ex.body = netpol.body := by
        subst hex; exact ⟨hkey.1, hkey.2.1, hkey.2.2, rfl⟩
      rcases hu : clientUpdate c1 ex with ⟨_ | e3, c3⟩
      · refine ⟨ex, ?_, by rw [hexk.2.2.2, hb]⟩
        have := clientUpdate_ok c1 ex (by rw [hu])
        rw [hu] at this
        simpa [hexk.1, hexk.2.1, hexk.2.2.1] using this
      · simp [hu] at h

/-- Claim C12. For an entity with an empty rule list the NetworkPolicy built
selects all pods (empty pod selector), declares the policy types Ingress and
Egress, and has an empty ingress and an empty egress list; whenever
`ReconcileNetworkPolicies` succeeds this is the spec of the NetworkPolicy
stored in the namespace of the entity. -/
theorem networkPolicy_default_deny (u : UserConfigUseCase) (uc : UserConfig) (c : Cluster)
    (hempty : uc.Spec.NetworkPolicy = []) :
    networkPolicySpec uc.Spec.NetworkPolicy =
      { PodSelector := { MatchLabels := [] }, Ingress := [], Egress := [],
        PolicyTypes := ["Ingress", "Egress"] } ∧
    ((ReconcileNetworkPolicies u uc c).1 = none →
      ∃ o, (ReconcileNetworkPolicies u uc c).2.lookup Kind.NetworkPolicy uc.Name uc.Name =
          some o ∧
        o.Namespace = uc.Name ∧
        o.body = Body.networkPolicy
          { PodSelector := { MatchLabels := [] }, Ingress := [], Egress := [],
            PolicyTypes := ["Ingress", "Egress"] }) := by
  have hspec : networkPolicySpec uc.Spec.NetworkPolicy =
      { PodSelector := { MatchLabels := [] }, Ingress := [], Egress := [],
        PolicyTypes := ["Ingress", "Egress"] } := by
    rw [hempty]; rfl
  refine ⟨hspec, ?_⟩
  intro h
  obtain ⟨o, ho, hb⟩ := ReconcileNetworkPolicies_stored u uc c h
  refine ⟨o, ho, ?_, by rw [hb, hspec]⟩
  exact ((hasKey_iff _ _ _ _).mp (lookup_hasKey _ _ _ _ _ ho)).2.1

/-- Witness of C12: alice, who declares no network rule, on a fresh cluster. -/
theorem networkPolicy_default_deny_witness :
    (podsEntity "CRUD").Spec.NetworkPolicy = [] ∧
    (ReconcileNetworkPolicies {} (podsEntity "CRUD") {}).1 = none ∧
    networkPolicySpec (podsEntity "CRUD").Spec.NetworkPolicy =
      { PodSelector := { MatchLabels := [] }, Ingress := [], Egress := [],
        PolicyTypes := ["Ingress", "Egress"] } ∧
    ((ReconcileNetworkPolicies {} (podsEntity "CRUD") {}).1 = none →
      ∃ o, (ReconcileNetworkPolicies {} (podsEntity "CRUD") {}).2.lookup Kind.NetworkPolicy
          (podsEntity "CRUD").Name (podsEntity "CRUD").Name = some o ∧
        o.Namespace = (podsEntity "CRUD").Name ∧
        o.body = Body.networkPolicy
          { PodSelector := { MatchLabels := [] }, Ingress := [], Egress := [],
            PolicyTypes := ["Ingress", "Egress"] }) :=
  ⟨by decide, by decide, networkPolicy_default_deny {} (podsEntity "CRUD") {} (by decide)⟩

/-- Claim C13. The composition does not depend on the order of the rule list:
for a permutation of the list the ingress clauses are a permutation of the
ingress clauses, the egress clauses a permutation of the egress clauses, so a
clause is emitted for one list exactly when it is for the other, and the pod
selector and the policy types are the same. -/
theorem networkPolicySpec_perm (rules rules' : List NetworkPolicy) (h : rules.Perm rules') :
    (networkPolicySpec rules).Ingress.Perm (networkPolicySpec rules').Ingress ∧
    (networkPolicySpec rules).Egress.Perm (networkPolicySpec rules').Egress ∧
    (∀ clause, clause ∈ (networkPolicySpec rules).Ingress ↔
      clause ∈ (networkPolicySpec rules').Ingress) ∧
    (∀ clause, clause ∈ (networkPolicySpec rules).Egress ↔
      clause ∈ (networkPolicySpec rules').Egress) ∧
    (networkPolicySpec rules).PodSelector = (networkPolicySpec rules').PodSelector ∧
    (networkPolicySpec rules).PolicyTypes = (networkPolicySpec rules').PolicyTypes := by
  rw [networkPolicySpec_eq, networkPolicySpec_eq]
  have hi := h.filterMap (fun p => p.AllowTrafficFrom.map ingressRuleOf)
  have he := h.filterMap (fun p => p.AllowTrafficTo.map egressRuleOf)
  exact ⟨hi, he, fun _ => hi.mem_iff, fun _ => he.mem_iff, rfl, rfl⟩

/-- Witness of C13: two rules, one allowing traffic from the frontend pods and
one allowing traffic to the database namespace, in both orders. -/
theorem networkPolicySpec_perm_witness :
    [frontendRule, databaseRule].Perm [databaseRule, frontendRule] ∧
    (networkPolicySpec [frontendRule, databaseRule]).Ingress.Perm
      (networkPolicySpec [databaseRule, frontendRule]).Ingress ∧
    (networkPolicySpec [frontendRule, databaseRule]).Egress.Perm
      (networkPolicySpec [databaseRule, frontendRule]).Egress :=
  ⟨List.Perm.swap _ _ _,
   (networkPolicySpec_perm [frontendRule, databaseRule] [databaseRule, frontendRule]
     (List.Perm.swap _ _ _)).1,
   (networkPolicySpec_perm [frontendRule, databaseRule] [databaseRule, frontendRule]
     (List.Perm.swap _ _ _)).2.1⟩

/-- Claim C14. For every rule list the ingress clauses are, in the order of
the entries, one clause for each entry whose `AllowTrafficFrom` is set and none
for the others, and likewise the egress clauses for `AllowTrafficTo`; so the
number of clauses is the number of such entries, and the clauses of a
concatenation of two lists are the clauses of the first followed by those of
the second. -/
theorem networkPolicySpec_clauses (rules : List NetworkPolicy) :
    (networkPolicySpec rules).Ingress =
      rules.filterMap (fun p => p.AllowTrafficFrom.map ingressRuleOf) ∧
    (networkPolicySpec rules).Egress =
      rules.filterMap (fun p => p.AllowTrafficTo.map egressRuleOf) ∧
    (networkPolicySpec rules).Ingress.length =
      rules.countP (fun p => p.AllowTrafficFrom.isSome) ∧
    (networkPolicySpec rules).Egress.length =
      rules.countP (fun p => p.AllowTrafficTo.isSome) ∧
    (∀ more : List NetworkPolicy,
      (networkPolicySpec (rules ++ more)).Ingress =
        (networkPolicySpec rules).Ingress ++ (networkPolicySpec more).Ingress ∧
      (networkPolicySpec (rules ++ more)).Egress =
        (networkPolicySpec rules).Egress ++ (networkPolicySpec more).Egress) := by
  have hlen : ∀ {β : Type} (f : NetworkPolicy → Option β) (l : List NetworkPolicy),
      (l.filterMap f).length = l.countP (fun p => (f p).isSome) := by
    intro β f l
    induction l with
    | nil => rfl
    | cons a t ih =>
      rcases hf : f a with _ | b <;> simp [List.filterMap_cons, List.countP_cons, hf, ih]
  refine ⟨by rw [networkPolicySpec_eq], by rw [networkPolicySpec_eq], ?_, ?_, ?_⟩
  · rw [networkPolicySpec_eq]
    simpa using hlen (fun p => p.AllowTrafficFrom.map ingressRuleOf) rules
  · rw [networkPolicySpec_eq]
    simpa using hlen (fun p => p.AllowTrafficTo.map egressRuleOf) rules
  · intro more
    simp only [networkPolicySpec_eq, List.filterMap_append, and_self]

/-- Claim C15. The peer list of the clause built for an allow-from or allow-to
peer is one peer per pod selector, carrying only a pod selector with the
selector's labels, followed by one peer per namespace selector, carrying only
a namespace selector; it has len(Pods) + len(Namespaces) peers and none has
both selectors. -/
theorem clause_peers (peer : NetworkPolicyPeer) :
    (ingressRuleOf peer).From = peer.Pods.map podPeer ++ peer.Namespaces.map namespacePeer ∧
    (egressRuleOf peer).To = peer.Pods.map podPeer ++ peer.Namespaces.map namespacePeer ∧
    (ingressRuleOf peer).From.length = peer.Pods.length + peer.Namespaces.length ∧
    (egressRuleOf peer).To.length = peer.Pods.length + peer.Namespaces.length ∧
    (∀ p ∈ (ingressRuleOf peer).From,
      ¬ (p.PodSelector.isSome = true ∧ p.NamespaceSelector.isSome = true)) ∧
    (∀ p ∈ (egressRuleOf peer).To,
      ¬ (p.PodSelector.isSome = true ∧ p.NamespaceSelector.isSome = true)) := by
  have hF : (ingressRuleOf peer).From = selectorPeers peer := rfl
  have hT : (egressRuleOf peer).To = selectorPeers peer := rfl
  have hno : ∀ p ∈ selectorPeers peer,
      ¬ (p.PodSelector.isSome = true ∧ p.NamespaceSelector.isSome = true) := by
    intro p hp
    rw [selectorPeers_eq, List.mem_append, List.mem_map, List.mem_map] at hp
    rcases hp with ⟨l, -, rfl⟩ | ⟨l, -, rfl⟩ <;> simp [podPeer, namespacePeer]
  rw [hF, hT]
  refine ⟨selectorPeers_eq peer, selectorPeers_eq peer, ?_, ?_, hno, hno⟩ <;>
    simp [selectorPeers_eq]

/-- Counterexample to C16: an entry whose allow-from peer lists only a port
yields an ingress clause with no peer. -/
theorem portsOnly_clause_without_peers :
    [portsOnlyRule] ≠ [] ∧
    ¬ (∀ clause ∈ (networkPolicySpec [portsOnlyRule]).Ingress, clause.From ≠ []) := by
  decide

/-- Claim C16, amended. Every emitted ingress clause comes from an entry whose
allow-from peer is set and carries exactly the peers of that entry's pod and
namespace selectors, so it has no peer exactly when the entry lists no pod and
no namespace selector; likewise every egress clause and its allow-to peer. -/
theorem clause_peers_of_entry (rules : List NetworkPolicy) :
    (∀ clause ∈ (networkPolicySpec rules).Ingress,
      ∃ entry ∈ rules, ∃ peer, entry.AllowTrafficFrom = some peer ∧
        clause.From = peer.Pods.map podPeer ++ peer.Namespaces.map namespacePeer ∧
        (clause.From = [] ↔ peer.Pods = [] ∧ peer.Namespaces = [])) ∧
    (∀ clause ∈ (networkPolicySpec rules).Egress,
      ∃ entry ∈ rules, ∃ peer, entry.AllowTrafficTo = some peer ∧
        clause.To = peer.Pods.map podPeer ++ peer.Namespaces.map namespacePeer ∧
        (clause.To = [] ↔ peer.Pods = [] ∧ peer.Namespaces = [])) := by
  rw [networkPolicySpec_eq]
  constructor
  · intro clause hc
    simp only [List.mem_filterMap, Option.map_eq_some'] at hc
    obtain ⟨entry, he, peer, hp, rfl⟩ := hc
    refine ⟨entry, he, peer, hp, selectorPeers_eq peer, ?_⟩
    show selectorPeers peer = [] ↔ _
    rw [selectorPeers_eq]
    simp
  · intro clause hc
    simp only [List.mem_filterMap, Option.map_eq_some'] at hc
    obtain ⟨entry, he, peer, hp, rfl⟩ := hc
    refine ⟨entry, he, peer, hp, selectorPeers_eq peer, ?_⟩
    show selectorPeers peer = [] ↔ _
    rw [selectorPeers_eq]
    simp

/-! ## The quota synthesizer -/

/-- A quantity `ParseQuantity` returns is represented by the text parsed. -/
theorem ParseQuantity_text (str : String) (q : Quantity)
    (h : ParseQuantity str = Except.ok q) : q = { text := str } := by
  unfold ParseQuantity at h
  simp only [] at h
  repeat' split at h
  all_goals first | (cases h; rfl) | (cases h)

theorem MustParse_valid (str : String) (h : validQuantity str = true) :
    MustParse str = Except.ok { text := str } := by
  unfold validQuantity at h
  unfold MustParse
  rcases hp : ParseQuantity str with err | q
  · rw [hp] at h; simp at h
  · rw [ParseQuantity_text str q hp]

theorem mapSet_fresh (m : ResourceList) (k : String) (v : Quantity)
    (h : k ∉ m.map Prod.fst) : mapSet m k v = m ++ [(k, v)] := by
  unfold mapSet
  have : m.any (fun p => decide (p.1 = k)) = false := by
    rw [List.any_eq_false]
    intro p hp hpk
    simp only [decide_eq_true_eq] at hpk
    exact h (List.mem_map.mpr ⟨p, hp, hpk⟩)
  simp [this]

/-- The blocks of the override, run over fields with distinct names whose
non-empty values parse, append the non-empty fields in order. -/
theorem foldlM_setQuotaField (fields : List (String × String)) (acc : ResourceList)
    (hnd : (acc.map Prod.fst ++ fields.map Prod.fst).Nodup)
    (hvalid : ∀ f ∈ fields, f.2 ≠ "" → validQuantity f.2 = true) :
    fields.foldlM setQuotaField acc =
      Except.ok (acc ++ (fields.filter (fun f => decide (f.2 ≠ ""))).map
        (fun f => (f.1, ({ text := f.2 } : Quantity)))) := by
  induction fields generalizing acc with
  | nil => simp [List.foldlM, pure, Except.pure]
  | cons f t ih =>
    rw [List.foldlM_cons]
    by_cases hf : f.2 = ""
    · have hstep : setQuotaField acc f = Except.ok acc := by
        simp [setQuotaField, hf, pure, Except.pure]
      rw [hstep]
      simp only [bind, Except.bind]
      rw [ih acc (by
        rw [List.map_cons] at hnd
        exact (List.nodup_append.mp hnd).1.append (List.nodup_append.mp hnd).2.1.of_cons
          (fun x hx1 hx2 => (List.nodup_append.mp hnd).2.2 hx1 (List.mem_cons_of_mem _ hx2)))
        (fun g hg => hvalid g (List.mem_cons_of_mem _ hg))]
      simp [List.filter_cons, hf]
    · have hfresh : f.1 ∉ acc.map Prod.fst := by
        intro hmem
        rw [List.map_cons] at hnd
        exact (List.nodup_append.mp hnd).2.2 hmem (List.mem_cons_self _ _) 
      have hstep : setQuotaField acc f = Except.ok (acc ++ [(f.1, { text := f.2 })]) := by
        simp [setQuotaField, hf, MustParse_valid f.2 (hvalid f (List.mem_cons_self _ _) hf),
          mapSet_fresh acc f.1 _ hfresh, pure, Except.pure, bind, Except.bind]
      rw [hstep]
      simp only [bind, Except.bind]
      rw [ih (acc ++ [(f.1, ({ text := f.2 } : Quantity))]) (by
        rw [List.map_cons] at hnd
        simp only [List.map_append, List.map_cons, List.map_nil, List.append_assoc,
          List.singleton_append]
        exact hnd)
        (fun g hg => hvalid g (List.mem_cons_of_mem _ hg))]
      simp [List.filter_cons, hf]

theorem quotaFields_names_nodup (rq : ResourceQuotaSpec) :
    ((quotaFields rq).map Prod.fst).Nodup := by
  simp only [quotaFields, List.map_cons, List.map_nil]
  decide

/-- The hard limits of an override whose non-empty fields parse: exactly the
non-empty fields, in the order of the blocks. -/
theorem resourceQuotaHard_override (rq : ResourceQuotaSpec)
    (hvalid : ∀ f ∈ quotaFields rq, f.2 ≠ "" → validQuantity f.2 = true) :
    resourceQuotaHard (some rq) =
      Except.ok (((quotaFields rq).filter (fun f => decide (f.2 ≠ ""))).map
        (fun f => (f.1, ({ text := f.2 } : Quantity)))) := by
  unfold resourceQuotaHard
  have := foldlM_setQuotaField (quotaFields rq) [] (by simpa using quotaFields_names_nodup rq)
    hvalid
  simpa using this
theorem mapGet_none_of_not_mem (m : ResourceList) (k : String) (h : k ∉ m.map Prod.fst) :
    mapGet m k = none := by
  unfold mapGet
  rw [Option.map_eq_none', List.find?_eq_none]
  intro p hp hpk
  simp only [decide_eq_true_eq] at hpk
  exact h (List.mem_map.mpr ⟨p, hp, hpk⟩)

/-- Deep equality of two resource lists is agreement on every resource name. -/
theorem deepEqualResourceList_iff (a b : ResourceList) :
    deepEqualResourceList a b = true ↔ ∀ k, mapGet a k = mapGet b k := by
  unfold deepEqualResourceList
  simp only [Bool.and_eq_true, List.all_eq_true, beq_iff_eq]
  constructor
  · rintro ⟨ha, hb⟩ k
    by_cases hka : k ∈ a.map Prod.fst
    · exact ha k hka
    · by_cases hkb : k ∈ b.map Prod.fst
      · exact hb k hkb
      · rw [mapGet_none_of_not_mem a k hka, mapGet_none_of_not_mem b k hkb]
  · intro h
    exact ⟨fun k _ => h k, fun k _ => h k⟩

/-- When the hard limits can be computed, `ReconcileResourceQuota` returns, and
whenever it returns no error the cluster stores, under the name of the entity
and in its namespace, a ResourceQuota whose hard limits agree with them. -/
theorem ReconcileResourceQuota_stored (u : UserConfigUseCase) (uc : UserConfig) (c : Cluster)
    (hard : ResourceList) (hh : resourceQuotaHard uc.Spec.ResourceQuotas = Except.ok hard) :
    ∃ r, ReconcileResourceQuota u uc c = Except.ok r ∧
      (r.1 = none → ∃ o, r.2.lookup Kind.ResourceQuota uc.Name uc.Name = some o ∧
        ∀ k, mapGet o.hard k = mapGet hard k) := by
  unfold ReconcileResourceQuota
  simp only [hh, bind, Except.bind, pure, Except.pure]
  rcases hg : clientGet c Kind.ResourceQuota uc.Name uc.Name with ⟨e | existing, c1⟩
  · simp only []
    by_cases hnf : IsNotFound e = true
    · simp only [hnf, if_true]
      generalize hq : ({
        kind := Kind.ResourceQuota, Name := uc.Name, Namespace := uc.Name,
        body := Body.resourceQuota hard } : Object) = rq
      have hqk : rq.kind = Kind.ResourceQuota ∧ rq.Namespace = uc.Name ∧ rq.Name = uc.Name ∧
          rq.hard = hard := by subst hq; exact ⟨rfl, rfl, rfl, rfl⟩
      rcases hc : clientCreate c1 rq with ⟨_ | e2, c2⟩
      · refine ⟨_, rfl, fun _ => ⟨rq, ?_, fun k => by rw [hqk.2.2.2]⟩⟩
        have := clientCreate_ok c1 rq (by rw [hc])
        rw [hc] at this
        simpa [hqk.1, hqk.2.1, hqk.2.2.1] using this
      · exact ⟨_, rfl, fun h => by simp at h⟩
    · rw [if_neg hnf]
      exact ⟨_, rfl, fun h => by simp at h⟩
  · simp only []
    have hkey := clientGet_ok c Kind.ResourceQuota uc.Name uc.Name existing (by rw [hg])
    have hobj := clientGet_objects c Kind.ResourceQuota uc.Name uc.Name
    rw [hg] at hobj
    by_cases hde : deepEqualResourceList existing.hard hard = true
    · simp only [hde, Bool.not_true, Bool.false_eq_true, if_false]
      refine ⟨_, rfl, fun _ => ⟨existing, ?_, (deepEqualResourceList_iff _ _).mp hde⟩⟩
      have hl : c.lookup Kind.ResourceQuota uc.Name uc.Name = some existing := by
        rcases hf : c.fault c.calls.length with _ | e
        · rcases hl : c.lookup Kind.ResourceQuota uc.Name uc.Name with _ | o
          · simp [clientGet, hf, hl] at hg
          · simp [clientGet, hf, hl] at hg
            rw [hg.1]
        · simp [clientGet, hf] at hg
      rw [lookup_congr c c1 hobj]
      exact hl
    · have hde' : deepEqualResourceList existing.hard hard = false := by simpa using hde
      simp only [hde', Bool.not_false, if_true]
      rw [hasKey_iff] at hkey
      generalize hex : ({ existing with body := Body.resourceQuota hard } : Object) = ex
      have hexk : ex.kind = Kind.ResourceQuota ∧ ex.Namespace = uc.Name ∧ ex.Name = uc.Name ∧
          ex.hard = hard := by
        subst hex; exact ⟨hkey.1, hkey.2.1, hkey.2.2, rfl⟩
      rcases hu : clientUpdate c1 ex with ⟨_ | e3, c3⟩
      · refine ⟨_, rfl, fun _ => ⟨ex, ?_, fun k => by rw [hexk.2.2.2]⟩⟩
        have := clientUpdate_ok c1 ex (by rw [hu])
        rw [hu] at this
        simpa [hexk.1, hexk.2.1, hexk.2.2.1] using this
      · exact ⟨_, rfl, fun h => by simp at h⟩
theorem mapGet_of_mem (m : ResourceList) (k : String) (v : Quantity)
    (hnd : (m.map Prod.fst).Nodup) (h : (k, v) ∈ m) : mapGet m k = some v := by
  induction m with
  | nil => simp at h
  | cons a t ih =>
    rw [List.map_cons, List.nodup_cons] at hnd
    rcases List.mem_cons.mp h with rfl | ht
    · simp [mapGet, List.find?]
    · have hne : a.1 ≠ k := by
        intro hak
        exact hnd.1 (hak ▸ List.mem_map.mpr ⟨(k, v), ht, rfl⟩)
      have := ih hnd.2 ht
      unfold mapGet at this ⊢
      simp [List.find?, hne, this]

/-- Claim C17. For an entity without a quota override the hard limits computed
are exactly pods 10, cpu 2 and memory 4Gi and nothing else;
`ReconcileResourceQuota` returns, and whenever it returns no error the
ResourceQuota stored for the entity has these hard limits and no other
resource name. -/
theorem resourceQuota_default (u : UserConfigUseCase) (uc : UserConfig) (c : Cluster)
    (hnone : uc.Spec.ResourceQuotas = none) :
    resourceQuotaHard uc.Spec.ResourceQuotas =
      Except.ok [("pods", { text := "10" }), ("cpu", { text := "2" }),
        ("memory", { text := "4Gi" })] ∧
    ∃ r, ReconcileResourceQuota u uc c = Except.ok r ∧
      (r.1 = none → ∃ o, r.2.lookup Kind.ResourceQuota uc.Name uc.Name = some o ∧
        mapGet o.hard "pods" = some { text := "10" } ∧
        mapGet o.hard "cpu" = some { text := "2" } ∧
        mapGet o.hard "memory" = some { text := "4Gi" } ∧
        ∀ k, k ≠ "pods" → k ≠ "cpu" → k ≠ "memory" → mapGet o.hard k = none) := by
  have hh : resourceQuotaHard uc.Spec.ResourceQuotas =
      Except.ok [("pods", { text := "10" }), ("cpu", { text := "2" }),
        ("memory", { text := "4Gi" })] := by
    rw [hnone]; decide
  refine ⟨hh, ?_⟩
  obtain ⟨r, hr, hstored⟩ := ReconcileResourceQuota_stored u uc c _ hh
  refine ⟨r, hr, fun hok => ?_⟩
  obtain ⟨o, ho, hget⟩ := hstored hok
  refine ⟨o, ho, by rw [hget]; decide, by rw [hget]; decide, by rw [hget]; decide, ?_⟩
  intro k h1 h2 h3
  rw [hget]
  apply mapGet_none_of_not_mem
  simp [h1, h2, h3]

/-- Witness of C17: alice, who has no quota override, on a fresh cluster. -/
theorem resourceQuota_default_witness :
    (podsEntity "CRUD").Spec.ResourceQuotas = none ∧
    (resourceQuotaHard (podsEntity "CRUD").Spec.ResourceQuotas =
      Except.ok [("pods", { text := "10" }), ("cpu", { text := "2" }),
        ("memory", { text := "4Gi" })] ∧
    ∃ r, ReconcileResourceQuota {} (podsEntity "CRUD") {} = Except.ok r ∧
      (r.1 = none → ∃ o, r.2.lookup Kind.ResourceQuota (podsEntity "CRUD").Name
          (podsEntity "CRUD").Name = some o ∧
        mapGet o.hard "pods" = some { text := "10" } ∧
        mapGet o.hard "cpu" = some { text := "2" } ∧
        mapGet o.hard "memory" = some { text := "4Gi" } ∧
        ∀ k, k ≠ "pods" → k ≠ "cpu" → k ≠ "memory" → mapGet o.hard k = none)) ∧
    (ReconcileResourceQuota {} (podsEntity "CRUD") {}).map (fun r => r.1) = Except.ok none :=
  ⟨by decide, resourceQuota_default {} (podsEntity "CRUD") {} (by decide), by decide⟩

/-- Counterexample to C18: the override pods 5, cpu 1 yields hard limits with
cpu and pods only; memory is not among them. -/
theorem quota_override_drops_memory :
    resourceQuotaHard (some e2eQuota) =
      Except.ok [("cpu", { text := "1" }), ("pods", { text := "5" })] ∧
    ¬ (∃ hard, resourceQuotaHard (some e2eQuota) = Except.ok hard ∧
      mapGet hard "memory" = some { text := "4Gi" }) := by
  have h : resourceQuotaHard (some e2eQuota) =
      Except.ok [("cpu", { text := "1" }), ("pods", { text := "5" })] := by decide
  refine ⟨h, ?_⟩
  rintro ⟨hard, h1, h2⟩
  rw [h] at h1
  have := Except.ok.inj h1
  subst this
  exact absurd h2 (by decide)

/-- Claim C18, amended. For an entity with a quota override whose specified
fields are quantities, the hard limits computed are exactly the fields the
override specifies, each with the value of the override, in the order of the
fields; a field the override leaves empty has no entry, whether or not there
is a built-in default for it. Whenever `ReconcileResourceQuota` returns no
error the stored ResourceQuota agrees with these limits on every name. -/
theorem resourceQuota_override (u : UserConfigUseCase) (uc : UserConfig) (c : Cluster)
    (rq : ResourceQuotaSpec) (hsome : uc.Spec.ResourceQuotas = some rq)
    (hvalid : ∀ f ∈ quotaFields rq, f.2 ≠ "" → validQuantity f.2 = true) :
    ∃ hard, resourceQuotaHard uc.Spec.ResourceQuotas = Except.ok hard ∧
      hard = ((quotaFields rq).filter (fun f => decide (f.2 ≠ ""))).map
        (fun f => (f.1, ({ text := f.2 } : Quantity))) ∧
      (∀ f ∈ quotaFields rq, f.2 ≠ "" → mapGet hard f.1 = some { text := f.2 }) ∧
      (∀ f ∈ quotaFields rq, f.2 = "" → mapGet hard f.1 = none) ∧
      (∀ name, name ∉ (quotaFields rq).map Prod.fst → mapGet hard name = none) ∧
      ∃ r, ReconcileResourceQuota u uc c = Except.ok r ∧
        (r.1 = none → ∃ o, r.2.lookup Kind.ResourceQuota uc.Name uc.Name = some o ∧
          ∀ k, mapGet o.hard k = mapGet hard k) := by
  have hh := resourceQuotaHard_override rq hvalid
  rw [← hsome] at hh
  refine ⟨_, hh, rfl, ?_, ?_, ?_, ReconcileResourceQuota_stored u uc c _ hh⟩
  · intro f hf hne
    apply mapGet_of_mem
    · have hsub : (((quotaFields rq).filter (fun f => decide (f.2 ≠ ""))).map
          (fun f => (f.1, ({ text := f.2 } : Quantity)))).map Prod.fst =
          ((quotaFields rq).filter (fun f => decide (f.2 ≠ ""))).map Prod.fst := by
        simp [List.map_map, Function.comp_def]
      rw [hsub]
      exact ((List.filter_sublist _).map Prod.fst).nodup (quotaFields_names_nodup rq)
    · exact List.mem_map.mpr ⟨f, List.mem_filter.mpr ⟨hf, by simpa using hne⟩, rfl⟩
  · intro f hf hempty
    apply mapGet_none_of_not_mem
    intro hmem
    simp only [List.map_map, List.mem_map, List.mem_filter, Function.comp_apply] at hmem
    obtain ⟨g, ⟨hg, hgne⟩, hgf⟩ := hmem
    have hnd := quotaFields_names_nodup rq
    have : g = f := by
      have hinj := List.inj_on_of_nodup_map hnd hg hf hgf
      exact hinj
    subst this
    simp [hempty] at hgne
  · intro name hname
    apply mapGet_none_of_not_mem
    intro hmem
    simp only [List.map_map, List.mem_map, List.mem_filter, Function.comp_apply] at hmem
    obtain ⟨g, ⟨hg, -⟩, hgf⟩ := hmem
    exact hname (List.mem_map.mpr ⟨g, hg, hgf⟩)

/-- Witness of C18, amended: the entity of the end-to-end test. -/
theorem resourceQuota_override_witness :
    e2eEntity.Spec.ResourceQuotas = some e2eQuota ∧
    (∀ f ∈ quotaFields e2eQuota, f.2 ≠ "" → validQuantity f.2 = true) ∧
    ∃ hard, resourceQuotaHard e2eEntity.Spec.ResourceQuotas = Except.ok hard ∧
      hard = ((quotaFields e2eQuota).filter (fun f => decide (f.2 ≠ ""))).map
        (fun f => (f.1, ({ text := f.2 } : Quantity))) ∧
      (∀ f ∈ quotaFields e2eQuota, f.2 ≠ "" → mapGet hard f.1 = some { text := f.2 }) ∧
      (∀ f ∈ quotaFields e2eQuota, f.2 = "" → mapGet hard f.1 = none) ∧
      (∀ name, name ∉ (quotaFields e2eQuota).map Prod.fst → mapGet hard name = none) ∧
      ∃ r, ReconcileResourceQuota {} e2eEntity {} = Except.ok r ∧
        (r.1 = none → ∃ o, r.2.lookup Kind.ResourceQuota e2eEntity.Name e2eEntity.Name =
            some o ∧
          ∀ k, mapGet o.hard k = mapGet hard k) :=
  ⟨by decide, by decide,
   resourceQuota_override {} e2eEntity {} e2eQuota (by decide) (by decide)⟩
/-! ## The limit-range synthesizer -/

theorem defaultLimits_eq : defaultLimits = Except.ok builtinLimits := by
  decide

theorem parseResourceList_valid (tier : Option Resources) (fallback : ResourceList)
    (h : tierValid tier = true) :
    parseResourceList tier fallback = Except.ok (tierOf tier fallback) := by
  rcases tier with _ | r
  · rfl
  · simp only [tierValid, Bool.and_eq_true] at h
    simp [parseResourceList, tierOf, MustParse_valid _ h.1, MustParse_valid _ h.2, bind,
      Except.bind, pure, Except.pure]

/-- The item built for a supplied entry whose quantities parse. -/
theorem limitRangeItem_valid (l : LimitRangeLimit) (h : limitValid l = true) :
    ∃ item, limitRangeItem builtinLimits l = Except.ok item ∧ itemMatches l item := by
  simp only [limitValid, Bool.and_eq_true, Bool.or_eq_true, decide_eq_true_eq] at h
  obtain ⟨⟨hmax, hmin⟩, hrest⟩ := h
  by_cases hpod : l.Typ = LimitTypePod
  · refine ⟨{
      Typ := l.Typ, Max := tierOf l.Max builtinLimits.Max,
      Min := tierOf l.Min builtinLimits.Min }, ?_, rfl, rfl, rfl,
      fun hne => absurd hpod hne, fun _ => ⟨rfl, rfl⟩⟩
    simp [limitRangeItem, parseResourceList_valid _ _ hmax, parseResourceList_valid _ _ hmin,
      hpod, bind, Except.bind, pure, Except.pure]
  · rcases hrest with hp | hd
    · exact absurd hp hpod
    · refine ⟨{
        Typ := l.Typ, Max := tierOf l.Max builtinLimits.Max,
        Min := tierOf l.Min builtinLimits.Min,
        Default := tierOf l.Default builtinLimits.Default,
        DefaultRequest := tierOf l.DefaultRequest builtinLimits.DefaultRequest }, ?_, rfl, rfl,
        rfl, fun _ => ⟨rfl, rfl⟩, fun h => absurd h hpod⟩
      simp [limitRangeItem, parseResourceList_valid _ _ hmax, parseResourceList_valid _ _ hmin,
        parseResourceList_valid _ _ hd.1, parseResourceList_valid _ _ hd.2,
        hpod, bind, Except.bind, pure, Except.pure]

theorem foldlM_items (ls : List LimitRangeLimit) (acc : List LimitRangeItem)
    (h : ∀ l ∈ ls, limitValid l = true) :
    ∃ items, ls.foldlM (fun limits userLimits => do
        let item ← limitRangeItem builtinLimits userLimits
        pure (limits ++ [item])) acc = Except.ok (acc ++ items) ∧
      List.Forall₂ itemMatches ls items := by
  induction ls generalizing acc with
  | nil => exact ⟨[], by simp [List.foldlM, pure, Except.pure], List.Forall₂.nil⟩
  | cons l t ih =>
    obtain ⟨item, hitem, hm⟩ := limitRangeItem_valid l (h l (List.mem_cons_self _ _))
    obtain ⟨items, hitems, hms⟩ := ih (acc ++ [item])
      (fun x hx => h x (List.mem_cons_of_mem _ hx))
    refine ⟨item :: items, ?_, List.Forall₂.cons hm hms⟩
    rw [List.foldlM_cons]
    simp only [hitem, bind, Except.bind, pure, Except.pure]
    simp only [bind, Except.bind, pure, Except.pure] at hitems
    rw [hitems]
    simp

/-- The limits computed for an entity whose supplied quantities parse. -/
theorem limitRangeItems_ok (lr : Option LimitRangeSpec)
    (hvalid : ∀ l ∈ suppliedLimits lr, limitValid l = true) :
    ∃ items, limitRangeItems lr = Except.ok items ∧
      (suppliedLimits lr = [] → items = [builtinLimits]) ∧
      (suppliedLimits lr ≠ [] → List.Forall₂ itemMatches (suppliedLimits lr) items) := by
  unfold limitRangeItems
  simp only [defaultLimits_eq, bind, Except.bind, pure, Except.pure]
  rcases lr with _ | lr
  · exact ⟨[builtinLimits], rfl, fun _ => rfl, fun h => absurd rfl h⟩
  · simp only [suppliedLimits] at hvalid ⊢
    by_cases hlen : lr.Limits.length = 0
    · have hnil : lr.Limits = [] := List.length_eq_zero.mp hlen
      simp only [hlen, if_true]
      exact ⟨[builtinLimits], rfl, fun _ => rfl, fun h => absurd hnil h⟩
    · have hne : lr.Limits ≠ [] := fun h => hlen (by rw [h]; rfl)
      simp only [hlen, if_false]
      obtain ⟨items, hitems, hms⟩ := foldlM_items lr.Limits [] hvalid
      simp only [bind, Except.bind, pure, Except.pure, List.nil_append] at hitems
      exact ⟨items, hitems, fun h => absurd h hne, fun _ => hms⟩

/-- When the limits can be computed, `ReconcileLimitRange` returns, and
whenever it returns no error the cluster stores, under the name of the entity
and in its namespace, a LimitRange with these limits. -/
theorem ReconcileLimitRange_stored (u : UserConfigUseCase) (uc : UserConfig) (c : Cluster)
    (items : List LimitRangeItem) (hh : limitRangeItems uc.Spec.LimitRange = Except.ok items) :
    ∃ r, ReconcileLimitRange u uc c = Except.ok r ∧
      (r.1 = none → ∃ o, r.2.lookup Kind.LimitRange uc.Name uc.Name = some o ∧
        o.body = Body.limitRange items) := by
  unfold ReconcileLimitRange
  simp only [hh, bind, Except.bind, pure, Except.pure]
  split
  · exact ⟨_, rfl, fun h => by simp at h⟩
  · rename_i lrObj hs
    obtain ⟨hk, hn, hns, hb, -⟩ := SetControllerReference_ok _ _ _ _ hs
    simp only [hn]
    rcases hg : clientGet c Kind.LimitRange uc.Name uc.Name with ⟨e | existing, c1⟩
    · simp only []
      by_cases hnf : IsNotFound e = true
      · rw [if_pos hnf]
        rcases hc : clientCreate c1 lrObj with ⟨_ | e2, c2⟩
        · refine ⟨_, rfl, fun _ => ⟨lrObj, ?_, hb⟩⟩
          have := clientCreate_ok c1 lrObj (by rw [hc])
          rw [hc] at this
          simpa [hk, hn, hns] using this
        · exact ⟨_, rfl, fun h => by simp at h⟩
      · rw [if_neg hnf]
        exact ⟨_, rfl, fun h => by simp at h⟩
    · simp only []
      have hkey := clientGet_ok c Kind.LimitRange uc.Name uc.Name existing (by rw [hg])
      rw [hasKey_iff] at hkey
      generalize hex : ({ existing with body := lrObj.body } : Object) = ex
      have hexk : ex.kind = Kind.LimitRange ∧ ex.Namespace = uc.Name ∧ ex.Name = uc.Name ∧
          ex.body = lrObj.body := by
        subst hex; exact ⟨hkey.1, hkey.2.1, hkey.2.2, rfl⟩
      rcases hu : clientUpdate c1 ex with ⟨_ | e3, c3⟩
      · refine ⟨_, rfl, fun _ => ⟨ex, ?_, by rw [hexk.2.2.2, hb]⟩⟩
        have := clientUpdate_ok c1 ex (by rw [hu])
        rw [hu] at this
        simpa [hexk.1, hexk.2.1, hexk.2.2.1] using this
      · exact ⟨_, rfl, fun h => by simp at h⟩
/-- Claim C19. For an entity whose supplied limit quantities parse, the limits
are computed: with no LimitRange or an empty limit list they are the single
built-in Container entry (default 500m/1Gi, defaultRequest 250m/512Mi, min
50m/64Mi, max 2/4Gi); otherwise there is one item per supplied entry, in
order, with the type of the entry, whose max and min are the tier of the entry
when it gives one and the built-in tier when it omits it, and likewise default
and defaultRequest for a Container entry. The end-to-end input, with max and
min only, yields default 500m/1Gi and defaultRequest 250m/512Mi. Whenever
`ReconcileLimitRange` returns no error these are the limits stored. -/
theorem limitRange_envelope (u : UserConfigUseCase) (uc : UserConfig) (c : Cluster)
    (hvalid : ∀ l ∈ suppliedLimits uc.Spec.LimitRange, limitValid l = true) :
    ∃ items, limitRangeItems uc.Spec.LimitRange = Except.ok items ∧
      (suppliedLimits uc.Spec.LimitRange = [] → items = [builtinLimits]) ∧
      (suppliedLimits uc.Spec.LimitRange ≠ [] →
        List.Forall₂ (fun l item =>
          item.Typ = l.Typ ∧
          item.Max = tierOf l.Max builtinLimits.Max ∧
          item.Min = tierOf l.Min builtinLimits.Min ∧
          (l.Typ = LimitTypeContainer →
            item.Default = tierOf l.Default builtinLimits.Default ∧
            item.DefaultRequest = tierOf l.DefaultRequest builtinLimits.DefaultRequest))
          (suppliedLimits uc.Spec.LimitRange) items) ∧
      limitRangeItems (some e2eLimitRange) = Except.ok [{
        Typ := "Container",
        Max := [("cpu", { text := "1" }), ("memory", { text := "1Gi" })],
        Min := [("cpu", { text := "100m" }), ("memory", { text := "128Mi" })],
        Default := [("cpu", { text := "500m" }), ("memory", { text := "1Gi" })],
        DefaultRequest := [("cpu", { text := "250m" }), ("memory", { text := "512Mi" })] }] ∧
      ∃ r, ReconcileLimitRange u uc c = Except.ok r ∧
        (r.1 = none → ∃ o, r.2.lookup Kind.LimitRange uc.Name uc.Name = some o ∧
          o.body = Body.limitRange items) := by
  obtain ⟨items, hitems, hnil, hcons⟩ := limitRangeItems_ok uc.Spec.LimitRange hvalid
  refine ⟨items, hitems, hnil, ?_, by decide, ReconcileLimitRange_stored u uc c items hitems⟩
  intro hne
  refine (hcons hne).imp ?_
  intro l item hm
  refine ⟨hm.1, hm.2.1, hm.2.2.1, fun hc => hm.2.2.2.1 ?_⟩
  rw [hc]; decide

/-- Witness of C19: the entity of the end-to-end test on a fresh cluster. -/
theorem limitRange_envelope_witness :
    (∀ l ∈ suppliedLimits e2eEntity.Spec.LimitRange, limitValid l = true) ∧
    (∃ items, limitRangeItems e2eEntity.Spec.LimitRange = Except.ok items ∧
      (suppliedLimits e2eEntity.Spec.LimitRange = [] → items = [builtinLimits]) ∧
      (suppliedLimits e2eEntity.Spec.LimitRange ≠ [] →
        List.Forall₂ (fun l item =>
          item.Typ = l.Typ ∧
          item.Max = tierOf l.Max builtinLimits.Max ∧
          item.Min = tierOf l.Min builtinLimits.Min ∧
          (l.Typ = LimitTypeContainer →
            item.Default = tierOf l.Default builtinLimits.Default ∧
            item.DefaultRequest = tierOf l.DefaultRequest builtinLimits.DefaultRequest))
          (suppliedLimits e2eEntity.Spec.LimitRange) items) ∧
      limitRangeItems (some e2eLimitRange) = Except.ok [{
        Typ := "Container",
        Max := [("cpu", { text := "1" }), ("memory", { text := "1Gi" })],
        Min := [("cpu", { text := "100m" }), ("memory", { text := "128Mi" })],
        Default := [("cpu", { text := "500m" }), ("memory", { text := "1Gi" })],
        DefaultRequest := [("cpu", { text := "250m" }), ("memory", { text := "512Mi" })] }] ∧
      ∃ r, ReconcileLimitRange {} e2eEntity {} = Except.ok r ∧
        (r.1 = none → ∃ o, r.2.lookup Kind.LimitRange e2eEntity.Name e2eEntity.Name = some o ∧
          o.body = Body.limitRange items)) ∧
    (ReconcileLimitRange {} e2eEntity {}).map (fun r => r.1) = Except.ok none :=
  ⟨by decide, limitRange_envelope {} e2eEntity {} (by decide), by decide⟩

/-- Claim C20. For an entity whose parsed limit quantities are quantities
(for an entry of type Pod the default and defaultRequest are not parsed, so
they may hold anything), the item synthesized for a supplied entry of type Pod
has no Default and no DefaultRequest, and the item of an entry of any other
type has both. A Pod entry supplying a max and unparsable default and
defaultRequest yields an item with that max, the built-in min and neither
default. -/
theorem limitRange_pod_no_defaults (uc : UserConfig)
    (hvalid : ∀ l ∈ suppliedLimits uc.Spec.LimitRange, limitValid l = true) :
    ∃ items, limitRangeItems uc.Spec.LimitRange = Except.ok items ∧
      (suppliedLimits uc.Spec.LimitRange ≠ [] →
        List.Forall₂ (fun l item =>
          (l.Typ = LimitTypePod → item.Default = [] ∧ item.DefaultRequest = []) ∧
          (l.Typ ≠ LimitTypePod → item.Default ≠ [] ∧ item.DefaultRequest ≠ []))
          (suppliedLimits uc.Spec.LimitRange) items) ∧
      limitRangeItems (some podLimitRange) = Except.ok [{
        Typ := "Pod",
        Max := [("cpu", { text := "2" }), ("memory", { text := "2Gi" })],
        Min := [("cpu", { text := "50m" }), ("memory", { text := "64Mi" })],
        Default := [],
        DefaultRequest := [] }] := by
  obtain ⟨items, hitems, -, hcons⟩ := limitRangeItems_ok uc.Spec.LimitRange hvalid
  refine ⟨items, hitems, ?_, by decide⟩
  intro hne
  refine (hcons hne).imp ?_
  intro l item hm
  have htier : ∀ (t : Option Resources) (b : ResourceList), b ≠ [] → tierOf t b ≠ [] := by
    intro t b hb
    rcases t with _ | r
    · exact hb
    · simp [tierOf]
  refine ⟨hm.2.2.2.2, fun hnp => ?_⟩
  obtain ⟨hd, hdr⟩ := hm.2.2.2.1 hnp
  rw [hd, hdr]
  exact ⟨htier _ _ (by decide), htier _ _ (by decide)⟩

/-- Witness of C20: alice with the Pod entry whose default and defaultRequest
do not parse. -/
theorem limitRange_pod_no_defaults_witness :
    (∀ l ∈ suppliedLimits (some podLimitRange), limitValid l = true) ∧
    ∃ items, limitRangeItems (some podLimitRange) = Except.ok items ∧
      (suppliedLimits (some podLimitRange) ≠ [] →
        List.Forall₂ (fun l item =>
          (l.Typ = LimitTypePod → item.Default = [] ∧ item.DefaultRequest = []) ∧
          (l.Typ ≠ LimitTypePod → item.Default ≠ [] ∧ item.DefaultRequest ≠ []))
          (suppliedLimits (some podLimitRange)) items) ∧
      limitRangeItems (some podLimitRange) = Except.ok [{
        Typ := "Pod",
        Max := [("cpu", { text := "2" }), ("memory", { text := "2Gi" })],
        Min := [("cpu", { text := "50m" }), ("memory", { text := "64Mi" })],
        Default := [],
        DefaultRequest := [] }] :=
  ⟨by decide,
   limitRange_pod_no_defaults
     { podsEntity "CRUD" with
       Spec := { (podsEntity "CRUD").Spec with LimitRange := some podLimitRange } }
     (by decide)⟩

/-! ## Quantities that do not parse -/

theorem MustParse_invalid (str : String) (h : validQuantity str = false) :
    ∃ p, MustParse str = Except.error p := by
  unfold validQuantity at h
  unfold MustParse
  rcases hp : ParseQuantity str with err | q
  · exact ⟨_, rfl⟩
  · rw [hp] at h; simp at h

/-- A failed parse of one field ends the whole loop over the fields of a quota
override in a panic. -/
theorem foldlM_setQuotaField_panics (fields : List (String × String)) (acc : ResourceList)
    (f : String × String) (hf : f ∈ fields) (hne : f.2 ≠ "")
    (hbad : validQuantity f.2 = false) :
    ∃ p, fields.foldlM setQuotaField acc = Except.error p := by
  induction fields generalizing acc with
  | nil => simp at hf
  | cons a t ih =>
    rw [List.foldlM_cons]
    rcases hs : setQuotaField acc a with p | acc'
    · exact ⟨p, rfl⟩
    · rcases List.mem_cons.mp hf with rfl | ht
      · exfalso
        unfold setQuotaField at hs
        rw [if_pos hne] at hs
        obtain ⟨p, hp⟩ := MustParse_invalid _ hbad
        rw [hp] at hs
        simp [bind, Except.bind] at hs
      · obtain ⟨p, hp⟩ := ih acc' ht
        exact ⟨p, by simpa [bind, Except.bind] using hp⟩

/-- Claim C21. A limit entry whose max tier gives a cpu and no memory is not
synthesized: `parseResourceList` passes the absent memory, the empty string,
to `resource.MustParse`, which panics, so `ReconcileLimitRange` panics on the
entry of type Pod with max cpu 1, on every cluster; the same holds for every
supplied tier that leaves out its cpu or its memory. -/
theorem limitRange_partial_tier_panics (u : UserConfigUseCase) (c : Cluster) :
    (∃ p, ReconcileLimitRange u podCpuOnlyEntity c = Except.error p) ∧
    (∀ (cpu : String) (fallback : ResourceList),
      ∃ p, parseResourceList (some { CPU := cpu, Memory := "" }) fallback = Except.error p) ∧
    (∀ (memory : String) (fallback : ResourceList),
      ∃ p, parseResourceList (some { CPU := "", Memory := memory }) fallback =
        Except.error p) := by
  refine ⟨?_, ?_, ?_⟩
  · have h : ∃ p, limitRangeItems podCpuOnlyEntity.Spec.LimitRange = Except.error p :=
      ⟨_, rfl⟩
    obtain ⟨p, hp⟩ := h
    refine ⟨p, ?_⟩
    unfold ReconcileLimitRange
    rw [hp]
    rfl
  · intro cpu fallback
    obtain ⟨p, hp⟩ := MustParse_invalid "" (by decide)
    unfold parseResourceList
    rcases hc : MustParse cpu with q | q
    · exact ⟨q, by simp [hc, bind, Except.bind]⟩
    · exact ⟨p, by simp [hc, hp, bind, Except.bind]⟩
  · intro memory fallback
    obtain ⟨p, hp⟩ := MustParse_invalid "" (by decide)
    exact ⟨p, by simp [parseResourceList, hp, bind, Except.bind]⟩

theorem parseResourceList_invalid (tier : Option Resources) (fallback : ResourceList)
    (h : tierValid tier = false) : ∃ p, parseResourceList tier fallback = Except.error p := by
  rcases tier with _ | r
  · simp [tierValid] at h
  · simp only [tierValid, Bool.and_eq_false_iff] at h
    unfold parseResourceList
    rcases hc : MustParse r.CPU with p | q
    · exact ⟨p, by simp [hc, bind, Except.bind]⟩
    · rcases h with h | h
      · obtain ⟨p, hp⟩ := MustParse_invalid _ h
        rw [hp] at hc; simp at hc
      · obtain ⟨p, hp⟩ := MustParse_invalid _ h
        exact ⟨p, by simp [hc, hp, bind, Except.bind]⟩

/-- An entry with a quantity that does not parse, among those
`ReconcileLimitRange` parses for it, makes the item computation panic. -/
theorem limitRangeItem_invalid (d : LimitRangeItem) (l : LimitRangeLimit)
    (h : limitValid l = false) : ∃ p, limitRangeItem d l = Except.error p := by
  unfold limitRangeItem
  rcases hmax : parseResourceList l.Max d.Max with p | max
  · exact ⟨p, by simp [bind, Except.bind]⟩
  · rcases hmin : parseResourceList l.Min d.Min with p | min
    · exact ⟨p, by simp [bind, Except.bind]⟩
    · have vmax : tierValid l.Max = true := by
        by_contra hv
        obtain ⟨p, hp⟩ := parseResourceList_invalid l.Max d.Max (by simpa using hv)
        rw [hp] at hmax; simp at hmax
      have vmin : tierValid l.Min = true := by
        by_contra hv
        obtain ⟨p, hp⟩ := parseResourceList_invalid l.Min d.Min (by simpa using hv)
        rw [hp] at hmin; simp at hmin
      simp only [limitValid, vmax, vmin, Bool.true_and, Bool.or_eq_false_iff,
        decide_eq_false_iff_not, Bool.and_eq_false_iff] at h
      obtain ⟨hpod, hrest⟩ := h
      simp only [bind, Except.bind, hpod, ne_eq, not_false_eq_true, if_true]
      rcases hdef : parseResourceList l.Default d.Default with p | dflt
      · exact ⟨p, rfl⟩
      · rcases hreq : parseResourceList l.DefaultRequest d.DefaultRequest with p | req
        · exact ⟨p, rfl⟩
        · exfalso
          rcases hrest with hv | hv
          · obtain ⟨p, hp⟩ := parseResourceList_invalid l.Default d.Default hv
            rw [hp] at hdef; simp at hdef
          · obtain ⟨p, hp⟩ := parseResourceList_invalid l.DefaultRequest d.DefaultRequest hv
            rw [hp] at hreq; simp at hreq

theorem foldlM_items_panics (d : LimitRangeItem) (ls : List LimitRangeLimit)
    (acc : List LimitRangeItem) (l : LimitRangeLimit) (hl : l ∈ ls)
    (hbad : limitValid l = false) :
    ∃ p, ls.foldlM (fun limits userLimits => do
        let item ← limitRangeItem d userLimits
        pure (limits ++ [item])) acc = Except.error p := by
  induction ls generalizing acc with
  | nil => simp at hl
  | cons a t ih =>
    rw [List.foldlM_cons]
    rcases ha : limitRangeItem d a with p | item
    · exact ⟨p, by simp [bind, Except.bind]⟩
    · rcases List.mem_cons.mp hl with rfl | ht
      · obtain ⟨p, hp⟩ := limitRangeItem_invalid d l hbad
        rw [hp] at ha; simp at ha
      · obtain ⟨p, hp⟩ := ih (acc ++ [item]) ht
        exact ⟨p, by simpa [bind, Except.bind, pure, Except.pure] using hp⟩

/-- A supplied entry with a quantity that does not parse makes the limit
computation panic. -/
theorem limitRangeItems_panics (lr : LimitRangeSpec) (l : LimitRangeLimit)
    (hl : l ∈ lr.Limits) (hbad : limitValid l = false) :
    ∃ p, limitRangeItems (some lr) = Except.error p := by
  unfold limitRangeItems
  simp only [defaultLimits_eq, bind, Except.bind]
  have hlen : ¬ lr.Limits.length = 0 := by
    intro h
    rw [List.length_eq_zero.mp h] at hl
    simp at hl
  simp only [hlen, if_false]
  obtain ⟨p, hp⟩ := foldlM_items_panics builtinLimits lr.Limits [] l hl hbad
  exact ⟨p, by simpa [bind, Except.bind, pure, Except.pure] using hp⟩

/-- What `resource.ParseQuantity` accepts beyond a number with a suffix: a
text without any digit is read as zero when it is a sign, a decimal point or a
suffix of small exponent, and an exponent has to fit an `int64`. -/
theorem ParseQuantity_boundary :
    MustParse "." = Except.ok { text := "." } ∧
    MustParse "+" = Except.ok { text := "+" } ∧
    MustParse "-" = Except.ok { text := "-" } ∧
    MustParse "Ki" = Except.ok { text := "Ki" } ∧
    MustParse "1e9223372036854775807" = Except.ok { text := "1e9223372036854775807" } ∧
    MustParse "1e9223372036854775808" = Except.error
      { msg := "cannot parse '1e9223372036854775808': unable to parse quantity's suffix" } ∧
    MustParse ".e-10" = Except.error
      { msg := "cannot parse '.e-10': unable to parse numeric part of quantity" } ∧
    MustParse "Pi" = Except.error
      { msg := "cannot parse 'Pi': unable to parse numeric part of quantity" } := by
  decide

/-- Claim C22. A string that `resource.ParseQuantity` refuses makes the
synthesizers panic instead of returning an error: `resource.MustParse` panics
on every such string, with the error of `ParseQuantity` in the text of the
panic, so `ReconcileResourceQuota` panics on every cluster for every override
with a non-empty field that does not parse (the cpu 1KK for one, whose suffix
is refused), and `ReconcileLimitRange` panics for every limit range with an
entry one of whose parsed quantities does not parse (a max memory that is not
a quantity, or a memory left out of a supplied tier, the empty string). -/
theorem malformed_quantity_panics (u : UserConfigUseCase) (c : Cluster) :
    (∀ str, validQuantity str = true ∨ ∃ p, MustParse str = Except.error p) ∧
    (∀ (uc : UserConfig) (rq : ResourceQuotaSpec),
      (∀ f ∈ quotaFields rq, f.2 = "" ∨ validQuantity f.2 = true) ∨
      ∃ p, ReconcileResourceQuota u
        { uc with Spec := { uc.Spec with ResourceQuotas := some rq } } c = Except.error p) ∧
    (∀ (uc : UserConfig) (lr : LimitRangeSpec),
      (∀ l ∈ lr.Limits, limitValid l = true) ∨
      ∃ p, ReconcileLimitRange u
        { uc with Spec := { uc.Spec with LimitRange := some lr } } c = Except.error p) ∧
    ReconcileResourceQuota u badQuotaEntity c = Except.error
      { msg := "cannot parse '1KK': unable to parse quantity's suffix" } ∧
    ReconcileLimitRange u badLimitEntity c = Except.error
      { msg := "cannot parse 'lots': quantities must match the regular expression '^([+-]?[0-9.]+)([eEinumkKMGTP]*[-+]?[0-9]*)$'" } ∧
    ReconcileLimitRange u podCpuOnlyEntity c = Except.error
      { msg := "cannot parse '': quantities must match the regular expression '^([+-]?[0-9.]+)([eEinumkKMGTP]*[-+]?[0-9]*)$'" } ∧
    MustParse "1e99999999999999999999" = Except.error
      { msg := "cannot parse '1e99999999999999999999': unable to parse quantity's suffix" } := by
  have hq : ∀ (uc : UserConfig) (rq : ResourceQuotaSpec),
      (∀ f ∈ quotaFields rq, f.2 = "" ∨ validQuantity f.2 = true) ∨
      ∃ p, ReconcileResourceQuota u
        { uc with Spec := { uc.Spec with ResourceQuotas := some rq } } c = Except.error p := by
    intro uc rq
    by_cases hall : ∀ f ∈ quotaFields rq, f.2 = "" ∨ validQuantity f.2 = true
    · exact Or.inl hall
    · right
      push_neg at hall
      obtain ⟨f, hf, hne, hbad⟩ := hall
      obtain ⟨p, hp⟩ := foldlM_setQuotaField_panics (quotaFields rq) [] f hf hne
        (by simpa using hbad)
      refine ⟨p, ?_⟩
      unfold ReconcileResourceQuota
      simp only [resourceQuotaHard, hp]
      rfl
  refine ⟨?_, hq, ?_, ?_, ?_, ?_, by decide⟩
  · intro str
    by_cases h : validQuantity str = true
    · exact Or.inl h
    · exact Or.inr (MustParse_invalid str (by simpa using h))
  · intro uc lr
    by_cases hall : ∀ l ∈ lr.Limits, limitValid l = true
    · exact Or.inl hall
    · right
      push_neg at hall
      obtain ⟨l, hl, hbad⟩ := hall
      obtain ⟨p, hp⟩ := limitRangeItems_panics lr l hl (by simpa using hbad)
      refine ⟨p, ?_⟩
      unfold ReconcileLimitRange
      simp only [hp]
      rfl
  · have h : resourceQuotaHard badQuotaEntity.Spec.ResourceQuotas = Except.error
        { msg := "cannot parse '1KK': unable to parse quantity's suffix" } := by decide
    unfold ReconcileResourceQuota
    rw [h]
    rfl
  · have h : limitRangeItems badLimitEntity.Spec.LimitRange = Except.error
        { msg := "cannot parse 'lots': quantities must match the regular expression '^([+-]?[0-9.]+)([eEinumkKMGTP]*[-+]?[0-9]*)$'" } := by
      decide
    unfold ReconcileLimitRange
    rw [h]
    rfl
  · have h : limitRangeItems podCpuOnlyEntity.Spec.LimitRange = Except.error
        { msg := "cannot parse '': quantities must match the regular expression '^([+-]?[0-9.]+)([eEinumkKMGTP]*[-+]?[0-9]*)$'" } := by
      decide
    unfold ReconcileLimitRange
    rw [h]
    rfl

/-! ## A failure of credential issuance -/

/-- A run of the six steps in which credential issuance failed: the five
steps up to it were invoked, network-policy synthesis was not, no step
panicked, and the error status was sent for that failure. -/
theorem reconcileSteps_kubeconfig_failure (r : UserConfigReconciler) (uc : UserConfig)
    (c : Cluster) (t : List Action) (e : Error) (hpre : invokedSteps t = [])
    (hfail : (Step.GenerateAndSaveKubeconfig, some e) ∈
      invokedSteps (reconcileSteps r uc c t).trace) :
    ∃ c5 : Cluster,
      (reconcileSteps r uc c t).err = some e ∧
      (reconcileSteps r uc c t).trace =
        (updateErrorStatus uc (errorfV "Failed to generate and save kubeconfig" e) c5
          (t ++ [Action.invoke Step.ReconcileNamespace none,
            Action.invoke Step.ReconcileSealedSecrets none,
            Action.invoke Step.ReconcileRBAC none,
            Action.invoke Step.ReconcileLimitRange none,
            Action.invoke Step.GenerateAndSaveKubeconfig (some e)])).2.2 ∧
      (reconcileSteps r uc c t).panicked = none := by
  unfold reconcileSteps at hfail ⊢
  rcases h1 : r.UC.ReconcileNamespace uc c with p1 | ⟨_ | e1, c1⟩
  · simp [h1, invokedSteps_append, invokedSteps, hpre] at hfail
  · simp only [h1] at hfail ⊢
    rcases h2 : r.UC.ReconcileSealedSecrets uc c1 with p2 | ⟨_ | e2, c2⟩
    · simp [h2, invokedSteps_append, invokedSteps, hpre] at hfail
    · simp only [h2] at hfail ⊢
      rcases h3 : r.UC.ReconcileRBAC uc c2 with p3 | ⟨_ | e3, c3⟩
      · simp [h3, invokedSteps_append, invokedSteps, hpre] at hfail
      · simp only [h3] at hfail ⊢
        rcases h4 : r.UC.ReconcileLimitRange uc c3 with p4 | ⟨_ | e4, c4⟩
        · simp [h4, invokedSteps_append, invokedSteps, hpre] at hfail
        · simp only [h4] at hfail ⊢
          rcases h5 : r.UC.GenerateAndSaveKubeconfig uc c4 with p5 | ⟨_ | e5, c5⟩
          · simp [h5, invokedSteps_append, invokedSteps, hpre] at hfail
          · simp only [h5] at hfail ⊢
            rcases h6 : r.UC.ReconcileNetworkPolicies uc c5 with p6 | ⟨_ | e6, c6⟩
            · simp [h6, invokedSteps_append, invokedSteps, hpre] at hfail
            · simp [h6, invokedSteps_append, invokedSteps, hpre] at hfail
            · simp [h6, updateErrorStatus, invokedSteps_append, invokedSteps, hpre] at hfail
          · simp only [h5] at hfail ⊢
            have he : e = e5 := by
              simpa [updateErrorStatus, invokedSteps_append, invokedSteps, hpre] using hfail
            subst he
            exact ⟨c5, rfl, by simp, trivial⟩
        · simp [h4, updateErrorStatus, invokedSteps_append, invokedSteps, hpre] at hfail
      · simp [h3, updateErrorStatus, invokedSteps_append, invokedSteps, hpre] at hfail
    · simp [h2, updateErrorStatus, invokedSteps_append, invokedSteps, hpre] at hfail
  · simp [h1, updateErrorStatus, invokedSteps_append, invokedSteps, hpre] at hfail

/-- Counterexample to C28: credential issuance fails for the entity alice;
the pass invokes the five steps up to it and stops, so network-policy
synthesis does not run. -/
theorem kubeconfig_failure_skips_network_policies :
    invokedSteps (Reconcile { UC := failingUseCase (some Step.GenerateAndSaveKubeconfig) }
        aliceRequest (clusterWith (podsEntity "CRUD"))).trace =
      [(Step.ReconcileNamespace, none), (Step.ReconcileSealedSecrets, none),
       (Step.ReconcileRBAC, none), (Step.ReconcileLimitRange, none),
       (Step.GenerateAndSaveKubeconfig, some exampleError)] ∧
    Step.ReconcileNetworkPolicies ∉
      (invokedSteps (Reconcile { UC := failingUseCase (some Step.GenerateAndSaveKubeconfig) }
        aliceRequest (clusterWith (podsEntity "CRUD"))).trace).map Prod.fst ∧
    Step.ReconcileNetworkPolicies ∉
      calledSteps (Reconcile { UC := failingUseCase (some Step.GenerateAndSaveKubeconfig) }
        aliceRequest (clusterWith (podsEntity "CRUD"))).trace := by
  decide

/-- Claim C28, amended. A failure of credential issuance ends the pass like
the failure of any other step: when `GenerateAndSaveKubeconfig` returns an
error, `Reconcile` does not run network-policy synthesis, sends one status
request that sets the state Error and appends the condition Ready/False/Error
whose message is the text of the error after "Failed to generate and save
kubeconfig: ", and returns the error. Network-policy synthesis is not called
at all, and the pass returns: no step has panicked. -/
theorem Reconcile_kubeconfig_failure (r : UserConfigReconciler) (req : Request) (c : Cluster)
    (uc : UserConfig) (e : Error) (hget : (clientGetUserConfig c req).1 = Except.ok uc)
    (hnd : TimeIsZero uc.DeletionTimestamp = true)
    (hfail : (Step.GenerateAndSaveKubeconfig, some e) ∈
      invokedSteps (Reconcile r req c).trace) :
    Step.ReconcileNetworkPolicies ∉ (invokedSteps (Reconcile r req c).trace).map Prod.fst ∧
    (Reconcile r req c).err = some e ∧
    (∃ sent time, statusUpdates (Reconcile r req c).trace = [sent] ∧
      sent.Status.State = "Error" ∧
      sent.Status.Conditions = uc.Status.Conditions ++
        [{ Typ := ReadyCondition, Status := ConditionFalse, Reason := "Error",
           Message := "Failed to generate and save kubeconfig: " ++ e.msg,
           LastTransitionTime := time }]) ∧
    Step.ReconcileNetworkPolicies ∉ calledSteps (Reconcile r req c).trace ∧
    (Reconcile r req c).panicked = none := by
  obtain ⟨-, hlook⟩ := clientGetUserConfig_ok c req uc hget
  rw [Reconcile_live r req c uc hget hnd] at hfail ⊢
  by_cases hf : ContainsFinalizer uc userConfigFinalizer = true
  · rw [if_pos hf] at hfail ⊢
    obtain ⟨c5, herr, htr, hpan⟩ := reconcileSteps_kubeconfig_failure r uc _ [] e rfl hfail
    obtain ⟨sent, serr, htr2, -, hst, hcond⟩ := updateErrorStatus_spec uc
      (errorfV "Failed to generate and save kubeconfig" e) c5
      ([] ++ [Action.invoke Step.ReconcileNamespace none,
            Action.invoke Step.ReconcileSealedSecrets none,
            Action.invoke Step.ReconcileRBAC none,
            Action.invoke Step.ReconcileLimitRange none,
            Action.invoke Step.GenerateAndSaveKubeconfig (some e)])
    rw [herr, htr, htr2, hpan]
    refine ⟨by simp [invokedSteps], rfl, ⟨sent, c5.now, by simp [statusUpdates], hst, ?_⟩,
      by simp [calledSteps], rfl⟩
    rw [hcond]; rfl
  · rw [if_neg hf] at hfail ⊢
    have hstat := clientUpdateUserConfig_status (c.record (Call.getUserConfig req.Name))
      (AddFinalizer uc userConfigFinalizer) (by
        intro old hold
        rw [lookupUserConfig_record, (AddFinalizer_status uc _).2, hlook] at hold
        rw [(AddFinalizer_status uc _).1]
        exact (Option.some.inj hold) ▸ rfl)
    rw [(AddFinalizer_status uc _).1] at hstat
    rcases hu : clientUpdateUserConfig (c.record (Call.getUserConfig req.Name))
      (AddFinalizer uc userConfigFinalizer) with ⟨_ | e0, uc1, c1⟩
    · rw [hu] at hstat hfail
      simp only [] at hstat hfail ⊢
      obtain ⟨c5, herr, htr, hpan⟩ := reconcileSteps_kubeconfig_failure r uc1 c1
        [Action.updateFinalizer (AddFinalizer uc userConfigFinalizer) none] e rfl hfail
      obtain ⟨sent, serr, htr2, -, hst, hcond⟩ := updateErrorStatus_spec uc1
        (errorfV "Failed to generate and save kubeconfig" e) c5
        ([Action.updateFinalizer (AddFinalizer uc userConfigFinalizer) none] ++
          [Action.invoke Step.ReconcileNamespace none,
            Action.invoke Step.ReconcileSealedSecrets none,
            Action.invoke Step.ReconcileRBAC none,
            Action.invoke Step.ReconcileLimitRange none,
            Action.invoke Step.GenerateAndSaveKubeconfig (some e)])
      rw [herr, htr, htr2, hpan]
      refine ⟨by simp [invokedSteps], rfl, ⟨sent, c5.now, by simp [statusUpdates], hst, ?_⟩,
        by simp [calledSteps], rfl⟩
      rw [hcond, hstat]; rfl
    · rw [hu] at hfail
      simp [updateErrorStatus, invokedSteps] at hfail

/-- Witness of C28: credential issuance fails for the entity alice. -/
theorem Reconcile_kubeconfig_failure_witness :
    (clientGetUserConfig (clusterWith (podsEntity "CRUD")) aliceRequest).1 =
      Except.ok (podsEntity "CRUD") ∧
    TimeIsZero (podsEntity "CRUD").DeletionTimestamp = true ∧
    (Step.GenerateAndSaveKubeconfig, some exampleError) ∈
      invokedSteps (Reconcile { UC := failingUseCase (some Step.GenerateAndSaveKubeconfig) }
        aliceRequest (clusterWith (podsEntity "CRUD"))).trace ∧
    (Reconcile { UC := failingUseCase (some Step.GenerateAndSaveKubeconfig) }
        aliceRequest (clusterWith (podsEntity "CRUD"))).err = some exampleError :=
  ⟨rfl, by decide, by decide,
   (Reconcile_kubeconfig_failure { UC := failingUseCase (some Step.GenerateAndSaveKubeconfig) }
      aliceRequest (clusterWith (podsEntity "CRUD")) (podsEntity "CRUD") exampleError rfl
      (by decide) (by decide)).2.1⟩

/-! ## The condition list over passes -/

theorem statusResults_append (a b : List Action) :
    statusResults (a ++ b) = statusResults a ++ statusResults b := by
  induction a with
  | nil => rfl
  | cons x t ih => cases x <;> simp [statusResults, ih]

theorem statusResults_map_invoke (inv : List (Step × Option Error)) :
    statusResults (inv.map (fun p => Action.invoke p.1 p.2)) = [] := by
  induction inv with
  | nil => rfl
  | cons x t ih => simp [statusResults, ih]

/-- Replacing every stored entity of a name makes the replacement the one a
lookup of that name finds. -/
theorem find?_map_replace_entity (name : String) (stored : UserConfig)
    (hs : stored.Name = name) (l : List UserConfig)
    (h : (l.find? (fun u => decide (u.Name = name))).isSome) :
    (l.map (fun u => if u.Name = name then stored else u)).find?
      (fun u => decide (u.Name = name)) = some stored := by
  induction l with
  | nil => simp at h
  | cons a t ih =>
    by_cases ha : a.Name = name
    · simp [List.find?, ha, hs]
    · have hat : (t.find? (fun u => decide (u.Name = name))).isSome := by
        simpa [List.find?, ha] using h
      simp [List.find?, ha, ih hat]

theorem lookupUserConfig_name (c : Cluster) (name : String) (uc : UserConfig)
    (h : c.lookupUserConfig name = some uc) : uc.Name = name := by
  unfold Cluster.lookupUserConfig at h
  have := List.find?_some (p := fun (x : UserConfig) => decide (x.Name = name)) h
  simpa using this

/-- An accepted status request leaves the entity stored with the status
sent. -/
theorem clientStatusUpdate_accepted (c : Cluster) (uc : UserConfig)
    (h : (clientStatusUpdate c uc).1 = none) :
    ∃ s, (clientStatusUpdate c uc).2.2.lookupUserConfig uc.Name = some s ∧
      s.Status = uc.Status := by
  rcases hf : c.fault c.calls.length with _ | e
  · rcases hl : c.lookupUserConfig uc.Name with _ | old
    · simp [clientStatusUpdate, hf, hl] at h
    · have hn := lookupUserConfig_name c uc.Name old hl
      refine ⟨{ old with Status := uc.Status }, ?_, rfl⟩
      simp only [clientStatusUpdate, hf, hl]
      unfold Cluster.lookupUserConfig at hl
      simp only [Cluster.lookupUserConfig, Cluster.record]
      exact find?_map_replace_entity uc.Name { old with Status := uc.Status } hn c.userConfigs
        (by rw [hl]; rfl)
  · simp [clientStatusUpdate, hf] at h

theorem updateErrorStatus_request (uc : UserConfig) (err : Error) (c : Cluster)
    (t : List Action) :
    ∃ sent cond,
      updateErrorStatus uc err c t =
        ((clientStatusUpdate c sent).2.1, (clientStatusUpdate c sent).2.2,
          t ++ [Action.statusUpdate sent (clientStatusUpdate c sent).1]) ∧
      sent.Name = uc.Name ∧ sent.Status.Conditions = uc.Status.Conditions ++ [cond] ∧
      cond.Typ = ReadyCondition :=
  ⟨_, _, rfl, rfl, rfl, rfl⟩

/-- Every run of the six steps in which no step panics ends with one status
request, sent for the entity it was given with one Ready condition appended,
and the cluster it leaves is the one that request leaves; a run that a step
ends in a panic sends none. -/
theorem reconcileSteps_request (r : UserConfigReconciler) (uc : UserConfig) (c : Cluster)
    (t : List Action) :
    (∃ (inv : List (Step × Option Error)) (c' : Cluster) (sent : UserConfig) (cond : Condition),
      (reconcileSteps r uc c t).panicked = none ∧
      (reconcileSteps r uc c t).trace =
        t ++ inv.map (fun p => Action.invoke p.1 p.2) ++
          [Action.statusUpdate sent (clientStatusUpdate c' sent).1] ∧
      (reconcileSteps r uc c t).cluster = (clientStatusUpdate c' sent).2.2 ∧
      sent.Name = uc.Name ∧ sent.Status.Conditions = uc.Status.Conditions ++ [cond] ∧
      cond.Typ = ReadyCondition) ∨
    (∃ (inv : List (Step × Option Error)) (s : Step) (p : Panic),
      (reconcileSteps r uc c t).panicked = some p ∧
      (reconcileSteps r uc c t).trace =
        t ++ inv.map (fun p => Action.invoke p.1 p.2) ++ [Action.panicked s p]) := by
  unfold reconcileSteps
  rcases h1 : r.UC.ReconcileNamespace uc c with p1 | ⟨_ | e1, c1⟩
  · dsimp only
    refine Or.inr ⟨[], Step.ReconcileNamespace, p1, rfl, ?_⟩; simp
  · dsimp only
    rcases h2 : r.UC.ReconcileSealedSecrets uc c1 with p2 | ⟨_ | e2, c2⟩
    · dsimp only
      refine Or.inr ⟨[(Step.ReconcileNamespace, none)], Step.ReconcileSealedSecrets, p2, rfl, ?_⟩; simp
    · dsimp only
      rcases h3 : r.UC.ReconcileRBAC uc c2 with p3 | ⟨_ | e3, c3⟩
      · dsimp only
        refine Or.inr ⟨[(Step.ReconcileNamespace, none), (Step.ReconcileSealedSecrets, none)], Step.ReconcileRBAC, p3, rfl, ?_⟩; simp
      · dsimp only
        rcases h4 : r.UC.ReconcileLimitRange uc c3 with p4 | ⟨_ | e4, c4⟩
        · dsimp only
          refine Or.inr ⟨[(Step.ReconcileNamespace, none), (Step.ReconcileSealedSecrets, none), (Step.ReconcileRBAC, none)], Step.ReconcileLimitRange, p4, rfl, ?_⟩; simp
        · dsimp only
          rcases h5 : r.UC.GenerateAndSaveKubeconfig uc c4 with p5 | ⟨_ | e5, c5⟩
          · dsimp only
            refine Or.inr ⟨[(Step.ReconcileNamespace, none), (Step.ReconcileSealedSecrets, none), (Step.ReconcileRBAC, none), (Step.ReconcileLimitRange, none)], Step.GenerateAndSaveKubeconfig, p5, rfl, ?_⟩; simp
          · dsimp only
            rcases h6 : r.UC.ReconcileNetworkPolicies uc c5 with p6 | ⟨_ | e6, c6⟩
            · dsimp only
              refine Or.inr ⟨[(Step.ReconcileNamespace, none), (Step.ReconcileSealedSecrets, none), (Step.ReconcileRBAC, none), (Step.ReconcileLimitRange, none), (Step.GenerateAndSaveKubeconfig, none)], Step.ReconcileNetworkPolicies, p6, rfl, ?_⟩; simp
            · dsimp only
              refine Or.inl ⟨[(Step.ReconcileNamespace, none), (Step.ReconcileSealedSecrets, none), (Step.ReconcileRBAC, none), (Step.ReconcileLimitRange, none), (Step.GenerateAndSaveKubeconfig, none), (Step.ReconcileNetworkPolicies, none)],
                c6, _, _, rfl, ?_, rfl, rfl, rfl, rfl⟩
              simp
            · dsimp only
              obtain ⟨sent, cond, hu, hn, hc, ht⟩ := updateErrorStatus_request uc
                (errorfV "Failed to reconcile network policies" e6) c6
                (t ++ [Action.invoke Step.ReconcileNamespace none] ++ [Action.invoke Step.ReconcileSealedSecrets none] ++ [Action.invoke Step.ReconcileRBAC none] ++ [Action.invoke Step.ReconcileLimitRange none] ++ [Action.invoke Step.GenerateAndSaveKubeconfig none] ++ [Action.invoke Step.ReconcileNetworkPolicies (some e6)])
              refine Or.inl ⟨[(Step.ReconcileNamespace, none), (Step.ReconcileSealedSecrets, none), (Step.ReconcileRBAC, none), (Step.ReconcileLimitRange, none), (Step.GenerateAndSaveKubeconfig, none), (Step.ReconcileNetworkPolicies, some e6)],
                c6, sent, cond, rfl, ?_, ?_, hn, hc, ht⟩
              · rw [hu]; simp
              · rw [hu]
          · dsimp only
            obtain ⟨sent, cond, hu, hn, hc, ht⟩ := updateErrorStatus_request uc
              (errorfV "Failed to generate and save kubeconfig" e5) c5
              (t ++ [Action.invoke Step.ReconcileNamespace none] ++ [Action.invoke Step.ReconcileSealedSecrets none] ++ [Action.invoke Step.ReconcileRBAC none] ++ [Action.invoke Step.ReconcileLimitRange none] ++ [Action.invoke Step.GenerateAndSaveKubeconfig (some e5)])
            refine Or.inl ⟨[(Step.ReconcileNamespace, none), (Step.ReconcileSealedSecrets, none), (Step.ReconcileRBAC, none), (Step.ReconcileLimitRange, none), (Step.GenerateAndSaveKubeconfig, some e5)],
              c5, sent, cond, rfl, ?_, ?_, hn, hc, ht⟩
            · rw [hu]; simp
            · rw [hu]
        · dsimp only
          obtain ⟨sent, cond, hu, hn, hc, ht⟩ := updateErrorStatus_request uc
            (errorfV "Failed to reconcile LimitRange" e4) c4
            (t ++ [Action.invoke Step.ReconcileNamespace none] ++ [Action.invoke Step.ReconcileSealedSecrets none] ++ [Action.invoke Step.ReconcileRBAC none] ++ [Action.invoke Step.ReconcileLimitRange (some e4)])
          refine Or.inl ⟨[(Step.ReconcileNamespace, none), (Step.ReconcileSealedSecrets, none), (Step.ReconcileRBAC, none), (Step.ReconcileLimitRange, some e4)],
            c4, sent, cond, rfl, ?_, ?_, hn, hc, ht⟩
          · rw [hu]; simp
          · rw [hu]
      · dsimp only
        obtain ⟨sent, cond, hu, hn, hc, ht⟩ := updateErrorStatus_request uc
          (errorfV "Failed to reconcile RBAC" e3) c3
          (t ++ [Action.invoke Step.ReconcileNamespace none] ++ [Action.invoke Step.ReconcileSealedSecrets none] ++ [Action.invoke Step.ReconcileRBAC (some e3)])
        refine Or.inl ⟨[(Step.ReconcileNamespace, none), (Step.ReconcileSealedSecrets, none), (Step.ReconcileRBAC, some e3)],
          c3, sent, cond, rfl, ?_, ?_, hn, hc, ht⟩
        · rw [hu]; simp
        · rw [hu]
    · dsimp only
      obtain ⟨sent, cond, hu, hn, hc, ht⟩ := updateErrorStatus_request uc
        (errorfV "Failed to reconcile sealed secrets" e2) c2
        (t ++ [Action.invoke Step.ReconcileNamespace none] ++ [Action.invoke Step.ReconcileSealedSecrets (some e2)])
      refine Or.inl ⟨[(Step.ReconcileNamespace, none), (Step.ReconcileSealedSecrets, some e2)],
        c2, sent, cond, rfl, ?_, ?_, hn, hc, ht⟩
      · rw [hu]; simp
      · rw [hu]
  · dsimp only
    obtain ⟨sent, cond, hu, hn, hc, ht⟩ := updateErrorStatus_request uc
      (errorfV "Failed to reconcile namespace" e1) c1
      (t ++ [Action.invoke Step.ReconcileNamespace (some e1)])
    refine Or.inl ⟨[(Step.ReconcileNamespace, some e1)],
      c1, sent, cond, rfl, ?_, ?_, hn, hc, ht⟩
    · rw [hu]; simp
    · rw [hu]

theorem clientUpdateUserConfig_name (c : Cluster) (uc : UserConfig) :
    (clientUpdateUserConfig c uc).2.1.Name = uc.Name := by
  rcases hf : c.fault c.calls.length with _ | e
  · rcases hl : c.lookupUserConfig uc.Name with _ | old
    · simp [clientUpdateUserConfig, hf, hl]
    · simp only [clientUpdateUserConfig, hf, hl]
      split <;> rfl
  · simp [clientUpdateUserConfig, hf]

/-- Every pass over an entity that is not marked for deletion in which no step
panics ends with one status request, sent for that entity with one Ready
condition appended to the conditions read, and the cluster the pass leaves is
the one that request leaves. -/
theorem Reconcile_request (r : UserConfigReconciler) (req : Request) (c : Cluster)
    (uc : UserConfig) (hget : (clientGetUserConfig c req).1 = Except.ok uc)
    (hnd : TimeIsZero uc.DeletionTimestamp = true)
    (hpan : (Reconcile r req c).panicked = none) :
    ∃ (pre : List Action) (c' : Cluster) (sent : UserConfig) (cond : Condition),
      (Reconcile r req c).trace =
        pre ++ [Action.statusUpdate sent (clientStatusUpdate c' sent).1] ∧
      statusUpdates pre = [] ∧ statusResults pre = [] ∧
      (Reconcile r req c).cluster = (clientStatusUpdate c' sent).2.2 ∧
      sent.Name = uc.Name ∧ sent.Status.Conditions = uc.Status.Conditions ++ [cond] ∧
      cond.Typ = ReadyCondition := by
  obtain ⟨-, hlook⟩ := clientGetUserConfig_ok c req uc hget
  rw [Reconcile_live r req c uc hget hnd] at hpan ⊢
  by_cases hf : ContainsFinalizer uc userConfigFinalizer = true
  · rw [if_pos hf] at hpan ⊢
    rcases reconcileSteps_request r uc (c.record (Call.getUserConfig req.Name)) [] with
      ⟨inv, c', sent, cond, -, htr, hcl, hn, hc, ht⟩ | ⟨inv, s, p, hp, -⟩
    · exact ⟨[] ++ inv.map (fun p => Action.invoke p.1 p.2), c', sent, cond, htr,
        by simp [statusUpdates_append, statusUpdates_map_invoke, statusUpdates],
        by simp [statusResults_append, statusResults_map_invoke, statusResults],
        hcl, hn, hc, ht⟩
    · rw [hp] at hpan; exact absurd hpan (by simp)
  · rw [if_neg hf] at hpan ⊢
    have hstat := clientUpdateUserConfig_status (c.record (Call.getUserConfig req.Name))
      (AddFinalizer uc userConfigFinalizer) (by
        intro old hold
        rw [lookupUserConfig_record, (AddFinalizer_status uc _).2, hlook] at hold
        rw [(AddFinalizer_status uc _).1]
        exact (Option.some.inj hold) ▸ rfl)
    rw [(AddFinalizer_status uc _).1] at hstat
    have hname := clientUpdateUserConfig_name (c.record (Call.getUserConfig req.Name))
      (AddFinalizer uc userConfigFinalizer)
    rw [(AddFinalizer_status uc _).2] at hname
    rcases hu : clientUpdateUserConfig (c.record (Call.getUserConfig req.Name))
      (AddFinalizer uc userConfigFinalizer) with ⟨_ | e, uc1, c1⟩
    · rw [hu] at hstat hname hpan
      dsimp only at hstat hname hpan ⊢
      rcases reconcileSteps_request r uc1 c1
          [Action.updateFinalizer (AddFinalizer uc userConfigFinalizer) none] with
        ⟨inv, c', sent, cond, -, htr, hcl, hn, hc, ht⟩ | ⟨inv, s, p, hp, -⟩
      · rw [hstat] at hc
        rw [hname] at hn
        exact ⟨[Action.updateFinalizer (AddFinalizer uc userConfigFinalizer) none] ++
            inv.map (fun p => Action.invoke p.1 p.2), c', sent, cond, htr,
          by simp [statusUpdates_append, statusUpdates_map_invoke, statusUpdates],
          by simp [statusResults_append, statusResults_map_invoke, statusResults],
          hcl, hn, hc, ht⟩
      · rw [hp] at hpan; exact absurd hpan (by simp)
    · rw [hu] at hstat hname
      dsimp only at hstat hname ⊢
      obtain ⟨sent, cond, hup, hn, hc, ht⟩ := updateErrorStatus_request uc1
        (errorfV "Failed to update finalizer" e) c1
        [Action.updateFinalizer (AddFinalizer uc userConfigFinalizer) (some e)]
      rw [hstat] at hc
      rw [hname] at hn
      refine ⟨[Action.updateFinalizer (AddFinalizer uc userConfigFinalizer) (some e)], c1,
        sent, cond, ?_, rfl, rfl, ?_, hn, hc, ht⟩
      · rw [hup]
      · rw [hup]

/-- A pass over an entity that is not marked for deletion which a step ends in
a panic sends no status request. -/
theorem Reconcile_panicked_request (r : UserConfigReconciler) (req : Request) (c : Cluster)
    (uc : UserConfig) (hget : (clientGetUserConfig c req).1 = Except.ok uc)
    (hnd : TimeIsZero uc.DeletionTimestamp = true) (p : Panic)
    (hpan : (Reconcile r req c).panicked = some p) :
    statusUpdates (Reconcile r req c).trace = [] ∧
      statusResults (Reconcile r req c).trace = [] := by
  rcases Reconcile_cases r req c uc hget hnd with
    ⟨pre, inv, sent, serr, held, cond, hnone, -⟩ |
    ⟨pre, inv, s0, p0, held, -, htr, hpre, -⟩
  · rw [hnone] at hpan; exact absurd hpan (by simp)
  · rw [htr]
    rcases hpre with ⟨h, -⟩ | ⟨h, -⟩ <;> subst h <;>
      simp [statusUpdates_append, statusUpdates_map_invoke, statusUpdates,
        statusResults_append, statusResults_map_invoke, statusResults]

theorem clientGetUserConfig_name (c : Cluster) (req : Request) (uc : UserConfig)
    (h : (clientGetUserConfig c req).1 = Except.ok uc) :
    uc.Name = req.Name ∧ c.lookupUserConfig req.Name = some uc := by
  rcases hf : c.fault c.calls.length with _ | e
  · rcases hl : c.lookupUserConfig req.Name with _ | o
    · simp [clientGetUserConfig, hf, hl] at h
    · simp [clientGetUserConfig, hf, hl] at h
      subst h
      exact ⟨lookupUserConfig_name c req.Name o hl, rfl⟩
  · simp [clientGetUserConfig, hf] at h

/-- The conditions stored after a pass over an entity that is not marked for
deletion, in which no step panicked and whose status request was accepted: the
conditions read and one Ready condition. -/
theorem Reconcile_accepted (r : UserConfigReconciler) (req : Request) (c : Cluster)
    (uc : UserConfig) (hget : (clientGetUserConfig c req).1 = Except.ok uc)
    (hnd : TimeIsZero uc.DeletionTimestamp = true)
    (hpan : (Reconcile r req c).panicked = none) :
    ∃ sent serr cond,
      statusUpdates (Reconcile r req c).trace = [sent] ∧
      statusResults (Reconcile r req c).trace = [serr] ∧
      sent.Status.Conditions = uc.Status.Conditions ++ [cond] ∧
      cond.Typ = ReadyCondition ∧
      (serr = none →
        storedConditions (Reconcile r req c).cluster req.Name =
          some (uc.Status.Conditions ++ [cond])) := by
  obtain ⟨pre, c', sent, cond, htr, hsu, hsr, hcl, hn, hc, ht⟩ :=
    Reconcile_request r req c uc hget hnd hpan
  obtain ⟨hname, -⟩ := clientGetUserConfig_name c req uc hget
  refine ⟨sent, (clientStatusUpdate c' sent).1, cond, ?_, ?_, hc, ht, ?_⟩
  · rw [htr, statusUpdates_append, hsu]; rfl
  · rw [htr, statusResults_append, hsr]; rfl
  · intro hnone
    obtain ⟨s, hs, hst⟩ := clientStatusUpdate_accepted c' sent hnone
    rw [hcl, ← hname, ← hn]
    unfold storedConditions
    rw [hs, Option.map_some', hst, hc]

/-- The conditions stored after any number of passes over an entity that is
not marked for deletion, when every status request was accepted: one Ready
condition more per pass, after the conditions stored at the start. -/
theorem passes_conditions (r : UserConfigReconciler) (req : Request) :
    ∀ (k : Nat) (c : Cluster) (l : List Condition),
      storedConditions c req.Name = some l →
      (∀ i < k, acceptedLivePass r req (passes r req i c) = true) →
      ∃ added, storedConditions (passes r req k c) req.Name = some (l ++ added) ∧
        added.length = k ∧ ∀ cond ∈ added, cond.Typ = ReadyCondition := by
  intro k
  induction k with
  | zero =>
    intro c l hl _
    exact ⟨[], by simpa [passes] using hl, rfl, by simp⟩
  | succ k ih =>
    intro c l hl hacc
    have h0 := hacc 0 (Nat.succ_pos k)
    simp only [passes, acceptedLivePass] at h0
    rcases hget : (clientGetUserConfig c req).1 with e | uc
    · rw [hget] at h0; simp at h0
    · rw [hget] at h0
      simp only [Bool.and_eq_true, decide_eq_true_eq] at h0
      obtain ⟨hname, hlook⟩ := clientGetUserConfig_name c req uc hget
      have hl' : uc.Status.Conditions = l := by
        unfold storedConditions at hl
        rw [hlook] at hl
        simpa using hl
      have hpan : (Reconcile r req c).panicked = none := by
        rcases hp : (Reconcile r req c).panicked with _ | p
        · rfl
        · have := (Reconcile_panicked_request r req c uc hget h0.1 p hp).2
          rw [h0.2] at this
          exact absurd this (by simp)
      obtain ⟨sent, serr, cond, -, hsr, -, ht, hstored⟩ :=
        Reconcile_accepted r req c uc hget h0.1 hpan
      rw [h0.2] at hsr
      have hserr : serr = none := by simpa using hsr.symm
      have hst := hstored hserr
      rw [hl'] at hst
      obtain ⟨added, hadd, hlen, hall⟩ := ih (Reconcile r req c).cluster (l ++ [cond]) hst
        (fun i hi => hacc (i + 1) (Nat.succ_lt_succ hi))
      refine ⟨cond :: added, ?_, by simp [hlen], ?_⟩
      · simpa [passes] using hadd
      · intro x hx
        rcases List.mem_cons.mp hx with rfl | hx
        · exact ht
        · exact hall x hx

/-- An entity update leaves the status stored for the entity as it was, when
the entity is still stored. -/
theorem clientUpdateUserConfig_stored_status (c : Cluster) (uc : UserConfig) (s : UserConfig)
    (hs : (clientUpdateUserConfig c uc).2.2.lookupUserConfig uc.Name = some s) :
    ∃ old, c.lookupUserConfig uc.Name = some old ∧ s.Status = old.Status := by
  rcases hf : c.fault c.calls.length with _ | e
  · rcases hl : c.lookupUserConfig uc.Name with _ | old
    · simp only [clientUpdateUserConfig, hf, hl] at hs
      change c.lookupUserConfig uc.Name = some s at hs
      rw [hl] at hs
      exact absurd hs (by simp)
    · refine ⟨old, rfl, ?_⟩
      simp only [clientUpdateUserConfig, hf, hl] at hs
      split at hs
      · simp only [Cluster.lookupUserConfig, Cluster.record] at hs
        have hmem := List.mem_of_find?_eq_some hs
        have hp := List.find?_some (p := fun (x : UserConfig) => decide (x.Name = uc.Name)) hs
        rw [List.mem_filter] at hmem
        simp at hp
        simp [hp] at hmem
      · have hn := lookupUserConfig_name c uc.Name old hl
        unfold Cluster.lookupUserConfig at hl
        simp only [Cluster.lookupUserConfig, Cluster.record] at hs
        rw [find?_map_replace_entity uc.Name
          { uc with Status := old.Status, DeletionTimestamp := old.DeletionTimestamp } rfl
          c.userConfigs (by rw [hl]; rfl)] at hs
        rw [← Option.some.inj hs]
  · simp only [clientUpdateUserConfig, hf] at hs
    change c.lookupUserConfig uc.Name = some s at hs
    exact ⟨s, hs, rfl⟩
theorem storedConditions_congr (c c' : Cluster) (h : c'.userConfigs = c.userConfigs)
    (name : String) : storedConditions c' name = storedConditions c name := by
  unfold storedConditions Cluster.lookupUserConfig
  rw [h]

/-- A pass over an entity marked for deletion sends no status request and
leaves the conditions stored for the entity as they were, unless the entity
leaves the store. -/
theorem Reconcile_deleting_conditions (steps : UseCase) (u : UserConfigUseCase)
    (req : Request) (c : Cluster) (uc : UserConfig)
    (hget : (clientGetUserConfig c req).1 = Except.ok uc)
    (hdel : TimeIsZero uc.DeletionTimestamp = false) :
    statusUpdates (Reconcile { UC := withHandleDeletion steps u } req c).trace = [] ∧
    (∃ rest, (Reconcile { UC := withHandleDeletion steps u } req c).cluster.calls =
        c.calls ++ rest ∧ ∀ sent, Call.updateUserConfigStatus sent ∉ rest) ∧
    (storedConditions (Reconcile { UC := withHandleDeletion steps u } req c).cluster req.Name =
        none ∨
      storedConditions (Reconcile { UC := withHandleDeletion steps u } req c).cluster req.Name =
        some uc.Status.Conditions) := by
  obtain ⟨heq, -⟩ := clientGetUserConfig_ok c req uc hget
  obtain ⟨hname, hlook⟩ := clientGetUserConfig_name c req uc hget
  have hsc : storedConditions c req.Name = some uc.Status.Conditions := by
    unfold storedConditions
    rw [hlook]; rfl
  by_cases hfin : ContainsFinalizer uc userConfigFinalizer = true
  · obtain ⟨-, htr, hcl, -⟩ :=
      Reconcile_deleting { UC := withHandleDeletion steps u } req c uc hget hdel hfin
    have hHD : (withHandleDeletion steps u).HandleDeletion = HandleDeletion u := rfl
    simp only [hHD] at htr hcl
    have heqHD := HandleDeletion_eq u uc (c.record (Call.getUserConfig req.Name)) hfin
    have hdlog := clientDelete_log (c.record (Call.getUserConfig req.Name))
      { kind := Kind.Namespace, Name := uc.Name }
    have hdu : (clientDelete (c.record (Call.getUserConfig req.Name))
        { kind := Kind.Namespace, Name := uc.Name }).2.userConfigs = c.userConfigs := hdlog.2
    have hdc : (clientDelete (c.record (Call.getUserConfig req.Name))
        { kind := Kind.Namespace, Name := uc.Name }).2.calls =
        c.calls ++ [Call.getUserConfig req.Name, Call.delete Kind.Namespace "" uc.Name] := by
      rw [hdlog.1]; simp [Cluster.record]
    rw [htr, hcl, heqHD]
    generalize clientDelete (c.record (Call.getUserConfig req.Name))
      { kind := Kind.Namespace, Name := uc.Name } = d at hdu hdc ⊢
    refine ⟨rfl, ?_⟩
    split
    · refine ⟨⟨[Call.getUserConfig req.Name, Call.delete Kind.Namespace "" uc.Name], hdc, ?_⟩,
        Or.inr ?_⟩
      · intro sent; simp
      · show storedConditions d.2 req.Name = _
        rw [storedConditions_congr c d.2 hdu, hsc]
    · have hulog := clientUpdateUserConfig_log d.2 (RemoveFinalizer uc userConfigFinalizer)
      refine ⟨⟨[Call.getUserConfig req.Name, Call.delete Kind.Namespace "" uc.Name,
        Call.updateUserConfig (RemoveFinalizer uc userConfigFinalizer)], ?_, ?_⟩, ?_⟩
      · rw [hulog.1, hdc]; simp
      · intro sent; simp
      · rcases hs : (clientUpdateUserConfig d.2
            (RemoveFinalizer uc userConfigFinalizer)).2.2.lookupUserConfig req.Name with _ | s
        · left
          unfold storedConditions
          rw [hs]; rfl
        · right
          have hrn : (RemoveFinalizer uc userConfigFinalizer).Name = req.Name := hname
          have hs' : (clientUpdateUserConfig d.2
              (RemoveFinalizer uc userConfigFinalizer)).2.2.lookupUserConfig
              (RemoveFinalizer uc userConfigFinalizer).Name = some s := by
            rw [hrn]; exact hs
          obtain ⟨old, hold, hst⟩ := clientUpdateUserConfig_stored_status _ _ s hs'
          have hold' : old = uc := by
            rw [hrn] at hold
            unfold Cluster.lookupUserConfig at hold hlook
            rw [hdu, hlook] at hold
            exact (Option.some.inj hold).symm
          unfold storedConditions
          rw [hs, Option.map_some', hst, hold']
  · have hfin' : ContainsFinalizer uc userConfigFinalizer = false := by simpa using hfin
    have hres : Reconcile { UC := withHandleDeletion steps u } req c =
        { err := none, userConfig := some uc, trace := [],
          cluster := c.record (Call.getUserConfig req.Name) } := by
      unfold Reconcile
      simp only [heq, hdel, hfin', Bool.not_false, if_true]
    rw [hres]
    exact ⟨rfl, ⟨[Call.getUserConfig req.Name], rfl, by simp⟩, Or.inr hsc⟩

/-- Claim C30. A pass over an entity that is not marked for deletion in
which no step panics sends exactly one status request, whose condition list is
the list read followed by one condition of type Ready, the earlier conditions
unchanged and in place; when that request is accepted, this is the list stored
for the entity after the pass. So after k passes whose status requests were
accepted the stored list is the initial one followed by k Ready conditions. A
pass over an entity marked for deletion sends no status request and leaves the
stored list as it was, for as long as the entity is stored. A pass that a step
ends in a panic sends no status request either, so it appends no condition:
with the methods of `UserConfigUseCase` behind the interface, the pass over
the entity whose limit range has the Pod entry with max cpu 1 and no memory,
and the pass over the entity whose quota override has the cpu 1KK, leave the
stored list empty as it was. -/
theorem conditions_append_only (steps : UseCase) (u : UserConfigUseCase) (req : Request)
    (c : Cluster) (uc : UserConfig) (hget : (clientGetUserConfig c req).1 = Except.ok uc) :
    (TimeIsZero uc.DeletionTimestamp = true →
      (Reconcile { UC := withHandleDeletion steps u } req c).panicked = none →
      ∃ sent serr cond,
        statusUpdates (Reconcile { UC := withHandleDeletion steps u } req c).trace = [sent] ∧
        statusResults (Reconcile { UC := withHandleDeletion steps u } req c).trace = [serr] ∧
        sent.Status.Conditions = uc.Status.Conditions ++ [cond] ∧
        cond.Typ = ReadyCondition ∧
        (serr = none →
          storedConditions (Reconcile { UC := withHandleDeletion steps u } req c).cluster
            req.Name = some (uc.Status.Conditions ++ [cond]))) ∧
    (TimeIsZero uc.DeletionTimestamp = true →
      ∀ p, (Reconcile { UC := withHandleDeletion steps u } req c).panicked = some p →
        statusUpdates (Reconcile { UC := withHandleDeletion steps u } req c).trace = [] ∧
        statusResults (Reconcile { UC := withHandleDeletion steps u } req c).trace = []) ∧
    (∀ k, (∀ i < k, acceptedLivePass { UC := withHandleDeletion steps u } req
        (passes { UC := withHandleDeletion steps u } req i c) = true) →
      ∃ added,
        storedConditions (passes { UC := withHandleDeletion steps u } req k c) req.Name =
          some (uc.Status.Conditions ++ added) ∧
        added.length = k ∧ ∀ cond ∈ added, cond.Typ = ReadyCondition) ∧
    (TimeIsZero uc.DeletionTimestamp = false →
      statusUpdates (Reconcile { UC := withHandleDeletion steps u } req c).trace = [] ∧
      (∃ rest, (Reconcile { UC := withHandleDeletion steps u } req c).cluster.calls =
          c.calls ++ rest ∧ ∀ sent, Call.updateUserConfigStatus sent ∉ rest) ∧
      (storedConditions (Reconcile { UC := withHandleDeletion steps u } req c).cluster
          req.Name = none ∨
        storedConditions (Reconcile { UC := withHandleDeletion steps u } req c).cluster
          req.Name = some uc.Status.Conditions)) ∧
    ((Reconcile kindReconciler aliceRequest (clusterWith podCpuOnlyEntity)).panicked =
        some { msg := "cannot parse '': quantities must match the regular expression '^([+-]?[0-9.]+)([eEinumkKMGTP]*[-+]?[0-9]*)$'" } ∧
      statusUpdates (Reconcile kindReconciler aliceRequest
        (clusterWith podCpuOnlyEntity)).trace = [] ∧
      storedConditions (clusterWith podCpuOnlyEntity) "alice" = some [] ∧
      storedConditions (Reconcile kindReconciler aliceRequest
        (clusterWith podCpuOnlyEntity)).cluster "alice" = some []) ∧
    ((Reconcile kindReconciler aliceRequest (clusterWith badQuotaEntity)).panicked =
        some { msg := "cannot parse '1KK': unable to parse quantity's suffix" } ∧
      statusUpdates (Reconcile kindReconciler aliceRequest
        (clusterWith badQuotaEntity)).trace = [] ∧
      storedConditions (clusterWith badQuotaEntity) "alice" = some [] ∧
      storedConditions (Reconcile kindReconciler aliceRequest
        (clusterWith badQuotaEntity)).cluster "alice" = some []) := by
  refine ⟨fun hnd hpan => Reconcile_accepted _ req c uc hget hnd hpan,
    fun hnd p hp => Reconcile_panicked_request _ req c uc hget hnd p hp, ?_,
    fun hdel => Reconcile_deleting_conditions steps u req c uc hget hdel, by decide, by decide⟩
  intro k hacc
  obtain ⟨-, hlook⟩ := clientGetUserConfig_name c req uc hget
  exact passes_conditions _ req k c uc.Status.Conditions
    (by unfold storedConditions; rw [hlook]; rfl) hacc

/-- Witness of C30: two passes over the entity alice store two Ready
conditions, and a pass over the entity marked for deletion sends no status
request. -/
theorem conditions_append_only_witness :
    (clientGetUserConfig (clusterWith (podsEntity "CRUD")) aliceRequest).1 =
      Except.ok (podsEntity "CRUD") ∧
    (∀ i < 2, acceptedLivePass { UC := withHandleDeletion (failingUseCase none) {} }
      aliceRequest (passes { UC := withHandleDeletion (failingUseCase none) {} } aliceRequest i
        (clusterWith (podsEntity "CRUD"))) = true) ∧
    (∃ added,
      storedConditions (passes { UC := withHandleDeletion (failingUseCase none) {} }
          aliceRequest 2 (clusterWith (podsEntity "CRUD"))) aliceRequest.Name =
        some ((podsEntity "CRUD").Status.Conditions ++ added) ∧
      added.length = 2 ∧ ∀ cond ∈ added, cond.Typ = ReadyCondition) ∧
    (clientGetUserConfig (clusterWith deletedEntity) aliceRequest).1 =
      Except.ok deletedEntity ∧
    TimeIsZero deletedEntity.DeletionTimestamp = false ∧
    statusUpdates (Reconcile { UC := withHandleDeletion (failingUseCase none) {} }
      aliceRequest (clusterWith deletedEntity)).trace = [] :=
  ⟨rfl, by decide,
   (conditions_append_only (failingUseCase none) {} aliceRequest
      (clusterWith (podsEntity "CRUD")) (podsEntity "CRUD") rfl).2.2.1 2 (by decide),
   rfl, by decide,
   ((conditions_append_only (failingUseCase none) {} aliceRequest
      (clusterWith deletedEntity) deletedEntity rfl).2.2.2.1 (by decide)).1⟩

/-! ## Updates of existing RBAC objects -/

theorem clientGet_lookup (c : Cluster) (kind : Kind) (ns name : String) (o : Object)
    (h : (clientGet c kind ns name).1 = Except.ok o) : c.lookup kind ns name = some o := by
  rcases hf : c.fault c.calls.length with _ | e
  · rcases hl : c.lookup kind ns name with _ | o'
    · simp [clientGet, hf, hl] at h
    · simp [clientGet, hf, hl] at h
      rw [h]
  · simp [clientGet, hf] at h

/-- A create request for a key that is stored is rejected and leaves the
store alone. -/
theorem clientCreate_exists (c : Cluster) (obj o : Object)
    (hl : c.lookup obj.kind obj.Namespace obj.Name = some o) :
    (clientCreate c obj).1 ≠ none ∧ (clientCreate c obj).2.objects = c.objects := by
  rcases hf : c.fault c.calls.length with _ | e
  · simp [clientCreate, hf, hl, Cluster.record]
  · simp [clientCreate, hf, Cluster.record]

/-- The exists path of `ReconcileRole`: the stored Role keeps everything but
its rules. -/
theorem ReconcileRole_existing (u : UserConfigUseCase) (uc : UserConfig) (c : Cluster)
    (existing : Object) (hst : c.lookup Kind.Role uc.Name uc.Name = some existing)
    (h : (ReconcileRole u uc c).1 = none) :
    (ReconcileRole u uc c).2.lookup Kind.Role uc.Name uc.Name =
      some { existing with body := Body.role (uc.Spec.Permissions.Resources.map translate) } := by
  unfold ReconcileRole at h ⊢
  simp only [foldl_rules, List.nil_append, map_translate] at h ⊢
  split at h
  · simp at h
  · rename_i role hs
    obtain ⟨hk, hn, hns, -, -⟩ := SetControllerReference_ok _ _ _ _ hs
    obtain ⟨hne, hobj⟩ := clientCreate_exists c role existing
      (by rw [hk, hn, hns]; exact hst)
    rcases hc : clientCreate c role with ⟨_ | e, c1⟩
    · rw [hc] at hne; exact absurd rfl hne
    · rw [hc] at hobj
      simp only [hc] at h ⊢
      by_cases hae : IsAlreadyExists e = true
      · simp only [hae, Bool.not_true, Bool.false_eq_true, if_false] at h ⊢
        rcases hg : clientGet c1 Kind.Role uc.Name uc.Name with ⟨e2 | found, c2⟩
        · simp [hg] at h
        · simp only [hg] at h ⊢
          have hfound := clientGet_lookup c1 Kind.Role uc.Name uc.Name found (by rw [hg])
          rw [lookup_congr c c1 hobj, hst] at hfound
          have hfe : found = existing := (Option.some.inj hfound).symm
          subst hfe
          have hkey := (hasKey_iff _ _ _ _).mp (lookup_hasKey c _ _ _ _ hst)
          generalize hex : ({
            toObjectMeta := found.toObjectMeta, kind := found.kind,
            body := Body.role (uc.Spec.Permissions.Resources.map translate) } : Object) = ex at h ⊢
          have hexk : ex.kind = Kind.Role ∧ ex.Namespace = uc.Name ∧ ex.Name = uc.Name := by
            subst hex; exact hkey
          rcases hu : clientUpdate c2 ex with ⟨_ | e3, c3⟩
          · have := clientUpdate_ok c2 ex (by rw [hu])
            rw [hu] at this
            simpa [hexk.1, hexk.2.1, hexk.2.2] using this
          · simp [hu] at h
      · simp [hae] at h
/-- The exists path of `ReconcileServiceAccount`: the label map of the stored
ServiceAccount is replaced by the two managed-by labels. -/
theorem ReconcileServiceAccount_existing (u : UserConfigUseCase) (uc : UserConfig)
    (c : Cluster) (existing : Object)
    (hst : c.lookup Kind.ServiceAccount uc.Name uc.Name = some existing)
    (h : (ReconcileServiceAccount u uc c).1 = none) :
    (ReconcileServiceAccount u uc c).2.lookup Kind.ServiceAccount uc.Name uc.Name =
      some { existing with Labels := managedByLabels uc } := by
  unfold ReconcileServiceAccount at h ⊢
  simp only [] at h ⊢
  split at h
  · simp at h
  · rename_i sa hs
    obtain ⟨hk, hn, hns, -, hlab⟩ := SetControllerReference_ok _ _ _ _ hs
    obtain ⟨hne, hobj⟩ := clientCreate_exists c sa existing
      (by rw [hk, hn, hns]; exact hst)
    rcases hc : clientCreate c sa with ⟨_ | e, c1⟩
    · rw [hc] at hne; exact absurd rfl hne
    · rw [hc] at hobj
      simp only [hc] at h ⊢
      by_cases hae : IsAlreadyExists e = true
      · simp only [hae, Bool.not_true, Bool.false_eq_true, if_false] at h ⊢
        rcases hg : clientGet c1 Kind.ServiceAccount uc.Name uc.Name with ⟨e2 | found, c2⟩
        · simp [hg] at h
        · simp only [hg] at h ⊢
          have hfound := clientGet_lookup c1 Kind.ServiceAccount uc.Name uc.Name found
            (by rw [hg])
          rw [lookup_congr c c1 hobj, hst] at hfound
          have hfe : found = existing := (Option.some.inj hfound).symm
          subst hfe
          have hkey := (hasKey_iff _ _ _ _).mp (lookup_hasKey c _ _ _ _ hst)
          simp only [hlab] at h ⊢
          generalize hex : ({ found with Labels := managedByLabels uc } : Object) = ex at h ⊢
          have hexk : ex.kind = Kind.ServiceAccount ∧ ex.Namespace = uc.Name ∧
              ex.Name = uc.Name := by
            subst hex; exact hkey
          rcases hu : clientUpdate c2 ex with ⟨_ | e3, c3⟩
          · have := clientUpdate_ok c2 ex (by rw [hu])
            rw [hu] at this
            simpa [hexk.1, hexk.2.1, hexk.2.2] using this
          · simp [hu] at h
      · simp [hae] at h

/-- The exists path of `ReconcileRoleBinding`: subjects and role reference
are set, and the label map of the stored RoleBinding is replaced by the two
managed-by labels. -/
theorem ReconcileRoleBinding_existing (u : UserConfigUseCase) (uc : UserConfig)
    (c : Cluster) (existing : Object)
    (hst : c.lookup Kind.RoleBinding uc.Name uc.Name = some existing)
    (h : (ReconcileRoleBinding u uc c).1 = none) :
    (ReconcileRoleBinding u uc c).2.lookup Kind.RoleBinding uc.Name uc.Name =
      some { existing with
        body := Body.roleBinding
          [{ Kind := "User", Name := uc.Name },
           { Kind := "ServiceAccount", Name := uc.Name, Namespace := uc.Name }]
          { Kind := "Role", Name := uc.Name, APIGroup := "rbac.authorization.k8s.io" },
        Labels := managedByLabels uc } := by
  unfold ReconcileRoleBinding at h ⊢
  simp only [] at h ⊢
  split at h
  · simp at h
  · rename_i rb hs
    obtain ⟨hk, hn, hns, -, hlab⟩ := SetControllerReference_ok _ _ _ _ hs
    obtain ⟨hne, hobj⟩ := clientCreate_exists c rb existing
      (by rw [hk, hn, hns]; exact hst)
    rcases hc : clientCreate c rb with ⟨_ | e, c1⟩
    · rw [hc] at hne; exact absurd rfl hne
    · rw [hc] at hobj
      simp only [hc] at h ⊢
      by_cases hae : IsAlreadyExists e = true
      · simp only [hae, Bool.not_true, Bool.false_eq_true, if_false] at h ⊢
        rcases hg : clientGet c1 Kind.RoleBinding uc.Name uc.Name with ⟨e2 | found, c2⟩
        · simp [hg] at h
        · simp only [hg] at h ⊢
          have hfound := clientGet_lookup c1 Kind.RoleBinding uc.Name uc.Name found
            (by rw [hg])
          rw [lookup_congr c c1 hobj, hst] at hfound
          have hfe : found = existing := (Option.some.inj hfound).symm
          subst hfe
          have hkey := (hasKey_iff _ _ _ _).mp (lookup_hasKey c _ _ _ _ hst)
          simp only [hlab] at h ⊢
          generalize hex : ({ found with
            body := Body.roleBinding
              [{ Kind := "User", Name := uc.Name },
               { Kind := "ServiceAccount", Name := uc.Name, Namespace := uc.Name }]
              { Kind := "Role", Name := uc.Name, APIGroup := "rbac.authorization.k8s.io" },
            Labels := managedByLabels uc } : Object) = ex at h ⊢
          have hexk : ex.kind = Kind.RoleBinding ∧ ex.Namespace = uc.Name ∧
              ex.Name = uc.Name := by
            subst hex; exact hkey
          rcases hu : clientUpdate c2 ex with ⟨_ | e3, c3⟩
          · have := clientUpdate_ok c2 ex (by rw [hu])
            rw [hu] at this
            simpa [hexk.1, hexk.2.1, hexk.2.2] using this
          · simp [hu] at h
      · simp [hae] at h

/-- Claim C24. An update of an existing Role keeps the labels and the
annotations of the stored object, and the updates of an existing
ServiceAccount and RoleBinding keep the annotations; but `existing.Labels =
sa.Labels` and `existing.Labels = roleBinding.Labels` replace the whole label
map, so after `ReconcileServiceAccount` and `ReconcileRoleBinding` the stored
object carries the two managed-by labels and nothing else: the label
team=blue that someone else put on the stored ServiceAccount and RoleBinding
of alice is gone after the pass. -/
theorem rbac_update_replaces_labels (u : UserConfigUseCase) (uc : UserConfig) (c : Cluster) :
    (∀ existing, c.lookup Kind.Role uc.Name uc.Name = some existing →
      (ReconcileRole u uc c).1 = none →
      ∃ o, (ReconcileRole u uc c).2.lookup Kind.Role uc.Name uc.Name = some o ∧
        o.Labels = existing.Labels ∧ o.Annotations = existing.Annotations) ∧
    (∀ existing, c.lookup Kind.ServiceAccount uc.Name uc.Name = some existing →
      (ReconcileServiceAccount u uc c).1 = none →
      ∃ o, (ReconcileServiceAccount u uc c).2.lookup Kind.ServiceAccount uc.Name uc.Name =
          some o ∧
        o.Labels = managedByLabels uc ∧ o.Annotations = existing.Annotations) ∧
    (∀ existing, c.lookup Kind.RoleBinding uc.Name uc.Name = some existing →
      (ReconcileRoleBinding u uc c).1 = none →
      ∃ o, (ReconcileRoleBinding u uc c).2.lookup Kind.RoleBinding uc.Name uc.Name =
          some o ∧
        o.Labels = managedByLabels uc ∧ o.Annotations = existing.Annotations) ∧
    (labelledCluster.lookup Kind.ServiceAccount "alice" "alice").map (fun o => o.Labels) =
      some [("team", "blue")] ∧
    (ReconcileServiceAccount {} (podsEntity "CRUD") labelledCluster).1 = none ∧
    ((ReconcileServiceAccount {} (podsEntity "CRUD") labelledCluster).2.lookup
        Kind.ServiceAccount "alice" "alice").map (fun o => o.Labels) =
      some [("app.kubernetes.io/managed-by", "userconfig-operator"),
        ("userconfig.myoperator.01cloud.io/name", "alice")] ∧
    (ReconcileRoleBinding {} (podsEntity "CRUD") labelledCluster).1 = none ∧
    ((ReconcileRoleBinding {} (podsEntity "CRUD") labelledCluster).2.lookup
        Kind.RoleBinding "alice" "alice").map (fun o => o.Labels) =
      some [("app.kubernetes.io/managed-by", "userconfig-operator"),
        ("userconfig.myoperator.01cloud.io/name", "alice")] ∧
    (ReconcileRole {} (podsEntity "CRUD") labelledCluster).1 = none ∧
    ((ReconcileRole {} (podsEntity "CRUD") labelledCluster).2.lookup
        Kind.Role "alice" "alice").map (fun o => o.Labels) = some [("team", "blue")] := by
  refine ⟨?_, ?_, ?_, by decide, by decide, by decide, by decide, by decide, by decide,
    by decide⟩
  · intro existing hst h
    exact ⟨_, ReconcileRole_existing u uc c existing hst h, rfl, rfl⟩
  · intro existing hst h
    exact ⟨_, ReconcileServiceAccount_existing u uc c existing hst h, rfl, rfl⟩
  · intro existing hst h
    exact ⟨_, ReconcileRoleBinding_existing u uc c existing hst h, rfl, rfl⟩

/-! ## The requests of the synthesizers: keys and owner references -/

theorem clientGet_calls (c : Cluster) (kind : Kind) (ns name : String) :
    (clientGet c kind ns name).2.calls = c.calls ++ [Call.get kind ns name] := by
  rcases hf : c.fault c.calls.length with _ | e
  · rcases hl : c.lookup kind ns name with _ | o <;> simp [clientGet, hf, hl, Cluster.record]
  · simp [clientGet, hf, Cluster.record]

theorem clientCreate_calls (c : Cluster) (obj : Object) :
    (clientCreate c obj).2.calls = c.calls ++ [Call.create obj] := by
  rcases hf : c.fault c.calls.length with _ | e
  · rcases hl : c.lookup obj.kind obj.Namespace obj.Name with _ | o <;>
      simp [clientCreate, hf, hl, Cluster.record]
  · simp [clientCreate, hf, Cluster.record]

theorem clientUpdate_calls (c : Cluster) (obj : Object) :
    (clientUpdate c obj).2.calls = c.calls ++ [Call.update obj] := by
  rcases hf : c.fault c.calls.length with _ | e
  · rcases hl : c.lookup obj.kind obj.Namespace obj.Name with _ | o <;>
      simp [clientUpdate, hf, hl, Cluster.record]
  · simp [clientUpdate, hf, Cluster.record]

theorem requestsSince_refl (uc : UserConfig) (c : Cluster) : requestsSince uc c c :=
  ⟨[], by simp, by simp⟩

theorem requestsSince_trans (uc : UserConfig) (c0 c1 c2 : Cluster)
    (h1 : requestsSince uc c0 c1) (h2 : requestsSince uc c1 c2) : requestsSince uc c0 c2 := by
  obtain ⟨r1, e1, p1⟩ := h1
  obtain ⟨r2, e2, p2⟩ := h2
  refine ⟨r1 ++ r2, by rw [e2, e1, List.append_assoc], ?_⟩
  intro call hc
  rcases List.mem_append.mp hc with h | h
  · exact p1 call h
  · exact p2 call h

theorem requestsSince_step (uc : UserConfig) (c0 c c' : Cluster) (call : Call)
    (h : requestsSince uc c0 c) (hc : c'.calls = c.calls ++ [call])
    (ha : addressesDerived uc call) (ho : createdOwned uc call) : requestsSince uc c0 c' := by
  obtain ⟨r, e, p⟩ := h
  refine ⟨r ++ [call], by rw [hc, e, List.append_assoc], ?_⟩
  intro x hx
  rcases List.mem_append.mp hx with h | h
  · exact p x h
  · rw [List.mem_singleton.mp h]; exact ⟨ha, ho⟩

theorem requestsSince_get (uc : UserConfig) (c0 c : Cluster) (kind : Kind) (ns name : String)
    (h : requestsSince uc c0 c)
    (hk : derivedKey uc.Name (uc.Spec.Secrets.map (fun s => s.Name)) kind ns name) :
    requestsSince uc c0 (clientGet c kind ns name).2 :=
  requestsSince_step uc c0 c _ _ h (clientGet_calls c kind ns name) hk trivial

theorem requestsSince_create (uc : UserConfig) (c0 c : Cluster) (obj : Object)
    (h : requestsSince uc c0 c)
    (hk : derivedKey uc.Name (uc.Spec.Secrets.map (fun s => s.Name)) obj.kind obj.Namespace
      obj.Name)
    (ho : createdOwned uc (Call.create obj)) :
    requestsSince uc c0 (clientCreate c obj).2 :=
  requestsSince_step uc c0 c _ _ h (clientCreate_calls c obj) hk ho

theorem requestsSince_update (uc : UserConfig) (c0 c : Cluster) (obj : Object)
    (h : requestsSince uc c0 c)
    (hk : derivedKey uc.Name (uc.Spec.Secrets.map (fun s => s.Name)) obj.kind obj.Namespace
      obj.Name) :
    requestsSince uc c0 (clientUpdate c obj).2 :=
  requestsSince_step uc c0 c _ _ h (clientUpdate_calls c obj) hk trivial

/-- The object `SetControllerReference` returns carries a controller owner
reference to the owner. -/
theorem SetControllerReference_owned (owner : UserConfig) (obj o : Object) (s : Scheme)
    (h : SetControllerReference owner obj s = Except.ok o) : ownedBy owner o = true := by
  have hup : ∀ ref : OwnerReference, ref.Name = owner.Name → ref.UID = owner.UID →
      ref.Controller = some true → ownedBy owner (upsertOwnerRef ref obj) = true := by
    intro ref h1 h2 h3
    unfold upsertOwnerRef ownedBy
    split
    · rename_i hany
      simp only [List.any_eq_true, decide_eq_true_eq]
      refine ⟨ref, ?_, h1, h2, h3⟩
      have hlt : List.findIdx (fun r => referSameObject r ref) obj.OwnerReferences <
          obj.OwnerReferences.length := by
        rw [List.findIdx_lt_length]
        simpa using hany
      refine List.mem_iff_getElem.mpr ⟨_, by rw [List.length_set]; exact hlt, ?_⟩
      simp
    · simp only [List.any_eq_true, decide_eq_true_eq]
      exact ⟨ref, by simp, h1, h2, h3⟩
  unfold SetControllerReference at h
  split at h
  · simp at h
  · split at h
    · simp at h
    · simp only [] at h
      split at h
      · split at h
        · simp at h
        · simp only [Except.ok.injEq] at h
          subst h
          exact hup _ rfl rfl rfl
      · simp only [Except.ok.injEq] at h
        subst h
        exact hup _ rfl rfl rfl

theorem derivedKey_entity (uc : UserConfig) (kind : Kind) (hn : kind ≠ Kind.Namespace)
    (hs : kind ≠ Kind.Secret) (hss : kind ≠ Kind.SealedSecret) :
    derivedKey uc.Name (uc.Spec.Secrets.map (fun s => s.Name)) kind uc.Name uc.Name := by
  cases kind <;> simp_all [derivedKey]

theorem requestsSince_get_eq (uc : UserConfig) (c0 c c' : Cluster) (kind : Kind)
    (ns name : String) (res : Except Error Object)
    (heq : clientGet c kind ns name = (res, c')) (h : requestsSince uc c0 c)
    (hk : derivedKey uc.Name (uc.Spec.Secrets.map (fun s => s.Name)) kind ns name) :
    requestsSince uc c0 c' := by
  have := requestsSince_get uc c0 c kind ns name h hk
  rw [heq] at this
  exact this

theorem requestsSince_create_eq (uc : UserConfig) (c0 c c' : Cluster) (obj : Object)
    (res : Option Error) (heq : clientCreate c obj = (res, c')) (h : requestsSince uc c0 c)
    (hk : derivedKey uc.Name (uc.Spec.Secrets.map (fun s => s.Name)) obj.kind obj.Namespace
      obj.Name)
    (ho : createdOwned uc (Call.create obj)) :
    requestsSince uc c0 c' := by
  have := requestsSince_create uc c0 c obj h hk ho
  rw [heq] at this
  exact this

/-- An update of the object read under a derived key, with its kind, name and
namespace kept, is a request under that key. -/
theorem requestsSince_update_eq (uc : UserConfig) (c0 c1 c c' : Cluster) (kind : Kind)
    (ns name : String) (existing ex : Object) (res : Option Error)
    (hget : clientGet c1 kind ns name = (Except.ok existing, c))
    (heq : clientUpdate c ex = (res, c')) (h : requestsSince uc c0 c)
    (hk : derivedKey uc.Name (uc.Spec.Secrets.map (fun s => s.Name)) kind ns name)
    (hex : ex.kind = existing.kind ∧ ex.Namespace = existing.Namespace ∧
      ex.Name = existing.Name) :
    requestsSince uc c0 c' := by
  have hkey := (hasKey_iff _ _ _ _).mp
    (clientGet_ok c1 kind ns name existing (by rw [hget]))
  have := requestsSince_update uc c0 c ex h
    (by rw [hex.1, hex.2.1, hex.2.2, hkey.1, hkey.2.1, hkey.2.2]; exact hk)
  rw [heq] at this
  exact this

theorem ReconcileRole_requests (u : UserConfigUseCase) (uc : UserConfig) (c0 c : Cluster)
    (h : requestsSince uc c0 c) : requestsSince uc c0 (ReconcileRole u uc c).2 := by
  unfold ReconcileRole
  simp only []
  split
  · exact h
  · rename_i role hs
    obtain ⟨hk, hn, hns, -, -⟩ := SetControllerReference_ok _ _ _ _ hs
    have hown := SetControllerReference_owned _ _ _ _ hs
    have hkey := derivedKey_entity uc Kind.Role (by decide) (by decide) (by decide)
    have hkr : derivedKey uc.Name (uc.Spec.Secrets.map (fun s => s.Name)) role.kind
        role.Namespace role.Name := by
      rw [hk, hn, hns]; exact hkey
    have hco : createdOwned uc (Call.create role) := by simp [createdOwned, hk, hown]
    rcases hc : clientCreate c role with ⟨_ | e, c1⟩
    all_goals have h1 := requestsSince_create_eq uc c0 c _ role _ hc h hkr hco
    · exact h1
    · simp only []
      split
      · exact h1
      · rcases hg : clientGet c1 Kind.Role uc.Name uc.Name with ⟨e2 | existing, c2⟩
        all_goals have h2 := requestsSince_get_eq uc c0 c1 _ _ _ _ _ hg h1 hkey
        · exact h2
        · simp only []
          split <;> rename_i hu <;>
            exact requestsSince_update_eq uc c0 c1 c2 _ _ _ _ existing _ _ hg hu h2 hkey
              ⟨rfl, rfl, rfl⟩

theorem ReconcileServiceAccount_requests (u : UserConfigUseCase) (uc : UserConfig)
    (c0 c : Cluster) (h : requestsSince uc c0 c) :
    requestsSince uc c0 (ReconcileServiceAccount u uc c).2 := by
  unfold ReconcileServiceAccount
  simp only []
  split
  · exact h
  · rename_i sa hs
    obtain ⟨hk, hn, hns, -, -⟩ := SetControllerReference_ok _ _ _ _ hs
    have hown := SetControllerReference_owned _ _ _ _ hs
    have hkey := derivedKey_entity uc Kind.ServiceAccount (by decide) (by decide) (by decide)
    have hkr : derivedKey uc.Name (uc.Spec.Secrets.map (fun s => s.Name)) sa.kind
        sa.Namespace sa.Name := by
      rw [hk, hn, hns]; exact hkey
    have hco : createdOwned uc (Call.create sa) := by simp [createdOwned, hk, hown]
    rcases hc : clientCreate c sa with ⟨_ | e, c1⟩
    all_goals have h1 := requestsSince_create_eq uc c0 c _ sa _ hc h hkr hco
    · exact h1
    · simp only []
      split
      · exact h1
      · rcases hg : clientGet c1 Kind.ServiceAccount uc.Name uc.Name with ⟨e2 | existing, c2⟩
        all_goals have h2 := requestsSince_get_eq uc c0 c1 _ _ _ _ _ hg h1 hkey
        · exact h2
        · simp only []
          split <;> rename_i hu <;>
            exact requestsSince_update_eq uc c0 c1 c2 _ _ _ _ existing _ _ hg hu h2 hkey
              ⟨rfl, rfl, rfl⟩

theorem ReconcileRoleBinding_requests (u : UserConfigUseCase) (uc : UserConfig)
    (c0 c : Cluster) (h : requestsSince uc c0 c) :
    requestsSince uc c0 (ReconcileRoleBinding u uc c).2 := by
  unfold ReconcileRoleBinding
  simp only []
  split
  · exact h
  · rename_i rb hs
    obtain ⟨hk, hn, hns, -, -⟩ := SetControllerReference_ok _ _ _ _ hs
    have hown := SetControllerReference_owned _ _ _ _ hs
    have hkey := derivedKey_entity uc Kind.RoleBinding (by decide) (by decide) (by decide)
    have hkr : derivedKey uc.Name (uc.Spec.Secrets.map (fun s => s.Name)) rb.kind
        rb.Namespace rb.Name := by
      rw [hk, hn, hns]; exact hkey
    have hco : createdOwned uc (Call.create rb) := by simp [createdOwned, hk, hown]
    rcases hc : clientCreate c rb with ⟨_ | e, c1⟩
    all_goals have h1 := requestsSince_create_eq uc c0 c _ rb _ hc h hkr hco
    · exact h1
    · simp only []
      split
      · exact h1
      · rcases hg : clientGet c1 Kind.RoleBinding uc.Name uc.Name with ⟨e2 | existing, c2⟩
        all_goals have h2 := requestsSince_get_eq uc c0 c1 _ _ _ _ _ hg h1 hkey
        · exact h2
        · simp only []
          split <;> rename_i hu <;>
            exact requestsSince_update_eq uc c0 c1 c2 _ _ _ _ existing _ _ hg hu h2 hkey
              ⟨rfl, rfl, rfl⟩

theorem ReconcileRBAC_requests (u : UserConfigUseCase) (uc : UserConfig) (c0 c : Cluster)
    (h : requestsSince uc c0 c) : requestsSince uc c0 (ReconcileRBAC u uc c).2 := by
  unfold ReconcileRBAC
  split
  · exact h
  · have h1 := ReconcileRole_requests u uc c0 c h
    rcases hr : ReconcileRole u uc c with ⟨_ | e1, c1⟩ <;> rw [hr] at h1
    · simp only []
      have h2 := ReconcileServiceAccount_requests u uc c0 c1 h1
      rcases hsa : ReconcileServiceAccount u uc c1 with ⟨_ | e2, c2⟩ <;> rw [hsa] at h2
      · simp only []
        have h3 := ReconcileRoleBinding_requests u uc c0 c2 h2
        rcases hrb : ReconcileRoleBinding u uc c2 with ⟨_ | e3, c3⟩ <;> rw [hrb] at h3 <;>
          exact h3
      · exact h2
    · exact h1

theorem ReconcileNetworkPolicies_requests (u : UserConfigUseCase) (uc : UserConfig)
    (c0 c : Cluster) (h : requestsSince uc c0 c) :
    requestsSince uc c0 (ReconcileNetworkPolicies u uc c).2 := by
  unfold ReconcileNetworkPolicies
  simp only []
  split
  · exact h
  · rename_i netpol hs
    obtain ⟨hk, hn, hns, -, -⟩ := SetControllerReference_ok _ _ _ _ hs
    have hown := SetControllerReference_owned _ _ _ _ hs
    have hkey := derivedKey_entity uc Kind.NetworkPolicy (by decide) (by decide) (by decide)
    have hkr : derivedKey uc.Name (uc.Spec.Secrets.map (fun s => s.Name)) netpol.kind
        netpol.Namespace netpol.Name := by
      rw [hk, hn, hns]; exact hkey
    have hco : createdOwned uc (Call.create netpol) := by simp [createdOwned, hk, hown]
    simp only [hn]
    rcases hg : clientGet c Kind.NetworkPolicy uc.Name uc.Name with ⟨e | existing, c1⟩
    all_goals have h1 := requestsSince_get_eq uc c0 c _ _ _ _ _ hg h hkey
    · simp only []
      split
      · split <;> rename_i hc <;>
          exact requestsSince_create_eq uc c0 c1 _ netpol _ hc h1 hkr hco
      · exact h1
    · simp only []
      split <;> rename_i hu <;>
        exact requestsSince_update_eq uc c0 c c1 _ _ _ _ existing _ _ hg hu h1 hkey
          ⟨rfl, rfl, rfl⟩

theorem ReconcileResourceQuota_requests (u : UserConfigUseCase) (uc : UserConfig)
    (c0 c : Cluster) (r : Option Error × Cluster) (h : requestsSince uc c0 c)
    (hr : ReconcileResourceQuota u uc c = Except.ok r) : requestsSince uc c0 r.2 := by
  unfold ReconcileResourceQuota at hr
  rcases hh : resourceQuotaHard uc.Spec.ResourceQuotas with p | hard
  · simp [hh, bind, Except.bind] at hr
  · simp only [hh, bind, Except.bind, pure, Except.pure] at hr
    have hkey := derivedKey_entity uc Kind.ResourceQuota (by decide) (by decide) (by decide)
    rcases hg : clientGet c Kind.ResourceQuota uc.Name uc.Name with ⟨e | existing, c1⟩
    all_goals have h1 := requestsSince_get_eq uc c0 c _ _ _ _ _ hg h hkey
    all_goals rw [hg] at hr
    all_goals simp only [] at hr
    · split at hr
      · split at hr <;> rename_i hc <;>
          (have h2 := requestsSince_create_eq uc c0 c1 _ _ _ hc h1 hkey
            (by simp [createdOwned])
           simp only [Except.ok.injEq] at hr
           rw [← hr]; exact h2)
      · simp only [Except.ok.injEq] at hr
        rw [← hr]; exact h1
    · split at hr
      · split at hr <;> rename_i hu <;>
          (have h2 := requestsSince_update_eq uc c0 c c1 _ _ _ _ existing _ _ hg hu h1 hkey
            ⟨rfl, rfl, rfl⟩
           simp only [Except.ok.injEq] at hr
           rw [← hr]; exact h2)
      · simp only [Except.ok.injEq] at hr
        rw [← hr]; exact h1

theorem ReconcileLimitRange_requests (u : UserConfigUseCase) (uc : UserConfig)
    (c0 c : Cluster) (r : Option Error × Cluster) (h : requestsSince uc c0 c)
    (hr : ReconcileLimitRange u uc c = Except.ok r) : requestsSince uc c0 r.2 := by
  unfold ReconcileLimitRange at hr
  rcases hh : limitRangeItems uc.Spec.LimitRange with p | items
  · simp [hh, bind, Except.bind] at hr
  · simp only [hh, bind, Except.bind, pure, Except.pure] at hr
    have hkey := derivedKey_entity uc Kind.LimitRange (by decide) (by decide) (by decide)
    split at hr
    · simp only [Except.ok.injEq] at hr
      rw [← hr]; exact h
    · rename_i lr hs
      obtain ⟨hk, hn, hns, -, -⟩ := SetControllerReference_ok _ _ _ _ hs
      have hown := SetControllerReference_owned _ _ _ _ hs
      have hkr : derivedKey uc.Name (uc.Spec.Secrets.map (fun s => s.Name)) lr.kind
          lr.Namespace lr.Name := by
        rw [hk, hn, hns]; exact hkey
      have hco : createdOwned uc (Call.create lr) := by simp [createdOwned, hk, hown]
      simp only [hn] at hr
      rcases hg : clientGet c Kind.LimitRange uc.Name uc.Name with ⟨e | existing, c1⟩
      all_goals have h1 := requestsSince_get_eq uc c0 c _ _ _ _ _ hg h hkey
      all_goals rw [hg] at hr
      all_goals simp only [] at hr
      · split at hr
        · split at hr <;> rename_i hc <;>
            (have h2 := requestsSince_create_eq uc c0 c1 _ lr _ hc h1 hkr hco
             simp only [Except.ok.injEq] at hr
             rw [← hr]; exact h2)
        · simp only [Except.ok.injEq] at hr
          rw [← hr]; exact h1
      · split at hr <;> rename_i hu <;>
          (have h2 := requestsSince_update_eq uc c0 c c1 _ _ _ _ existing _ _ hg hu h1 hkey
            ⟨rfl, rfl, rfl⟩
           simp only [Except.ok.injEq] at hr
           rw [← hr]; exact h2)

theorem ReconcileNamespace_requests (u : UserConfigUseCase) (uc : UserConfig)
    (c0 c : Cluster) (r : Option Error × Cluster) (h : requestsSince uc c0 c)
    (hr : ReconcileNamespace u uc c = Except.ok r) : requestsSince uc c0 r.2 := by
  unfold ReconcileNamespace at hr
  simp only [pure, Except.pure] at hr
  split at hr
  · simp only [Except.ok.injEq] at hr
    rw [← hr]; exact h
  · rename_i ns hs
    obtain ⟨hk, hn, hns, -, -⟩ := SetControllerReference_ok _ _ _ _ hs
    have hown := SetControllerReference_owned _ _ _ _ hs
    have hkr : derivedKey uc.Name (uc.Spec.Secrets.map (fun s => s.Name)) ns.kind
        ns.Namespace ns.Name := by
      rw [hk, hn, hns]; simp [derivedKey]
    have hco : createdOwned uc (Call.create ns) := by simp [createdOwned, hk, hown]
    rcases hc : clientCreate c ns with ⟨cerr, c1⟩
    have h1 := requestsSince_create_eq uc c0 c _ ns _ hc h hkr hco
    rw [hc] at hr
    simp only [] at hr
    split at hr
    · simp only [Except.ok.injEq] at hr
      rw [← hr]; exact h1
    · rcases hq : ReconcileResourceQuota u uc c1 with p | out
      · simp [hq, bind, Except.bind] at hr
      · have h2 := ReconcileResourceQuota_requests u uc c0 c1 out h1 hq
        simp only [hq, bind, Except.bind] at hr
        split at hr <;>
          (simp only [Except.ok.injEq] at hr
           rw [← hr]; exact h2)

theorem reconcileSecrets_requests (u : UserConfigUseCase) (uc : UserConfig) (c0 : Cluster) :
    ∀ (secrets : List SecretSpec) (c : Cluster),
      (∀ s ∈ secrets, s ∈ uc.Spec.Secrets) → requestsSince uc c0 c →
      requestsSince uc c0 (reconcileSecrets u uc secrets c).2 := by
  intro secrets
  induction secrets with
  | nil => intro c _ h; exact h
  | cons secret rest ih =>
    intro c hsub h
    have hrest : ∀ s ∈ rest, s ∈ uc.Spec.Secrets :=
      fun s hs => hsub s (List.mem_cons_of_mem _ hs)
    have hkey : derivedKey uc.Name (uc.Spec.Secrets.map (fun s => s.Name)) Kind.SealedSecret
        uc.Name secret.Name := by
      simp only [derivedKey, List.mem_map]
      exact ⟨by simp, secret, hsub secret (List.mem_cons_self _ _), rfl⟩
    unfold reconcileSecrets
    split
    · exact ih c hrest h
    · rename_i sealed hsealed
      split
      · exact ih c hrest h
      · split
        · exact h
        · rename_i sealedSecret hs
          obtain ⟨hk, hn, hns, -, -⟩ := SetControllerReference_ok _ _ _ _ hs
          have hown := SetControllerReference_owned _ _ _ _ hs
          have hkr : derivedKey uc.Name (uc.Spec.Secrets.map (fun s => s.Name))
              sealedSecret.kind sealedSecret.Namespace sealedSecret.Name := by
            rw [hk, hn, hns]; exact hkey
          have hco : createdOwned uc (Call.create sealedSecret) := by
            simp [createdOwned, hk, hown, sealedSecretOf]
          rcases hg : clientGet c Kind.SealedSecret uc.Name secret.Name with
            ⟨e | existing, c1⟩
          all_goals have h1 := requestsSince_get_eq uc c0 c _ _ _ _ _ hg h hkey
          · simp only []
            split
            · split <;> rename_i hc
              · exact requestsSince_create_eq uc c0 c1 _ sealedSecret _ hc h1 hkr hco
              · exact ih _ hrest
                  (requestsSince_create_eq uc c0 c1 _ sealedSecret _ hc h1 hkr hco)
            · exact h1
          · simp only []
            split <;> rename_i hu
            · exact requestsSince_update_eq uc c0 c c1 _ _ _ _ existing _ _ hg hu h1 hkey
                ⟨rfl, rfl, rfl⟩
            · exact ih _ hrest
                (requestsSince_update_eq uc c0 c c1 _ _ _ _ existing _ _ hg hu h1 hkey
                  ⟨rfl, rfl, rfl⟩)

theorem ReconcileSealedSecrets_requests (u : UserConfigUseCase) (uc : UserConfig)
    (c0 c : Cluster) (h : requestsSince uc c0 c) :
    requestsSince uc c0 (ReconcileSealedSecrets u uc c).2 := by
  unfold ReconcileSealedSecrets
  have hkey : derivedKey uc.Name (uc.Spec.Secrets.map (fun s => s.Name)) Kind.Namespace ""
      uc.Name := by simp [derivedKey]
  rcases hg : clientGet c Kind.Namespace "" uc.Name with ⟨e | existing, c1⟩
  all_goals have h1 := requestsSince_get_eq uc c0 c _ _ _ _ _ hg h hkey
  · exact h1
  · exact reconcileSecrets_requests u uc c0 uc.Spec.Secrets c1 (fun s hs => hs) h1

theorem GenerateAndSaveKubeconfig_requests (u : UserConfigUseCase) (host : Host)
    (uc : UserConfig) (c0 c : Cluster) (h : requestsSince uc c0 c) :
    requestsSince uc c0 (GenerateAndSaveKubeconfig u host uc c).2 := by
  unfold GenerateAndSaveKubeconfig
  have hsa := derivedKey_entity uc Kind.ServiceAccount (by decide) (by decide) (by decide)
  have hkey : derivedKey uc.Name (uc.Spec.Secrets.map (fun s => s.Name)) Kind.Secret uc.Name
      (uc.Name ++ "-kubeconfig") := by simp [derivedKey]
  rcases hg : clientGet c Kind.ServiceAccount uc.Name uc.Name with ⟨e | sa, c1⟩
  all_goals have h1 := requestsSince_get_eq uc c0 c _ _ _ _ _ hg h hsa
  · exact h1
  · simp only []
    split
    · exact h1
    · split
      · exact h1
      · split
        · exact h1
        · split
          · exact h1
          · split
            · exact h1
            · split
              · exact h1
              · split
                · exact h1
                · split
                  · exact h1
                  · rename_i secret hs
                    obtain ⟨hk, hn, hns, -, -⟩ := SetControllerReference_ok _ _ _ _ hs
                    have hown := SetControllerReference_owned _ _ _ _ hs
                    have hkr : derivedKey uc.Name (uc.Spec.Secrets.map (fun s => s.Name))
                        secret.kind secret.Namespace secret.Name := by
                      rw [hk, hn, hns]; exact hkey
                    have hco : createdOwned uc (Call.create secret) := by
                      simp [createdOwned, hk, hown, kubeconfigSecretOf]
                    have hname : secret.Name = uc.Name ++ "-kubeconfig" := hn
                    rcases hc : clientCreate c1 secret with ⟨_ | e, c2⟩
                    all_goals have h2 :=
                      requestsSince_create_eq uc c0 c1 _ secret _ hc h1 hkr hco
                    · exact h2
                    · simp only []
                      split
                      · exact h2
                      · rw [hname]
                        rcases hg2 : clientGet c2 Kind.Secret uc.Name
                          (uc.Name ++ "-kubeconfig") with ⟨e2 | existing, c3⟩
                        all_goals have h3 :=
                          requestsSince_get_eq uc c0 c2 _ _ _ _ _ hg2 h2 hkey
                        · exact h3
                        · simp only []
                          split <;> rename_i hu <;>
                            exact requestsSince_update_eq uc c0 c2 c3 _ _ _ _ existing _ _
                              hg2 hu h3 hkey ⟨rfl, rfl, rfl⟩

theorem synthesize_requests (u : UserConfigUseCase) (host : Host) (uc : UserConfig)
    (c0 c : Cluster) (r : Option Error × Cluster) (h : requestsSince uc c0 c)
    (hr : synthesize u host uc c = Except.ok r) : requestsSince uc c0 r.2 := by
  unfold synthesize at hr
  rcases hn : ReconcileNamespace u uc c with p | ⟨_ | e1, c1⟩
  · simp [hn, bind, Except.bind] at hr
  · have h1 := ReconcileNamespace_requests u uc c0 c _ h hn
    simp only [hn, bind, Except.bind, pure, Except.pure] at hr h1
    have h2 := ReconcileSealedSecrets_requests u uc c0 c1 h1
    rcases hs : ReconcileSealedSecrets u uc c1 with ⟨_ | e2, c2⟩ <;> rw [hs] at hr h2 <;>
      simp only [] at hr h2
    · have h3 := ReconcileRBAC_requests u uc c0 c2 h2
      rcases hb : ReconcileRBAC u uc c2 with ⟨_ | e3, c3⟩ <;> rw [hb] at hr h3 <;>
        simp only [] at hr h3
      · rcases hl : ReconcileLimitRange u uc c3 with p | ⟨_ | e4, c4⟩
        · simp [hl] at hr
        · have h4 := ReconcileLimitRange_requests u uc c0 c3 _ h3 hl
          simp only [hl] at hr h4
          have h5 := GenerateAndSaveKubeconfig_requests u host uc c0 c4 h4
          rcases hk : GenerateAndSaveKubeconfig u host uc c4 with ⟨_ | e5, c5⟩ <;>
            rw [hk] at hr h5 <;> simp only [] at hr h5
          · have h6 := ReconcileNetworkPolicies_requests u uc c0 c5 h5
            rcases hp : ReconcileNetworkPolicies u uc c5 with ⟨_ | e6, c6⟩ <;>
              rw [hp] at hr h6 <;> simp only [Except.ok.injEq] at hr h6 <;>
              (rw [← hr]; exact h6)
          · simp only [Except.ok.injEq] at hr
            rw [← hr]; exact h5
        · have h4 := ReconcileLimitRange_requests u uc c0 c3 _ h3 hl
          simp only [hl, Except.ok.injEq] at hr h4
          rw [← hr]; exact h4
      · simp only [Except.ok.injEq] at hr
        rw [← hr]; exact h3
    · simp only [Except.ok.injEq] at hr
      rw [← hr]; exact h2
  · have h1 := ReconcileNamespace_requests u uc c0 c _ h hn
    simp only [hn, bind, Except.bind, pure, Except.pure, Except.ok.injEq] at hr h1
    rw [← hr]; exact h1

theorem requestsSince_newCalls (uc : UserConfig) (c c' : Cluster)
    (h : requestsSince uc c c') :
    ∀ call ∈ newCalls c c', addressesDerived uc call ∧ createdOwned uc call := by
  obtain ⟨rest, he, hp⟩ := h
  unfold newCalls
  rw [he, List.drop_left]
  exact hp

theorem mem_createdObjects (calls : List Call) (obj : Object) :
    obj ∈ createdObjects calls ↔ Call.create obj ∈ calls := by
  unfold createdObjects
  rw [List.mem_filterMap]
  constructor
  · rintro ⟨call, hmem, hc⟩
    cases call <;> simp at hc
    subst hc; exact hmem
  · intro h
    exact ⟨_, h, rfl⟩

/-- Claim C26. Every request the six steps send for an entity named N, in a
run of one step or of all six, reads or writes a derived object under the key
the specification gives it: a Namespace named N outside any namespace; in the
namespace N the kubeconfig Secret named N-kubeconfig, a SealedSecret named
after a declared secret, and every other object named N. The key depends on
the name of the entity, the kind and the declared secret names only, so the
runs for two entities of one name and declared secrets address the same
objects. For the entity alice with a sealed secret the stored keys are the
nine listed. -/
theorem derived_object_keys (u : UserConfigUseCase) (host : Host) (uc : UserConfig)
    (c : Cluster) :
    (∀ r, ReconcileNamespace u uc c = Except.ok r →
      ∀ call ∈ newCalls c r.2, addressesDerived uc call) ∧
    (∀ call ∈ newCalls c (ReconcileSealedSecrets u uc c).2, addressesDerived uc call) ∧
    (∀ call ∈ newCalls c (ReconcileRBAC u uc c).2, addressesDerived uc call) ∧
    (∀ r, ReconcileLimitRange u uc c = Except.ok r →
      ∀ call ∈ newCalls c r.2, addressesDerived uc call) ∧
    (∀ call ∈ newCalls c (GenerateAndSaveKubeconfig u host uc c).2,
      addressesDerived uc call) ∧
    (∀ call ∈ newCalls c (ReconcileNetworkPolicies u uc c).2, addressesDerived uc call) ∧
    (∀ r, synthesize u host uc c = Except.ok r →
      ∀ call ∈ newCalls c r.2, addressesDerived uc call) ∧
    (∀ other : UserConfig, other.Name = uc.Name →
      other.Spec.Secrets.map (fun s => s.Name) = uc.Spec.Secrets.map (fun s => s.Name) →
      ∀ call, addressesDerived other call ↔ addressesDerived uc call) ∧
    (∀ (kind : Kind) (ns name : String),
      derivedKey uc.Name (uc.Spec.Secrets.map (fun s => s.Name)) kind ns name →
      (kind = Kind.Namespace → ns = "" ∧ name = uc.Name) ∧
      (kind ≠ Kind.Namespace → ns = uc.Name) ∧
      (kind = Kind.Secret → name = uc.Name ++ "-kubeconfig") ∧
      (kind = Kind.SealedSecret → name ∈ uc.Spec.Secrets.map (fun s => s.Name)) ∧
      (kind ≠ Kind.Secret → kind ≠ Kind.SealedSecret → name = uc.Name)) ∧
    (synthesize {} (kindHost "token-1") sealedEntity {}).map
        (fun r => (r.1, storedKeys r.2)) =
      Except.ok (none,
        [(Kind.Namespace, "", "alice"),
         (Kind.ResourceQuota, "alice", "alice"),
         (Kind.SealedSecret, "alice", "db-password"),
         (Kind.Role, "alice", "alice"),
         (Kind.ServiceAccount, "alice", "alice"),
         (Kind.RoleBinding, "alice", "alice"),
         (Kind.LimitRange, "alice", "alice"),
         (Kind.Secret, "alice", "alice-kubeconfig"),
         (Kind.NetworkPolicy, "alice", "alice")]) := by
  refine ⟨?_, ?_, ?_, ?_, ?_, ?_, ?_, ?_, ?_, by decide⟩
  · intro r hr call hc
    exact (requestsSince_newCalls uc c r.2
      (ReconcileNamespace_requests u uc c c r (requestsSince_refl uc c) hr) call hc).1
  · intro call hc
    exact (requestsSince_newCalls uc c _
      (ReconcileSealedSecrets_requests u uc c c (requestsSince_refl uc c)) call hc).1
  · intro call hc
    exact (requestsSince_newCalls uc c _
      (ReconcileRBAC_requests u uc c c (requestsSince_refl uc c)) call hc).1
  · intro r hr call hc
    exact (requestsSince_newCalls uc c r.2
      (ReconcileLimitRange_requests u uc c c r (requestsSince_refl uc c) hr) call hc).1
  · intro call hc
    exact (requestsSince_newCalls uc c _
      (GenerateAndSaveKubeconfig_requests u host uc c c (requestsSince_refl uc c)) call hc).1
  · intro call hc
    exact (requestsSince_newCalls uc c _
      (ReconcileNetworkPolicies_requests u uc c c (requestsSince_refl uc c)) call hc).1
  · intro r hr call hc
    exact (requestsSince_newCalls uc c r.2
      (synthesize_requests u host uc c c r (requestsSince_refl uc c) hr) call hc).1
  · intro other hn hs call
    cases call <;> simp [addressesDerived, hn, hs]
  · intro kind ns name hk
    cases kind <;> simp_all [derivedKey]

/-- Claim C25. Every object the six steps submit for creation carries a
controller owner reference to the entity, with one exception: a ResourceQuota
is submitted without any owner reference, because `ReconcileResourceQuota`,
unlike every other synthesizer, does not call `SetControllerReference`. For
the entity alice the quota is created with no owner reference and the limit
range with the reference to alice. -/
theorem created_objects_owned_except_quota (u : UserConfigUseCase) (host : Host)
    (uc : UserConfig) (c : Cluster) :
    (∀ r, synthesize u host uc c = Except.ok r →
      ∀ obj ∈ createdObjects (newCalls c r.2),
        if obj.kind = Kind.ResourceQuota then obj.OwnerReferences = []
        else ownedBy uc obj = true) ∧
    (∀ r, ReconcileResourceQuota u uc c = Except.ok r →
      ∀ obj ∈ createdObjects (newCalls c r.2),
        if obj.kind = Kind.ResourceQuota then obj.OwnerReferences = []
        else ownedBy uc obj = true) ∧
    (ReconcileResourceQuota {} e2eEntity {}).map
        (fun r => (createdObjects (newCalls {} r.2)).map
          (fun o => (o.kind, o.Namespace, o.Name, o.OwnerReferences))) =
      Except.ok [(Kind.ResourceQuota, "alice", "alice", [])] ∧
    (ReconcileLimitRange {} e2eEntity {}).map
        (fun r => (createdObjects (newCalls {} r.2)).map
          (fun o => (o.kind, o.Namespace, o.Name, o.OwnerReferences))) =
      Except.ok [(Kind.LimitRange, "alice", "alice",
        [{ APIVersion := "myoperator.01cloud.io/v1alpha1", Kind := "UserConfig",
           Name := "alice", UID := "", Controller := some true,
           BlockOwnerDeletion := some true }])] ∧
    (synthesize {} (kindHost "token-1") sealedEntity {}).map
        (fun r => (createdObjects (newCalls {} r.2)).map
          (fun o => (o.kind, ownedBy sealedEntity o))) =
      Except.ok
        [(Kind.Namespace, true), (Kind.ResourceQuota, false), (Kind.SealedSecret, true),
         (Kind.Role, true), (Kind.ServiceAccount, true), (Kind.RoleBinding, true),
         (Kind.LimitRange, true), (Kind.Secret, true), (Kind.NetworkPolicy, true)] := by
  refine ⟨?_, ?_, by decide, by decide, by decide⟩
  · intro r hr obj hobj
    rw [mem_createdObjects] at hobj
    exact (requestsSince_newCalls uc c r.2
      (synthesize_requests u host uc c c r (requestsSince_refl uc c) hr) _ hobj).2
  · intro r hr obj hobj
    rw [mem_createdObjects] at hobj
    exact (requestsSince_newCalls uc c r.2
      (ReconcileResourceQuota_requests u uc c c r (requestsSince_refl uc c) hr) _ hobj).2

/-! ## The names the tests look up -/

/-- Claim C27. The end-to-end test looks the derived objects of test-user up
as test-user-namespace, default-resource-quota, test-user-limit-range,
test-user-role, test-user-serviceaccount, test-user-rolebinding and
test-user-network-policy in the namespace test-user-namespace; the six steps
name the namespace and every object in it test-user, the kubeconfig Secret
test-user-kubeconfig apart, which they place in the namespace test-user, and
the RoleBinding refers to the Role test-user and the ServiceAccount test-user.
None of the names the test looks up is stored. -/
theorem derived_names_differ_from_tests :
    (synthesize {} (kindHost "token-1") testUser {}).map
        (fun r => (r.1, storedKeys r.2)) =
      Except.ok (none,
        [(Kind.Namespace, "", "test-user"),
         (Kind.ResourceQuota, "test-user", "test-user"),
         (Kind.Role, "test-user", "test-user"),
         (Kind.ServiceAccount, "test-user", "test-user"),
         (Kind.RoleBinding, "test-user", "test-user"),
         (Kind.LimitRange, "test-user", "test-user"),
         (Kind.Secret, "test-user", "test-user-kubeconfig"),
         (Kind.NetworkPolicy, "test-user", "test-user")]) ∧
    (synthesize {} (kindHost "token-1") testUser {}).map
        (fun r => (r.2.lookup Kind.RoleBinding "test-user" "test-user").map
          (fun o => o.body)) =
      Except.ok (some (Body.roleBinding
        [{ Kind := "User", Name := "test-user" },
         { Kind := "ServiceAccount", Name := "test-user", Namespace := "test-user" }]
        { Kind := "Role", Name := "test-user", APIGroup := "rbac.authorization.k8s.io" })) ∧
    (synthesize {} (kindHost "token-1") testUser {}).map
        (fun r =>
          [r.2.lookup Kind.Namespace "" "test-user-namespace",
           r.2.lookup Kind.ResourceQuota "test-user-namespace" "default-resource-quota",
           r.2.lookup Kind.LimitRange "test-user-namespace" "test-user-limit-range",
           r.2.lookup Kind.Role "test-user-namespace" "test-user-role",
           r.2.lookup Kind.ServiceAccount "test-user-namespace" "test-user-serviceaccount",
           r.2.lookup Kind.RoleBinding "test-user-namespace" "test-user-rolebinding",
           r.2.lookup Kind.NetworkPolicy "test-user-namespace" "test-user-network-policy",
           r.2.lookup Kind.Secret "test-user-namespace" "test-user-kubeconfig"]) =
      Except.ok [none, none, none, none, none, none, none, none] := by
  decide

/-! ## A second run on a converged entity -/

/-- With the LimitRange stored, a successful `ReconcileLimitRange` has read it
and sent an update, whatever the stored limits are. -/
theorem ReconcileLimitRange_existing (u : UserConfigUseCase) (uc : UserConfig) (c : Cluster)
    (existing : Object) (r : Option Error × Cluster)
    (hst : c.lookup Kind.LimitRange uc.Name uc.Name = some existing)
    (hr : ReconcileLimitRange u uc c = Except.ok r) (hnone : r.1 = none) :
    ∃ obj, r.2.calls = c.calls ++ [Call.get Kind.LimitRange uc.Name uc.Name, Call.update obj] ∧
      obj.toObjectMeta = existing.toObjectMeta := by
  unfold ReconcileLimitRange at hr
  rcases hh : limitRangeItems uc.Spec.LimitRange with p | items
  · simp [hh, bind, Except.bind] at hr
  · simp only [hh, bind, Except.bind, pure, Except.pure] at hr
    split at hr
    · simp only [Except.ok.injEq] at hr
      rw [← hr] at hnone; simp at hnone
    · rename_i lr hs
      obtain ⟨hk, hn, hns, -, -⟩ := SetControllerReference_ok _ _ _ _ hs
      simp only [hn] at hr
      have hgc := clientGet_calls c Kind.LimitRange uc.Name uc.Name
      have hgo := clientGet_objects c Kind.LimitRange uc.Name uc.Name
      rcases hg : clientGet c Kind.LimitRange uc.Name uc.Name with ⟨e | found, c1⟩
      all_goals rw [hg] at hr hgc hgo
      all_goals simp only [] at hr hgc hgo
      · split at hr
        · obtain ⟨hne, -⟩ := clientCreate_exists c1 lr existing
            (by rw [hk, hn, hns, lookup_congr c c1 hgo]; exact hst)
          split at hr <;> rename_i hc
          · simp only [Except.ok.injEq] at hr
            rw [← hr] at hnone; simp at hnone
          · rw [hc] at hne; exact absurd rfl hne
        · simp only [Except.ok.injEq] at hr
          rw [← hr] at hnone; simp at hnone
      · have hfound := clientGet_lookup c Kind.LimitRange uc.Name uc.Name found (by rw [hg])
        rw [hst] at hfound
        have hfe : found = existing := (Option.some.inj hfound).symm
        subst hfe
        have huc := clientUpdate_calls c1 { found with body := lr.body }
        split at hr <;> rename_i hu
        · simp only [Except.ok.injEq] at hr
          rw [← hr] at hnone; simp at hnone
        · simp only [Except.ok.injEq] at hr
          rw [hu] at huc
          refine ⟨{ found with body := lr.body }, ?_, rfl⟩
          rw [← hr]
          simp only [] at huc ⊢
          rw [huc, hgc]; simp

/-- Claim C23. A second run on a converged entity is not free of writes. For
the entity alice with a sealed secret, a first run of the six steps from an
empty cluster succeeds; a second run leaves every stored object as it is and
sends twelve create or update requests. Of the convergers only
`ReconcileResourceQuota` compares before it writes and sends none; the
limit-range, network-policy and sealed-secret convergers each send an update
carrying the object as it is stored, and the role, service-account and
role-binding convergers each send a create, which is rejected, and then such
an update. In general, whenever the LimitRange is stored, a successful
`ReconcileLimitRange` sends an update. -/
theorem rerun_writes_converged_objects :
    (synthesize {} (kindHost "token-1") sealedEntity {}).map (fun r => r.1) =
      Except.ok none ∧
    (synthesize {} (kindHost "token-1") sealedEntity convergedCluster).map
        (fun r => (r.1, decide (r.2.objects = convergedCluster.objects),
          (writes (newCalls convergedCluster r.2)).length)) =
      Except.ok (none, true, 12) ∧
    (ReconcileResourceQuota {} sealedEntity convergedCluster).map
        (fun r => (r.1, writes (newCalls convergedCluster r.2))) = Except.ok (none, []) ∧
    (ReconcileLimitRange {} sealedEntity convergedCluster).map
        (fun r => (r.1, createdObjects (newCalls convergedCluster r.2),
          updatedObjects (newCalls convergedCluster r.2))) =
      Except.ok (none, [], (convergedCluster.lookup Kind.LimitRange "alice" "alice").toList) ∧
    ((ReconcileNetworkPolicies {} sealedEntity convergedCluster).1,
      createdObjects (newCalls convergedCluster
        (ReconcileNetworkPolicies {} sealedEntity convergedCluster).2),
      updatedObjects (newCalls convergedCluster
        (ReconcileNetworkPolicies {} sealedEntity convergedCluster).2)) =
      (none, [], (convergedCluster.lookup Kind.NetworkPolicy "alice" "alice").toList) ∧
    ((ReconcileSealedSecrets {} sealedEntity convergedCluster).1,
      createdObjects (newCalls convergedCluster
        (ReconcileSealedSecrets {} sealedEntity convergedCluster).2),
      updatedObjects (newCalls convergedCluster
        (ReconcileSealedSecrets {} sealedEntity convergedCluster).2)) =
      (none, [], (convergedCluster.lookup Kind.SealedSecret "alice" "db-password").toList) ∧
    ((ReconcileRole {} sealedEntity convergedCluster).1,
      (createdObjects (newCalls convergedCluster
        (ReconcileRole {} sealedEntity convergedCluster).2)).length,
      updatedObjects (newCalls convergedCluster
        (ReconcileRole {} sealedEntity convergedCluster).2)) =
      (none, 1, (convergedCluster.lookup Kind.Role "alice" "alice").toList) ∧
    ((ReconcileServiceAccount {} sealedEntity convergedCluster).1,
      (createdObjects (newCalls convergedCluster
        (ReconcileServiceAccount {} sealedEntity convergedCluster).2)).length,
      updatedObjects (newCalls convergedCluster
        (ReconcileServiceAccount {} sealedEntity convergedCluster).2)) =
      (none, 1, (convergedCluster.lookup Kind.ServiceAccount "alice" "alice").toList) ∧
    ((ReconcileRoleBinding {} sealedEntity convergedCluster).1,
      (createdObjects (newCalls convergedCluster
        (ReconcileRoleBinding {} sealedEntity convergedCluster).2)).length,
      updatedObjects (newCalls convergedCluster
        (ReconcileRoleBinding {} sealedEntity convergedCluster).2)) =
      (none, 1, (convergedCluster.lookup Kind.RoleBinding "alice" "alice").toList) ∧
    (∀ (u : UserConfigUseCase) (uc : UserConfig) (c : Cluster) (existing : Object)
        (r : Option Error × Cluster),
      c.lookup Kind.LimitRange uc.Name uc.Name = some existing →
      ReconcileLimitRange u uc c = Except.ok r → r.1 = none →
      ∃ obj, r.2.calls =
          c.calls ++ [Call.get Kind.LimitRange uc.Name uc.Name, Call.update obj] ∧
        obj.toObjectMeta = existing.toObjectMeta) := by
  refine ⟨by decide, by decide, by decide, by decide, by decide, by decide, by decide,
    by decide, by decide, ?_⟩
  intro u uc c existing r hst hr hnone
  exact ReconcileLimitRange_existing u uc c existing r hst hr hnone

/-! ## The access-configuration bundle -/

theorem callsSince_step (q : Call → Prop) (c0 c c' : Cluster) (call : Call)
    (h : callsSince q c0 c) (hc : c'.calls = c.calls ++ [call]) (hq : q call) :
    callsSince q c0 c' := by
  obtain ⟨r, e, p⟩ := h
  refine ⟨r ++ [call], by rw [hc, e, List.append_assoc], ?_⟩
  intro x hx
  rcases List.mem_append.mp hx with h | h
  · exact p x h
  · rw [List.mem_singleton.mp h]; exact hq

theorem callsSince_get (q : Call → Prop) (c0 c c' : Cluster) (kind : Kind) (ns name : String)
    (res : Except Error Object) (heq : clientGet c kind ns name = (res, c'))
    (h : callsSince q c0 c) (hq : q (Call.get kind ns name)) : callsSince q c0 c' := by
  have := clientGet_calls c kind ns name
  rw [heq] at this
  exact callsSince_step q c0 c c' _ h this hq

theorem callsSince_create (q : Call → Prop) (c0 c c' : Cluster) (obj : Object)
    (res : Option Error) (heq : clientCreate c obj = (res, c'))
    (h : callsSince q c0 c) (hq : q (Call.create obj)) : callsSince q c0 c' := by
  have := clientCreate_calls c obj
  rw [heq] at this
  exact callsSince_step q c0 c c' _ h this hq

theorem callsSince_update (q : Call → Prop) (c0 c c' : Cluster) (obj : Object)
    (res : Option Error) (heq : clientUpdate c obj = (res, c'))
    (h : callsSince q c0 c) (hq : q (Call.update obj)) : callsSince q c0 c' := by
  have := clientUpdate_calls c obj
  rw [heq] at this
  exact callsSince_step q c0 c c' _ h this hq

theorem callsSince_newCalls (q : Call → Prop) (c c' : Cluster) (h : callsSince q c c') :
    ∀ call ∈ newCalls c c', q call := by
  obtain ⟨rest, he, hp⟩ := h
  unfold newCalls
  rw [he, List.drop_left]
  exact hp

/-- The bundle is complete and self-consistent, whatever it is built from. -/
theorem kubeconfigOf_consistent (uc : UserConfig) (cluster : clientcmdapi.Cluster)
    (clusterName serverCA : String) (config : RestConfig) (token : String) :
    (kubeconfigOf uc cluster clusterName serverCA config token).CurrentContext =
      uc.Name ++ "-context" ∧
    ∃ context cl user,
      (kubeconfigOf uc cluster clusterName serverCA config token).Contexts.lookup
        (kubeconfigOf uc cluster clusterName serverCA config token).CurrentContext =
          some context ∧
      (kubeconfigOf uc cluster clusterName serverCA config token).Clusters.lookup
        context.Cluster = some cl ∧
      cl.Server = cluster.Server ∧ cl.CertificateAuthorityData = serverCA ∧
      (kubeconfigOf uc cluster clusterName serverCA config token).AuthInfos.lookup
        context.AuthInfo = some user ∧
      user.Token = token ∧ context.Namespace = uc.Name := by
  refine ⟨rfl, { Cluster := clusterName, AuthInfo := uc.Name, Namespace := uc.Name },
    { Server := cluster.Server, CertificateAuthorityData := serverCA,
      InsecureSkipTLSVerify := config.Insecure }, { Token := token }, ?_, ?_, rfl, rfl, ?_,
    rfl, rfl⟩ <;> simp [kubeconfigOf, List.lookup]

/-- Every object `GenerateAndSaveKubeconfig` creates or updates is the
kubeconfig Secret holding the bundle, and when it returns no error that Secret
is stored. -/
theorem GenerateAndSaveKubeconfig_bundle (u : UserConfigUseCase) (host : Host)
    (uc : UserConfig) (c : Cluster) :
    callsSince (writesBundle host uc) c (GenerateAndSaveKubeconfig u host uc c).2 ∧
    ((GenerateAndSaveKubeconfig u host uc c).1 = none →
      ∃ obj, (GenerateAndSaveKubeconfig u host uc c).2.lookup Kind.Secret uc.Name
          (uc.Name ++ "-kubeconfig") = some obj ∧ holdsBundle host uc obj) := by
  have h0 : callsSince (writesBundle host uc) c c := ⟨[], by simp, by simp⟩
  unfold GenerateAndSaveKubeconfig
  rcases hg : clientGet c Kind.ServiceAccount uc.Name uc.Name with ⟨e | sa, c1⟩
  all_goals have h1 := callsSince_get _ c c _ _ _ _ _ hg h0 trivial
  · exact ⟨h1, fun h => by simp at h⟩
  · simp only []
    rcases hka : getKindServerAddress host with e | ⟨cluster, clusterName⟩
    · exact ⟨h1, fun h => by simp at h⟩
    · simp only []
      rcases hca : getKindCA host with e | serverCA
      · exact ⟨h1, fun h => by simp at h⟩
      · simp only []
        split
        · exact ⟨h1, fun h => by simp at h⟩
        · rename_i config hconfig
          split
          · exact ⟨h1, fun h => by simp at h⟩
          · rcases htok : host.CreateToken uc.Name uc.Name tokenRequest with e | tokenResponse
            · exact ⟨h1, fun h => by simp at h⟩
            · simp only []
              split
              · exact ⟨h1, fun h => by simp at h⟩
              · rename_i hne
                rcases hw : host.Write (kubeconfigOf uc cluster clusterName serverCA config
                  tokenResponse.Status.Token) with e | kubeconfigBytes
                · exact ⟨h1, fun h => by simp at h⟩
                · simp only []
                  split
                  · exact ⟨h1, fun h => by simp at h⟩
                  · rename_i secret hs
                    obtain ⟨hk, hn, hns, hb, hl⟩ := SetControllerReference_ok _ _ _ _ hs
                    have hname : secret.Name = uc.Name ++ "-kubeconfig" := hn
                    have hdata : secret.secretData = [("kubeconfig", kubeconfigBytes)] := by
                      unfold Object.secretData
                      rw [hb]; rfl
                    have hsec : holdsBundle host uc secret :=
                      ⟨cluster, clusterName, serverCA, config, tokenResponse, kubeconfigBytes,
                        hka, hca, htok, hne, hw, hk, hns, hname, hdata⟩
                    rcases hc : clientCreate c1 secret with ⟨_ | e, c2⟩
                    all_goals have h2 := callsSince_create _ c c1 _ secret _ hc h1 hsec
                    · refine ⟨h2, fun _ => ⟨secret, ?_, hsec⟩⟩
                      have := clientCreate_ok c1 secret (by rw [hc])
                      rw [hc] at this
                      simpa [hk, hname, hns, kubeconfigSecretOf] using this
                    · simp only []
                      split
                      · exact ⟨h2, fun h => by simp at h⟩
                      · rw [hname]
                        rcases hg2 : clientGet c2 Kind.Secret uc.Name
                          (uc.Name ++ "-kubeconfig") with ⟨e2 | existing, c3⟩
                        all_goals have h3 := callsSince_get _ c c2 _ _ _ _ _ hg2 h2 trivial
                        · exact ⟨h3, fun h => by simp at h⟩
                        · simp only []
                          have hkey := (hasKey_iff _ _ _ _).mp
                            (clientGet_ok c2 Kind.Secret uc.Name (uc.Name ++ "-kubeconfig")
                              existing (by rw [hg2]))
                          generalize hex : ({ existing with
                            body := Body.secret existing.secretType secret.secretData,
                            Labels := secret.Labels } : Object) = ex
                          have hexk : ex.kind = Kind.Secret ∧ ex.Namespace = uc.Name ∧
                              ex.Name = uc.Name ++ "-kubeconfig" ∧
                              ex.secretData = [("kubeconfig", kubeconfigBytes)] := by
                            subst hex
                            exact ⟨hkey.1, hkey.2.1, hkey.2.2, hdata⟩
                          have hexb : holdsBundle host uc ex :=
                            ⟨cluster, clusterName, serverCA, config, tokenResponse,
                              kubeconfigBytes, hka, hca, htok, hne, hw, hexk.1, hexk.2.1,
                              hexk.2.2.1, hexk.2.2.2⟩
                          rcases hu : clientUpdate c3 ex with ⟨_ | e3, c4⟩
                          all_goals have h4 := callsSince_update _ c c3 _ ex _ hu h3 hexb
                          · refine ⟨h4, fun _ => ⟨ex, ?_, hexb⟩⟩
                            have := clientUpdate_ok c3 ex (by rw [hu])
                            rw [hu] at this
                            simpa [hexk.1, hexk.2.1, hexk.2.2.1] using this
                          · exact ⟨h4, fun h => by simp at h⟩

theorem mem_updatedObjects (calls : List Call) (obj : Object) :
    obj ∈ updatedObjects calls ↔ Call.update obj ∈ calls := by
  unfold updatedObjects
  rw [List.mem_filterMap]
  constructor
  · rintro ⟨call, hmem, hc⟩
    cases call <;> simp at hc
    subst hc; exact hmem
  · intro h
    exact ⟨_, h, rfl⟩

/-- An empty token from the token endpoint: `GenerateAndSaveKubeconfig`
returns an error after its one read and writes nothing. -/
theorem GenerateAndSaveKubeconfig_empty_token (u : UserConfigUseCase) (host : Host)
    (uc : UserConfig) (c : Cluster) (resp : TokenRequest)
    (htok : host.CreateToken uc.Name uc.Name tokenRequest = Except.ok resp)
    (hempty : resp.Status.Token = "") :
    (GenerateAndSaveKubeconfig u host uc c).1 ≠ none ∧
    (GenerateAndSaveKubeconfig u host uc c).2.calls =
      c.calls ++ [Call.get Kind.ServiceAccount uc.Name uc.Name] := by
  have hgc := clientGet_calls c Kind.ServiceAccount uc.Name uc.Name
  unfold GenerateAndSaveKubeconfig
  rcases hg : clientGet c Kind.ServiceAccount uc.Name uc.Name with ⟨e | sa, c1⟩
  all_goals rw [hg] at hgc
  all_goals simp only [] at hgc ⊢
  · exact ⟨by simp, hgc⟩
  · split
    · exact ⟨by simp, hgc⟩
    · split
      · exact ⟨by simp, hgc⟩
      · split
        · exact ⟨by simp, hgc⟩
        · split
          · exact ⟨by simp, hgc⟩
          · rw [htok]
            simp only [hempty, if_true]
            exact ⟨by simp, hgc⟩

/-- Claim C29. The bundle `GenerateAndSaveKubeconfig` builds is complete and
self-consistent for every entity, cluster, CA data and token: its current
context is the key N-context of one of its contexts, whose cluster is a key of
its clusters, with the server endpoint and the CA data, and whose user is a
key of its users, with the token. Every Secret the method creates or updates
is the kubeconfig Secret whose data is the serialized bundle built with the
token the token endpoint returned for the request, which is not empty, and
when the method returns no error that Secret is stored. An empty token makes
the method return an error after its one read, without a write. The request
asks for 86400 * 365 = 31536000 seconds. -/
theorem kubeconfig_bundle (u : UserConfigUseCase) (host : Host) (uc : UserConfig)
    (c : Cluster) :
    (∀ (cluster : clientcmdapi.Cluster) (clusterName serverCA : String) (config : RestConfig)
        (token : String),
      (kubeconfigOf uc cluster clusterName serverCA config token).CurrentContext =
        uc.Name ++ "-context" ∧
      ∃ context cl user,
        (kubeconfigOf uc cluster clusterName serverCA config token).Contexts.lookup
          (kubeconfigOf uc cluster clusterName serverCA config token).CurrentContext =
            some context ∧
        (kubeconfigOf uc cluster clusterName serverCA config token).Clusters.lookup
          context.Cluster = some cl ∧
        cl.Server = cluster.Server ∧ cl.CertificateAuthorityData = serverCA ∧
        (kubeconfigOf uc cluster clusterName serverCA config token).AuthInfos.lookup
          context.AuthInfo = some user ∧
        user.Token = token ∧ context.Namespace = uc.Name) ∧
    (∀ obj, (obj ∈ createdObjects (newCalls c (GenerateAndSaveKubeconfig u host uc c).2) ∨
        obj ∈ updatedObjects (newCalls c (GenerateAndSaveKubeconfig u host uc c).2)) →
      holdsBundle host uc obj) ∧
    ((GenerateAndSaveKubeconfig u host uc c).1 = none →
      ∃ obj, (GenerateAndSaveKubeconfig u host uc c).2.lookup Kind.Secret uc.Name
          (uc.Name ++ "-kubeconfig") = some obj ∧ holdsBundle host uc obj) ∧
    (∀ resp, host.CreateToken uc.Name uc.Name tokenRequest = Except.ok resp →
      resp.Status.Token = "" →
      (GenerateAndSaveKubeconfig u host uc c).1 ≠ none ∧
      writes (newCalls c (GenerateAndSaveKubeconfig u host uc c).2) = []) ∧
    tokenRequest.Spec.ExpirationSeconds = some 31536000 ∧
    (86400 * 365 : Int) = 31536000 ∧
    (GenerateAndSaveKubeconfig {} (kindHost "token-1") (podsEntity "CRUD")
        (ReconcileServiceAccount {} (podsEntity "CRUD") {}).2).1 = none ∧
    ((GenerateAndSaveKubeconfig {} (kindHost "token-1") (podsEntity "CRUD")
        (ReconcileServiceAccount {} (podsEntity "CRUD") {}).2).2.lookup Kind.Secret "alice"
        "alice-kubeconfig").map (fun o => o.body) =
      some (Body.secret "Opaque"
        [("kubeconfig", "alice-context https://127.0.0.1:6443 token-1")]) ∧
    kubeconfigOf (podsEntity "CRUD")
        { Server := "https://127.0.0.1:6443", CertificateAuthorityData := "kind-ca" }
        "https://127.0.0.1:6443" "kind-ca" {} "token-1" =
      { APIVersion := "v1", Kind := "Config",
        Clusters := [("https://127.0.0.1:6443", {
          Server := "https://127.0.0.1:6443", CertificateAuthorityData := "kind-ca" })],
        Contexts := [("alice-context", {
          Cluster := "https://127.0.0.1:6443", AuthInfo := "alice", Namespace := "alice" })],
        CurrentContext := "alice-context",
        AuthInfos := [("alice", { Token := "token-1" })] } ∧
    (GenerateAndSaveKubeconfig {} (kindHost "") (podsEntity "CRUD")
        (ReconcileServiceAccount {} (podsEntity "CRUD") {}).2).1 =
      some { msg := "received empty token from API" } := by
  obtain ⟨hcalls, hstored⟩ := GenerateAndSaveKubeconfig_bundle u host uc c
  refine ⟨kubeconfigOf_consistent uc, ?_, hstored, ?_, by decide, by decide, by decide,
    by decide, by decide, by decide⟩
  · intro obj hobj
    rcases hobj with h | h
    · rw [mem_createdObjects] at h
      exact callsSince_newCalls _ c _ hcalls _ h
    · rw [mem_updatedObjects] at h
      exact callsSince_newCalls _ c _ hcalls _ h
  · intro resp htok hempty
    obtain ⟨hne, hc⟩ := GenerateAndSaveKubeconfig_empty_token u host uc c resp htok hempty
    refine ⟨hne, ?_⟩
    unfold newCalls
    rw [hc, List.drop_left]
    rfl

end Zoperator
